import Mathlib

/-!
# Sointu bytecode interpreter (`vm/interpreter.go`)

A shallow embedding of the pure-Go interpreter of the Sointu virtual machine.

Conventions of the embedding:

* `float32` / `float64` values are exact rationals (`ℚ`); the three library
  functions that leave the rationals (`math.Exp2`, `math.Sin`, `math.Pow`) are
  supplied through `MathLib`.
* `byte`, `uint16`, `uint32` are `Nat` with an explicit `%` where the Go
  arithmetic wraps; Go `int` is `Int` where it can go negative.
* Go arrays are functions from `Fin n`; Go slices are lists.  A slice that is
  only ever advanced (`buffer = buffer[2:]`) is the list of the elements still
  ahead, next to the list of the elements already passed.
* A runtime fault (index out of range, nil dereference) is the error
  `RenderError.panicked`, which is what the deferred `recover` of `Render`
  turns it into.  The state reached before the fault is kept.
-/

namespace Sointu

/-! ## Data model -/

abbrev MAX_VOICES : Nat := 32
abbrev MAX_UNITS : Nat := 63

structure unit where
  state : Fin 8 → ℚ
  ports : Fin 8 → ℚ

structure voice where
  note : Nat
  release : Bool
  units : Fin MAX_UNITS → unit

structure synth where
  outputs : Fin 8 → ℚ
  randSeed : Nat
  globalTime : Nat
  voices : Fin MAX_VOICES → voice

structure delayline where
  buffer : Fin 65536 → ℚ
  dampState : ℚ
  dcIn : ℚ
  dcFiltState : ℚ

/-- Modelled from the spec: the type `BytePatch` is declared outside the
interpreter's file; its fields are the ones of the spec's data model, the ones
`Render` reads. -/
structure BytePatch where
  Commands : List Nat
  Values : List Nat
  DelayTimes : List Nat
  NumVoices : Nat
  PolyphonyBitmask : Nat

structure Interpreter where
  bytePatch : BytePatch
  stack : List ℚ
  synth : synth
  delaylines : List delayline

def envStateAttack : ℚ := 0
def envStateDecay : ℚ := 1
def envStateSustain : ℚ := 2
def envStateRelease : ℚ := 3

/-- The zero value `unit{}`. -/
def unit.zero : unit := ⟨fun _ => 0, fun _ => 0⟩

/-- The zero value `voice{}`. -/
def voice.zero : voice := ⟨0, false, fun _ => unit.zero⟩

/-- The zero value `delayline{}`. -/
def delayline.zero : delayline := ⟨fun _ => 0, 0, 0, 0⟩

/-- The zero value of `synth`. -/
def synth.zero : synth := ⟨fun _ => 0, 0, 0, fun _ => voice.zero⟩

/-- The interpreter `Synth` builds once the patch is compiled to `bytePatch`
with `numDelayLines` delay lines: an empty stack, zeroed voices and delay lines,
`randSeed = 1`. -/
def Interpreter.fresh (bytePatch : BytePatch) (numDelayLines : Nat) : Interpreter :=
  { bytePatch := bytePatch
    stack := []
    synth := { synth.zero with randSeed := 1 }
    delaylines := List.replicate numDelayLines delayline.zero }

/-! ## Opcode table -/

/-- Modelled from the spec: the opcode constants are generated code; the
numbers are those of the opcode table of the spec (section 6). -/
def opAdd : Nat := 1
/-- Modelled from the spec: opcode table, section 6. -/
def opAddp : Nat := 2
/-- Modelled from the spec: opcode table, section 6. -/
def opPop : Nat := 3
/-- Modelled from the spec: opcode table, section 6. -/
def opLoadnote : Nat := 4
/-- Modelled from the spec: opcode table, section 6. -/
def opMul : Nat := 5
/-- Modelled from the spec: opcode table, section 6. -/
def opMulp : Nat := 6
/-- Modelled from the spec: opcode table, section 6. -/
def opPush : Nat := 7
/-- Modelled from the spec: opcode table, section 6. -/
def opXch : Nat := 8
/-- Modelled from the spec: opcode table, section 6. -/
def opDistort : Nat := 9
/-- Modelled from the spec: opcode table, section 6. -/
def opHold : Nat := 10
/-- Modelled from the spec: opcode table, section 6. -/
def opCrush : Nat := 11
/-- Modelled from the spec: opcode table, section 6. -/
def opGain : Nat := 12
/-- Modelled from the spec: opcode table, section 6. -/
def opInvgain : Nat := 13
/-- Modelled from the spec: opcode table, section 6. -/
def opFilter : Nat := 14
/-- Modelled from the spec: opcode table, section 6. -/
def opClip : Nat := 15
/-- Modelled from the spec: opcode table, section 6. -/
def opPan : Nat := 16
/-- Modelled from the spec: opcode table, section 6. -/
def opDelay : Nat := 17
/-- Modelled from the spec: opcode table, section 6. -/
def opCompressor : Nat := 18
/-- Modelled from the spec: opcode table, section 6. -/
def opSpeed : Nat := 19
/-- Modelled from the spec: opcode table, section 6. -/
def opOut : Nat := 20
/-- Modelled from the spec: opcode table, section 6. -/
def opOutaux : Nat := 21
/-- Modelled from the spec: opcode table, section 6. -/
def opAux : Nat := 22
/-- Modelled from the spec: opcode table, section 6. -/
def opSend : Nat := 23
/-- Modelled from the spec: opcode table, section 6. -/
def opEnvelope : Nat := 24
/-- Modelled from the spec: opcode table, section 6. -/
def opNoise : Nat := 25
/-- Modelled from the spec: opcode table, section 6. -/
def opOscillator : Nat := 26
/-- Modelled from the spec: opcode table, section 6. -/
def opLoadval : Nat := 27
/-- Modelled from the spec: opcode table, section 6. -/
def opReceive : Nat := 28
/-- Modelled from the spec: opcode table, section 6. -/
def opIn : Nat := 29
/-- Modelled from the spec: opcode table, section 6. -/
def opSync : Nat := 30
/-- Modelled from the spec: friction is a placeholder of the interpreter that
the spec keeps out of the opcode table (section 9); it gets the first number
after the table, so no byte of a compiled patch reaches it. -/
def opFriction : Nat := 31

/-- Modelled from the spec: the table `transformCounts` is generated code; entry
`opcode - 1` is the "Transform params" column of the opcode table (section 6). -/
def transformCounts : List Nat :=
  [0, 0, 0, 0, 0, 0, 0, 0, 1, 1, 1, 1, 1, 2, 0, 1, 5, 5, 0, 1, 2, 1, 1, 5, 2, 6, 1, 0, 0, 0]

/-! ## Numeric helpers -/

/-- The library functions of `math` that do not stay within the rationals.
`SinTurns x` stands for `math.Sin(2 * math.Pi * x)`. -/
structure MathLib where
  Exp2 : ℚ → ℚ
  SinTurns : ℚ → ℚ
  Pow : ℚ → ℚ → ℚ

/-- Go conversion `int(x)` of a float: truncation toward zero. -/
def truncInt (x : ℚ) : Int := if 0 ≤ x then ⌊x⌋ else ⌈x⌉

/-- Go `math.Round`: nearest integer, halves away from zero. -/
def mathRound (x : ℚ) : ℚ := if 0 ≤ x then (⌊x + 1/2⌋ : Int) else (⌈x - 1/2⌉ : Int)

/-- Go conversion `uint16(x)` of a float. -/
def toUint16 (x : ℚ) : Nat := (truncInt x % 65536).toNat

def nonLinearMap (m : MathLib) (value : ℚ) : ℚ := m.Exp2 (-24 * value)

def clip (value : ℚ) : ℚ :=
  if value < -1 then -1 else if value > 1 then 1 else value

def crush (value amount : ℚ) : ℚ := mathRound (value / amount) * amount

def waveshape (value amount : ℚ) : ℚ :=
  let absVal := if value < 0 then -value else value
  value * amount / (1 - amount + (2 * amount - 1) * absVal)

/-- The seed after `synth.rand`: `s.randSeed *= 16007` on a `uint32`. -/
def randNext (seed : Nat) : Nat := seed * 16007 % 2 ^ 32

/-- The value `synth.rand` returns for the updated seed:
`float32(int32(s.randSeed)) / -2147483648.0`. -/
def randValue (seed : Nat) : ℚ :=
  ((if seed < 2 ^ 31 then (seed : Int) else (seed : Int) - 2 ^ 32 : Int) : ℚ) / (-2147483648)

/-! ## The state `Render` works on -/

inductive RenderError
  | valueStreamEnded
  | invalidOpcode
  | stackUnderflow
  | stackNotEmpty
  | panicked
deriving DecidableEq, Repr

/-- The variables the dispatch loop of `Render` reads and writes while it runs
the units of one sample: the synth and delay lines of the interpreter and the
locals `params`, `stack`, `values`, `delaylines`, `voices`, `units`, `syncBuf`
and `time`.

`voices` and `units` are the number of elements the slices of these names have
been advanced by (`voices = voices[1:]`), so `voices[0]` is `synth.voices[voices]`
and `units[0]` is unit `units` of that voice; `delaylines` likewise counts the
delay lines already taken from the slice.  `syncDone` are the sync records
written so far, `syncBuf` the part of the sync buffer still ahead. -/
structure Machine where
  synth : synth
  delaylinesAll : List delayline
  params : Fin 8 → ℚ
  stack : List ℚ
  values : List Nat
  delaylines : Nat
  voices : Nat
  units : Nat
  syncDone : List ℚ
  syncBuf : List ℚ
  time : Int

/-- A computation on a state `σ` that can fail; a failure keeps the state
reached so far. -/
def Exec (σ α : Type) : Type := σ → Except RenderError α × σ

instance (σ : Type) : Monad (Exec σ) where
  pure a := fun s => (Except.ok a, s)
  bind x f := fun s =>
    match x s with
    | (Except.ok a, s') => f a s'
    | (Except.error e, s') => (Except.error e, s')

/-- Fail with the given error. -/
def fail {σ α : Type} (e : RenderError) : Exec σ α := fun s => (Except.error e, s)

/-- A runtime fault. -/
def fault {σ α : Type} : Exec σ α := fail RenderError.panicked

def getM {σ : Type} : Exec σ σ := fun s => (Except.ok s, s)

def modifyM {σ : Type} (f : σ → σ) : Exec σ Unit := fun s => (Except.ok (), f s)

/-- The Go loop `for i := 0; i < n; i++ { body }` starting at `i`, with `n - i`
iterations left. -/
def loopFrom {σ : Type} (body : Nat → Exec σ Unit) : Nat → Nat → Exec σ Unit
  | _, 0 => pure ()
  | i, k + 1 => do body i; loopFrom body (i + 1) k

/-! ### Stack -/

/-- Read `stack[i]`. -/
def stackGet (i : Int) : Exec Machine ℚ := do
  let s ← getM
  if 0 ≤ i then
    match s.stack.get? i.toNat with
    | some v => pure v
    | none => fault
  else fault

/-- Write `stack[i] = v`. -/
def stackSet (i : Int) (v : ℚ) : Exec Machine Unit := do
  let s ← getM
  if 0 ≤ i ∧ i.toNat < s.stack.length then
    modifyM fun s => { s with stack := s.stack.set i.toNat v }
  else fault

/-- Reslice `stack = stack[:n]` for an `n` not above the length. -/
def stackTake (n : Int) : Exec Machine Unit := do
  let s ← getM
  if 0 ≤ n ∧ n.toNat ≤ s.stack.length then
    modifyM fun s => { s with stack := s.stack.take n.toNat }
  else fault

/-- Append: `stack = append(stack, v)`. -/
def stackPush (v : ℚ) : Exec Machine Unit :=
  modifyM fun s => { s with stack := s.stack ++ [v] }

/-- The length `len(stack)`. -/
def stackLen : Exec Machine Int := do
  let s ← getM
  pure (s.stack.length : Int)

/-! ### Values, parameters, output bus -/

/-- Take one byte off the value stream: `x, values = values[0], values[1:]`. -/
def nextValue : Exec Machine Nat := do
  let s ← getM
  match s.values with
  | v :: rest => do modifyM fun s => { s with values := rest }; pure v
  | [] => fault

/-- Take two bytes off the value stream:
`x, y, values = values[0], values[1], values[2:]`. -/
def nextValue2 : Exec Machine (Nat × Nat) := do
  let s ← getM
  match s.values with
  | v :: w :: rest => do modifyM fun s => { s with values := rest }; pure (v, w)
  | _ => fault

def param (i : Fin 8) : Exec Machine ℚ := do
  let s ← getM
  pure (s.params i)

def setParam (i : Fin 8) (v : ℚ) : Exec Machine Unit :=
  modifyM fun s => { s with params := Function.update s.params i v }

/-- Read `synth.outputs[i]`. -/
def output (i : Nat) : Exec Machine ℚ := do
  let s ← getM
  if h : i < 8 then pure (s.synth.outputs ⟨i, h⟩) else fault

/-- Write `synth.outputs[i] = v`. -/
def setOutput (i : Nat) (v : ℚ) : Exec Machine Unit :=
  if h : i < 8 then
    modifyM fun s => { s with synth := { s.synth with outputs := Function.update s.synth.outputs ⟨i, h⟩ v } }
  else fault

/-! ### Voices and units -/

/-- Read `synth.voices[v]`. -/
def voiceAt (v : Nat) : Exec Machine voice := do
  let s ← getM
  if h : v < MAX_VOICES then pure (s.synth.voices ⟨v, h⟩) else fault

/-- Read `synth.voices[v].units[u]`. -/
def unitAt (v u : Nat) : Exec Machine unit := do
  let vc ← voiceAt v
  if h : u < MAX_UNITS then pure (vc.units ⟨u, h⟩) else fault

/-- Write `synth.voices[v].units[u] = x`. -/
def setUnitAt (v u : Nat) (x : unit) : Exec Machine Unit :=
  if hv : v < MAX_VOICES then
    if hu : u < MAX_UNITS then
      modifyM fun s =>
        let vc := s.synth.voices ⟨v, hv⟩
        { s with synth := { s.synth with
            voices := Function.update s.synth.voices ⟨v, hv⟩
              { vc with units := Function.update vc.units ⟨u, hu⟩ x } } }
    else fault
  else fault

/-- Read `synth.voices[v].units[u].ports[p]`. -/
def portAt (v u p : Nat) : Exec Machine ℚ := do
  let x ← unitAt v u
  if h : p < 8 then pure (x.ports ⟨p, h⟩) else fault

/-- Write `synth.voices[v].units[u].ports[p] = q`. -/
def setPortAt (v u p : Nat) (q : ℚ) : Exec Machine Unit := do
  let x ← unitAt v u
  if h : p < 8 then setUnitAt v u { x with ports := Function.update x.ports ⟨p, h⟩ q } else fault

/-- The voice `voice := &voices[0]` points to. -/
def curVoice : Exec Machine voice := do
  let s ← getM
  voiceAt s.voices

/-- Read `unit.state[i]` of the unit `unit := &units[0]` points to. -/
def unitState (i : Nat) : Exec Machine ℚ := do
  let s ← getM
  let x ← unitAt s.voices s.units
  if h : i < 8 then pure (x.state ⟨i, h⟩) else fault

/-- Write `unit.state[i] = q`. -/
def setUnitState (i : Nat) (q : ℚ) : Exec Machine Unit := do
  let s ← getM
  let x ← unitAt s.voices s.units
  if h : i < 8 then
    setUnitAt s.voices s.units { x with state := Function.update x.state ⟨i, h⟩ q }
  else fault

/-- Read `unit.ports[i]`. -/
def unitPort (i : Nat) : Exec Machine ℚ := do
  let s ← getM
  portAt s.voices s.units i

/-- Write `unit.ports[i] = q`. -/
def setUnitPort (i : Nat) (q : ℚ) : Exec Machine Unit := do
  let s ← getM
  setPortAt s.voices s.units i q

/-! ## The units

One definition per `case` of the `switch opNoStereo` of `Render`.  `l` is the
value `l := len(stack)` taken before the switch. -/

def execAdd (stereo : Bool) (l : Int) : Exec Machine Unit := do
  if stereo then
    stackSet (l - 1) ((← stackGet (l - 1)) + (← stackGet (l - 3)))
    stackSet (l - 2) ((← stackGet (l - 2)) + (← stackGet (l - 4)))
  else
    stackSet (l - 1) ((← stackGet (l - 1)) + (← stackGet (l - 2)))

def execAddp (stereo : Bool) (l : Int) : Exec Machine Unit := do
  if stereo then
    stackSet (l - 3) ((← stackGet (l - 3)) + (← stackGet (l - 1)))
    stackSet (l - 4) ((← stackGet (l - 4)) + (← stackGet (l - 2)))
    stackTake (l - 2)
  else
    stackSet (l - 2) ((← stackGet (l - 2)) + (← stackGet (l - 1)))
    stackTake (l - 1)

def execMul (stereo : Bool) (l : Int) : Exec Machine Unit := do
  if stereo then
    stackSet (l - 1) ((← stackGet (l - 1)) * (← stackGet (l - 3)))
    stackSet (l - 2) ((← stackGet (l - 2)) * (← stackGet (l - 4)))
  else
    stackSet (l - 1) ((← stackGet (l - 1)) * (← stackGet (l - 2)))

def execMulp (stereo : Bool) (l : Int) : Exec Machine Unit := do
  if stereo then
    stackSet (l - 3) ((← stackGet (l - 3)) * (← stackGet (l - 1)))
    stackSet (l - 4) ((← stackGet (l - 4)) * (← stackGet (l - 2)))
    stackTake (l - 2)
  else
    stackSet (l - 2) ((← stackGet (l - 2)) * (← stackGet (l - 1)))
    stackTake (l - 1)

def execXch (stereo : Bool) (l : Int) : Exec Machine Unit := do
  if stereo then
    let a ← stackGet (l - 1)
    let b ← stackGet (l - 3)
    stackSet (l - 3) a
    stackSet (l - 1) b
    let c ← stackGet (l - 2)
    let d ← stackGet (l - 4)
    stackSet (l - 4) c
    stackSet (l - 2) d
  else
    let a ← stackGet (l - 1)
    let b ← stackGet (l - 2)
    stackSet (l - 2) a
    stackSet (l - 1) b

def execPush (stereo : Bool) (l : Int) : Exec Machine Unit := do
  if stereo then
    stackPush (← stackGet (l - 2))
  stackPush (← stackGet (l - 1))

def execPop (stereo : Bool) (l : Int) : Exec Machine Unit :=
  if stereo then stackTake (l - 2) else stackTake (l - 1)

def execDistort (stereo : Bool) (l : Int) : Exec Machine Unit := do
  let amount ← param 0
  if stereo then
    stackSet (l - 2) (waveshape (← stackGet (l - 2)) amount)
  stackSet (l - 1) (waveshape (← stackGet (l - 1)) amount)

def execLoadval (stereo : Bool) : Exec Machine Unit := do
  let val := (← param 0) * 2 - 1
  if stereo then
    stackPush val
  stackPush val

def execOut (stereo : Bool) (l : Int) : Exec Machine Unit := do
  if stereo then
    setOutput 0 ((← output 0) + (← param 0) * (← stackGet (l - 1)))
    setOutput 1 ((← output 1) + (← param 0) * (← stackGet (l - 2)))
    stackTake (l - 2)
  else
    setOutput 0 ((← output 0) + (← param 0) * (← stackGet (l - 1)))
    stackTake (l - 1)

def execOutaux (stereo : Bool) (l : Int) : Exec Machine Unit := do
  if stereo then
    setOutput 0 ((← output 0) + (← param 0) * (← stackGet (l - 1)))
    setOutput 1 ((← output 1) + (← param 0) * (← stackGet (l - 2)))
    setOutput 2 ((← output 2) + (← param 1) * (← stackGet (l - 1)))
    setOutput 3 ((← output 3) + (← param 1) * (← stackGet (l - 2)))
    stackTake (l - 2)
  else
    setOutput 0 ((← output 0) + (← param 0) * (← stackGet (l - 1)))
    setOutput 2 ((← output 2) + (← param 1) * (← stackGet (l - 1)))
    stackTake (l - 1)

def execAux (stereo : Bool) (channels : Int) (l : Int) : Exec Machine Unit := do
  let channel ← nextValue
  if stereo then
    let c1 := (channel + 1) % 256
    setOutput c1 ((← output c1) + (← param 0) * (← stackGet (l - 2)))
  setOutput channel ((← output channel) + (← param 0) * (← stackGet (l - 1)))
  stackTake (l - channels)

def execSpeed (m : MathLib) (l : Int) : Exec Machine Unit := do
  let r := (← unitState 0) + (m.Exp2 ((← stackGet (l - 1)) * 2.206896551724138) - 1)
  let w := truncInt (r + 1.5) - 1
  setUnitState 0 (r - w)
  modifyM fun s => { s with time := s.time + w }
  stackTake (l - 1)

def execIn (stereo : Bool) : Exec Machine Unit := do
  let channel ← nextValue
  if stereo then
    let c1 := (channel + 1) % 256
    stackPush (← output c1)
    setOutput c1 0
  stackPush (← output channel)
  setOutput channel 0

def execEnvelope (m : MathLib) (stereo : Bool) : Exec Machine Unit := do
  if (← curVoice).release then
    setUnitState 0 envStateRelease
  let state ← unitState 0
  let level ← unitState 1
  let params := (← getM).params
  let (state, level) : ℚ × ℚ :=
    if state = envStateAttack then
      let level := level + nonLinearMap m (params 0)
      if level ≥ 1 then (envStateDecay, 1) else (state, level)
    else if state = envStateDecay then
      let level := level - nonLinearMap m (params 1)
      let sustain := params 2
      if level ≤ sustain then (state, sustain) else (state, level)
    else if state = envStateRelease then
      let level := level - nonLinearMap m (params 3)
      if level ≤ 0 then (state, 0) else (state, level)
    else (state, level)
  setUnitState 0 state
  setUnitState 1 level
  let out := level * (← param 4)
  stackPush out
  if stereo then
    stackPush out

/-- The method `synth.rand`. -/
def rand : Exec Machine ℚ := do
  modifyM fun s => { s with synth := { s.synth with randSeed := randNext s.synth.randSeed } }
  pure (randValue (← getM).synth.randSeed)

def execNoise (stereo : Bool) : Exec Machine Unit := do
  if stereo then
    let value := waveshape (← rand) (← param 0) * (← param 1)
    stackPush value
  let value := waveshape (← rand) (← param 0) * (← param 1)
  stackPush value

def execGain (stereo : Bool) (l : Int) : Exec Machine Unit := do
  if stereo then
    stackSet (l - 2) ((← stackGet (l - 2)) * (← param 0))
  stackSet (l - 1) ((← stackGet (l - 1)) * (← param 0))

def execInvgain (stereo : Bool) (l : Int) : Exec Machine Unit := do
  if stereo then
    stackSet (l - 2) ((← stackGet (l - 2)) / (← param 0))
  stackSet (l - 1) ((← stackGet (l - 1)) / (← param 0))

def execClip (stereo : Bool) (l : Int) : Exec Machine Unit := do
  if stereo then
    stackSet (l - 2) (clip (← stackGet (l - 2)))
  stackSet (l - 1) (clip (← stackGet (l - 1)))

def execCrush (stereo : Bool) (l : Int) : Exec Machine Unit := do
  if stereo then
    stackSet (l - 2) (crush (← stackGet (l - 2)) (← param 0))
  stackSet (l - 1) (crush (← stackGet (l - 1)) (← param 0))

def execHold (channels : Nat) (l : Int) : Exec Machine Unit := do
  let freq2 := (← param 0) * (← param 0)
  loopFrom (fun i => do
    let phase := (← unitState i) - freq2
    let phase ← (if phase ≤ 0 then do
        setUnitState (2 + i) (← stackGet (l - 1 - i))
        pure (phase + 1)
      else pure phase : Exec Machine ℚ)
    stackSet (l - 1 - i) (← unitState (2 + i))
    setUnitState i phase) 0 channels

def execSend (channels : Nat) (l : Int) : Exec Machine Unit := do
  let (addrLow, addrHigh) ← nextValue2
  let addr := ((addrHigh <<< 8) % 65536 + addrLow) % 65536
  let (addr, targetVoice) ← (if addr &&& 0x8000 = 0x8000 then do
      let addr := (addr + 65536 - 0x8010) % 65536
      if addr >>> 10 < MAX_VOICES then pure (addr, addr >>> 10) else fault
    else do
      pure (addr, (← getM).voices) : Exec Machine (Nat × Nat))
  let unitIndex := (((addr &&& 0x01F0) >>> 4) + 65536 - 1) % 65536
  let port := addr &&& 7
  let amount := (← param 0) * 2 - 1
  loopFrom (fun i => do
    setPortAt targetVoice unitIndex (port + i)
      ((← portAt targetVoice unitIndex (port + i)) + (← stackGet (l - 1 - i)) * amount)) 0 channels
  if addr &&& 0x8 = 0x8 then
    stackTake (l - channels)

def execReceive (stereo : Bool) : Exec Machine Unit := do
  if stereo then
    stackPush (← unitPort 1)
    setUnitPort 1 0
  stackPush (← unitPort 0)
  setUnitPort 0 0

def execLoadnote (stereo : Bool) : Exec Machine Unit := do
  let noteFloat := (((← curVoice).note : ℚ)) / 64 - 1
  stackPush noteFloat
  if stereo then
    stackPush noteFloat

def execPan (stereo : Bool) (l : Int) : Exec Machine Unit := do
  let l ← (if !stereo then do
      stackPush (← stackGet (l - 1))
      pure (l + 1)
    else pure l : Exec Machine Int)
  stackSet (l - 2) ((← stackGet (l - 2)) * (← param 0))
  stackSet (l - 1) ((← stackGet (l - 1)) * (1 - (← param 0)))

def execFilter (channels : Nat) (l : Int) : Exec Machine Unit := do
  let freq2 := (← param 0) * (← param 0)
  let res ← param 1
  let flags ← nextValue
  loopFrom (fun i => do
    let low ← unitState (0 + i)
    let band ← unitState (2 + i)
    let low := low + freq2 * band
    let high := (← stackGet (l - 1 - i)) - low - res * band
    let band := band + freq2 * high
    setUnitState (0 + i) low
    setUnitState (2 + i) band
    let out : ℚ := 0
    let out := if flags &&& 0x40 = 0x40 then out + low else out
    let out := if flags &&& 0x20 = 0x20 then out + band else out
    let out := if flags &&& 0x10 = 0x10 then out + high else out
    let out := if flags &&& 0x08 = 0x08 then out - band else out
    let out := if flags &&& 0x04 = 0x04 then out - high else out
    stackSet (l - 1 - i) out) 0 channels

/-- The loop `for j := byte(0); j <= unison; j++` of the oscillator for channel
`i`, at `j` with `k` iterations left; gives the `output` of the channel. -/
def oscPartials (m : MathLib) (flags : Nat) (valuesAtTransform : List Nat) (unison i : Nat) :
    Nat → Nat → ℚ → ℚ → Exec Machine ℚ
  | _, 0, _, out => pure out
  | j, k + 1, detune, out => do
    let statevar := (i % 256 + j * 2) % 256
    let params := (← getM).params
    let note := (← curVoice).note
    let pitch := 64 * (params 0 * 2 - 1) + detune
    let pitch := if flags &&& 0x8 = 0 then pitch + (note : ℚ) else pitch
    let pitch := pitch * 0.083333333333
    let omega := m.Exp2 pitch
    let omega := if flags &&& 0x8 = 0 then omega * 0.000092696138 else omega * 0.000038
    setUnitState statevar ((← unitState statevar) + omega)
    setUnitState statevar ((← unitState statevar) - ((truncInt ((← unitState statevar) + 1) - 1 : Int) : ℚ))
    let phase ← unitState statevar
    let phase := phase + params 2
    let phase := phase - (truncInt phase : ℚ)
    let color := params 3
    let amplitude ← (
      if flags &&& 0x40 = 0x40 then
        pure (if phase < color then m.SinTurns (phase / color) else 0)
      else if flags &&& 0x20 = 0x20 then
        let (phase, color) := if phase ≥ color then (1 - phase, 1 - color) else (phase, color)
        pure (phase / color * 2 - 1)
      else if flags &&& 0x10 = 0x10 then
        pure (if phase ≥ color then -1 else 1)
      else if flags &&& 0x4 = 0x4 then do
        match valuesAtTransform.get? 3, valuesAtTransform.get? 4 with
        | some maskLow, some maskHigh => do
          let gateBits := (maskHigh <<< 8) + maskLow
          let amplitude : ℚ := (((gateBits >>> (truncInt (phase * 16 + 0.5) % 16).toNat) &&& 1 : Nat) : ℚ)
          let g ← unitState (4 + i)
          let amplitude := amplitude + 0.99609375 * (g - amplitude)
          setUnitState (4 + i) amplitude
          pure amplitude
        | _, _ => fault
      else pure 0 : Exec Machine ℚ)
    let out :=
      if flags &&& 0x4 = 0 then out + waveshape amplitude (params 4) * params 5
      else out + amplitude * params 5
    if j < unison then
      setParam 2 ((← param 2) + 0.08333333)
    oscPartials m flags valuesAtTransform unison i ((j + 1) % 256) k (-detune * 0.5) out

/-- The loop `for i := 0; i < channels; i++` of the oscillator, at `i` with `k`
iterations left. -/
def oscChannels (m : MathLib) (flags : Nat) (valuesAtTransform : List Nat) (unison : Nat) :
    Nat → Nat → ℚ → Exec Machine Unit
  | _, 0, _ => pure ()
  | i, k + 1, detuneStereo => do
    let out ← oscPartials m flags valuesAtTransform unison i 0 (unison + 1) detuneStereo 0
    stackPush out
    oscChannels m flags valuesAtTransform unison (i + 1) k (-detuneStereo)

def execOscillator (m : MathLib) (channels : Nat) (valuesAtTransform : List Nat) :
    Exec Machine Unit := do
  let flags ← nextValue
  let detuneStereo := (← param 1) * 2 - 1
  let unison := flags &&& 3
  oscChannels m flags valuesAtTransform unison 0 channels detuneStereo

/-- Replace delay line `d` of `s.delaylines`. -/
def setDelayline (d : Nat) (x : delayline) : Exec Machine Unit :=
  modifyM fun s => { s with delaylinesAll := s.delaylinesAll.set d x }

/-- Index into the ring of a delay line with a `uint16`. -/
def ringIndex (n : Nat) : Fin 65536 := ⟨n % 65536, Nat.mod_lt _ (by decide)⟩

/-- The loop `for j := byte(0); j < count; j += 2` of the delay for one channel.
`d` is the delay line the pointer `d` holds (`none` for nil), `left` the number
of delay lines left in the slice `delaylines`; gives `index`, `d` and `output`
at the exit of the loop. -/
def delayTaps (m : MathLib) (delayTimes : List Nat) (count t : Nat)
    (signal pregain2 damp feedback : ℚ) :
    Nat → Nat → Nat → Option Nat → ℚ → Exec Machine (Nat × Option Nat × ℚ)
  | 0, j, index, d, out => do
    if j < count then fault
    else pure (index, d, out)
  | left + 1, j, index, d, out => do
    if j < count then
      let s ← getM
      match s.delaylinesAll.get? s.delaylines with
      | some line => do
        let dIdx := s.delaylines
        modifyM fun s => { s with delaylines := s.delaylines + 1 }
        match delayTimes.get? index with
        | none => fault
        | some delayTime => do
          let delay := (delayTime : ℚ) + (← unitPort 4) * 32767
          let note := (← curVoice).note
          let delay :=
            if count &&& 1 = 0 then delay / m.Exp2 ((note : ℚ) * 0.083333333333) else delay
          let delSignal := line.buffer (ringIndex (t + 65536 - toUint16 (delay + 0.5)))
          let out := out + delSignal
          let dampState := damp * line.dampState + (1 - damp) * delSignal
          setDelayline dIdx { line with
            dampState := dampState
            buffer := Function.update line.buffer (ringIndex t) (feedback * dampState + pregain2 * signal) }
          delayTaps m delayTimes count t signal pregain2 damp feedback left ((j + 2) % 256)
            ((index + 1) % 256) (some dIdx) out
      | none => fault
    else pure (index, d, out)

/-- The loop `for i := 0; i < channels; i++` of the delay, at `i` with `k`
iterations left. -/
def delayChannels (m : MathLib) (delayTimes : List Nat) (count t : Nat)
    (pregain2 damp feedback : ℚ) (l : Int) : Nat → Nat → Nat → Exec Machine Unit
  | _, 0, _ => pure ()
  | i, k + 1, index => do
    let signal ← stackGet (l - 1 - i)
    let out := (← param 1) * signal
    let s ← getM
    let (index, d, out) ← delayTaps m delayTimes count t signal pregain2 damp feedback
      (s.delaylinesAll.length - s.delaylines) 0 index none out
    match d with
    | none => fault
    | some dIdx =>
      match (← getM).delaylinesAll.get? dIdx with
      | none => fault
      | some line => do
        let dcFiltState := out + (0.99609375 * line.dcFiltState - line.dcIn)
        setDelayline dIdx { line with dcFiltState := dcFiltState, dcIn := out }
        stackSet (l - 1 - i) dcFiltState
        delayChannels m delayTimes count t pregain2 damp feedback l (i + 1) k index

def execDelay (m : MathLib) (delayTimes : List Nat) (channels : Nat) (l : Int) :
    Exec Machine Unit := do
  let pregain2 := (← param 0) * (← param 0)
  let damp ← param 3
  let feedback ← param 2
  let (index, count) ← nextValue2
  let t := (← getM).synth.globalTime % 65536
  delayChannels m delayTimes count t pregain2 damp feedback l 0 channels index
  setUnitPort 4 0

def execCompressor (m : MathLib) (stereo : Bool) (l : Int) : Exec Machine Unit := do
  let signalLevel := (← stackGet (l - 1)) * (← stackGet (l - 1))
  let signalLevel ← (if stereo then do
      pure (signalLevel + (← stackGet (l - 2)) * (← stackGet (l - 2)))
    else pure signalLevel : Exec Machine ℚ)
  let currentLevel ← unitState 0
  let paramIndex : Fin 8 := if signalLevel < currentLevel then 1 else 0
  let alpha := nonLinearMap m (← param paramIndex)
  let currentLevel := currentLevel + (signalLevel - currentLevel) * alpha
  setUnitState 0 currentLevel
  let threshold2 := (← param 3) * (← param 3)
  let ratio ← param 4
  let gain : ℚ :=
    if currentLevel > threshold2 then m.Pow (threshold2 / currentLevel) (ratio / 2) else 1
  let gain := gain / (← param 2)
  stackPush gain
  if stereo then
    stackPush gain

def execSync (l : Int) : Exec Machine Unit := do
  let s ← getM
  if s.synth.globalTime % 256 = 0 then
    let v ← stackGet (l - 1)
    match s.syncBuf with
    | _ :: rest => modifyM fun s => { s with syncDone := s.syncDone ++ [v], syncBuf := rest }
    | [] => fault

def execFriction (l : Int) : Exec Machine Unit := do
  let in_ ← stackGet (l - 2)
  let force ← stackGet (l - 1)
  stackTake (l - 1)
  stackSet (l - 1) (in_ + force)

/-! ## The dispatch loop -/

/-- One turn of the parameter loop of a unit:
`params[i] = float32(values[0])/128.0 + unit.ports[i]; unit.ports[i] = 0; values = values[1:]`. -/
def transformStep (i : Nat) : Exec Machine Unit := do
  match (← getM).values with
  | [] => fault
  | v :: rest =>
    if h : i < 8 then do
      setParam ⟨i, h⟩ ((v : ℚ) / 128 + (← unitPort i))
      setUnitPort i 0
      modifyM fun s => { s with values := rest }
    else fault

/-- The parameter loop of a unit, `for i := 0; i < tcount; i++`. -/
def transform (tcount : Nat) : Exec Machine Unit :=
  loopFrom transformStep 0 tcount

/-- The `switch opNoStereo` of `Render`. -/
def dispatch (m : MathLib) (delayTimes : List Nat) (opNoStereo : Nat) (stereo : Bool)
    (channels : Nat) (valuesAtTransform : List Nat) (l : Int) : Exec Machine Unit :=
  if opNoStereo = opAdd then execAdd stereo l
  else if opNoStereo = opAddp then execAddp stereo l
  else if opNoStereo = opMul then execMul stereo l
  else if opNoStereo = opMulp then execMulp stereo l
  else if opNoStereo = opXch then execXch stereo l
  else if opNoStereo = opPush then execPush stereo l
  else if opNoStereo = opPop then execPop stereo l
  else if opNoStereo = opDistort then execDistort stereo l
  else if opNoStereo = opLoadval then execLoadval stereo
  else if opNoStereo = opOut then execOut stereo l
  else if opNoStereo = opOutaux then execOutaux stereo l
  else if opNoStereo = opAux then execAux stereo channels l
  else if opNoStereo = opSpeed then execSpeed m l
  else if opNoStereo = opIn then execIn stereo
  else if opNoStereo = opEnvelope then execEnvelope m stereo
  else if opNoStereo = opNoise then execNoise stereo
  else if opNoStereo = opGain then execGain stereo l
  else if opNoStereo = opInvgain then execInvgain stereo l
  else if opNoStereo = opClip then execClip stereo l
  else if opNoStereo = opCrush then execCrush stereo l
  else if opNoStereo = opHold then execHold channels l
  else if opNoStereo = opSend then execSend channels l
  else if opNoStereo = opReceive then execReceive stereo
  else if opNoStereo = opLoadnote then execLoadnote stereo
  else if opNoStereo = opPan then execPan stereo l
  else if opNoStereo = opFilter then execFilter channels l
  else if opNoStereo = opOscillator then execOscillator m channels valuesAtTransform
  else if opNoStereo = opDelay then execDelay m delayTimes channels l
  else if opNoStereo = opCompressor then execCompressor m stereo l
  else if opNoStereo = opSync then execSync l
  else if opNoStereo = opFriction then execFriction l
  else fail RenderError.invalidOpcode

/-- One turn of the dispatch loop for a command byte `op` that is not an
advance: from `tcount := transformCounts[opNoStereo-1]` to `units = units[1:]`. -/
def execUnit (m : MathLib) (bytePatch : BytePatch) (op : Nat) : Exec Machine Unit := do
  let channels := (op &&& 1) + 1
  let stereo := decide (channels = 2)
  let opNoStereo := (op &&& 0xFE) >>> 1
  match transformCounts.get? (opNoStereo - 1) with
  | none => fault
  | some tcount =>
    let s ← getM
    if s.values.length < tcount then
      fail RenderError.valueStreamEnded
    else if s.voices < MAX_VOICES ∧ s.units < MAX_UNITS then do
      let valuesAtTransform := s.values
      transform tcount
      let l ← stackLen
      dispatch m bytePatch.DelayTimes opNoStereo stereo channels valuesAtTransform l
      modifyM fun s => { s with units := s.units + 1 }
    else fault

/-- The dispatch loop from the command at the head of `commands` up to the next
advance byte; gives the commands that follow that byte.  Together with
`voiceLoop` this is the loop `for voicesRemaining > 0`: the turns that run a
unit are here, the turn that meets an advance byte is in `voiceLoop`. -/
def unitLoop (m : MathLib) (bytePatch : BytePatch) : List Nat → Exec Machine (List Nat)
  | [] => fault
  | op :: commands =>
    if (op &&& 0xFE) >>> 1 = 0 then pure commands
    else do
      execUnit m bytePatch op
      unitLoop m bytePatch commands

/-- The loop `for voicesRemaining > 0` of `Render`, by the number of voices
remaining: the units of the current voice (`unitLoop`), then the advance. -/
def voiceLoop (m : MathLib) (bytePatch : BytePatch) :
    Nat → List Nat → List Nat → List Nat → Exec Machine Unit
  | 0, _, _, _ => pure ()
  | voicesRemaining + 1, commands, commandInstr, valuesInstr => do
    let commands ← unitLoop m bytePatch commands
    let s ← getM
    if s.voices + 1 < MAX_VOICES then do
      modifyM fun s => { s with voices := s.voices + 1, units := 0 }
      let mask := (1 <<< voicesRemaining) % 2 ^ 32
      if bytePatch.PolyphonyBitmask &&& mask = mask then do
        modifyM fun s => { s with values := valuesInstr }
        voiceLoop m bytePatch voicesRemaining commandInstr commandInstr valuesInstr
      else do
        voiceLoop m bytePatch voicesRemaining commands commands (← getM).values
    else fault

/-! ## Render -/

/-- The variables of `Render`: those of the dispatch loop, the frames written
so far (`bufDone`), the part of `buffer` still ahead, and the counters. -/
structure RenderState where
  machine : Machine
  bufDone : List ℚ
  buffer : List ℚ
  samples : Nat
  syncs : Nat

/-- Run a computation of the dispatch loop within `Render`. -/
def onMachine {α : Type} (x : Exec Machine α) : Exec RenderState α := fun st =>
  match x st.machine with
  | (r, mc) => (r, { st with machine := mc })

/-- The start of the loop body of `Render`: the cursors are put back to the
start of the patch and every 256 samples a sync record is written. -/
def beginSample (bytePatch : BytePatch) : Exec RenderState Unit := do
  onMachine (modifyM fun mc =>
    { mc with values := bytePatch.Values, delaylines := 0, voices := 0, units := 0 })
  let st ← getM
  if st.machine.synth.globalTime % 256 = 0 then
    match st.machine.syncBuf with
    | _ :: rest =>
      modifyM fun st => { st with
        machine := { st.machine with
          syncDone := st.machine.syncDone ++ [(st.machine.time : ℚ)], syncBuf := rest }
        syncs := st.syncs + 1 }
    | [] => fault

/-- The end of the loop body of `Render`: the stack check and the frame. -/
def endSample (rest : List ℚ) : Exec RenderState Unit := do
  let st ← getM
  if st.machine.stack.length < 4 then
    fail RenderError.stackUnderflow
  else if st.machine.stack.length > 4 then
    fail RenderError.stackNotEmpty
  else
    modifyM fun st =>
      let sy := st.machine.synth
      { machine := { st.machine with
          synth := { sy with
            outputs := Function.update (Function.update sy.outputs 0 0) 1 0
            globalTime := (sy.globalTime + 1) % 2 ^ 32 }
          time := st.machine.time + 1 }
        bufDone := st.bufDone ++ [sy.outputs 0, sy.outputs 1]
        buffer := rest
        samples := st.samples + 1
        syncs := st.syncs }

/-- The loop `for time < maxtime && len(buffer) > 1` of `Render`; the list is
the slice `buffer`. -/
def renderLoop (m : MathLib) (bytePatch : BytePatch) (maxtime : Int) :
    List ℚ → Exec RenderState Unit
  | _ :: _ :: rest => do
    if (← getM).machine.time < maxtime then
      beginSample bytePatch
      onMachine (voiceLoop m bytePatch bytePatch.NumVoices bytePatch.Commands
        bytePatch.Commands bytePatch.Values)
      endSample rest
      renderLoop m bytePatch maxtime rest
  | _ => pure ()

/-- What `Render` hands back: the interpreter, the two buffers of the caller as
they are after the call, and the four results. -/
structure RenderResult where
  s : Interpreter
  buffer : List ℚ
  syncBuf : List ℚ
  samples : Nat
  syncs : Nat
  time : Int
  renderError : Option RenderError

/-- The variables of `Render` on entry. -/
def renderInit (s : Interpreter) (buffer syncBuf : List ℚ) : RenderState :=
  { machine :=
      { synth := s.synth
        delaylinesAll := s.delaylines
        params := fun _ => 0
        stack := s.stack ++ [0, 0, 0, 0]
        values := []
        delaylines := 0
        voices := 0
        units := 0
        syncDone := []
        syncBuf := syncBuf
        time := 0 }
    bufDone := []
    buffer := buffer
    samples := 0
    syncs := 0 }

def Render (m : MathLib) (s : Interpreter) (buffer syncBuf : List ℚ) (maxtime : Int) :
    RenderResult :=
  match renderLoop m s.bytePatch maxtime buffer (renderInit s buffer syncBuf) with
  | (r, st) =>
    { s :=
        { bytePatch := s.bytePatch
          stack := match r with
            | Except.ok _ => st.machine.stack.take 0
            | Except.error _ => s.stack
          synth := st.machine.synth
          delaylines := st.machine.delaylinesAll }
      buffer := st.bufDone ++ st.buffer
      syncBuf := st.machine.syncDone ++ st.machine.syncBuf
      samples := st.samples
      syncs := st.syncs
      time := st.machine.time
      renderError := match r with
        | Except.ok _ => none
        | Except.error e => some e }

/-- The method `Trigger`.  It has no `recover`: an index outside the voice array
is a runtime fault of the caller, `none` here. -/
def Trigger (s : Interpreter) (voiceIndex : Int) (note : Nat) : Option Interpreter :=
  if h : 0 ≤ voiceIndex ∧ voiceIndex.toNat < MAX_VOICES then
    some { s with synth := { s.synth with
      voices := Function.update s.synth.voices ⟨voiceIndex.toNat, h.2⟩ { voice.zero with note := note } } }
  else none

/-- The method `Release`; `none` is the runtime fault of an index outside the
voice array. -/
def Release (s : Interpreter) (voiceIndex : Int) : Option Interpreter :=
  if h : 0 ≤ voiceIndex ∧ voiceIndex.toNat < MAX_VOICES then
    some { s with synth := { s.synth with
      voices := Function.update s.synth.voices ⟨voiceIndex.toNat, h.2⟩
        { s.synth.voices ⟨voiceIndex.toNat, h.2⟩ with release := true } } }
  else none

/-- The two functions of the patch compiler that `Update` calls and that are
declared outside the interpreter's file, for a type `Patch` of patches:
`Encode(patch, AllFeatures{})`, with `none` for an error, and
`patch.NumDelayLines()`. -/
structure PatchCompiler (Patch : Type) where
  Encode : Patch → Option BytePatch
  NumDelayLines : Patch → Nat

inductive UpdateError
  | compiling
deriving DecidableEq, Repr

/-- The loop `for i, c := range bytePatch.Commands` of `Update`, from index `i`:
whether some command of the new patch differs from the old one at its index. -/
def commandsChanged (old : List Nat) : List Nat → Nat → Bool
  | [], _ => false
  | c :: cs, i => if old.get? i ≠ some c then true else commandsChanged old cs (i + 1)

/-- The method `Update`: the interpreter after the call and the error returned. -/
def Update {Patch : Type} (c : PatchCompiler Patch) (s : Interpreter) (patch : Patch) :
    Interpreter × Option UpdateError :=
  match c.Encode patch with
  | none => (s, some UpdateError.compiling)
  | some bytePatch =>
    let needsRefresh := decide (bytePatch.Commands.length ≠ s.bytePatch.Commands.length)
    let needsRefresh :=
      if !needsRefresh then commandsChanged s.bytePatch.Commands bytePatch.Commands 0
      else needsRefresh
    let delaylines :=
      s.delaylines ++ List.replicate (c.NumDelayLines patch - s.delaylines.length) delayline.zero
    let sy := s.synth
    let voices : Fin MAX_VOICES → voice :=
      if needsRefresh then fun i => { sy.voices i with units := fun _ => unit.zero }
      else sy.voices
    ({ bytePatch := bytePatch
       stack := s.stack
       synth := { sy with voices := voices }
       delaylines := delaylines }, none)

/-! ## Inputs of the scenarios -/

/-- Scenario 1, silence: one instrument, one voice, the single command `advance`. -/
def silencePatch : BytePatch := ⟨[0], [], [], 1, 0⟩

/-- Scenario 2, a constant level: `loadval(b); out(128); advance` for one voice. -/
def levelPatch (b : Nat) : BytePatch := ⟨[opLoadval * 2, opOut * 2, 0], [b, 128], [], 1, 0⟩

/-- The patch `pop; advance` for one voice. -/
def popPatch : BytePatch := ⟨[opPop * 2, 0], [], [], 1, 0⟩

/-- The patch `loadval(b); advance` for one voice, with the value stream given. -/
def loadvalPatch (values : List Nat) : BytePatch := ⟨[opLoadval * 2, 0], values, [], 1, 0⟩

/-- The empty instrument shared by `n` voices: the single command `advance`, the
bits `n-1 .. 1` of the polyphony bitmask set and bit 0 clear. -/
def sharedSilencePatch (n : Nat) : BytePatch := ⟨[0], [], [], n, 2 ^ n - 2⟩

/-- Scenario 4 with the note as signal: `loadnote; out(128); advance`, one
instrument shared by two voices. -/
def notePatch : BytePatch := ⟨[opLoadnote * 2, opOut * 2, 0], [128], [], 2, 2⟩

/-- Scenario 3, the envelope: `envelope(0, 0, 128, 0, 128); out(128); advance`
for one voice. -/
def envelopePatch : BytePatch :=
  ⟨[opEnvelope * 2, opOut * 2, 0], [0, 0, 128, 0, 128, 128], [], 1, 0⟩

/-- The patch `loadval(128); outaux(128, 128); advance` for one voice. -/
def outauxPatch : BytePatch :=
  ⟨[opLoadval * 2, opOutaux * 2, 0], [128, 128, 128], [], 1, 0⟩

/-- The patch `loadval(128); out(128); pop; advance` for one voice: it writes its
frame and then takes one value too many off the stack. -/
def underflowPatch : BytePatch :=
  ⟨[opLoadval * 2, opOut * 2, opPop * 2, 0], [128, 128], [], 1, 0⟩

/-- The arguments of one call of `Render`. -/
structure RenderCall where
  buffer : List ℚ
  syncBuf : List ℚ
  maxtime : Int

/-- The results of consecutive calls of `Render`, each on the interpreter the
call before left. -/
def renderCalls (m : MathLib) : Interpreter → List RenderCall → List RenderResult
  | _, [] => []
  | s, c :: cs =>
    Render m s c.buffer c.syncBuf c.maxtime
      :: renderCalls m (Render m s c.buffer c.syncBuf c.maxtime).s cs

/-- The interpreter after consecutive calls of `Render`. -/
def afterCalls (m : MathLib) : Interpreter → List RenderCall → Interpreter
  | s, [] => s
  | s, c :: cs => afterCalls m (Render m s c.buffer c.syncBuf c.maxtime).s cs

/-- The states of the variables of `Render` at the start of every turn of its
loop, that is, at the start of every sample: the loop of `renderLoop`, with the
state of each turn recorded. -/
def sampleStarts (m : MathLib) (bytePatch : BytePatch) (maxtime : Int) :
    List ℚ → RenderState → List RenderState
  | _ :: _ :: rest, st =>
    if st.machine.time < maxtime then
      st :: (match (do
          beginSample bytePatch
          onMachine (voiceLoop m bytePatch bytePatch.NumVoices bytePatch.Commands
            bytePatch.Commands bytePatch.Values)
          endSample rest : Exec RenderState Unit) st with
        | (Except.ok _, st') => sampleStarts m bytePatch maxtime rest st'
        | (Except.error _, _) => [])
    else []
  | _, _ => []

/-- The states of the variables of `Render` at the start of every sample of
consecutive calls of `Render`, each on the interpreter the call before left. -/
def callStarts (m : MathLib) : Interpreter → List RenderCall → List RenderState
  | _, [] => []
  | s, c :: cs =>
    sampleStarts m s.bytePatch c.maxtime c.buffer (renderInit s c.buffer c.syncBuf)
      ++ callStarts m (Render m s c.buffer c.syncBuf c.maxtime).s cs

/-- The synth of the envelope patch between two samples while voice 0 is held:
the output frame is empty, no modulation waits in the ports the two units read,
and the envelope is at the start of its attack or at its sustained level 1. -/
def EnvelopeHeld (sy : synth) : Prop :=
  sy.outputs 0 = 0 ∧ sy.outputs 1 = 0 ∧ (sy.voices 0).release = false ∧
  (∀ i : Fin 8, i.val < 5 → ((sy.voices 0).units 0).ports i = 0) ∧
  ((sy.voices 0).units 1).ports 0 = 0 ∧
  ((((sy.voices 0).units 0).state 0 = 0 ∧ ((sy.voices 0).units 0).state 1 = 0) ∨
    (((sy.voices 0).units 0).state 0 = 1 ∧ ((sy.voices 0).units 0).state 1 = 1))

/-- The synth of the envelope patch between two samples once voice 0 is
released: as `EnvelopeHeld`, with the release flag set and a level of at most 1. -/
def EnvelopeReleased (sy : synth) : Prop :=
  sy.outputs 0 = 0 ∧ sy.outputs 1 = 0 ∧ (sy.voices 0).release = true ∧
  (∀ i : Fin 8, i.val < 5 → ((sy.voices 0).units 0).ports i = 0) ∧
  ((sy.voices 0).units 1).ports 0 = 0 ∧
  ((sy.voices 0).units 0).state 1 ≤ 1

/-- A patch compiler for patches that are already compiled, without delay lines. -/
def identityCompiler : PatchCompiler BytePatch := ⟨some, fun _ => 0⟩

/-- A patch compiler that rejects every patch. -/
def rejectingCompiler : PatchCompiler Unit := ⟨fun _ => none, fun _ => 0⟩

/-- A stand-in for the library functions, right where the units of the scenarios
evaluate them (`Exp2 0 = 1`). -/
def sampleMath : MathLib := ⟨fun x => if x = 0 then 1 else 2, fun _ => 0, fun _ _ => 1⟩

/-- The variables of the dispatch loop as `Render` sets them up on a fresh
interpreter, with the given stack and value stream and every parameter equal
to `p`. -/
def sampleMachine (stack : List ℚ) (p : ℚ) (values : List Nat) : Machine :=
  { (renderInit (Interpreter.fresh silencePatch 0) [] []).machine with
    stack := stack, params := fun _ => p, values := values }

/-- The machine after the parameter loop has run for the first `k` parameters of
unit `un` of voice `vo`, in closed form: these parameters are the value bytes
over 128 plus the ports, these ports are zero, `k` value bytes are taken. -/
def afterTransform (mc : Machine) (vo : Fin MAX_VOICES) (un : Fin MAX_UNITS) (k : Nat) :
    Machine :=
  { mc with
    params := fun i =>
      if i.val < k then
        ((mc.values.getD i.val 0 : Nat) : ℚ) / 128 + ((mc.synth.voices vo).units un).ports i
      else mc.params i
    values := mc.values.drop k
    synth := { mc.synth with
      voices := Function.update mc.synth.voices vo
        { mc.synth.voices vo with
          units := Function.update (mc.synth.voices vo).units un
            { (mc.synth.voices vo).units un with
              ports := fun i =>
                if i.val < k then 0 else ((mc.synth.voices vo).units un).ports i } } } }

/-- The number of sync records `Render` writes while it completes `n` samples
from the clock value `g`: one for every sample that starts on a multiple of 256. -/
def syncCount : Nat → Nat → Nat
  | _, 0 => 0
  | g, n + 1 => (if g % 256 = 0 then 1 else 0) + syncCount ((g + 1) % 2 ^ 32) n

/-! ## The command-line tool and the bridge -/

/-- The loop `for _, ext := range extensions` of `filterExtensions`, with the
map `ret` built so far.  A Go `map[string]string` is the function from a key to
the value stored under it, `none` for a key that is absent. -/
def filterExtensionsLoop (input : String → Option String) :
    List String → (String → Option String) → (String → Option String)
  | [], ret => ret
  | ext :: extensions, ret =>
    let extWithDot := "." ++ ext
    match input extWithDot with
    | some inputVal =>
      filterExtensionsLoop input extensions (Function.update ret extWithDot (some inputVal))
    | none => filterExtensionsLoop input extensions ret

/-- The function `filterExtensions` of `cmd/sointu-compile`. -/
def filterExtensions (input : String → Option String) (extensions : List String) :
    String → Option String :=
  filterExtensionsLoop input extensions (fun _ => none)

/-- The conversion `C.int(x)` of a Go `int`: the value wrapped to 32 bits. -/
def toCInt (x : Int) : Int := (x + 2 ^ 31) % 2 ^ 32 - 2 ^ 31

/-- Modelled from the spec: the native renderer `C.su_render` is linked in from
outside the repository's Go sources.  For the buffer and the values passed in
`samples` and `time` it gives the error code and what it leaves in the buffer,
in `samples` and in `time`. -/
structure NativeRender where
  errcode : Int
  buffer : List ℚ
  samples : Int
  time : Int

inductive BridgeError
  | oddBuffer
  | renderFailed
deriving DecidableEq, Repr

/-- What the bridge's `Render` returns, the buffer of the caller after the call,
and the arguments (`*samples`, `*time`) of each call of the native renderer it
made. -/
structure BridgeRender where
  samples : Int
  time : Int
  err : Option BridgeError
  buffer : List ℚ
  nativeCalls : List (Int × Int)

/-- The bridge's method `Render`.  `&buffer[0]` on an empty buffer is a runtime
fault, `none` here. -/
def bridgeRender (su_render : List ℚ → Int → Int → NativeRender) (buffer : List ℚ)
    (maxtime : Int) : Option BridgeRender :=
  if buffer.length % 1 = 1 then
    some ⟨-1, -1, some BridgeError.oddBuffer, buffer, []⟩
  else
    let samples := toCInt ((buffer.length : Int) / 2)
    let time := toCInt maxtime
    match buffer with
    | [] => none
    | _ :: _ =>
      let r := su_render buffer samples time
      if r.errcode > 0 then
        some ⟨-1, -1, some BridgeError.renderFailed, r.buffer, [(samples, time)]⟩
      else
        some ⟨r.samples, r.time, none, r.buffer, [(samples, time)]⟩

/-- A native renderer that fills the buffer with zeros and reports success. -/
def silentNative (buffer : List ℚ) (samples time : Int) : NativeRender :=
  ⟨0, buffer.map (fun _ => 0), samples, time⟩

/-! ### The bridge's compiler -/

/-- Modelled from the spec: the type `go4k.Unit` is declared outside `src/`; a
unit has a type name, a stereo flag and named integer parameters (a Go
`map[string]int`, `none` for a name that is absent). -/
structure go4k.Unit where
  Type' : String
  Stereo : Bool
  Parameters : String → Option Int

/-- Modelled from the spec: the type `go4k.Instrument` is declared outside
`src/`; an instrument is a list of units run by `NumVoices` voices. -/
structure go4k.Instrument where
  NumVoices : Int
  Units : List go4k.Unit

/-- Modelled from the spec: a patch is a list of instruments. -/
abbrev go4k.Patch : Type := List go4k.Instrument

structure opTableEntry where
  opcode : Int
  parameterList : List String

/-- Modelled from the spec: the constants `C.su_*_id` come from the header
`sointu.h`, which is not in `src/`.  The id of a unit is the command byte of its
mono form, the opcode of the spec's table shifted left by one (the stereo form
is the id plus one). -/
def su_id (opcode : Nat) : Int := 2 * (opcode : Int)

/-- Modelled from the spec: `C.su_advance_id`, the command byte of opcode 0. -/
def su_advance_id : Int := 0

/-- The map `opcodeTable` of the bridge. -/
def opcodeTable (name : String) : Option opTableEntry :=
  match name with
  | "add" => some ⟨su_id opAdd, []⟩
  | "addp" => some ⟨su_id opAddp, []⟩
  | "pop" => some ⟨su_id opPop, []⟩
  | "loadnote" => some ⟨su_id opLoadnote, []⟩
  | "mul" => some ⟨su_id opMul, []⟩
  | "mulp" => some ⟨su_id opMulp, []⟩
  | "push" => some ⟨su_id opPush, []⟩
  | "xch" => some ⟨su_id opXch, []⟩
  | "distortion" => some ⟨su_id opDistort, ["drive"]⟩
  | "hold" => some ⟨su_id opHold, ["holdfreq"]⟩
  | "crush" => some ⟨su_id opCrush, ["resolution"]⟩
  | "gain" => some ⟨su_id opGain, ["gain"]⟩
  | "invgain" => some ⟨su_id opInvgain, ["invgain"]⟩
  | "filter" => some ⟨su_id opFilter, ["frequency", "resonance", "flags"]⟩
  | "clip" => some ⟨su_id opClip, []⟩
  | "pan" => some ⟨su_id opPan, ["panning"]⟩
  | "delay" =>
    some ⟨su_id opDelay, ["pregain", "dry", "feedback", "depth", "damp", "delay", "count"]⟩
  | "compressor" =>
    some ⟨su_id opCompressor, ["attack", "release", "invgain", "threshold", "ratio"]⟩
  | "speed" => some ⟨su_id opSpeed, []⟩
  | "out" => some ⟨su_id opOut, ["gain"]⟩
  | "outaux" => some ⟨su_id opOutaux, ["outgain", "auxgain"]⟩
  | "aux" => some ⟨su_id opAux, ["gain", "channel"]⟩
  | "send" => some ⟨su_id opSend, ["amount", "port"]⟩
  | "envelope" => some ⟨su_id opEnvelope, ["attack", "decay", "sustain", "release", "gain"]⟩
  | "noise" => some ⟨su_id opNoise, ["shape", "gain"]⟩
  | "oscillator" =>
    some ⟨su_id opOscillator,
      ["transpose", "detune", "phase", "color", "shape", "gain", "flags"]⟩
  | "loadval" => some ⟨su_id opLoadval, ["value"]⟩
  | "receive" => some ⟨su_id opReceive, []⟩
  | "in" => some ⟨su_id opIn, ["channel"]⟩
  | _ => none

/-- The conversion `byte(x)` of a Go `int` or `C.int`. -/
def toByte (x : Int) : Nat := (x % 256).toNat

/-- The conversion `C.uint(x)` of a Go `int`. -/
def toCUint (x : Int) : Nat := (x % 2 ^ 32).toNat

inductive SynthError
  | tooManyUnits
  | noVoices
  | parameterUndefined (paramname : String) (insid unitid : Nat)
  | unknownUnitType (type : String) (insid unitid : Nat)
  | tooManyVoices
  | tooManyCommands
  | tooManyValues
deriving DecidableEq, Repr

/-- Modelled from the spec: the type `C.Synth` is declared in `sointu.h`; these
are the fields `Synth` assigns, the two arrays up to the last byte written. -/
structure CSynth where
  Commands : List Nat
  Values : List Nat
  NumVoices : Nat
  Polyphony : Nat
  RandSeed : Nat
deriving DecidableEq, Repr

/-- The loop `for _, paramname := range val.parameterList` of `Synth`. -/
def synthParameters (u : go4k.Unit) (insid unitid : Nat) :
    List String → List Nat → Except SynthError (List Nat)
  | [], values => Except.ok values
  | paramname :: rest, values =>
    match u.Parameters paramname with
    | some pval => synthParameters u insid unitid rest (values ++ [toByte pval])
    | none => Except.error (SynthError.parameterUndefined paramname insid unitid)

/-- The loop `for unitid, unit := range instr.Units` of `Synth`, from the unit
with index `unitid`. -/
def synthUnits (insid : Nat) :
    List go4k.Unit → Nat → List Nat → List Nat → Except SynthError (List Nat × List Nat)
  | [], _, commands, values => Except.ok (commands, values)
  | u :: rest, unitid, commands, values =>
    match opcodeTable u.Type' with
    | some val =>
      let commands :=
        if u.Stereo then commands ++ [toByte (val.opcode + 1)]
        else commands ++ [toByte val.opcode]
      match synthParameters u insid unitid val.parameterList values with
      | Except.ok values => synthUnits insid rest (unitid + 1) commands values
      | Except.error e => Except.error e
    | none => Except.error (SynthError.unknownUnitType u.Type' insid unitid)

/-- The loop `for k := 0; k < instr.NumVoices-1; k++` of `Synth`, with the
number of turns left. -/
def polyphonyLoop : Nat → Nat → Nat
  | 0, polyphonyBitmask => polyphonyBitmask
  | k + 1, polyphonyBitmask => polyphonyLoop k ((polyphonyBitmask <<< 1) + 1)

/-- The variables of the loop over the instruments of `Synth`.  A Go `int` is
taken as an unbounded integer: the voice total and the bitmask stay far below
the range of `int` unless an instrument has some 2^62 voices, and the loop over
the voices of an instrument takes as many turns as it has voices. -/
structure SynthLoop where
  totalVoices : Int
  commands : List Nat
  values : List Nat
  polyphonyBitmask : Nat

/-- The loop `for insid, instr := range patch` of `Synth`, from the instrument
with index `insid`. -/
def synthInstruments : List go4k.Instrument → Nat → SynthLoop → Except SynthError SynthLoop
  | [], _, st => Except.ok st
  | instr :: rest, insid, st =>
    if instr.Units.length > 63 then Except.error SynthError.tooManyUnits
    else if instr.NumVoices < 1 then Except.error SynthError.noVoices
    else
      match synthUnits insid instr.Units 0 st.commands st.values with
      | Except.error e => Except.error e
      | Except.ok (commands, values) =>
        synthInstruments rest (insid + 1)
          { totalVoices := st.totalVoices + instr.NumVoices
            commands := commands ++ [toByte su_advance_id]
            values := values
            polyphonyBitmask :=
              (polyphonyLoop (instr.NumVoices - 1).toNat st.polyphonyBitmask) <<< 1 }

/-- The bridge's function `Synth`. -/
def bridge.Synth (patch : go4k.Patch) : Except SynthError CSynth :=
  match synthInstruments patch 0 ⟨0, [], [], 0⟩ with
  | Except.error e => Except.error e
  | Except.ok st =>
    if st.totalVoices > 32 then Except.error SynthError.tooManyVoices
    else if st.commands.length > 2048 then Except.error SynthError.tooManyCommands
    else if st.values.length > 16384 then Except.error SynthError.tooManyValues
    else
      Except.ok
        { Commands := st.commands
          Values := st.values
          NumVoices := toCUint st.totalVoices
          Polyphony := toCUint st.polyphonyBitmask
          RandSeed := 1 }

/-- The total voice count of a patch. -/
def totalVoiceCount (patch : go4k.Patch) : Int := (patch.map (fun instr => instr.NumVoices)).sum

/-- The command byte the claim gives for a unit: the id of its type in the
opcode table, plus 1 when the unit is stereo. -/
def unitCommand (u : go4k.Unit) : Nat :=
  match opcodeTable u.Type' with
  | some val => if u.Stereo then toByte (val.opcode + 1) else toByte val.opcode
  | none => 0

/-- The command stream the claim gives for a patch: instrument by instrument,
one byte per unit and then one advance byte. -/
def patchCommands (patch : go4k.Patch) : List Nat :=
  patch.flatMap (fun instr => instr.Units.map unitCommand ++ [0])

/-- The number of value bytes of a unit: the length of the parameter list of
its type in the opcode table. -/
def unitValueCount (u : go4k.Unit) : Nat :=
  match opcodeTable u.Type' with
  | some val => val.parameterList.length
  | none => 0

/-- The length of the value stream of a patch: one byte for every parameter of
every unit. -/
def patchValueCount (patch : go4k.Patch) : Nat :=
  (patch.map (fun instr => (instr.Units.map unitValueCount).sum)).sum

/-- The instrument a voice belongs to, for instruments of the voice counts
given: the instrument `i` with `k_1 + ... + k_i ≤ v < k_1 + ... + k_(i+1)`, and
`none` for a voice index past the last voice. -/
def voiceInstrument : List Nat → Nat → Option Nat
  | [], _ => none
  | k :: ks, v => if v < k then some 0 else (voiceInstrument ks (v - k)).map (fun i => i + 1)

/-- A unit `loadval` with the value byte given. -/
def loadvalUnit (b : Int) : go4k.Unit :=
  ⟨"loadval", false, fun name => if name = "value" then some b else none⟩

/-- A stereo unit `out` with the gain byte 128. -/
def outUnit : go4k.Unit :=
  ⟨"out", true, fun name => if name = "gain" then some 128 else none⟩

/-- A patch of two instruments, with two voices and one voice. -/
def samplePatch : go4k.Patch :=
  [⟨2, [loadvalUnit 96, outUnit]⟩, ⟨1, [loadvalUnit 32, outUnit]⟩]

/-- A unit that `Synth` compiles: its type is a key of the opcode table and it
has every parameter of the parameter list of that type. -/
def unitCompiles (u : go4k.Unit) : Prop :=
  ∃ val, opcodeTable u.Type' = some val ∧ ∀ p ∈ val.parameterList, u.Parameters p ≠ none

/-- An instrument that `Synth` compiles: at most 63 units, at least one voice,
and units that compile. -/
def instrumentCompiles (instr : go4k.Instrument) : Prop :=
  instr.Units.length ≤ 63 ∧ 1 ≤ instr.NumVoices ∧ ∀ u ∈ instr.Units, unitCompiles u

/-- The polyphony bitmask after the loop over the instruments of `Synth`, from
the bitmask `polyphonyBitmask`. -/
def instrumentsMask : List go4k.Instrument → Nat → Nat
  | [], polyphonyBitmask => polyphonyBitmask
  | instr :: rest, polyphonyBitmask =>
    instrumentsMask rest ((polyphonyLoop (instr.NumVoices - 1).toNat polyphonyBitmask) <<< 1)

/-- The voice counts `k_1 .. k_m` of the instruments of a patch. -/
def voiceCounts (patch : go4k.Patch) : List Nat := patch.map (fun instr => instr.NumVoices.toNat)

/-! ## Frame conditions -/

/-- The two clocks: the global sample clock of the synth and the variable `time`
of `Render`. -/
def clock (mc : Machine) : Nat × Int := (mc.synth.globalTime, mc.time)

/-- A computation keeps the observation `q` of the machine: whatever it does and
however it ends, `q` of the state it leaves is `q` of the state it started in. -/
structure Keeps {α β : Type} (q : Machine → β) (x : Exec Machine α) : Prop where
  keeps : ∀ mc, q (x mc).2 = q mc

/-! ## Two runs side by side -/

/-- Two states of the dispatch loop that differ at most in what a new call of
`Render` sets anew and no unit reads before writing it: the variable `time`,
the sync buffer, and the parameters from index `k` on. -/
structure Agree (k : Nat) (a b : Machine) : Prop where
  synth : a.synth = b.synth
  delaylinesAll : a.delaylinesAll = b.delaylinesAll
  stack : a.stack = b.stack
  values : a.values = b.values
  delaylines : a.delaylines = b.delaylines
  voices : a.voices = b.voices
  units : a.units = b.units
  params : ∀ i : Fin 8, i.val < k → a.params i = b.params i

/-- A computation run from two states that agree: when both runs end without an
error they give the same result and leave states that agree. -/
structure Sim {α : Type} (k : Nat) (x : Exec Machine α) : Prop where
  sim : ∀ (a b : Machine) (ra rb : α) (sa sb : Machine), Agree k a b →
    x a = (Except.ok ra, sa) → x b = (Except.ok rb, sb) → ra = rb ∧ Agree k sa sb

/-- Two states of `Render` between two samples with the same synth, delay lines
and stack. -/
structure AgreeCore (a b : Machine) : Prop where
  synth : a.synth = b.synth
  delaylinesAll : a.delaylinesAll = b.delaylinesAll
  stack : a.stack = b.stack

/-- The patch `out(128); loadval(128); advance` for one voice: `out` takes the
top of the four values at the bottom of the stack, `loadval` puts a 1 there. -/
def scratchPatch : BytePatch := ⟨[opOut * 2, opLoadval * 2, 0], [128, 128], [], 1, 0⟩

/-- The compiled synth as the byte patch the interpreter runs: the two streams,
the voice count and the bitmask `Synth` assigns, under the names they have in
`BytePatch` (`Polyphony` is `PolyphonyBitmask`), with the delay times given. -/
def CSynth.bytePatch (s : CSynth) (delayTimes : List Nat) : BytePatch :=
  ⟨s.Commands, s.Values, delayTimes, s.NumVoices, s.Polyphony⟩

/-- The loop `for voicesRemaining > 0` of `Render` with a record: `voiceLoop`
run from the machine `mc`, and beside what it returns the command cursor every
voice started its units from, voice by voice. -/
def voiceLoopTrace (m : MathLib) (bytePatch : BytePatch) :
    Nat → List Nat → List Nat → List Nat → Machine →
      (Except RenderError Unit × Machine) × List (List Nat)
  | 0, _, _, _, mc => ((Except.ok (), mc), [])
  | voicesRemaining + 1, commands, commandInstr, valuesInstr, mc =>
    match unitLoop m bytePatch commands mc with
    | (Except.error e, mc1) => ((Except.error e, mc1), [commands])
    | (Except.ok rest, mc1) =>
      if mc1.voices + 1 < MAX_VOICES then
        if bytePatch.PolyphonyBitmask &&& ((1 <<< voicesRemaining) % 2 ^ 32)
            = (1 <<< voicesRemaining) % 2 ^ 32 then
          ((voiceLoopTrace m bytePatch voicesRemaining commandInstr commandInstr valuesInstr
              { mc1 with voices := mc1.voices + 1, units := 0, values := valuesInstr }).1,
            commands :: (voiceLoopTrace m bytePatch voicesRemaining commandInstr commandInstr
              valuesInstr
              { mc1 with voices := mc1.voices + 1, units := 0, values := valuesInstr }).2)
        else
          ((voiceLoopTrace m bytePatch voicesRemaining rest rest mc1.values
              { mc1 with voices := mc1.voices + 1, units := 0 }).1,
            commands :: (voiceLoopTrace m bytePatch voicesRemaining rest rest mc1.values
              { mc1 with voices := mc1.voices + 1, units := 0 }).2)
      else ((Except.error RenderError.panicked, mc1), [commands])

/-- A unit without parameters, in mono. -/
def plainUnit (type : String) : go4k.Unit := ⟨type, false, fun _ => none⟩

/-- A patch of two instruments whose units only move values on the stack:
`push; pop` with two voices and `xch` with one voice. -/
def stackPatch : go4k.Patch :=
  [⟨2, [plainUnit "push", plainUnit "pop"]⟩, ⟨1, [plainUnit "xch"]⟩]

/-! ## Basic facts about `Exec` -/

@[simp] theorem pure_run {σ α : Type} (a : α) (s : σ) :
    (pure a : Exec σ α) s = (Except.ok a, s) := rfl

@[simp] theorem bind_run {σ α β : Type} (x : Exec σ α) (f : α → Exec σ β) (s : σ) :
    (x >>= f) s = match x s with
      | (Except.ok a, s') => f a s'
      | (Except.error e, s') => (Except.error e, s') := rfl

@[simp] theorem fail_run {σ α : Type} (e : RenderError) (s : σ) :
    (fail e : Exec σ α) s = (Except.error e, s) := rfl

@[simp] theorem fault_run {σ α : Type} (s : σ) :
    (fault : Exec σ α) s = (Except.error RenderError.panicked, s) := rfl

@[simp] theorem getM_run {σ : Type} (s : σ) : (getM : Exec σ σ) s = (Except.ok s, s) := rfl

@[simp] theorem modifyM_run {σ : Type} (f : σ → σ) (s : σ) :
    (modifyM f : Exec σ Unit) s = (Except.ok (), f s) := rfl

/-! ## Trigger, Release, Update -/

theorem voiceIndex_toNat_lt {voiceIndex : Int} (h0 : 0 ≤ voiceIndex) (h1 : voiceIndex < 32) :
    voiceIndex.toNat < MAX_VOICES := by
  have : (voiceIndex.toNat : Int) = voiceIndex := Int.toNat_of_nonneg h0
  show voiceIndex.toNat < 32
  omega

/-- C11: for a voice index in 0..31, `Release` returns normally, sets the
release flag of that voice and changes nothing else (its note and units, the
other voices, the output bus, the seed, the clock, the patch, the stack and the
delay lines are what they were); a second `Release` of the same voice gives the
same state as the first. -/
theorem Release_sets_flag_only (s : Interpreter) (voiceIndex : Int)
    (h0 : 0 ≤ voiceIndex) (h1 : voiceIndex < 32) :
    ∃ s', Release s voiceIndex = some s' ∧
      (∀ v : Fin MAX_VOICES, (v.val : Int) = voiceIndex →
        (s'.synth.voices v).release = true ∧
        (s'.synth.voices v).note = (s.synth.voices v).note ∧
        (s'.synth.voices v).units = (s.synth.voices v).units) ∧
      (∀ v : Fin MAX_VOICES, (v.val : Int) ≠ voiceIndex → s'.synth.voices v = s.synth.voices v) ∧
      s'.synth.outputs = s.synth.outputs ∧
      s'.synth.randSeed = s.synth.randSeed ∧
      s'.synth.globalTime = s.synth.globalTime ∧
      s'.bytePatch = s.bytePatch ∧
      s'.stack = s.stack ∧
      s'.delaylines = s.delaylines ∧
      Release s' voiceIndex = some s' := by
  have hlt := voiceIndex_toNat_lt h0 h1
  have hcast : (voiceIndex.toNat : Int) = voiceIndex := Int.toNat_of_nonneg h0
  have key : Release s voiceIndex = some { s with synth := { s.synth with
      voices := Function.update s.synth.voices ⟨voiceIndex.toNat, hlt⟩
        { s.synth.voices ⟨voiceIndex.toNat, hlt⟩ with release := true } } } := by
    simp only [Release, dif_pos (And.intro h0 hlt)]
  refine ⟨_, key, ?_, ?_, rfl, rfl, rfl, rfl, rfl, rfl, ?_⟩
  · intro v hv
    have : v = ⟨voiceIndex.toNat, hlt⟩ := Fin.ext (by simp only; omega)
    subst this
    simp
  · intro v hv
    have : v ≠ ⟨voiceIndex.toNat, hlt⟩ := fun h => hv (by rw [h]; exact hcast)
    simp [Function.update_noteq this]
  · simp only [Release, dif_pos (And.intro h0 hlt)]
    simp

theorem Release_sets_flag_only_witness :
    ((0 : Int) ≤ 3 ∧ (3 : Int) < 32) ∧
    ∃ s', Release (Interpreter.fresh silencePatch 0) 3 = some s' ∧
      (∀ v : Fin MAX_VOICES, (v.val : Int) = 3 →
        (s'.synth.voices v).release = true ∧
        (s'.synth.voices v).note = ((Interpreter.fresh silencePatch 0).synth.voices v).note ∧
        (s'.synth.voices v).units = ((Interpreter.fresh silencePatch 0).synth.voices v).units) ∧
      (∀ v : Fin MAX_VOICES, (v.val : Int) ≠ 3 →
        s'.synth.voices v = (Interpreter.fresh silencePatch 0).synth.voices v) ∧
      s'.synth.outputs = (Interpreter.fresh silencePatch 0).synth.outputs ∧
      s'.synth.randSeed = (Interpreter.fresh silencePatch 0).synth.randSeed ∧
      s'.synth.globalTime = (Interpreter.fresh silencePatch 0).synth.globalTime ∧
      s'.bytePatch = (Interpreter.fresh silencePatch 0).bytePatch ∧
      s'.stack = (Interpreter.fresh silencePatch 0).stack ∧
      s'.delaylines = (Interpreter.fresh silencePatch 0).delaylines ∧
      Release s' 3 = some s' :=
  ⟨⟨by decide, by decide⟩,
    Release_sets_flag_only (Interpreter.fresh silencePatch 0) 3 (by decide) (by decide)⟩

theorem commandsChanged_iff (old : List Nat) :
    ∀ (new : List Nat) (i : Nat), commandsChanged old new i = true ↔ ∃ k, ∃ h : k < new.length,
      old.get? (i + k) ≠ some (new.get ⟨k, h⟩) := by
  intro new
  induction new with
  | nil => intro i; simp [commandsChanged]
  | cons c cs ih =>
    intro i
    rw [commandsChanged]
    constructor
    · intro h
      by_cases hc : old.get? i ≠ some c
      · exact ⟨0, by simp, by simpa using hc⟩
      · rw [if_neg hc] at h
        obtain ⟨k, hk, hne⟩ := (ih (i + 1)).1 h
        refine ⟨k + 1, by simpa using hk, ?_⟩
        have : i + (k + 1) = i + 1 + k := by omega
        rw [this]
        simpa using hne
    · rintro ⟨k, hk, hne⟩
      by_cases hc : old.get? i ≠ some c
      · rw [if_pos hc]
      · rw [if_neg hc]
        cases k with
        | zero => exact absurd (by simpa using hne) hc
        | succ k =>
          refine (ih (i + 1)).2 ⟨k, by simpa using hk, ?_⟩
          have : i + 1 + k = i + (k + 1) := by omega
          rw [this]
          simpa using hne

/-- Whether `Update` resets the units: the new command stream differs from the
old one in length or at some index. -/
theorem needsRefresh_iff (old new : List Nat) :
    ((if !decide (new.length ≠ old.length) then commandsChanged old new 0
      else decide (new.length ≠ old.length)) = true) ↔ new ≠ old := by
  by_cases hlen : new.length = old.length
  · simp only [hlen, ne_eq, not_true_eq_false, decide_False, Bool.not_false, ↓reduceIte]
    rw [commandsChanged_iff]
    constructor
    · rintro ⟨k, hk, hne⟩ heq
      subst heq
      apply hne
      simp [List.get?_eq_get hk]
    · intro hne
      by_contra hcon
      apply hne
      apply List.ext_get hlen
      intro k h1 h2
      by_contra hk
      apply hcon
      refine ⟨k, h1, ?_⟩
      rw [Nat.zero_add, List.get?_eq_get h2]
      intro h
      exact hk (Option.some.inj h).symm
  · have : new ≠ old := fun h => hlen (by rw [h])
    simp [hlen, this]

/-- C12: when the patch compiles, `Update` returns no error and installs the new
`BytePatch`; if its command stream differs from the old one (in length or in
some byte) the state and ports of every unit of every voice are zero afterwards,
if it is the same every unit is as it was; the note and the release flag of
every voice are kept in both cases. -/
theorem Update_installs_and_refreshes {Patch : Type} (c : PatchCompiler Patch)
    (s : Interpreter) (patch : Patch) (bytePatch : BytePatch)
    (h : c.Encode patch = some bytePatch) :
    (Update c s patch).2 = none ∧
    (Update c s patch).1.bytePatch = bytePatch ∧
    (bytePatch.Commands ≠ s.bytePatch.Commands →
      ∀ v u i, (((Update c s patch).1.synth.voices v).units u).state i = 0 ∧
        (((Update c s patch).1.synth.voices v).units u).ports i = 0) ∧
    (bytePatch.Commands = s.bytePatch.Commands →
      ∀ v, ((Update c s patch).1.synth.voices v).units = (s.synth.voices v).units) ∧
    (∀ v, ((Update c s patch).1.synth.voices v).note = (s.synth.voices v).note ∧
      ((Update c s patch).1.synth.voices v).release = (s.synth.voices v).release) := by
  have hr := needsRefresh_iff s.bytePatch.Commands bytePatch.Commands
  by_cases hne : bytePatch.Commands = s.bytePatch.Commands
  · have hf : ¬ ((if !decide (bytePatch.Commands.length ≠ s.bytePatch.Commands.length) then
        commandsChanged s.bytePatch.Commands bytePatch.Commands 0
        else decide (bytePatch.Commands.length ≠ s.bytePatch.Commands.length)) = true) :=
      fun hh => hr.1 hh hne
    simp only [Update, h, hf]
    simp [hne]
  · have ht := hr.2 hne
    simp only [Update, h, ht]
    simp [hne, unit.zero]

theorem Update_installs_and_refreshes_witness :
    identityCompiler.Encode (levelPatch 96) = some (levelPatch 96) ∧
    (Update identityCompiler (Interpreter.fresh silencePatch 0) (levelPatch 96)).2 = none ∧
    (Update identityCompiler (Interpreter.fresh silencePatch 0) (levelPatch 96)).1.bytePatch
      = levelPatch 96 ∧
    ((levelPatch 96).Commands ≠ (Interpreter.fresh silencePatch 0).bytePatch.Commands →
      ∀ v u i,
        (((Update identityCompiler (Interpreter.fresh silencePatch 0)
          (levelPatch 96)).1.synth.voices v).units u).state i = 0 ∧
        (((Update identityCompiler (Interpreter.fresh silencePatch 0)
          (levelPatch 96)).1.synth.voices v).units u).ports i = 0) ∧
    ((levelPatch 96).Commands = (Interpreter.fresh silencePatch 0).bytePatch.Commands →
      ∀ v, ((Update identityCompiler (Interpreter.fresh silencePatch 0)
          (levelPatch 96)).1.synth.voices v).units
        = ((Interpreter.fresh silencePatch 0).synth.voices v).units) ∧
    (∀ v, ((Update identityCompiler (Interpreter.fresh silencePatch 0)
          (levelPatch 96)).1.synth.voices v).note
        = ((Interpreter.fresh silencePatch 0).synth.voices v).note ∧
      ((Update identityCompiler (Interpreter.fresh silencePatch 0)
          (levelPatch 96)).1.synth.voices v).release
        = ((Interpreter.fresh silencePatch 0).synth.voices v).release) :=
  ⟨rfl, Update_installs_and_refreshes identityCompiler (Interpreter.fresh silencePatch 0)
    (levelPatch 96) (levelPatch 96) rfl⟩

/-- C13: when compiling the patch fails, `Update` returns an error and the
interpreter (patch, stack, synth with its voices, delay lines) is exactly what
it was before the call. -/
theorem Update_error_keeps_state {Patch : Type} (c : PatchCompiler Patch)
    (s : Interpreter) (patch : Patch) (h : c.Encode patch = none) :
    (Update c s patch).2 = some UpdateError.compiling ∧ (Update c s patch).1 = s := by
  simp [Update, h]

theorem Update_error_keeps_state_witness :
    rejectingCompiler.Encode () = none ∧
    (Update rejectingCompiler (Interpreter.fresh silencePatch 0) ()).2
      = some UpdateError.compiling ∧
    (Update rejectingCompiler (Interpreter.fresh silencePatch 0) ()).1
      = Interpreter.fresh silencePatch 0 :=
  ⟨rfl, Update_error_keeps_state rejectingCompiler (Interpreter.fresh silencePatch 0) () rfl⟩

/-- C14, as stated, fails: `Trigger` with the voice index 32 does not return
normally, the index is outside the voice array. -/
theorem Trigger_out_of_range_faults :
    ¬ ∃ s', Trigger (Interpreter.fresh silencePatch 0) 32 60 = some s' := by
  simp [Trigger]

/-- C14, amended: `Trigger` returns normally exactly for the voice indices
0..31; for every other index the call is a runtime fault. -/
theorem Trigger_returns_iff_in_range (s : Interpreter) (voiceIndex : Int) (note : Nat) :
    (∃ s', Trigger s voiceIndex note = some s') ↔ (0 ≤ voiceIndex ∧ voiceIndex < 32) := by
  constructor
  · rintro ⟨s', hs⟩
    unfold Trigger at hs
    split at hs
    · rename_i h
      have : (voiceIndex.toNat : Int) = voiceIndex := Int.toNat_of_nonneg h.1
      have h2 : voiceIndex.toNat < 32 := h.2
      exact ⟨h.1, by omega⟩
    · exact absurd hs (by simp)
  · rintro ⟨h0, h1⟩
    have hlt := voiceIndex_toNat_lt h0 h1
    exact ⟨_, by rw [Trigger, dif_pos (And.intro h0 hlt)]⟩

/-! ## The stack primitives on a stack of known shape -/

theorem getElem?_after (xs ys : List ℚ) (k : Nat) : (xs ++ ys)[xs.length + k]? = ys[k]? := by
  rw [List.getElem?_append_right (Nat.le_add_right _ _), Nat.add_sub_cancel_left]

theorem getElem?_after_zero (xs ys : List ℚ) : (xs ++ ys)[xs.length]? = ys[0]? :=
  getElem?_after xs ys 0

theorem set_after (xs ys : List ℚ) (k : Nat) (v : ℚ) :
    (xs ++ ys).set (xs.length + k) v = xs ++ ys.set k v := by
  rw [List.set_append_right _ _ (Nat.le_add_right _ _), Nat.add_sub_cancel_left]

theorem set_after_zero (xs ys : List ℚ) (v : ℚ) :
    (xs ++ ys).set xs.length v = xs ++ ys.set 0 v :=
  set_after xs ys 0 v

theorem stackGet_eq (mc : Machine) (i : Int) (n : Nat) (v : ℚ) (hi : i = (n : Int))
    (h : mc.stack[n]? = some v) : stackGet i mc = (Except.ok v, mc) := by
  subst hi
  simp [stackGet, h]

theorem stackSet_eq (mc : Machine) (i : Int) (n : Nat) (v : ℚ) (hi : i = (n : Int))
    (h : n < mc.stack.length) :
    stackSet i v mc = (Except.ok (), { mc with stack := mc.stack.set n v }) := by
  subst hi
  simp [stackSet, h]

theorem stackTake_eq (mc : Machine) (i : Int) (n : Nat) (hi : i = (n : Int))
    (h : n ≤ mc.stack.length) :
    stackTake i mc = (Except.ok (), { mc with stack := mc.stack.take n }) := by
  subst hi
  simp [stackTake, h]

@[simp] theorem stackPush_run (mc : Machine) (v : ℚ) :
    stackPush v mc = (Except.ok (), { mc with stack := mc.stack ++ [v] }) := rfl

@[simp] theorem param_run (mc : Machine) (i : Fin 8) :
    param i mc = (Except.ok (mc.params i), mc) := rfl

@[simp] theorem stackLen_run (mc : Machine) :
    stackLen mc = (Except.ok (mc.stack.length : Int), mc) := rfl

/-- A unit of the form `stack[l-1] = f(stack[l-1])` on a stack with top `x`. -/
theorem mapTop_run (mc : Machine) (xs : List ℚ) (x : ℚ) (f : ℚ → ℚ)
    (h : mc.stack = xs ++ [x]) :
    (do stackSet ((mc.stack.length : Int) - 1) (f (← stackGet ((mc.stack.length : Int) - 1)))
      : Exec Machine Unit) mc
      = (Except.ok (), { mc with stack := xs ++ [f x] }) := by
  have hl : (mc.stack.length : Int) - 1 = (xs.length : Int) := by simp [h]
  simp only [bind_run]
  rw [stackGet_eq mc _ xs.length x hl (by simp [h])]
  simp only
  rw [stackSet_eq mc _ xs.length (f x) hl (by simp [h])]
  simp [h, set_after_zero]

theorem execPan_mono_run (mc : Machine) (xs : List ℚ) (x : ℚ) (h : mc.stack = xs ++ [x]) :
    execPan false (mc.stack.length : Int) mc
      = (Except.ok (), { mc with stack := xs ++ [x * mc.params 0, x * (1 - mc.params 0)] }) := by
  have hl : (mc.stack.length : Int) - 1 = (xs.length : Int) := by simp [h]
  have hl2 : (mc.stack.length : Int) + 1 - 2 = (xs.length : Int) := by
    rw [h, List.length_append, List.length_singleton]; push_cast; omega
  have hl1 : (mc.stack.length : Int) + 1 - 1 = ((xs.length + 1 : Nat) : Int) := by simp [h]
  simp only [execPan, bind_run, Bool.not_false, ↓reduceIte, pure_run, param_run, stackPush_run]
  rw [stackGet_eq mc _ xs.length x hl (by simp [h])]
  simp only
  rw [stackGet_eq _ _ xs.length x hl2 (by simp only [h, List.append_assoc, List.singleton_append, List.cons_append, List.nil_append, getElem?_after_zero, getElem?_after, set_after_zero, set_after, List.set_cons_zero, List.set_cons_succ, List.getElem?_cons_zero, List.getElem?_cons_succ])]
  simp only
  rw [stackSet_eq _ _ xs.length _ hl2 (by simp [h])]
  simp only
  rw [stackGet_eq _ _ (xs.length + 1) x hl1 (by simp only [h, List.append_assoc, List.singleton_append, List.cons_append, List.nil_append, getElem?_after_zero, getElem?_after, set_after_zero, set_after, List.set_cons_zero, List.set_cons_succ, List.getElem?_cons_zero, List.getElem?_cons_succ])]
  simp only
  rw [stackSet_eq _ _ (xs.length + 1) _ hl1 (by simp [h])]
  simp [h, set_after_zero, set_after]

theorem execGain_mono_run (mc : Machine) (xs : List ℚ) (x : ℚ) (h : mc.stack = xs ++ [x]) :
    execGain false (mc.stack.length : Int) mc
      = (Except.ok (), { mc with stack := xs ++ [x * mc.params 0] }) := by
  have hl : (mc.stack.length : Int) - 1 = (xs.length : Int) := by simp [h]
  simp only [execGain, bind_run, pure_run, param_run, Bool.false_eq_true, ↓reduceIte]
  rw [stackGet_eq mc _ xs.length x hl (by simp [h])]
  simp only
  rw [stackSet_eq mc _ xs.length _ hl (by simp [h])]
  simp [h, set_after_zero]

theorem execInvgain_mono_run (mc : Machine) (xs : List ℚ) (x : ℚ) (h : mc.stack = xs ++ [x]) :
    execInvgain false (mc.stack.length : Int) mc
      = (Except.ok (), { mc with stack := xs ++ [x / mc.params 0] }) := by
  have hl : (mc.stack.length : Int) - 1 = (xs.length : Int) := by simp [h]
  simp only [execInvgain, bind_run, pure_run, param_run, Bool.false_eq_true, ↓reduceIte]
  rw [stackGet_eq mc _ xs.length x hl (by simp [h])]
  simp only
  rw [stackSet_eq mc _ xs.length _ hl (by simp [h])]
  simp [h, set_after_zero]

theorem execClip_mono_run (mc : Machine) (xs : List ℚ) (x : ℚ) (h : mc.stack = xs ++ [x]) :
    execClip false (mc.stack.length : Int) mc
      = (Except.ok (), { mc with stack := xs ++ [clip x] }) := by
  have hl : (mc.stack.length : Int) - 1 = (xs.length : Int) := by simp [h]
  simp only [execClip, bind_run, pure_run, param_run, Bool.false_eq_true, ↓reduceIte]
  rw [stackGet_eq mc _ xs.length x hl (by simp [h])]
  simp only
  rw [stackSet_eq mc _ xs.length _ hl (by simp [h])]
  simp [h, set_after_zero]

theorem execCrush_mono_run (mc : Machine) (xs : List ℚ) (x : ℚ) (h : mc.stack = xs ++ [x]) :
    execCrush false (mc.stack.length : Int) mc
      = (Except.ok (), { mc with stack := xs ++ [crush x (mc.params 0)] }) := by
  have hl : (mc.stack.length : Int) - 1 = (xs.length : Int) := by simp [h]
  simp only [execCrush, bind_run, pure_run, param_run, Bool.false_eq_true, ↓reduceIte]
  rw [stackGet_eq mc _ xs.length x hl (by simp [h])]
  simp only
  rw [stackSet_eq mc _ xs.length _ hl (by simp [h])]
  simp [h, set_after_zero]

theorem execDistort_mono_run (mc : Machine) (xs : List ℚ) (x : ℚ) (h : mc.stack = xs ++ [x]) :
    execDistort false (mc.stack.length : Int) mc
      = (Except.ok (), { mc with stack := xs ++ [waveshape x (mc.params 0)] }) := by
  have hl : (mc.stack.length : Int) - 1 = (xs.length : Int) := by simp [h]
  simp only [execDistort, bind_run, pure_run, param_run, Bool.false_eq_true, ↓reduceIte]
  rw [stackGet_eq mc _ xs.length x hl (by simp [h])]
  simp only
  rw [stackSet_eq mc _ xs.length _ hl (by simp [h])]
  simp [h, set_after_zero]

/-- A non-empty stack has a top. -/
theorem stack_has_top (stack : List ℚ) (h : stack ≠ []) : ∃ xs x, stack = xs ++ [x] := by
  rcases List.eq_nil_or_concat stack with h' | ⟨xs, x, h'⟩
  · exact absurd h' h
  · exact ⟨xs, x, by simpa using h'⟩

/-- C15, as stated, fails: mono `pan` with parameter 1/4 on a stack with top 1
does not leave `1 * (1/4)` on top and `1 * (1 - 1/4)` below it. -/
theorem pan_mono_top_is_not_x_times_p :
    ¬ ((execPan false 5 (sampleMachine [0, 0, 0, 0, 1] (1 / 4) [])).2.stack
        = [0, 0, 0, 0] ++ [1 * (1 - 1 / 4), 1 * (1 / 4)]) := by
  rw [show ((5 : Int)) = ((sampleMachine [0, 0, 0, 0, 1] (1 / 4) []).stack.length : Int) from rfl,
    execPan_mono_run _ [0, 0, 0, 0] 1 rfl]
  simp only [sampleMachine]
  norm_num

/-- C15, amended: mono `pan` with effective parameter `p` on a stack with top `x`
succeeds and replaces the top by the pair `x * p`, `x * (1 - p)`: afterwards the
top of the stack is `x * (1 - p)` and the element below it is `x * p`. -/
theorem pan_mono_top_and_next (mc : Machine) (xs : List ℚ) (x : ℚ)
    (h : mc.stack = xs ++ [x]) :
    (execPan false (mc.stack.length : Int) mc).1 = Except.ok () ∧
    (execPan false (mc.stack.length : Int) mc).2.stack
      = xs ++ [x * mc.params 0, x * (1 - mc.params 0)] := by
  rw [execPan_mono_run mc xs x h]
  exact ⟨rfl, rfl⟩

theorem pan_mono_top_and_next_witness :
    (sampleMachine [0, 0, 0, 0, 1] (1 / 4) []).stack = [0, 0, 0, 0] ++ [1] ∧
    (execPan false ((sampleMachine [0, 0, 0, 0, 1] (1 / 4) []).stack.length : Int)
      (sampleMachine [0, 0, 0, 0, 1] (1 / 4) [])).1 = Except.ok () ∧
    (execPan false ((sampleMachine [0, 0, 0, 0, 1] (1 / 4) []).stack.length : Int)
      (sampleMachine [0, 0, 0, 0, 1] (1 / 4) [])).2.stack
      = [0, 0, 0, 0] ++ [1 * (sampleMachine [0, 0, 0, 0, 1] (1 / 4) []).params 0,
          1 * (1 - (sampleMachine [0, 0, 0, 0, 1] (1 / 4) []).params 0)] :=
  ⟨rfl, pan_mono_top_and_next (sampleMachine [0, 0, 0, 0, 1] (1 / 4) []) [0, 0, 0, 0] 1 rfl⟩

/-- C17, as stated, fails: mono `pan` on the stack `[0, 0, 0, 0]` does not keep
the stack depth. -/
theorem pan_mono_changes_depth :
    (execPan false 4 (sampleMachine [0, 0, 0, 0] 0 [])).2.stack.length
      ≠ (sampleMachine [0, 0, 0, 0] 0 []).stack.length := by
  rw [show ((4 : Int)) = ((sampleMachine [0, 0, 0, 0] 0 []).stack.length : Int) from rfl,
    execPan_mono_run _ [0, 0, 0] 0 rfl]
  simp [sampleMachine]

/-- C17, amended: on every non-empty stack the mono units `gain`, `invgain`,
`clip`, `crush` and `distortion` succeed and leave the stack depth unchanged;
mono `pan` succeeds and makes the stack one deeper. -/
theorem mono_transforms_depth (mc : Machine) (h : mc.stack ≠ []) :
    ((execGain false (mc.stack.length : Int) mc).1 = Except.ok () ∧
      (execGain false (mc.stack.length : Int) mc).2.stack.length = mc.stack.length) ∧
    ((execInvgain false (mc.stack.length : Int) mc).1 = Except.ok () ∧
      (execInvgain false (mc.stack.length : Int) mc).2.stack.length = mc.stack.length) ∧
    ((execClip false (mc.stack.length : Int) mc).1 = Except.ok () ∧
      (execClip false (mc.stack.length : Int) mc).2.stack.length = mc.stack.length) ∧
    ((execCrush false (mc.stack.length : Int) mc).1 = Except.ok () ∧
      (execCrush false (mc.stack.length : Int) mc).2.stack.length = mc.stack.length) ∧
    ((execDistort false (mc.stack.length : Int) mc).1 = Except.ok () ∧
      (execDistort false (mc.stack.length : Int) mc).2.stack.length = mc.stack.length) ∧
    ((execPan false (mc.stack.length : Int) mc).1 = Except.ok () ∧
      (execPan false (mc.stack.length : Int) mc).2.stack.length = mc.stack.length + 1) := by
  obtain ⟨xs, x, hx⟩ := stack_has_top mc.stack h
  rw [execGain_mono_run mc xs x hx, execInvgain_mono_run mc xs x hx, execClip_mono_run mc xs x hx,
    execCrush_mono_run mc xs x hx, execDistort_mono_run mc xs x hx, execPan_mono_run mc xs x hx]
  simp [hx]

theorem mono_transforms_depth_witness :
    (sampleMachine [0, 0, 0, 0] 0 []).stack ≠ [] ∧
    (execGain false ((sampleMachine [0, 0, 0, 0] 0 []).stack.length : Int)
      (sampleMachine [0, 0, 0, 0] 0 [])).2.stack.length = (sampleMachine [0, 0, 0, 0] 0 []).stack.length ∧
    (execPan false ((sampleMachine [0, 0, 0, 0] 0 []).stack.length : Int)
      (sampleMachine [0, 0, 0, 0] 0 [])).2.stack.length
      = (sampleMachine [0, 0, 0, 0] 0 []).stack.length + 1 :=
  have w := mono_transforms_depth (sampleMachine [0, 0, 0, 0] 0 []) (by simp [sampleMachine])
  ⟨by simp [sampleMachine], w.1.2, w.2.2.2.2.2.2⟩

@[simp] theorem loopFrom_zero {σ : Type} (body : Nat → Exec σ Unit) (i : Nat) :
    loopFrom body i 0 = pure () := rfl

@[simp] theorem loopFrom_succ {σ : Type} (body : Nat → Exec σ Unit) (i k : Nat) :
    loopFrom body i (k + 1) = (do body i; loopFrom body (i + 1) k) := rfl

/-! ## Voice and unit access with indices in range -/

theorem voiceAt_fin (mc : Machine) (v : Fin MAX_VOICES) :
    voiceAt v.val mc = (Except.ok (mc.synth.voices v), mc) := by
  simp [voiceAt]

theorem unitAt_fin (mc : Machine) (v : Fin MAX_VOICES) (u : Fin MAX_UNITS) :
    unitAt v.val u.val mc = (Except.ok ((mc.synth.voices v).units u), mc) := by
  simp [unitAt, voiceAt_fin]

theorem setUnitAt_fin (mc : Machine) (v : Fin MAX_VOICES) (u : Fin MAX_UNITS) (x : unit) :
    setUnitAt v.val u.val x mc = (Except.ok (), { mc with synth := { mc.synth with
      voices := Function.update mc.synth.voices v
        { mc.synth.voices v with units := Function.update (mc.synth.voices v).units u x } } }) := by
  simp [setUnitAt]

theorem portAt_fin (mc : Machine) (v : Fin MAX_VOICES) (u : Fin MAX_UNITS) (p : Fin 8) :
    portAt v.val u.val p.val mc = (Except.ok (((mc.synth.voices v).units u).ports p), mc) := by
  simp [portAt, unitAt_fin]

theorem setPortAt_fin (mc : Machine) (v : Fin MAX_VOICES) (u : Fin MAX_UNITS) (p : Fin 8)
    (q : ℚ) :
    setPortAt v.val u.val p.val q mc = (Except.ok (), { mc with synth := { mc.synth with
      voices := Function.update mc.synth.voices v
        { mc.synth.voices v with
          units := Function.update (mc.synth.voices v).units u
            { (mc.synth.voices v).units u with
              ports := Function.update ((mc.synth.voices v).units u).ports p q } } } }) := by
  simp [setPortAt, unitAt_fin, setUnitAt_fin]

/-- Mono `send` to a port of the sending voice, on a stack with top `x`. -/
theorem execSend_mono_local_run (mc : Machine) (xs : List ℚ) (x : ℚ)
    (addrLow addrHigh : Nat) (rest : List Nat) (v : Fin MAX_VOICES) (u : Fin MAX_UNITS) (p : Fin 8)
    (hstack : mc.stack = xs ++ [x])
    (hvalues : mc.values = addrLow :: addrHigh :: rest)
    (hlo : addrLow < 256) (hhi : addrHigh < 256)
    (hlocal : (addrHigh * 256 + addrLow) &&& 0x8000 = 0)
    (hv : v.val = mc.voices)
    (hu : u.val + 1 = ((addrHigh * 256 + addrLow) &&& 0x01F0) >>> 4)
    (hp : p.val = (addrHigh * 256 + addrLow) &&& 7) :
    execSend 1 (mc.stack.length : Int) mc = (Except.ok (),
      { mc with
        values := rest
        stack := if (addrHigh * 256 + addrLow) &&& 0x8 = 0x8 then xs else xs ++ [x]
        synth := { mc.synth with
          voices := Function.update mc.synth.voices v
            { mc.synth.voices v with
              units := Function.update (mc.synth.voices v).units u
                { (mc.synth.voices v).units u with
                  ports := Function.update ((mc.synth.voices v).units u).ports p
                    (((mc.synth.voices v).units u).ports p + x * (mc.params 0 * 2 - 1)) } } } }) := by
  have haddr : ((addrHigh <<< 8) % 65536 + addrLow) % 65536 = addrHigh * 256 + addrLow := by
    rw [Nat.shiftLeft_eq]
    omega
  have hl : (mc.stack.length : Int) - 1 - ((0 : Nat) : Int) = (xs.length : Int) := by simp [hstack]
  have hl1 : (mc.stack.length : Int) - ((1 : Nat) : Int) = (xs.length : Int) := by simp [hstack]
  have hul : u.val < 63 := u.isLt
  have hunit : (((addrHigh * 256 + addrLow) &&& 0x01F0) >>> 4 + 65536 - 1) % 65536 = u.val := by
    rw [← hu]; omega
  have hvl : mc.voices < 32 := hv ▸ v.isLt
  have hnb : ¬ ((addrHigh * 256 + addrLow) &&& 0x8000 = 0x8000) := by rw [hlocal]; decide
  simp only [execSend, bind_run, nextValue2, getM_run, hvalues, modifyM_run, pure_run, haddr, hnb,
    ↓reduceIte, hunit, ← hp, loopFrom_succ, loopFrom_zero, param_run, Nat.add_zero]
  rw [← hv, portAt_fin]
  simp only
  rw [stackGet_eq _ _ xs.length x hl (by simp [hstack])]
  simp only
  rw [setPortAt_fin]
  simp only
  by_cases hdrop : (addrHigh * 256 + addrLow) &&& 0x8 = 0x8
  · simp only [hdrop, ↓reduceIte]
    rw [stackTake_eq _ _ xs.length hl1 (by simp [hstack])]
    simp [hstack, hv]
  · simp only [hdrop, ↓reduceIte, pure_run]
    simp [hstack, hv]

theorem unit_field_pos (addr : Nat) (h : addr &&& 0x01F0 ≠ 0) :
    1 ≤ (addr &&& 0x01F0) >>> 4 ∧ (addr &&& 0x01F0) >>> 4 ≤ 31 := by
  have h16 : (addr &&& 0x01F0) % 16 = 0 := by
    have h0 : (0x01F0 &&& 15 : Nat) = 0 := by decide
    calc (addr &&& 0x01F0) % 16 = (addr &&& 0x01F0) &&& 15 :=
          (Nat.and_pow_two_sub_one_eq_mod _ 4).symm
      _ = addr &&& (0x01F0 &&& 15) := Nat.and_assoc _ _ _
      _ = 0 := by rw [h0, Nat.and_zero]
  have hle : addr &&& 0x01F0 ≤ 0x01F0 := Nat.and_le_right
  rw [Nat.shiftRight_eq_div_pow]
  omega

/-- The port `p` of unit `u` of voice `v`. -/
theorem send_target (addr voices : Nat) (h : addr &&& 0x01F0 ≠ 0) (hv : voices < MAX_VOICES) :
    ∃ (v : Fin MAX_VOICES) (u : Fin MAX_UNITS) (p : Fin 8),
      v.val = voices ∧ u.val + 1 = (addr &&& 0x01F0) >>> 4 ∧ p.val = addr &&& 7 := by
  obtain ⟨h1, h2⟩ := unit_field_pos addr h
  have hp : addr &&& 7 ≤ 7 := Nat.and_le_right
  refine ⟨⟨voices, hv⟩, ⟨(addr &&& 0x01F0) >>> 4 - 1, ?_⟩, ⟨addr &&& 7, by omega⟩, rfl, ?_, rfl⟩
  · show (addr &&& 0x01F0) >>> 4 - 1 < 63
    omega
  · show (addr &&& 0x01F0) >>> 4 - 1 + 1 = _
    omega

/-- C16: a mono `send` with a local address `addr` (bit 0x8000 clear, unit field
`addr & 0x01F0` non-zero) and amount `a = params[0]`, run by a voice in range on
a stack with top `x`, succeeds; it adds `x * (2a - 1)` to port `addr & 7` of unit
`((addr & 0x01F0) >> 4) - 1` of the sending voice and changes no other port of
any unit of any voice; the stack loses its top if bit 0x8 of `addr` is set and
is unchanged otherwise.  A second such send to the same address, run on the
resulting synth, leaves the sum of both contributions added to that port. -/
theorem send_mono_local (mc : Machine) (xs : List ℚ) (x : ℚ)
    (addrLow addrHigh addr : Nat) (rest : List Nat)
    (hstack : mc.stack = xs ++ [x])
    (hvalues : mc.values = addrLow :: addrHigh :: rest)
    (hlo : addrLow < 256) (hhi : addrHigh < 256)
    (haddr : addr = addrHigh * 256 + addrLow)
    (hlocal : addr &&& 0x8000 = 0)
    (hunit : addr &&& 0x01F0 ≠ 0)
    (hvoice : mc.voices < MAX_VOICES) :
    ∃ mc', execSend 1 (mc.stack.length : Int) mc = (Except.ok (), mc') ∧
      mc'.stack = (if addr &&& 0x8 = 0x8 then xs else xs ++ [x]) ∧
      (∀ (v : Fin MAX_VOICES) (u : Fin MAX_UNITS) (p : Fin 8),
        ((mc'.synth.voices v).units u).ports p = ((mc.synth.voices v).units u).ports p +
          (if v.val = mc.voices ∧ u.val + 1 = (addr &&& 0x01F0) >>> 4 ∧ p.val = addr &&& 7
            then x * (2 * mc.params 0 - 1) else 0)) ∧
      (∀ (mc2 : Machine) (ys : List ℚ) (y : ℚ) (rest2 : List Nat),
        mc2.synth = mc'.synth → mc2.voices = mc.voices → mc2.stack = ys ++ [y] →
        mc2.values = addrLow :: addrHigh :: rest2 →
        ∃ mc'', execSend 1 (mc2.stack.length : Int) mc2 = (Except.ok (), mc'') ∧
          ∀ (v : Fin MAX_VOICES) (u : Fin MAX_UNITS) (p : Fin 8),
            v.val = mc.voices → u.val + 1 = (addr &&& 0x01F0) >>> 4 → p.val = addr &&& 7 →
            ((mc''.synth.voices v).units u).ports p = ((mc.synth.voices v).units u).ports p +
              x * (2 * mc.params 0 - 1) + y * (2 * mc2.params 0 - 1)) := by
  subst haddr
  obtain ⟨tv, tu, tp, htv, htu, htp⟩ := send_target _ mc.voices hunit hvoice
  have key : ∀ (a b c : ℚ), a + b * (c * 2 - 1) = a + b * (2 * c - 1) := by intros; ring
  refine ⟨_, execSend_mono_local_run mc xs x addrLow addrHigh rest tv tu tp hstack hvalues hlo hhi
    hlocal htv htu htp, rfl, ?_, ?_⟩
  · intro v u p
    simp only
    by_cases hv : v = tv
    · subst hv
      by_cases hu : u = tu
      · subst hu
        by_cases hp : p = tp
        · subst hp
          simp [htv, htu, htp, key]
        · have : ¬ (p.val = (addrHigh * 256 + addrLow) &&& 7) := fun h => hp (Fin.ext (h.trans htp.symm))
          simp [Function.update_noteq hp, this]
      · have : ¬ (u.val + 1 = ((addrHigh * 256 + addrLow) &&& 0x01F0) >>> 4) :=
          fun h => hu (Fin.ext (by have := h.trans htu.symm; omega))
        simp [Function.update_noteq hu, this]
    · have : ¬ (v.val = mc.voices) := fun h => hv (Fin.ext (h.trans htv.symm))
      simp [Function.update_noteq hv, this]
  · intro mc2 ys y rest2 hsy hvo hst hva
    refine ⟨_, execSend_mono_local_run mc2 ys y addrLow addrHigh rest2 tv tu tp hst hva hlo hhi
      hlocal (htv.trans hvo.symm) htu htp, ?_⟩
    intro v u p hv hu hp
    have e1 : v = tv := Fin.ext (hv.trans htv.symm)
    have e2 : u = tu := Fin.ext (by have := hu.trans htu.symm; omega)
    have e3 : p = tp := Fin.ext (hp.trans htp.symm)
    subst e1 e2 e3
    simp [hsy, key]

theorem send_mono_local_witness :
    (sampleMachine [0, 0, 0, 0, 1] (3 / 4) [17, 0]).stack = [0, 0, 0, 0] ++ [1] ∧
    (sampleMachine [0, 0, 0, 0, 1] (3 / 4) [17, 0]).values = 17 :: 0 :: [] ∧
    (17 : Nat) = 0 * 256 + 17 ∧ (17 : Nat) &&& 0x8000 = 0 ∧ (17 : Nat) &&& 0x01F0 ≠ 0 ∧
    (sampleMachine [0, 0, 0, 0, 1] (3 / 4) [17, 0]).voices < MAX_VOICES ∧
    ∃ mc', execSend 1 ((sampleMachine [0, 0, 0, 0, 1] (3 / 4) [17, 0]).stack.length : Int)
        (sampleMachine [0, 0, 0, 0, 1] (3 / 4) [17, 0]) = (Except.ok (), mc') ∧
      mc'.stack = (if 17 &&& 0x8 = 0x8 then [0, 0, 0, 0] else [0, 0, 0, 0] ++ [1]) :=
  ⟨rfl, rfl, rfl, by decide, by decide, by decide,
    match send_mono_local (sampleMachine [0, 0, 0, 0, 1] (3 / 4) [17, 0])
      [0, 0, 0, 0] 1 17 0 17 [] rfl rfl (by decide) (by decide) rfl (by decide) (by decide)
      (by decide) with
    | ⟨mc', h1, h2, _⟩ => ⟨mc', h1, h2⟩⟩

/-! ## The random generator and the waveshaper -/

theorem rand_run (mc : Machine) :
    rand mc = (Except.ok (randValue (randNext mc.synth.randSeed)),
      { mc with synth := { mc.synth with randSeed := randNext mc.synth.randSeed } }) := rfl

theorem pow_16007_odd (n : Nat) : 16007 ^ n % 2 ^ 32 % 2 = 1 := by
  rw [Nat.mod_mod_of_dvd _ (by norm_num : 2 ∣ 2 ^ 32), Nat.pow_mod]
  simp

/-- C18: from `randSeed = 1`, after `n` calls of `synth.rand` the seed is
`16007 ^ n mod 2 ^ 32`, and it is not zero. -/
theorem randSeed_after_calls (mc : Machine) (h : mc.synth.randSeed = 1) (n : Nat) :
    ((fun s => (rand s).2)^[n] mc).synth.randSeed = 16007 ^ n % 2 ^ 32 ∧
    ((fun s => (rand s).2)^[n] mc).synth.randSeed ≠ 0 := by
  have key : ((fun s => (rand s).2)^[n] mc).synth.randSeed = 16007 ^ n % 2 ^ 32 := by
    induction n with
    | zero => simp [h]
    | succ k ih =>
      rw [Function.iterate_succ_apply', rand_run]
      simp only [ih, randNext]
      rw [Nat.mod_mul_mod, ← Nat.pow_succ]
  refine ⟨key, ?_⟩
  rw [key]
  intro h0
  have := pow_16007_odd n
  rw [h0] at this
  exact absurd this (by decide)

theorem randSeed_after_calls_witness :
    (sampleMachine [0, 0, 0, 0] 0 []).synth.randSeed = 1 ∧
    ((fun s => (rand s).2)^[2] (sampleMachine [0, 0, 0, 0] 0 [])).synth.randSeed
      = 16007 ^ 2 % 2 ^ 32 ∧
    ((fun s => (rand s).2)^[2] (sampleMachine [0, 0, 0, 0] 0 [])).synth.randSeed ≠ 0 :=
  ⟨rfl, randSeed_after_calls (sampleMachine [0, 0, 0, 0] 0 []) rfl 2⟩

/-- C19, as stated, fails: `waveshape(1/2, 0)` is `0`, not `1/2`. -/
theorem waveshape_amount_zero_not_identity : waveshape (1 / 2) 0 ≠ 1 / 2 := by
  simp [waveshape]

/-- C19, amended: `waveshape` is the identity at the amount `1/2`, for every
input; at the amount `0` it gives `0` for every input `x` with `|x| ≠ 1`. -/
theorem waveshape_identity_at_half (x : ℚ) :
    waveshape x (1 / 2) = x ∧ (|x| ≠ 1 → waveshape x 0 = 0) := by
  constructor
  · simp only [waveshape]
    norm_num
  · intro _
    simp [waveshape]

theorem waveshape_identity_at_half_witness :
    waveshape (1 / 3) (1 / 2) = 1 / 3 ∧ (|(1 / 3 : ℚ)| ≠ 1 ∧ waveshape (1 / 3) 0 = 0) :=
  ⟨(waveshape_identity_at_half (1 / 3)).1,
    by rw [abs_of_nonneg (by norm_num)]; norm_num,
    (waveshape_identity_at_half (1 / 3)).2 (by rw [abs_of_nonneg (by norm_num)]; norm_num)⟩

/-- C20: for every amount `a` with `0 < a < 1`, `waveshape(1, a) = 1` and
`waveshape(-1, a) = -1`, the arithmetic being exact. -/
theorem waveshape_fixes_endpoints (a : ℚ) (h0 : 0 < a) (_h1 : a < 1) :
    waveshape 1 a = 1 ∧ waveshape (-1) a = -1 := by
  have ha : a ≠ 0 := ne_of_gt h0
  constructor
  · show (1 : ℚ) * a / (1 - a + (2 * a - 1) * (if (1 : ℚ) < 0 then -1 else 1)) = 1
    rw [if_neg (by norm_num), show (1 - a + (2 * a - 1) * 1) = a by ring, one_mul, div_self ha]
  · show (-1 : ℚ) * a / (1 - a + (2 * a - 1) * (if (-1 : ℚ) < 0 then - -1 else -1)) = -1
    rw [if_pos (by norm_num), show (1 - a + (2 * a - 1) * - -1) = a by ring, mul_div_assoc,
      div_self ha, mul_one]

theorem waveshape_fixes_endpoints_witness :
    ((0 : ℚ) < 1 / 4 ∧ (1 / 4 : ℚ) < 1) ∧ waveshape 1 (1 / 4) = 1 ∧ waveshape (-1) (1 / 4) = -1 :=
  ⟨⟨by norm_num, by norm_num⟩, waveshape_fixes_endpoints (1 / 4) (by norm_num) (by norm_num)⟩

/-- C10: for a voice index in 0..31, `Trigger` returns normally; afterwards that
voice has the given note, a cleared release flag and the state and ports of all
its units equal to zero, and every other voice, the output bus, the seed, the
clock, the patch, the stack and the delay lines are what they were. -/
theorem Trigger_resets_voice (s : Interpreter) (voiceIndex : Int) (note : Nat)
    (h0 : 0 ≤ voiceIndex) (h1 : voiceIndex < 32) :
    ∃ s', Trigger s voiceIndex note = some s' ∧
      (∀ v : Fin MAX_VOICES, (v.val : Int) = voiceIndex →
        (s'.synth.voices v).note = note ∧
        (s'.synth.voices v).release = false ∧
        ∀ (u : Fin MAX_UNITS) (i : Fin 8),
          ((s'.synth.voices v).units u).state i = 0 ∧ ((s'.synth.voices v).units u).ports i = 0) ∧
      (∀ v : Fin MAX_VOICES, (v.val : Int) ≠ voiceIndex → s'.synth.voices v = s.synth.voices v) ∧
      s'.synth.outputs = s.synth.outputs ∧
      s'.synth.randSeed = s.synth.randSeed ∧
      s'.synth.globalTime = s.synth.globalTime ∧
      s'.bytePatch = s.bytePatch ∧
      s'.stack = s.stack ∧
      s'.delaylines = s.delaylines := by
  have hlt := voiceIndex_toNat_lt h0 h1
  have hcast : (voiceIndex.toNat : Int) = voiceIndex := Int.toNat_of_nonneg h0
  have key : Trigger s voiceIndex note = some { s with synth := { s.synth with
      voices := Function.update s.synth.voices ⟨voiceIndex.toNat, hlt⟩
        { voice.zero with note := note } } } := by
    simp only [Trigger, dif_pos (And.intro h0 hlt)]
  refine ⟨_, key, ?_, ?_, rfl, rfl, rfl, rfl, rfl, rfl⟩
  · intro v hv
    have : v = ⟨voiceIndex.toNat, hlt⟩ := Fin.ext (by simp only; omega)
    subst this
    simp [voice.zero, unit.zero]
  · intro v hv
    have : v ≠ ⟨voiceIndex.toNat, hlt⟩ := fun h => hv (by rw [h]; exact hcast)
    simp [Function.update_noteq this]

theorem Trigger_resets_voice_witness :
    ((0 : Int) ≤ 3 ∧ (3 : Int) < 32) ∧
    ∃ s', Trigger (Interpreter.fresh silencePatch 0) 3 64 = some s' ∧
      (∀ v : Fin MAX_VOICES, (v.val : Int) = 3 →
        (s'.synth.voices v).note = 64 ∧
        (s'.synth.voices v).release = false ∧
        ∀ (u : Fin MAX_UNITS) (i : Fin 8),
          ((s'.synth.voices v).units u).state i = 0 ∧ ((s'.synth.voices v).units u).ports i = 0) ∧
      (∀ v : Fin MAX_VOICES, (v.val : Int) ≠ 3 →
        s'.synth.voices v = (Interpreter.fresh silencePatch 0).synth.voices v) ∧
      s'.synth.outputs = (Interpreter.fresh silencePatch 0).synth.outputs ∧
      s'.synth.randSeed = (Interpreter.fresh silencePatch 0).synth.randSeed ∧
      s'.synth.globalTime = (Interpreter.fresh silencePatch 0).synth.globalTime ∧
      s'.bytePatch = (Interpreter.fresh silencePatch 0).bytePatch ∧
      s'.stack = (Interpreter.fresh silencePatch 0).stack ∧
      s'.delaylines = (Interpreter.fresh silencePatch 0).delaylines :=
  ⟨⟨by decide, by decide⟩,
    Trigger_resets_voice (Interpreter.fresh silencePatch 0) 3 64 (by decide) (by decide)⟩

/-! ## The loop of `Render` -/

theorem onMachine_run {α : Type} (x : Exec Machine α) (st : RenderState) :
    onMachine x st = ((x st.machine).1, { st with machine := (x st.machine).2 }) := rfl

theorem renderLoop_cons (m : MathLib) (bp : BytePatch) (maxtime : Int) (b0 b1 : ℚ)
    (rest : List ℚ) (st : RenderState) :
    renderLoop m bp maxtime (b0 :: b1 :: rest) st =
      if st.machine.time < maxtime then
        (do beginSample bp
            onMachine (voiceLoop m bp bp.NumVoices bp.Commands bp.Commands bp.Values)
            endSample rest
            renderLoop m bp maxtime rest : Exec RenderState Unit) st
      else (Except.ok (), st) := by
  show (do if (← getM).machine.time < maxtime then
            beginSample bp
            onMachine (voiceLoop m bp bp.NumVoices bp.Commands bp.Commands bp.Values)
            endSample rest
            renderLoop m bp maxtime rest : Exec RenderState Unit) st = _
  simp only [bind_run, getM_run]
  split <;> rfl

theorem renderLoop_short (m : MathLib) (bp : BytePatch) (maxtime : Int) (buf : List ℚ)
    (h : ∀ (b0 b1 : ℚ) (rest : List ℚ), buf = b0 :: b1 :: rest → False) (st : RenderState) :
    renderLoop m bp maxtime buf st = (Except.ok (), st) := by
  match buf, h with
  | [], _ => rfl
  | [_], _ => rfl
  | b0 :: b1 :: rest, h => exact absurd rfl (fun e => h b0 b1 rest e)

theorem beginSample_nosync (bp : BytePatch) (st : RenderState)
    (h : ¬ st.machine.synth.globalTime % 256 = 0) :
    beginSample bp st = (Except.ok (), { st with machine := { st.machine with
      values := bp.Values, delaylines := 0, voices := 0, units := 0 } }) := by
  simp [beginSample, onMachine_run, h]

theorem beginSample_sync (bp : BytePatch) (st : RenderState) (v : ℚ) (rest : List ℚ)
    (h : st.machine.synth.globalTime % 256 = 0) (hsb : st.machine.syncBuf = v :: rest) :
    beginSample bp st = (Except.ok (), { st with
      machine := { st.machine with
        values := bp.Values, delaylines := 0, voices := 0, units := 0
        syncDone := st.machine.syncDone ++ [(st.machine.time : ℚ)], syncBuf := rest }
      syncs := st.syncs + 1 }) := by
  simp [beginSample, onMachine_run, h, hsb]

theorem beginSample_fault (bp : BytePatch) (st : RenderState)
    (h : st.machine.synth.globalTime % 256 = 0) (hsb : st.machine.syncBuf = []) :
    beginSample bp st = (Except.error RenderError.panicked, { st with machine := { st.machine with
      values := bp.Values, delaylines := 0, voices := 0, units := 0 } }) := by
  simp [beginSample, onMachine_run, h, hsb]

/-- The start of a sample leaves the frames and the sample counter alone. -/
theorem beginSample_frame (bp : BytePatch) (st : RenderState) :
    (beginSample bp st).2.bufDone = st.bufDone ∧ (beginSample bp st).2.buffer = st.buffer ∧
    (beginSample bp st).2.samples = st.samples := by
  by_cases h : st.machine.synth.globalTime % 256 = 0
  · cases hsb : st.machine.syncBuf with
    | nil => rw [beginSample_fault bp st h hsb]; exact ⟨rfl, rfl, rfl⟩
    | cons v rest => rw [beginSample_sync bp st v rest h hsb]; exact ⟨rfl, rfl, rfl⟩
  · rw [beginSample_nosync bp st h]; exact ⟨rfl, rfl, rfl⟩

/-- The end of a sample: an error with the state kept, or one more frame. -/
theorem endSample_cases (rest : List ℚ) (st : RenderState) :
    (st.machine.stack.length < 4 ∧ endSample rest st = (Except.error RenderError.stackUnderflow, st)) ∨
    (st.machine.stack.length > 4 ∧ endSample rest st = (Except.error RenderError.stackNotEmpty, st)) ∨
    (st.machine.stack.length = 4 ∧ endSample rest st = (Except.ok (),
      { machine := { st.machine with
          synth := { st.machine.synth with
            outputs := Function.update (Function.update st.machine.synth.outputs 0 0) 1 0
            globalTime := (st.machine.synth.globalTime + 1) % 2 ^ 32 }
          time := st.machine.time + 1 }
        bufDone := st.bufDone ++ [st.machine.synth.outputs 0, st.machine.synth.outputs 1]
        buffer := rest
        samples := st.samples + 1
        syncs := st.syncs })) := by
  simp only [endSample, bind_run, getM_run]
  by_cases h1 : st.machine.stack.length < 4
  · left; simp [h1]
  · by_cases h2 : st.machine.stack.length > 4
    · right; left; simp [h1, h2]
    · right; right
      refine ⟨by omega, ?_⟩
      simp [h1, h2]



/-- The end of a sample, for the frames: an error with the state kept, or two
more floats written and one more sample counted. -/
theorem endSample_frame (rest : List ℚ) (st : RenderState) :
    (∃ e, endSample rest st = (Except.error e, st)) ∨
    (∃ st3 a b, endSample rest st = (Except.ok (), st3) ∧ st3.buffer = rest ∧
      st3.samples = st.samples + 1 ∧ st3.bufDone = st.bufDone ++ [a, b]) := by
  rcases endSample_cases rest st with ⟨_, he⟩ | ⟨_, he⟩ | ⟨_, he⟩
  · exact Or.inl ⟨_, he⟩
  · exact Or.inl ⟨_, he⟩
  · exact Or.inr ⟨_, _, _, he, rfl, rfl, rfl⟩

/-- Induction on a buffer two floats at a time. -/
theorem buffer_induction {P : List ℚ → Prop}
    (hshort : ∀ buf : List ℚ, (∀ (b0 b1 : ℚ) (rest : List ℚ), buf = b0 :: b1 :: rest → False) → P buf)
    (hcons : ∀ (b0 b1 : ℚ) (rest : List ℚ), P rest → P (b0 :: b1 :: rest)) :
    ∀ buf : List ℚ, P buf
  | [] => hshort [] (fun _ _ _ h => by simp at h)
  | [_] => hshort _ (fun _ _ _ h => by simp at h)
  | b0 :: b1 :: rest => hcons b0 b1 rest (buffer_induction hshort hcons rest)

/-- What the loop of `Render` does to the frames: it completes some number `k`
of samples, appends `2 * k` floats to the frames written and drops as many from
the buffer ahead; when it ends without an error the loop condition is false. -/
theorem renderLoop_prefix (m : MathLib) (bp : BytePatch) (maxtime : Int) :
    ∀ (buf : List ℚ) (st : RenderState), st.buffer = buf →
      ∃ (k : Nat) (fr : List ℚ),
        (renderLoop m bp maxtime buf st).2.samples = st.samples + k ∧
        (renderLoop m bp maxtime buf st).2.bufDone = st.bufDone ++ fr ∧
        fr.length = 2 * k ∧
        (renderLoop m bp maxtime buf st).2.buffer = buf.drop (2 * k) ∧
        2 * k ≤ buf.length ∧
        ((renderLoop m bp maxtime buf st).1 = Except.ok () →
          maxtime ≤ (renderLoop m bp maxtime buf st).2.machine.time ∨ buf.length < 2 * k + 2) := by
  intro buf
  induction buf using buffer_induction with
  | hcons b0 b1 rest ih =>
    intro st hst
    rw [renderLoop_cons]
    by_cases ht : st.machine.time < maxtime
    · rw [if_pos ht]
      simp only [bind_run]
      obtain ⟨hb1, hb2, hb3⟩ := beginSample_frame bp st
      cases hb : beginSample bp st with
      | mk r1 st1 =>
        rw [hb] at hb1 hb2 hb3
        simp only at hb1 hb2 hb3
        cases r1 with
        | error e =>
          exact ⟨0, [], by simp [hb3], by simp [hb1], rfl, by simp [hb2, hst], by simp,
            by intro h; exact absurd h (by simp)⟩
        | ok u =>
          simp only [onMachine_run]
          cases hv : (voiceLoop m bp bp.NumVoices bp.Commands bp.Commands bp.Values st1.machine).1 with
          | error e =>
            exact ⟨0, [], by simp [hb3], by simp [hb1], rfl, by simp [hb2, hst], by simp,
              by intro h; exact absurd h (by simp)⟩
          | ok u2 =>
            simp only
            rcases endSample_frame rest { st1 with machine :=
              (voiceLoop m bp bp.NumVoices bp.Commands bp.Commands bp.Values st1.machine).2 }
              with ⟨e, he⟩ | ⟨st3, a, b, he, he1, he2, he3⟩
            · rw [he]
              exact ⟨0, [], by simp [hb3], by simp [hb1], rfl, by simp [hb2, hst], by simp,
                by intro h; exact absurd h (by simp)⟩
            · rw [he]
              simp only
              obtain ⟨k, fr, h1, h2, h3, h4, h5, h6⟩ := ih st3 he1
              refine ⟨k + 1, a :: b :: fr, ?_, ?_, ?_, ?_, ?_, ?_⟩
              · rw [h1, he2]; simp only [hb3]; omega
              · rw [h2, he3]; simp [hb1]
              · simp [h3]; omega
              · rw [h4]
                have : 2 * (k + 1) = 2 * k + 2 := by omega
                rw [this]
                rfl
              · simp; omega
              · intro hok
                rcases h6 hok with h | h
                · exact Or.inl h
                · exact Or.inr (by simp; omega)
    · rw [if_neg ht]
      exact ⟨0, [], by simp, by simp, rfl, by simp [hst], by simp,
        fun _ => Or.inl (by simpa using ht)⟩
  | hshort buf hshort =>
    intro st hst
    rw [renderLoop_short m bp maxtime buf hshort]
    refine ⟨0, [], by simp, by simp, rfl, by simp [hst], by simp, fun _ => Or.inr ?_⟩
    match buf, hshort with
    | [], _ => simp
    | [_], _ => simp
    | b0 :: b1 :: rest, h => exact absurd rfl (fun e => h b0 b1 rest e)

/-- C3: `Render` returns `samples ≤ len(buffer)/2`, it leaves the length of the
buffer and every element at an index `≥ 2 * samples` as they were, and when it
returns no error the loop condition is false: `time ≥ maxtime`, or fewer than 2
floats of the buffer are left (`samples = len(buffer)/2`). -/
theorem Render_writes_prefix (m : MathLib) (s : Interpreter) (buffer syncBuf : List ℚ)
    (maxtime : Int) :
    (Render m s buffer syncBuf maxtime).samples ≤ buffer.length / 2 ∧
    (Render m s buffer syncBuf maxtime).buffer.length = buffer.length ∧
    (∀ i, 2 * (Render m s buffer syncBuf maxtime).samples ≤ i →
      (Render m s buffer syncBuf maxtime).buffer[i]? = buffer[i]?) ∧
    ((Render m s buffer syncBuf maxtime).renderError = none →
      maxtime ≤ (Render m s buffer syncBuf maxtime).time ∨
      (Render m s buffer syncBuf maxtime).samples = buffer.length / 2) := by
  obtain ⟨k, fr, h1, h2, h3, h4, h5, h6⟩ :=
    renderLoop_prefix m s.bytePatch maxtime buffer (renderInit s buffer syncBuf) rfl
  have hs : (Render m s buffer syncBuf maxtime).samples
      = (renderLoop m s.bytePatch maxtime buffer (renderInit s buffer syncBuf)).2.samples := rfl
  have hb : (Render m s buffer syncBuf maxtime).buffer
      = (renderLoop m s.bytePatch maxtime buffer (renderInit s buffer syncBuf)).2.bufDone
        ++ (renderLoop m s.bytePatch maxtime buffer (renderInit s buffer syncBuf)).2.buffer := rfl
  have ht : (Render m s buffer syncBuf maxtime).time
      = (renderLoop m s.bytePatch maxtime buffer (renderInit s buffer syncBuf)).2.machine.time := rfl
  have hk : (Render m s buffer syncBuf maxtime).samples = k := by
    rw [hs, h1]; simp [renderInit]
  have hfr : (renderLoop m s.bytePatch maxtime buffer (renderInit s buffer syncBuf)).2.bufDone = fr := by
    rw [h2]; simp [renderInit]
  refine ⟨by rw [hk]; omega, ?_, ?_, ?_⟩
  · rw [hb, hfr, h4, List.length_append, List.length_drop, h3]; omega
  · intro i hi
    rw [hk] at hi
    rw [hb, hfr, h4, List.getElem?_append_right (by omega), h3, List.getElem?_drop]
    congr 1
    omega
  · intro hnone
    have hok : (renderLoop m s.bytePatch maxtime buffer (renderInit s buffer syncBuf)).1
        = Except.ok () := by
      have : (Render m s buffer syncBuf maxtime).renderError
          = match (renderLoop m s.bytePatch maxtime buffer (renderInit s buffer syncBuf)).1 with
            | Except.ok _ => none
            | Except.error e => some e := rfl
      rw [this] at hnone
      cases hr : (renderLoop m s.bytePatch maxtime buffer (renderInit s buffer syncBuf)).1 with
      | ok u => rfl
      | error e => rw [hr] at hnone; exact absurd hnone (by simp)
    rcases h6 hok with h | h
    · exact Or.inl (by rw [ht]; exact h)
    · exact Or.inr (by rw [hk]; omega)

/-- C4: in a turn of the loop of `Render` whose start and voice loop succeed,
the sample is completed (frame appended, `samples` incremented, the loop goes
on) only if the stack depth after the voice loop is 4; with a depth below 4
`Render` ends with `stack underflow`, above 4 with `stack not empty`, in both
cases in the state the voice loop left, whose frames and sample count are those
of the start of the turn.  On a fresh interpreter `pop; advance` gives
`stack underflow` and `loadval; advance` gives `stack not empty`, both with
`samples = 0` and the buffer untouched. -/
theorem stack_depth_check (m : MathLib) (bp : BytePatch) (maxtime : Int) (b0 b1 : ℚ)
    (rest : List ℚ) (st st1 : RenderState) (mc2 : Machine)
    (ht : st.machine.time < maxtime)
    (hb : beginSample bp st = (Except.ok (), st1))
    (hv : voiceLoop m bp bp.NumVoices bp.Commands bp.Commands bp.Values st1.machine
      = (Except.ok (), mc2)) :
    (mc2.stack.length < 4 →
      renderLoop m bp maxtime (b0 :: b1 :: rest) st
        = (Except.error RenderError.stackUnderflow, { st1 with machine := mc2 })) ∧
    (mc2.stack.length > 4 →
      renderLoop m bp maxtime (b0 :: b1 :: rest) st
        = (Except.error RenderError.stackNotEmpty, { st1 with machine := mc2 })) ∧
    (mc2.stack.length = 4 →
      renderLoop m bp maxtime (b0 :: b1 :: rest) st
        = renderLoop m bp maxtime rest
          { machine := { mc2 with
              synth := { mc2.synth with
                outputs := Function.update (Function.update mc2.synth.outputs 0 0) 1 0
                globalTime := (mc2.synth.globalTime + 1) % 2 ^ 32 }
              time := mc2.time + 1 }
            bufDone := st.bufDone ++ [mc2.synth.outputs 0, mc2.synth.outputs 1]
            buffer := rest
            samples := st.samples + 1
            syncs := st1.syncs }) ∧
    (st1.samples = st.samples ∧ st1.bufDone = st.bufDone ∧ st1.buffer = st.buffer) ∧
    ((Render m (Interpreter.fresh popPatch 0) [7, 7] [0] 1).renderError
        = some RenderError.stackUnderflow ∧
      (Render m (Interpreter.fresh popPatch 0) [7, 7] [0] 1).samples = 0 ∧
      (Render m (Interpreter.fresh popPatch 0) [7, 7] [0] 1).buffer = [7, 7]) ∧
    ((Render m (Interpreter.fresh (loadvalPatch [96]) 0) [7, 7] [0] 1).renderError
        = some RenderError.stackNotEmpty ∧
      (Render m (Interpreter.fresh (loadvalPatch [96]) 0) [7, 7] [0] 1).samples = 0 ∧
      (Render m (Interpreter.fresh (loadvalPatch [96]) 0) [7, 7] [0] 1).buffer = [7, 7]) := by
  obtain ⟨hf1, hf2, hf3⟩ := beginSample_frame bp st
  rw [hb] at hf1 hf2 hf3
  simp only at hf1 hf2 hf3
  have hloop : ∀ r, endSample rest { st1 with machine := mc2 } = r →
      renderLoop m bp maxtime (b0 :: b1 :: rest) st
        = match r with
          | (Except.ok _, s') => renderLoop m bp maxtime rest s'
          | (Except.error e, s') => (Except.error e, s') := by
    intro r hr
    rw [renderLoop_cons, if_pos ht]
    simp only [bind_run, hb, onMachine_run, hv]
    rw [hr]
    rcases r with ⟨_ | _, s'⟩ <;> rfl
  refine ⟨?_, ?_, ?_, ⟨hf3, hf1, hf2⟩, ⟨rfl, rfl, rfl⟩, ⟨rfl, rfl, rfl⟩⟩
  · intro h
    rcases endSample_cases rest { st1 with machine := mc2 } with ⟨_, he⟩ | ⟨h', _⟩ | ⟨h', _⟩
    · rw [hloop _ he]
    · exact absurd h (by simp only at h'; omega)
    · exact absurd h (by simp only at h'; omega)
  · intro h
    rcases endSample_cases rest { st1 with machine := mc2 } with ⟨h', _⟩ | ⟨_, he⟩ | ⟨h', _⟩
    · exact absurd h (by simp only at h'; omega)
    · rw [hloop _ he]
    · exact absurd h (by simp only at h'; omega)
  · intro h
    rcases endSample_cases rest { st1 with machine := mc2 } with ⟨h', _⟩ | ⟨h', _⟩ | ⟨_, he⟩
    · exact absurd h (by simp only at h'; omega)
    · exact absurd h (by simp only at h'; omega)
    · rw [hloop _ he]
      simp only [hf1, hf3]

theorem stack_depth_check_witness :
    (renderInit (Interpreter.fresh popPatch 0) [7, 7] [0]).machine.time < 1 ∧
    beginSample popPatch (renderInit (Interpreter.fresh popPatch 0) [7, 7] [0])
      = (Except.ok (), (beginSample popPatch (renderInit (Interpreter.fresh popPatch 0) [7, 7] [0])).2) ∧
    ((voiceLoop sampleMath popPatch popPatch.NumVoices popPatch.Commands popPatch.Commands
        popPatch.Values
        (beginSample popPatch (renderInit (Interpreter.fresh popPatch 0) [7, 7] [0])).2.machine).2.stack.length
        < 4) ∧
    renderLoop sampleMath popPatch 1 (7 :: 7 :: []) (renderInit (Interpreter.fresh popPatch 0) [7, 7] [0])
      = (Except.error RenderError.stackUnderflow,
        { (beginSample popPatch (renderInit (Interpreter.fresh popPatch 0) [7, 7] [0])).2 with
          machine := (voiceLoop sampleMath popPatch popPatch.NumVoices popPatch.Commands
            popPatch.Commands popPatch.Values
            (beginSample popPatch
              (renderInit (Interpreter.fresh popPatch 0) [7, 7] [0])).2.machine).2 }) :=
  ⟨by decide, rfl, by decide,
    (stack_depth_check sampleMath popPatch 1 7 7 []
      (renderInit (Interpreter.fresh popPatch 0) [7, 7] [0])
      (beginSample popPatch (renderInit (Interpreter.fresh popPatch 0) [7, 7] [0])).2
      (voiceLoop sampleMath popPatch popPatch.NumVoices popPatch.Commands popPatch.Commands
        popPatch.Values
        (beginSample popPatch (renderInit (Interpreter.fresh popPatch 0) [7, 7] [0])).2.machine).2
      (by decide) rfl rfl).1 (by decide)⟩

/-- C9: when the dispatch loop is at a command byte `op` that is not an advance,
its opcode has the transform count `tcount` and the value stream holds fewer
than `tcount` bytes, the turn of the loop ends with `value stream ended
prematurely` and the state is the one before the command: nothing of the unit
has run.  An error of the voice loop ends `Render` with that error and the
counters reached.  `Commands = [loadval, advance]` with no values fails this way
with `samples = 0`. -/
theorem value_stream_check (m : MathLib) (bp : BytePatch) (op tcount : Nat)
    (commands commandInstr valuesInstr : List Nat) (voicesRemaining : Nat) (mc : Machine)
    (hop : (op &&& 0xFE) >>> 1 ≠ 0)
    (htc : transformCounts.get? ((op &&& 0xFE) >>> 1 - 1) = some tcount)
    (hval : mc.values.length < tcount) :
    execUnit m bp op mc = (Except.error RenderError.valueStreamEnded, mc) ∧
    unitLoop m bp (op :: commands) mc = (Except.error RenderError.valueStreamEnded, mc) ∧
    voiceLoop m bp (voicesRemaining + 1) (op :: commands) commandInstr valuesInstr mc
      = (Except.error RenderError.valueStreamEnded, mc) ∧
    (∀ (maxtime : Int) (b0 b1 : ℚ) (rest : List ℚ) (st st1 : RenderState) (e : RenderError)
        (mc' : Machine),
      st.machine.time < maxtime → beginSample bp st = (Except.ok (), st1) →
      voiceLoop m bp bp.NumVoices bp.Commands bp.Commands bp.Values st1.machine
        = (Except.error e, mc') →
      renderLoop m bp maxtime (b0 :: b1 :: rest) st
          = (Except.error e, { st1 with machine := mc' }) ∧
        st1.samples = st.samples) ∧
    ((Render m (Interpreter.fresh (loadvalPatch []) 0) [7, 7] [0] 1).renderError
        = some RenderError.valueStreamEnded ∧
      (Render m (Interpreter.fresh (loadvalPatch []) 0) [7, 7] [0] 1).samples = 0 ∧
      (Render m (Interpreter.fresh (loadvalPatch []) 0) [7, 7] [0] 1).syncs = 1 ∧
      (Render m (Interpreter.fresh (loadvalPatch []) 0) [7, 7] [0] 1).time = 0) := by
  have h1 : execUnit m bp op mc = (Except.error RenderError.valueStreamEnded, mc) := by
    simp only [execUnit, htc, bind_run, getM_run, hval, ↓reduceIte, fail_run]
  have h2 : unitLoop m bp (op :: commands) mc
      = (Except.error RenderError.valueStreamEnded, mc) := by
    rw [unitLoop, if_neg hop]
    simp only [bind_run, h1]
  refine ⟨h1, h2, ?_, ?_, ⟨rfl, rfl, rfl, rfl⟩⟩
  · rw [voiceLoop]
    simp only [bind_run, h2]
  · intro maxtime b0 b1 rest st st1 e mc' ht hb hv
    refine ⟨?_, ?_⟩
    · rw [renderLoop_cons, if_pos ht]
      simp only [bind_run, hb, onMachine_run, hv]
    · have := (beginSample_frame bp st).2.2
      rw [hb] at this
      exact this

theorem value_stream_check_witness :
    ((opLoadval * 2 &&& 0xFE) >>> 1 ≠ 0 ∧
      transformCounts.get? ((opLoadval * 2 &&& 0xFE) >>> 1 - 1) = some 1 ∧
      (sampleMachine [0, 0, 0, 0] 0 []).values.length < 1) ∧
    execUnit sampleMath (loadvalPatch []) (opLoadval * 2) (sampleMachine [0, 0, 0, 0] 0 [])
      = (Except.error RenderError.valueStreamEnded, sampleMachine [0, 0, 0, 0] 0 []) :=
  ⟨⟨by decide, by decide, by decide⟩,
    (value_stream_check sampleMath (loadvalPatch []) (opLoadval * 2) 1 [0] [] [] 0
      (sampleMachine [0, 0, 0, 0] 0 []) (by decide) (by decide) (by decide)).1⟩

/-- C8, at the limit: with 32 voices sharing the empty instrument, `Render` on a
fresh interpreter ends with a runtime fault before the first sample is
completed. -/
theorem Render_32_voices_faults (m : MathLib) :
    (Render m (Interpreter.fresh (sharedSilencePatch 32) 0) [7, 7] [0] 1).renderError
      = some RenderError.panicked ∧
    (Render m (Interpreter.fresh (sharedSilencePatch 32) 0) [7, 7] [0] 1).samples = 0 ∧
    (Render m (Interpreter.fresh (sharedSilencePatch 31) 0) [7, 7] [0] 1).renderError = none ∧
    (Render m (Interpreter.fresh (sharedSilencePatch 31) 0) [7, 7] [0] 1).samples = 1 :=
  ⟨rfl, rfl, rfl, rfl⟩

/-! ## The parameter loop -/

theorem update_below (A P : Fin 8 → ℚ) (i : Nat) (hi : i < 8) (a : ℚ) (ha : a = A ⟨i, hi⟩) :
    Function.update (fun j : Fin 8 => if j.val < i then A j else P j) ⟨i, hi⟩ a
      = fun j => if j.val < i + 1 then A j else P j := by
  funext j
  by_cases hj : j = ⟨i, hi⟩
  · subst hj
    simp [ha]
  · have hne : j.val ≠ i := fun h => hj (Fin.ext h)
    rw [Function.update_noteq hj]
    by_cases hlt : j.val < i
    · simp [hlt, Nat.lt_succ_of_lt hlt]
    · have : ¬ j.val < i + 1 := by omega
      simp [hlt, this]

theorem transformStep_run (mc : Machine) (vo : Fin MAX_VOICES) (un : Fin MAX_UNITS)
    (hvo : mc.voices = vo.val) (hun : mc.units = un.val) (i : Nat) (hi : i < 8)
    (hlen : i < mc.values.length) :
    transformStep i (afterTransform mc vo un i) = (Except.ok (), afterTransform mc vo un (i + 1)) := by
  have hdrop : (afterTransform mc vo un i).values
      = mc.values.getD i 0 :: mc.values.drop (i + 1) := by
    rw [List.getD_eq_getElem _ 0 hlen]
    exact List.drop_eq_getElem_cons hlen
  have hv : (afterTransform mc vo un i).voices = vo.val := hvo
  have hu : (afterTransform mc vo un i).units = un.val := hun
  have hpar := update_below
    (fun j => ((mc.values.getD j.val 0 : Nat) : ℚ) / 128 + ((mc.synth.voices vo).units un).ports j)
    mc.params i hi
    (((mc.values.getD i 0 : Nat) : ℚ) / 128 + ((mc.synth.voices vo).units un).ports ⟨i, hi⟩) rfl
  have hports := update_below (fun _ => 0) ((mc.synth.voices vo).units un).ports i hi 0 rfl
  simp only [transformStep, bind_run, getM_run, hdrop, dif_pos hi, unitPort, setUnitPort, hv, hu,
    setParam, modifyM_run]
  rw [portAt_fin _ vo un ⟨i, hi⟩]
  simp only [hv, hu]
  rw [setPortAt_fin _ vo un ⟨i, hi⟩]
  simp only [afterTransform, Function.update_same, Function.update_idem, lt_self_iff_false,
    ↓reduceIte, hpar, hports, hvo, hun]

theorem transform_loop (mc : Machine) (vo : Fin MAX_VOICES) (un : Fin MAX_UNITS)
    (hvo : mc.voices = vo.val) (hun : mc.units = un.val) :
    ∀ (n i : Nat), i + n ≤ 8 → i + n ≤ mc.values.length →
      loopFrom transformStep i n (afterTransform mc vo un i)
        = (Except.ok (), afterTransform mc vo un (i + n)) := by
  intro n
  induction n with
  | zero => intro i _ _; rfl
  | succ k ih =>
    intro i h8 hlen
    rw [loopFrom_succ]
    simp only [bind_run]
    rw [transformStep_run mc vo un hvo hun i (by omega) (by omega)]
    simp only
    rw [ih (i + 1) (by omega) (by omega)]
    have : i + 1 + k = i + (k + 1) := by omega
    rw [this]

theorem afterTransform_zero (mc : Machine) (vo : Fin MAX_VOICES) (un : Fin MAX_UNITS) :
    afterTransform mc vo un 0 = mc := by
  simp [afterTransform]

/-- The parameter loop in closed form. -/
theorem transform_run (mc : Machine) (vo : Fin MAX_VOICES) (un : Fin MAX_UNITS)
    (hvo : mc.voices = vo.val) (hun : mc.units = un.val) (tcount : Nat) (h8 : tcount ≤ 8)
    (hlen : tcount ≤ mc.values.length) :
    transform tcount mc = (Except.ok (), afterTransform mc vo un tcount) := by
  have := transform_loop mc vo un hvo hun tcount 0 (by omega) (by omega)
  rw [afterTransform_zero, Nat.zero_add] at this
  exact this

/-- One turn of the dispatch loop for a unit whose parameters are there and
whose `case` succeeds. -/
theorem execUnit_ok (m : MathLib) (bp : BytePatch) (op tcount : Nat) (mc s' : Machine)
    (vo : Fin MAX_VOICES) (un : Fin MAX_UNITS)
    (hvo : mc.voices = vo.val) (hun : mc.units = un.val)
    (htc : transformCounts.get? ((op &&& 0xFE) >>> 1 - 1) = some tcount)
    (h8 : tcount ≤ 8) (hlen : tcount ≤ mc.values.length)
    (hd : dispatch m bp.DelayTimes ((op &&& 0xFE) >>> 1) (decide ((op &&& 1) + 1 = 2))
      ((op &&& 1) + 1) mc.values ((afterTransform mc vo un tcount).stack.length : Int)
      (afterTransform mc vo un tcount) = (Except.ok (), s')) :
    execUnit m bp op mc = (Except.ok (), { s' with units := s'.units + 1 }) := by
  have hv : mc.voices < MAX_VOICES := hvo ▸ vo.isLt
  have hu : mc.units < MAX_UNITS := hun ▸ un.isLt
  have hnl : ¬ mc.values.length < tcount := by omega
  simp only [execUnit, htc, bind_run, getM_run, hnl, ↓reduceIte, hv, hu, and_self,
    transform_run mc vo un hvo hun tcount h8 hlen, stackLen_run, modifyM_run, hd]

/-! ## Patches that give the same frame every sample -/

theorem syncCount_closed : ∀ (n g : Nat), syncCount g n = (n + (g % 256 + 255) % 256) / 256 := by
  intro n
  induction n with
  | zero => intro g; rw [syncCount]; omega
  | succ k ih =>
    intro g
    rw [syncCount, ih]
    by_cases h : g % 256 = 0
    · rw [if_pos h]; omega
    · rw [if_neg h]; omega

/-- The end of a sample with stack depth 4. -/
theorem endSample_ok (rest : List ℚ) (st : RenderState) (h4 : st.machine.stack.length = 4) :
    ∃ st3, endSample rest st = (Except.ok (), st3) ∧
      st3.machine = { st.machine with
        synth := { st.machine.synth with
          outputs := Function.update (Function.update st.machine.synth.outputs 0 0) 1 0
          globalTime := (st.machine.synth.globalTime + 1) % 2 ^ 32 }
        time := st.machine.time + 1 } ∧
      st3.bufDone = st.bufDone ++ [st.machine.synth.outputs 0, st.machine.synth.outputs 1] ∧
      st3.buffer = rest ∧ st3.samples = st.samples + 1 ∧ st3.syncs = st.syncs := by
  rcases endSample_cases rest st with ⟨h', _⟩ | ⟨h', _⟩ | ⟨_, he⟩
  · omega
  · omega
  · exact ⟨_, he, rfl, rfl, rfl, rfl, rfl⟩

/-- A patch whose voice loop, from every state with the property `P`, succeeds
with stack depth 4 and the frame `(x, y)` on the output bus, touches neither the
clocks nor the sync buffer and leads to a state with `P` again: every frame the
loop of `Render` writes is `(x, y)`, `P` holds at its end, and with a sync buffer
long enough it ends without error after `min (maxtime - time) (len(buffer)/2)`
samples. -/
theorem renderLoop_steady (m : MathLib) (bp : BytePatch) (maxtime : Int)
    (P : Machine → Prop) (x y : ℚ)
    (hreset : ∀ (mc : Machine) (sd sb : List ℚ), P mc →
      P { mc with values := bp.Values, delaylines := 0, voices := 0, units := 0,
                  syncDone := sd, syncBuf := sb })
    (hstep : ∀ mc : Machine, P mc → mc.values = bp.Values → mc.delaylines = 0 →
      mc.voices = 0 → mc.units = 0 →
      ∃ mc', voiceLoop m bp bp.NumVoices bp.Commands bp.Commands bp.Values mc
          = (Except.ok (), mc') ∧
        mc'.stack.length = 4 ∧ mc'.synth.outputs 0 = x ∧ mc'.synth.outputs 1 = y ∧
        mc'.time = mc.time ∧ mc'.synth.globalTime = mc.synth.globalTime ∧
        mc'.syncBuf = mc.syncBuf ∧ mc'.syncDone = mc.syncDone ∧
        P { mc' with
            synth := { mc'.synth with
              outputs := Function.update (Function.update mc'.synth.outputs 0 0) 1 0
              globalTime := (mc'.synth.globalTime + 1) % 2 ^ 32 }
            time := mc'.time + 1 }) :
    ∀ (buf : List ℚ) (st : RenderState), P st.machine → st.buffer = buf →
      ∃ k : Nat,
        (renderLoop m bp maxtime buf st).2.samples = st.samples + k ∧
        (renderLoop m bp maxtime buf st).2.bufDone
          = st.bufDone ++ (List.replicate k [x, y]).flatten ∧
        (renderLoop m bp maxtime buf st).2.buffer = buf.drop (2 * k) ∧
        (renderLoop m bp maxtime buf st).2.machine.time = st.machine.time + k ∧
        P (renderLoop m bp maxtime buf st).2.machine ∧
        (syncCount st.machine.synth.globalTime
            (min (maxtime - st.machine.time).toNat (buf.length / 2))
          ≤ st.machine.syncBuf.length →
          (renderLoop m bp maxtime buf st).1 = Except.ok () ∧
          k = min (maxtime - st.machine.time).toNat (buf.length / 2) ∧
          (renderLoop m bp maxtime buf st).2.syncs
            = st.syncs + syncCount st.machine.synth.globalTime k) := by
  intro buf
  induction buf using buffer_induction with
  | hshort buf hshort =>
    intro st hP hst
    rw [renderLoop_short m bp maxtime buf hshort]
    have hlen : buf.length / 2 = 0 := by
      match buf, hshort with
      | [], _ => rfl
      | [_], _ => simp
      | b0 :: b1 :: rest, h => exact absurd rfl (fun e => h b0 b1 rest e)
    refine ⟨0, by simp, by simp, by simp [hst], by simp, hP, ?_⟩
    intro _
    simp [hlen, syncCount]
  | hcons b0 b1 rest ih =>
    intro st hP hst
    rw [renderLoop_cons]
    by_cases ht : st.machine.time < maxtime
    · rw [if_pos ht]
      simp only [bind_run]
      have hn : min (maxtime - st.machine.time).toNat ((b0 :: b1 :: rest).length / 2)
          = min (maxtime - (st.machine.time + 1)).toNat (rest.length / 2) + 1 := by
        simp only [List.length_cons]
        omega
      -- the start of the sample
      have hbegin : (∃ st1, beginSample bp st = (Except.error RenderError.panicked, st1) ∧
            P st1.machine ∧ st1.samples = st.samples ∧ st1.bufDone = st.bufDone ∧
            st1.buffer = st.buffer ∧ st1.machine.time = st.machine.time ∧
            st.machine.synth.globalTime % 256 = 0 ∧ st.machine.syncBuf = []) ∨
          (∃ st1, beginSample bp st = (Except.ok (), st1) ∧
            P st1.machine ∧ st1.samples = st.samples ∧ st1.bufDone = st.bufDone ∧
            st1.buffer = st.buffer ∧ st1.machine.time = st.machine.time ∧
            st1.machine.synth.globalTime = st.machine.synth.globalTime ∧
            st1.machine.values = bp.Values ∧ st1.machine.delaylines = 0 ∧
            st1.machine.voices = 0 ∧ st1.machine.units = 0 ∧
            st1.syncs = st.syncs + (if st.machine.synth.globalTime % 256 = 0 then 1 else 0) ∧
            st1.machine.syncBuf.length + (if st.machine.synth.globalTime % 256 = 0 then 1 else 0)
              = st.machine.syncBuf.length) := by
        by_cases hg : st.machine.synth.globalTime % 256 = 0
        · cases hsb : st.machine.syncBuf with
          | nil =>
            left
            exact ⟨_, beginSample_fault bp st hg hsb, hreset _ _ _ hP, rfl, rfl, rfl, rfl, hg, rfl⟩
          | cons v vs =>
            right
            refine ⟨_, beginSample_sync bp st v vs hg hsb, hreset _ _ _ hP, rfl, rfl, rfl, rfl, rfl,
              rfl, rfl, rfl, rfl, ?_, ?_⟩
            · simp [hg]
            · simp [hg]
        · right
          refine ⟨_, beginSample_nosync bp st hg, ?_, rfl, rfl, rfl, rfl, rfl, rfl, rfl, rfl, rfl,
            ?_, ?_⟩
          · exact hreset _ _ _ hP
          · simp [hg]
          · simp [hg]
      rcases hbegin with ⟨st1, hb, hP1, hs1, hd1, hbf1, ht1, hg, hsb⟩ |
        ⟨st1, hb, hP1, hs1, hd1, hbf1, ht1, hg1, hv1, hdl1, hvo1, hun1, hsy1, hsl1⟩
      · rw [hb]
        refine ⟨0, by simp [hs1], by simp [hd1], by simp [hbf1, hst], by simp [ht1], hP1, ?_⟩
        intro hsync
        rw [hn, syncCount, if_pos hg, hsb] at hsync
        simp at hsync
      · rw [hb]
        simp only [onMachine_run]
        obtain ⟨mc', hvl, hl4, hx, hy, htm, hgt, hsbf, _, hP'⟩ := hstep st1.machine hP1 hv1 hdl1 hvo1 hun1
        rw [hvl]
        simp only
        obtain ⟨st3, he, hm3, hd3, hb3, hs3, hy3⟩ :=
          endSample_ok rest { st1 with machine := mc' } hl4
        simp only at hm3 hd3 hs3 hy3
        rw [he]
        simp only
        rw [← hm3] at hP'
        obtain ⟨k, h1, h2, h3, h4, h5, h6⟩ := ih st3 hP' hb3
        refine ⟨k + 1, ?_, ?_, ?_, ?_, h5, ?_⟩
        · rw [h1, hs3, hs1]; omega
        · rw [h2, hd3, hd1, hx, hy]; simp [List.replicate_succ]
        · rw [h3]
          have : 2 * (k + 1) = 2 * k + 2 := by omega
          rw [this]
          rfl
        · rw [h4, hm3]; simp only [htm, ht1]; push_cast; ring
        · intro hsync
          rw [hn, syncCount] at hsync
          have e1 : st3.machine.synth.globalTime = (st.machine.synth.globalTime + 1) % 2 ^ 32 := by
            rw [hm3]; simp only [hgt, hg1]
          have e2 : st3.machine.time = st.machine.time + 1 := by
            rw [hm3]; simp only [htm, ht1]
          have e3 : st3.machine.syncBuf = st1.machine.syncBuf := by
            rw [hm3]; simp only [hsbf]
          have h6' := h6 (by rw [e1, e2, e3]; omega)
          rw [e1, e2] at h6'
          obtain ⟨hok, hk, hsyn⟩ := h6'
          refine ⟨hok, by rw [hn, ← hk], ?_⟩
          rw [hsyn, syncCount, hy3, hsy1]
          omega
    · rw [if_neg ht]
      have hz : (maxtime - st.machine.time).toNat = 0 := by omega
      refine ⟨0, by simp, by simp, by simp [hst], by simp, hP, ?_⟩
      intro _
      simp [hz, syncCount]

/-! ## The voice loop, turn by turn -/

theorem unitLoop_advance (m : MathLib) (bp : BytePatch) (op : Nat) (commands : List Nat)
    (mc : Machine) (h : (op &&& 0xFE) >>> 1 = 0) :
    unitLoop m bp (op :: commands) mc = (Except.ok commands, mc) := by
  rw [unitLoop, if_pos h]
  rfl

theorem unitLoop_unit (m : MathLib) (bp : BytePatch) (op : Nat) (commands : List Nat)
    (mc mc' : Machine) (h : (op &&& 0xFE) >>> 1 ≠ 0)
    (he : execUnit m bp op mc = (Except.ok (), mc')) :
    unitLoop m bp (op :: commands) mc = unitLoop m bp commands mc' := by
  rw [unitLoop, if_neg h]
  simp only [bind_run, he]

/-- The advance at the end of a voice that is not the last of the array. -/
theorem voiceLoop_succ (m : MathLib) (bp : BytePatch) (voicesRemaining : Nat)
    (commands commandInstr valuesInstr rest : List Nat) (mc mc' : Machine)
    (hu : unitLoop m bp commands mc = (Except.ok rest, mc'))
    (hv : mc'.voices + 1 < MAX_VOICES) :
    voiceLoop m bp (voicesRemaining + 1) commands commandInstr valuesInstr mc
      = if bp.PolyphonyBitmask &&& ((1 <<< voicesRemaining) % 2 ^ 32)
            = (1 <<< voicesRemaining) % 2 ^ 32 then
          voiceLoop m bp voicesRemaining commandInstr commandInstr valuesInstr
            { mc' with voices := mc'.voices + 1, units := 0, values := valuesInstr }
        else
          voiceLoop m bp voicesRemaining rest rest mc'.values
            { mc' with voices := mc'.voices + 1, units := 0 } := by
  rw [voiceLoop]
  simp only [bind_run, hu, getM_run, hv, ↓reduceIte, modifyM_run]
  split <;> rfl

theorem voiceLoop_zero (m : MathLib) (bp : BytePatch) (a b c : List Nat) (mc : Machine) :
    voiceLoop m bp 0 a b c mc = (Except.ok (), mc) := rfl

/-- The frames of `k` equal samples. -/
theorem frames_getElem? (x y : ℚ) : ∀ (k i : Nat), i < k →
    (List.replicate k [x, y]).flatten[2 * i]? = some x ∧
    (List.replicate k [x, y]).flatten[2 * i + 1]? = some y := by
  intro k
  induction k with
  | zero => intro i h; omega
  | succ n ih =>
    intro i h
    rw [List.replicate_succ, List.flatten_cons]
    cases i with
    | zero => simp
    | succ j =>
      have h1 : 2 * (j + 1) = 2 * j + 1 + 1 := by omega
      have h2 : 2 * (j + 1) + 1 = 2 * j + 1 + 1 + 1 := by omega
      obtain ⟨ha, hb⟩ := ih j (by omega)
      rw [h1]
      simpa using ⟨ha, hb⟩

theorem frames_length (x y : ℚ) (k : Nat) : (List.replicate k [x, y]).flatten.length = 2 * k := by
  induction k with
  | zero => rfl
  | succ n ih => rw [List.replicate_succ, List.flatten_cons, List.length_append, ih]; simp; omega

/-- The silent sample of the empty instrument. -/
theorem silence_voiceLoop (m : MathLib) (delayTimes : List Nat) (mc : Machine)
    (hv : mc.voices = 0) :
    voiceLoop m ⟨[0], [], delayTimes, 1, 0⟩ 1 [0] [0] [] mc
      = (Except.ok (), { mc with voices := 1, units := 0 }) := by
  rw [voiceLoop_succ m _ 0 [0] [0] [] [] mc mc (unitLoop_advance m _ 0 [] mc (by decide))
    (by rw [hv]; decide)]
  rw [if_neg (show ¬ ((0 : Nat) &&& ((1 <<< 0) % 2 ^ 32) = (1 <<< 0) % 2 ^ 32) by decide),
    voiceLoop_zero, hv]



/-- `Render` on a patch that gives the same frame `(x, y)` every sample (see
`renderLoop_steady`), from an interpreter whose variables on entry have the
property `P`. -/
theorem Render_steady (m : MathLib) (s : Interpreter) (buffer syncBuf : List ℚ) (maxtime : Int)
    (P : Machine → Prop) (x y : ℚ)
    (hreset : ∀ (mc : Machine) (sd sb : List ℚ), P mc →
      P { mc with values := s.bytePatch.Values, delaylines := 0, voices := 0, units := 0,
                  syncDone := sd, syncBuf := sb })
    (hstep : ∀ mc : Machine, P mc → mc.values = s.bytePatch.Values → mc.delaylines = 0 →
      mc.voices = 0 → mc.units = 0 →
      ∃ mc', voiceLoop m s.bytePatch s.bytePatch.NumVoices s.bytePatch.Commands
            s.bytePatch.Commands s.bytePatch.Values mc = (Except.ok (), mc') ∧
        mc'.stack.length = 4 ∧ mc'.synth.outputs 0 = x ∧ mc'.synth.outputs 1 = y ∧
        mc'.time = mc.time ∧ mc'.synth.globalTime = mc.synth.globalTime ∧
        mc'.syncBuf = mc.syncBuf ∧ mc'.syncDone = mc.syncDone ∧
        P { mc' with
            synth := { mc'.synth with
              outputs := Function.update (Function.update mc'.synth.outputs 0 0) 1 0
              globalTime := (mc'.synth.globalTime + 1) % 2 ^ 32 }
            time := mc'.time + 1 })
    (hP : P (renderInit s buffer syncBuf).machine) :
    (Render m s buffer syncBuf maxtime).buffer
      = (List.replicate (Render m s buffer syncBuf maxtime).samples [x, y]).flatten
        ++ buffer.drop (2 * (Render m s buffer syncBuf maxtime).samples) ∧
    (Render m s buffer syncBuf maxtime).time = (Render m s buffer syncBuf maxtime).samples ∧
    (∃ mc, P mc ∧ (Render m s buffer syncBuf maxtime).s.synth = mc.synth ∧
      (Render m s buffer syncBuf maxtime).s.delaylines = mc.delaylinesAll) ∧
    (syncCount s.synth.globalTime (min maxtime.toNat (buffer.length / 2)) ≤ syncBuf.length →
      (Render m s buffer syncBuf maxtime).renderError = none ∧
      (Render m s buffer syncBuf maxtime).samples = min maxtime.toNat (buffer.length / 2) ∧
      (Render m s buffer syncBuf maxtime).syncs
        = syncCount s.synth.globalTime (Render m s buffer syncBuf maxtime).samples) := by
  obtain ⟨k, h1, h2, h3, h4, h5, h6⟩ :=
    renderLoop_steady m s.bytePatch maxtime P x y hreset hstep buffer
      (renderInit s buffer syncBuf) hP rfl
  have hs : (Render m s buffer syncBuf maxtime).samples = k := by
    show (renderLoop m s.bytePatch maxtime buffer (renderInit s buffer syncBuf)).2.samples = k
    rw [h1]; simp [renderInit]
  rw [hs]
  refine ⟨?_, ?_, ⟨_, h5, rfl, rfl⟩, ?_⟩
  · show (renderLoop m s.bytePatch maxtime buffer (renderInit s buffer syncBuf)).2.bufDone
        ++ (renderLoop m s.bytePatch maxtime buffer (renderInit s buffer syncBuf)).2.buffer = _
    rw [h2, h3]; simp [renderInit]
  · show (renderLoop m s.bytePatch maxtime buffer (renderInit s buffer syncBuf)).2.machine.time = _
    rw [h4]; simp [renderInit]
  · intro hsync
    have hz : (maxtime - (renderInit s buffer syncBuf).machine.time).toNat = maxtime.toNat := by
      simp [renderInit]
    obtain ⟨hok, hk, hsy⟩ := h6 (by rw [hz]; exact hsync)
    rw [hz] at hk
    refine ⟨?_, hk, ?_⟩
    · show (match (renderLoop m s.bytePatch maxtime buffer (renderInit s buffer syncBuf)).1 with
        | Except.ok _ => none
        | Except.error e => some e) = none
      rw [hok]
    · show (renderLoop m s.bytePatch maxtime buffer (renderInit s buffer syncBuf)).2.syncs = _
      rw [hsy]; simp [renderInit]

/-- C1: on a fresh interpreter whose patch is the single empty instrument, for
every `maxtime ≥ 0`, every buffer and every sync buffer with room for the sync
records, `Render` returns no error, `samples = time = min(maxtime, len(buffer)/2)`,
the first `2 * samples` floats of the buffer are 0 and one sync record is counted
for every 256 samples begun. -/
theorem silence_render (m : MathLib) (delayTimes : List Nat) (numDelayLines : Nat)
    (buffer syncBuf : List ℚ) (maxtime : Int) (h0 : 0 ≤ maxtime)
    (hs : (min maxtime.toNat (buffer.length / 2) + 255) / 256 ≤ syncBuf.length) :
    (Render m (Interpreter.fresh ⟨[0], [], delayTimes, 1, 0⟩ numDelayLines)
      buffer syncBuf maxtime).renderError = none ∧
    ((Render m (Interpreter.fresh ⟨[0], [], delayTimes, 1, 0⟩ numDelayLines)
      buffer syncBuf maxtime).samples : Int) = min maxtime ((buffer.length / 2 : Nat) : Int) ∧
    (Render m (Interpreter.fresh ⟨[0], [], delayTimes, 1, 0⟩ numDelayLines)
      buffer syncBuf maxtime).time
      = (Render m (Interpreter.fresh ⟨[0], [], delayTimes, 1, 0⟩ numDelayLines)
        buffer syncBuf maxtime).samples ∧
    (∀ i, i < 2 * (Render m (Interpreter.fresh ⟨[0], [], delayTimes, 1, 0⟩ numDelayLines)
        buffer syncBuf maxtime).samples →
      (Render m (Interpreter.fresh ⟨[0], [], delayTimes, 1, 0⟩ numDelayLines)
        buffer syncBuf maxtime).buffer[i]? = some 0) ∧
    (Render m (Interpreter.fresh ⟨[0], [], delayTimes, 1, 0⟩ numDelayLines)
      buffer syncBuf maxtime).syncs
      = ((Render m (Interpreter.fresh ⟨[0], [], delayTimes, 1, 0⟩ numDelayLines)
        buffer syncBuf maxtime).samples + 255) / 256 := by
  obtain ⟨hbuf, htime, _, hsync⟩ := Render_steady m
    (Interpreter.fresh ⟨[0], [], delayTimes, 1, 0⟩ numDelayLines) buffer syncBuf maxtime
    (fun mc => mc.stack.length = 4 ∧ mc.synth.outputs 0 = 0 ∧ mc.synth.outputs 1 = 0) 0 0
    (fun mc sd sb h => h)
    (fun mc hP _ _ hv _ => by
      refine ⟨_, silence_voiceLoop m delayTimes mc hv, hP.1, hP.2.1, hP.2.2, rfl, rfl, rfl, rfl,
        hP.1, ?_, ?_⟩
      · simp
      · simp)
    ⟨rfl, rfl, rfl⟩
  have hg : (Interpreter.fresh ⟨[0], [], delayTimes, 1, 0⟩ numDelayLines).synth.globalTime = 0 := rfl
  rw [hg, syncCount_closed] at hsync
  obtain ⟨herr, hsam, hsy⟩ := hsync (by simpa using hs)
  refine ⟨herr, ?_, htime, ?_, ?_⟩
  · rw [hsam]; omega
  · intro i hi
    have hlen : i < (List.replicate ((Render m
        (Interpreter.fresh ⟨[0], [], delayTimes, 1, 0⟩ numDelayLines) buffer syncBuf
        maxtime).samples * 2) (0 : ℚ)).length := by
      rw [List.length_replicate]; omega
    rw [hbuf, show ([0, 0] : List ℚ) = List.replicate 2 0 from rfl, List.flatten_replicate_replicate,
      List.getElem?_append_left hlen, List.getElem?_replicate, if_pos (by omega)]
  · rw [hsy, syncCount_closed]

theorem silence_render_witness :
    ((0 : Int) ≤ 64 ∧ (min (64 : Int).toNat ((List.replicate 128 (7 : ℚ)).length / 2) + 255) / 256
        ≤ ([9] : List ℚ).length) ∧
    (Render sampleMath (Interpreter.fresh ⟨[0], [], [], 1, 0⟩ 0)
      (List.replicate 128 7) [9] 64).renderError = none ∧
    (Render sampleMath (Interpreter.fresh ⟨[0], [], [], 1, 0⟩ 0)
      (List.replicate 128 7) [9] 64).samples = 64 ∧
    (Render sampleMath (Interpreter.fresh ⟨[0], [], [], 1, 0⟩ 0)
      (List.replicate 128 7) [9] 64).time = 64 ∧
    (∀ i, i < 128 → (Render sampleMath (Interpreter.fresh ⟨[0], [], [], 1, 0⟩ 0)
      (List.replicate 128 7) [9] 64).buffer[i]? = some 0) ∧
    (Render sampleMath (Interpreter.fresh ⟨[0], [], [], 1, 0⟩ 0)
      (List.replicate 128 7) [9] 64).syncs = 1 :=
  have w := silence_render sampleMath [] 0 (List.replicate 128 7) [9] 64 (by decide) (by simp)
  have hsam : (Render sampleMath (Interpreter.fresh ⟨[0], [], [], 1, 0⟩ 0)
      (List.replicate 128 7) [9] 64).samples = 64 := by
    have := w.2.1
    simp only [List.length_replicate] at this
    omega
  ⟨⟨by decide, by simp⟩, w.1, hsam, by rw [w.2.2.1, hsam]; rfl,
    fun i hi => w.2.2.2.1 i (by rw [hsam]; omega), by rw [w.2.2.2.2, hsam]⟩

/-! ## The units of the scenarios -/

theorem dispatch_loadval (m : MathLib) (dt : List Nat) (stereo : Bool) (channels : Nat)
    (vat : List Nat) (l : Int) :
    dispatch m dt opLoadval stereo channels vat l = execLoadval stereo := rfl

theorem dispatch_out (m : MathLib) (dt : List Nat) (stereo : Bool) (channels : Nat)
    (vat : List Nat) (l : Int) :
    dispatch m dt opOut stereo channels vat l = execOut stereo l := rfl

theorem dispatch_outaux (m : MathLib) (dt : List Nat) (stereo : Bool) (channels : Nat)
    (vat : List Nat) (l : Int) :
    dispatch m dt opOutaux stereo channels vat l = execOutaux stereo l := rfl

theorem dispatch_loadnote (m : MathLib) (dt : List Nat) (stereo : Bool) (channels : Nat)
    (vat : List Nat) (l : Int) :
    dispatch m dt opLoadnote stereo channels vat l = execLoadnote stereo := rfl

theorem dispatch_envelope (m : MathLib) (dt : List Nat) (stereo : Bool) (channels : Nat)
    (vat : List Nat) (l : Int) :
    dispatch m dt opEnvelope stereo channels vat l = execEnvelope m stereo := rfl

theorem execLoadval_mono_run (mc : Machine) :
    execLoadval false mc = (Except.ok (), { mc with stack := mc.stack ++ [mc.params 0 * 2 - 1] }) :=
  rfl

theorem execOut_mono_run (mc : Machine) (xs : List ℚ) (x : ℚ) (h : mc.stack = xs ++ [x]) :
    execOut false (mc.stack.length : Int) mc = (Except.ok (), { mc with
      synth := { mc.synth with
        outputs := Function.update mc.synth.outputs 0 (mc.synth.outputs 0 + mc.params 0 * x) }
      stack := xs }) := by
  have hl : (mc.stack.length : Int) - 1 = (xs.length : Int) := by simp [h]
  simp only [execOut, bind_run, pure_run, param_run, Bool.false_eq_true, ↓reduceIte, output,
    getM_run, dif_pos (show (0 : Nat) < 8 by decide)]
  rw [stackGet_eq mc _ xs.length x hl (by simp [h])]
  simp only [setOutput, dif_pos (show (0 : Nat) < 8 by decide), modifyM_run]
  rw [stackTake_eq _ _ xs.length hl (by simp [h])]
  simp [h]

/-- The unit `loadval` in mono, with its parameter byte `v` at the head of the
value stream. -/
theorem execUnit_loadval (m : MathLib) (bp : BytePatch) (mc : Machine)
    (vo : Fin MAX_VOICES) (un : Fin MAX_UNITS) (v : Nat) (rest : List Nat)
    (hvo : mc.voices = vo.val) (hun : mc.units = un.val) (hvals : mc.values = v :: rest) :
    execUnit m bp (opLoadval * 2) mc = (Except.ok (),
      { afterTransform mc vo un 1 with
        stack := mc.stack ++ [((v : ℚ) / 128 + ((mc.synth.voices vo).units un).ports 0) * 2 - 1]
        units := mc.units + 1 }) := by
  rw [execUnit_ok m bp (opLoadval * 2) 1 mc _ vo un hvo hun (by decide) (by decide)
    (by rw [hvals]; simp)
    (by rw [show (opLoadval * 2 &&& 0xFE) >>> 1 = opLoadval by decide, dispatch_loadval,
      show decide ((opLoadval * 2 &&& 1) + 1 = 2) = false by decide, execLoadval_mono_run])]
  simp [afterTransform, hvals]

/-- The unit `out` in mono, with its parameter byte `v` at the head of the value
stream, on a stack with top `x`. -/
theorem execUnit_out (m : MathLib) (bp : BytePatch) (mc : Machine)
    (vo : Fin MAX_VOICES) (un : Fin MAX_UNITS) (v : Nat) (rest : List Nat) (xs : List ℚ) (x : ℚ)
    (hvo : mc.voices = vo.val) (hun : mc.units = un.val) (hvals : mc.values = v :: rest)
    (hstack : mc.stack = xs ++ [x]) :
    execUnit m bp (opOut * 2) mc = (Except.ok (),
      { afterTransform mc vo un 1 with
        synth := { (afterTransform mc vo un 1).synth with
          outputs := Function.update mc.synth.outputs 0 (mc.synth.outputs 0 +
            ((v : ℚ) / 128 + ((mc.synth.voices vo).units un).ports 0) * x) }
        stack := xs
        units := mc.units + 1 }) := by
  rw [execUnit_ok m bp (opOut * 2) 1 mc _ vo un hvo hun (by decide) (by decide)
    (by rw [hvals]; simp)
    (by rw [show (opOut * 2 &&& 0xFE) >>> 1 = opOut by decide, dispatch_out,
      show decide ((opOut * 2 &&& 1) + 1 = 2) = false by decide,
      execOut_mono_run (afterTransform mc vo un 1) xs x hstack])]
  simp [afterTransform, hvals]

/-- One sample of `loadval(b); out(128); advance`. -/
theorem level_voiceLoop (m : MathLib) (b : Nat) (mc : Machine)
    (hv : mc.voices = 0) (hu : mc.units = 0) (hvals : mc.values = [b, 128])
    (hp0 : ((mc.synth.voices 0).units 0).ports 0 = 0)
    (hp1 : ((mc.synth.voices 0).units 1).ports 0 = 0) :
    ∃ mc', voiceLoop m (levelPatch b) 1 [opLoadval * 2, opOut * 2, 0]
        [opLoadval * 2, opOut * 2, 0] [b, 128] mc = (Except.ok (), mc') ∧
      mc'.stack = mc.stack ∧
      mc'.synth.outputs 0 = mc.synth.outputs 0 + (2 * (b : ℚ) / 128 - 1) ∧
      mc'.synth.outputs 1 = mc.synth.outputs 1 ∧
      mc'.time = mc.time ∧ mc'.synth.globalTime = mc.synth.globalTime ∧
      mc'.syncBuf = mc.syncBuf ∧ mc'.syncDone = mc.syncDone ∧
      ((mc'.synth.voices 0).units 0).ports 0 = 0 ∧
      ((mc'.synth.voices 0).units 1).ports 0 = 0 := by
  have s1 := execUnit_loadval m (levelPatch b) mc 0 0 b [128] hv hu hvals
  have s2 := execUnit_out m (levelPatch b) _ 0 1 128 [] mc.stack
    (((b : ℚ) / 128 + ((mc.synth.voices 0).units 0).ports 0) * 2 - 1)
    (show ({ afterTransform mc 0 0 1 with
        stack := mc.stack ++ [((b : ℚ) / 128 + ((mc.synth.voices 0).units 0).ports 0) * 2 - 1]
        units := mc.units + 1 } : Machine).voices = (0 : Fin MAX_VOICES).val from hv)
    (show mc.units + 1 = (1 : Fin MAX_UNITS).val by rw [hu]; rfl)
    (show mc.values.drop 1 = [128] by rw [hvals]; rfl) rfl
  have hul := unitLoop_unit m (levelPatch b) (opLoadval * 2) [opOut * 2, 0] mc _ (by decide) s1
  rw [unitLoop_unit m (levelPatch b) (opOut * 2) [0] _ _ (by decide) s2,
    unitLoop_advance m (levelPatch b) 0 [] _ (by decide)] at hul
  have hvl := voiceLoop_succ m (levelPatch b) 0 [opLoadval * 2, opOut * 2, 0]
    [opLoadval * 2, opOut * 2, 0] [b, 128] [] mc _ hul
    (show mc.voices + 1 < MAX_VOICES by rw [hv]; decide)
  rw [if_neg (show ¬ ((levelPatch b).PolyphonyBitmask &&& ((1 <<< 0) % 2 ^ 32)
      = (1 <<< 0) % 2 ^ 32) by
        show ¬ ((0 : Nat) &&& ((1 <<< 0) % 2 ^ 32) = (1 <<< 0) % 2 ^ 32)
        decide),
    voiceLoop_zero] at hvl
  refine ⟨_, hvl, rfl, ?_, ?_, rfl, rfl, rfl, rfl, ?_, ?_⟩
  · simp [afterTransform, hp0, hp1]
    ring
  · simp [afterTransform]
  · simp [afterTransform]
  · simp [afterTransform, hp1]

/-- C2: for the one-voice patch `loadval(b); out(128); advance`, from an
interpreter with an empty output frame and no modulation waiting in the ports of
the two units, the buffer after `Render` is `samples` times the frame
`(2*b/128 - 1, 0)` followed by the untouched rest: every frame written has
`2*b/128 - 1` on channel 0 and 0 on channel 1.  With a sync buffer long enough
`Render` returns no error and `samples = min(maxtime, len(buffer)/2)`. -/
theorem level_render (m : MathLib) (b : Nat) (s : Interpreter) (buffer syncBuf : List ℚ)
    (maxtime : Int) (hpatch : s.bytePatch = levelPatch b) (hstack : s.stack = [])
    (hout : s.synth.outputs 0 = 0 ∧ s.synth.outputs 1 = 0)
    (hports : ((s.synth.voices 0).units 0).ports 0 = 0 ∧
      ((s.synth.voices 0).units 1).ports 0 = 0) :
    (Render m s buffer syncBuf maxtime).buffer
      = (List.replicate (Render m s buffer syncBuf maxtime).samples
          [2 * (b : ℚ) / 128 - 1, 0]).flatten
        ++ buffer.drop (2 * (Render m s buffer syncBuf maxtime).samples) ∧
    (∀ i, i < (Render m s buffer syncBuf maxtime).samples →
      (Render m s buffer syncBuf maxtime).buffer[2 * i]? = some (2 * (b : ℚ) / 128 - 1) ∧
      (Render m s buffer syncBuf maxtime).buffer[2 * i + 1]? = some 0) ∧
    (syncCount s.synth.globalTime (min maxtime.toNat (buffer.length / 2)) ≤ syncBuf.length →
      (Render m s buffer syncBuf maxtime).renderError = none ∧
      (Render m s buffer syncBuf maxtime).samples = min maxtime.toNat (buffer.length / 2)) := by
  obtain ⟨hbuf, _, _, hsync⟩ := Render_steady m s buffer syncBuf maxtime
    (fun mc => mc.stack.length = 4 ∧ mc.synth.outputs 0 = 0 ∧ mc.synth.outputs 1 = 0 ∧
      ((mc.synth.voices 0).units 0).ports 0 = 0 ∧ ((mc.synth.voices 0).units 1).ports 0 = 0)
    (2 * (b : ℚ) / 128 - 1) 0
    (fun mc sd sb h => h)
    (fun mc hP hvals _ hv hu => by
      rw [hpatch] at hvals ⊢
      obtain ⟨mc', h1, h2, h3, h4, h5, h6, h7, h8, h9, h10⟩ :=
        level_voiceLoop m b mc hv hu hvals hP.2.2.2.1 hP.2.2.2.2
      refine ⟨mc', h1, by rw [h2]; exact hP.1, by rw [h3, hP.2.1, zero_add],
        by rw [h4, hP.2.2.1], h5, h6, h7, h8, by rw [h2]; exact hP.1, ?_, ?_, h9, h10⟩
      · simp
      · simp)
    ⟨by simp [renderInit, hstack], hout.1, hout.2, hports.1, hports.2⟩
  refine ⟨hbuf, ?_, fun h => ⟨(hsync h).1, (hsync h).2.1⟩⟩
  intro i hi
  obtain ⟨ha, hb⟩ := frames_getElem? (2 * (b : ℚ) / 128 - 1) 0 _ i hi
  have hlen := frames_length (2 * (b : ℚ) / 128 - 1) 0 (Render m s buffer syncBuf maxtime).samples
  rw [hbuf, List.getElem?_append_left (by omega), List.getElem?_append_left (by omega)]
  exact ⟨ha, hb⟩

theorem level_render_witness :
    ((Interpreter.fresh (levelPatch 96) 0).bytePatch = levelPatch 96 ∧
      (Interpreter.fresh (levelPatch 96) 0).stack = [] ∧
      ((Interpreter.fresh (levelPatch 96) 0).synth.outputs 0 = 0 ∧
        (Interpreter.fresh (levelPatch 96) 0).synth.outputs 1 = 0) ∧
      ((((Interpreter.fresh (levelPatch 96) 0).synth.voices 0).units 0).ports 0 = 0 ∧
        (((Interpreter.fresh (levelPatch 96) 0).synth.voices 0).units 1).ports 0 = 0)) ∧
    (Render sampleMath (Interpreter.fresh (levelPatch 96) 0) [7, 7, 7, 7, 7, 7, 7, 7] [9] 4).buffer
      = [1 / 2, 0, 1 / 2, 0, 1 / 2, 0, 1 / 2, 0] ∧
    (Render sampleMath (Interpreter.fresh (levelPatch 96) 0) [7, 7, 7, 7, 7, 7, 7, 7] [9]
      4).renderError = none :=
  have w := level_render sampleMath 96 (Interpreter.fresh (levelPatch 96) 0)
    [7, 7, 7, 7, 7, 7, 7, 7] [9] 4 rfl rfl ⟨rfl, rfl⟩ ⟨rfl, rfl⟩
  have hs := w.2.2 (by decide)
  ⟨⟨rfl, rfl, ⟨rfl, rfl⟩, ⟨rfl, rfl⟩⟩, by
    have hb := w.1
    rw [hs.2] at hb
    rw [hb]
    simp [List.replicate]
    norm_num, hs.1⟩

theorem execLoadnote_mono_run (mc : Machine) (vo : Fin MAX_VOICES) (hvo : mc.voices = vo.val) :
    execLoadnote false mc = (Except.ok (),
      { mc with stack := mc.stack ++ [((mc.synth.voices vo).note : ℚ) / 64 - 1] }) := by
  simp only [execLoadnote, bind_run, curVoice, getM_run, hvo, voiceAt_fin, stackPush_run,
    Bool.false_eq_true, ↓reduceIte, pure_run]

/-- The unit `loadnote` in mono. -/
theorem execUnit_loadnote (m : MathLib) (bp : BytePatch) (mc : Machine)
    (vo : Fin MAX_VOICES) (un : Fin MAX_UNITS)
    (hvo : mc.voices = vo.val) (hun : mc.units = un.val) :
    execUnit m bp (opLoadnote * 2) mc = (Except.ok (),
      { mc with
        stack := mc.stack ++ [((mc.synth.voices vo).note : ℚ) / 64 - 1]
        units := mc.units + 1 }) := by
  rw [execUnit_ok m bp (opLoadnote * 2) 0 mc _ vo un hvo hun (by decide) (by decide)
    (Nat.zero_le _)
    (by rw [show (opLoadnote * 2 &&& 0xFE) >>> 1 = opLoadnote by decide, dispatch_loadnote,
      show decide ((opLoadnote * 2 &&& 1) + 1 = 2) = false by decide, afterTransform_zero,
      execLoadnote_mono_run mc vo hvo])]

/-- The units `loadnote; out(128)` of one voice, up to its advance. -/
theorem note_unitLoop (m : MathLib) (mc : Machine) (vo : Fin MAX_VOICES)
    (hv : mc.voices = vo.val) (hu : mc.units = 0) (hvals : mc.values = [128])
    (hp : ((mc.synth.voices vo).units 1).ports 0 = 0) :
    ∃ mc', unitLoop m notePatch [opLoadnote * 2, opOut * 2, 0] mc = (Except.ok [], mc') ∧
      mc'.stack = mc.stack ∧
      mc'.synth.outputs 0 = mc.synth.outputs 0 + (((mc.synth.voices vo).note : ℚ) / 64 - 1) ∧
      mc'.synth.outputs 1 = mc.synth.outputs 1 ∧
      mc'.time = mc.time ∧ mc'.synth.globalTime = mc.synth.globalTime ∧
      mc'.syncBuf = mc.syncBuf ∧ mc'.syncDone = mc.syncDone ∧ mc'.voices = mc.voices ∧
      (∀ v, (mc'.synth.voices v).note = (mc.synth.voices v).note) ∧
      (∀ v, ((mc.synth.voices v).units 1).ports 0 = 0 →
        ((mc'.synth.voices v).units 1).ports 0 = 0) := by
  have s1 := execUnit_loadnote m notePatch mc vo 0 hv hu
  have s2 := execUnit_out m notePatch _ vo 1 128 [] mc.stack
    (((mc.synth.voices vo).note : ℚ) / 64 - 1)
    (show ({ mc with
        stack := mc.stack ++ [((mc.synth.voices vo).note : ℚ) / 64 - 1]
        units := mc.units + 1 } : Machine).voices = vo.val from hv)
    (show mc.units + 1 = (1 : Fin MAX_UNITS).val by rw [hu]; rfl)
    (show mc.values = [128] from hvals) rfl
  have hul := unitLoop_unit m notePatch (opLoadnote * 2) [opOut * 2, 0] mc _ (by decide) s1
  rw [unitLoop_unit m notePatch (opOut * 2) [0] _ _ (by decide) s2,
    unitLoop_advance m notePatch 0 [] _ (by decide)] at hul
  refine ⟨_, hul, rfl, ?_, ?_, rfl, rfl, rfl, rfl, rfl, ?_, ?_⟩
  · simp [afterTransform, hp]
  · simp [afterTransform]
  · intro v
    by_cases h : v = vo
    · subst h; simp [afterTransform]
    · simp [afterTransform, Function.update_noteq h]
  · intro v hpv
    by_cases h : v = vo
    · subst h; simp [afterTransform]
    · simp [afterTransform, Function.update_noteq h, hpv]

/-- One sample of `loadnote; out(128); advance` run by two voices. -/
theorem note_voiceLoop (m : MathLib) (mc : Machine)
    (hv : mc.voices = 0) (hu : mc.units = 0) (hvals : mc.values = [128])
    (hp0 : ((mc.synth.voices 0).units 1).ports 0 = 0)
    (hp1 : ((mc.synth.voices 1).units 1).ports 0 = 0) :
    ∃ mc', voiceLoop m notePatch 2 [opLoadnote * 2, opOut * 2, 0]
        [opLoadnote * 2, opOut * 2, 0] [128] mc = (Except.ok (), mc') ∧
      mc'.stack = mc.stack ∧
      mc'.synth.outputs 0 = mc.synth.outputs 0 + (((mc.synth.voices 0).note : ℚ) / 64 - 1)
        + (((mc.synth.voices 1).note : ℚ) / 64 - 1) ∧
      mc'.synth.outputs 1 = mc.synth.outputs 1 ∧
      mc'.time = mc.time ∧ mc'.synth.globalTime = mc.synth.globalTime ∧
      mc'.syncBuf = mc.syncBuf ∧ mc'.syncDone = mc.syncDone ∧
      (∀ v, (mc'.synth.voices v).note = (mc.synth.voices v).note) ∧
      ((mc'.synth.voices 0).units 1).ports 0 = 0 ∧
      ((mc'.synth.voices 1).units 1).ports 0 = 0 := by
  obtain ⟨mcA, hA, a1, a2, a3, a4, a5, a6, a7, a8, a9, a10⟩ :=
    note_unitLoop m mc 0 hv hu hvals hp0
  have hvl := voiceLoop_succ m notePatch 1 [opLoadnote * 2, opOut * 2, 0]
    [opLoadnote * 2, opOut * 2, 0] [128] [] mc mcA hA
    (show mcA.voices + 1 < MAX_VOICES by rw [a8, hv]; decide)
  rw [if_pos (show notePatch.PolyphonyBitmask &&& ((1 <<< 1) % 2 ^ 32) = (1 <<< 1) % 2 ^ 32 by
    decide)] at hvl
  obtain ⟨mcC, hC, c1, c2, c3, c4, c5, c6, c7, c8, c9, c10⟩ :=
    note_unitLoop m { mcA with voices := mcA.voices + 1, units := 0, values := [128] } 1
      (show mcA.voices + 1 = (1 : Fin MAX_VOICES).val by rw [a8, hv]; rfl) rfl rfl
      (a10 1 hp1)
  have hvl2 := voiceLoop_succ m notePatch 0 [opLoadnote * 2, opOut * 2, 0]
    [opLoadnote * 2, opOut * 2, 0] [128] [] _ mcC hC
    (show mcC.voices + 1 < MAX_VOICES by rw [c8]; show mcA.voices + 1 + 1 < 32; rw [a8, hv]; decide)
  rw [if_neg (show ¬ (notePatch.PolyphonyBitmask &&& ((1 <<< 0) % 2 ^ 32) = (1 <<< 0) % 2 ^ 32) by
    decide), voiceLoop_zero] at hvl2
  rw [hvl2] at hvl
  refine ⟨_, hvl, ?_, ?_, ?_, ?_, ?_, ?_, ?_, ?_, ?_, ?_⟩
  · show mcC.stack = mc.stack
    rw [c1]; exact a1
  · show mcC.synth.outputs 0 = _
    rw [c2]
    show mcA.synth.outputs 0 + (((mcA.synth.voices 1).note : ℚ) / 64 - 1) = _
    rw [a2, a9]
  · show mcC.synth.outputs 1 = _
    rw [c3]; exact a3
  · show mcC.time = _
    rw [c4]; exact a4
  · show mcC.synth.globalTime = _
    rw [c5]; exact a5
  · show mcC.syncBuf = _
    rw [c6]; exact a6
  · show mcC.syncDone = _
    rw [c7]; exact a7
  · intro v
    show (mcC.synth.voices v).note = _
    rw [c9]; exact a9 v
  · show ((mcC.synth.voices 0).units 1).ports 0 = 0
    exact c10 0 (a10 0 hp0)
  · show ((mcC.synth.voices 1).units 1).ports 0 = 0
    exact c10 1 (a10 1 hp1)

/-- C5: for `loadnote; out(128); advance` with two voices sharing the
instrument, after `Trigger(0, n0)` and `Trigger(1, n1)` on a fresh interpreter
both voices run the program on their own note every sample: the buffer after
`Render` is `samples` times the frame `((n0/64 - 1) + (n1/64 - 1), 0)` followed
by the untouched rest.  With a sync buffer long enough `Render` returns no error
and `samples = min(maxtime, len(buffer)/2)`. -/
theorem two_voices_render (m : MathLib) (numDelayLines n0 n1 : Nat) (s1 s2 : Interpreter)
    (buffer syncBuf : List ℚ) (maxtime : Int)
    (h1 : Trigger (Interpreter.fresh notePatch numDelayLines) 0 n0 = some s1)
    (h2 : Trigger s1 1 n1 = some s2) :
    (Render m s2 buffer syncBuf maxtime).buffer
      = (List.replicate (Render m s2 buffer syncBuf maxtime).samples
          [((n0 : ℚ) / 64 - 1) + ((n1 : ℚ) / 64 - 1), 0]).flatten
        ++ buffer.drop (2 * (Render m s2 buffer syncBuf maxtime).samples) ∧
    (∀ i, i < (Render m s2 buffer syncBuf maxtime).samples →
      (Render m s2 buffer syncBuf maxtime).buffer[2 * i]?
        = some (((n0 : ℚ) / 64 - 1) + ((n1 : ℚ) / 64 - 1)) ∧
      (Render m s2 buffer syncBuf maxtime).buffer[2 * i + 1]? = some 0) ∧
    (syncCount s2.synth.globalTime (min maxtime.toNat (buffer.length / 2)) ≤ syncBuf.length →
      (Render m s2 buffer syncBuf maxtime).renderError = none ∧
      (Render m s2 buffer syncBuf maxtime).samples = min maxtime.toNat (buffer.length / 2)) := by
  have e1 : s1 = { Interpreter.fresh notePatch numDelayLines with
      synth := { (Interpreter.fresh notePatch numDelayLines).synth with
        voices := Function.update (Interpreter.fresh notePatch numDelayLines).synth.voices 0
          { voice.zero with note := n0 } } } := by
    have := h1
    simp only [Trigger] at this
    rw [dif_pos (by decide)] at this
    exact (Option.some.inj this).symm
  have e2 : s2 = { s1 with synth := { s1.synth with
      voices := Function.update s1.synth.voices 1 { voice.zero with note := n1 } } } := by
    have := h2
    simp only [Trigger] at this
    rw [dif_pos (by decide)] at this
    exact (Option.some.inj this).symm
  have hpatch : s2.bytePatch = notePatch := by rw [e2, e1]; rfl
  have hstack : s2.stack = [] := by rw [e2, e1]; rfl
  have ho0 : s2.synth.outputs 0 = 0 := by rw [e2, e1]; rfl
  have ho1 : s2.synth.outputs 1 = 0 := by rw [e2, e1]; rfl
  have hn0 : (s2.synth.voices 0).note = n0 := by
    rw [e2, e1]; simp
  have hn1 : (s2.synth.voices 1).note = n1 := by
    rw [e2, e1]; simp
  have hp0 : ((s2.synth.voices 0).units 1).ports 0 = 0 := by
    rw [e2, e1]; simp [voice.zero, unit.zero]
  have hp1 : ((s2.synth.voices 1).units 1).ports 0 = 0 := by
    rw [e2, e1]; simp [voice.zero, unit.zero]
  obtain ⟨hbuf, _, _, hsync⟩ := Render_steady m s2 buffer syncBuf maxtime
    (fun mc => mc.stack.length = 4 ∧ mc.synth.outputs 0 = 0 ∧ mc.synth.outputs 1 = 0 ∧
      (mc.synth.voices 0).note = n0 ∧ (mc.synth.voices 1).note = n1 ∧
      ((mc.synth.voices 0).units 1).ports 0 = 0 ∧ ((mc.synth.voices 1).units 1).ports 0 = 0)
    (((n0 : ℚ) / 64 - 1) + ((n1 : ℚ) / 64 - 1)) 0
    (fun mc sd sb h => h)
    (fun mc hP hvals _ hv hu => by
      rw [hpatch] at hvals ⊢
      obtain ⟨mc', g1, g2, g3, g4, g5, g6, g7, g8, g9, g10, g11⟩ :=
        note_voiceLoop m mc hv hu hvals hP.2.2.2.2.2.1 hP.2.2.2.2.2.2
      refine ⟨mc', g1, by rw [g2]; exact hP.1,
        by rw [g3, hP.2.1, hP.2.2.2.1, hP.2.2.2.2.1, zero_add],
        by rw [g4, hP.2.2.1], g5, g6, g7, g8, by rw [g2]; exact hP.1, ?_, ?_,
        by rw [g9]; exact hP.2.2.2.1, by rw [g9]; exact hP.2.2.2.2.1, g10, g11⟩
      · simp
      · simp)
    ⟨by simp [renderInit, hstack], ho0, ho1, hn0, hn1, hp0, hp1⟩
  refine ⟨hbuf, ?_, fun h => ⟨(hsync h).1, (hsync h).2.1⟩⟩
  intro i hi
  obtain ⟨ha, hb⟩ := frames_getElem? (((n0 : ℚ) / 64 - 1) + ((n1 : ℚ) / 64 - 1)) 0 _ i hi
  have hlen := frames_length (((n0 : ℚ) / 64 - 1) + ((n1 : ℚ) / 64 - 1)) 0
    (Render m s2 buffer syncBuf maxtime).samples
  rw [hbuf, List.getElem?_append_left (by omega), List.getElem?_append_left (by omega)]
  exact ⟨ha, hb⟩

theorem two_voices_render_witness :
    (Trigger (Interpreter.fresh notePatch 0) 0 60
        = some ((Trigger (Interpreter.fresh notePatch 0) 0 60).get rfl) ∧
      Trigger ((Trigger (Interpreter.fresh notePatch 0) 0 60).get rfl) 1 72
        = some ((Trigger ((Trigger (Interpreter.fresh notePatch 0) 0 60).get rfl) 1 72).get rfl)) ∧
    (Render sampleMath
        ((Trigger ((Trigger (Interpreter.fresh notePatch 0) 0 60).get rfl) 1 72).get rfl)
        [7, 7, 7, 7] [9] 2).buffer
      = [((60 : Nat) : ℚ) / 64 - 1 + (((72 : Nat) : ℚ) / 64 - 1), 0,
         ((60 : Nat) : ℚ) / 64 - 1 + (((72 : Nat) : ℚ) / 64 - 1), 0] :=
  have w := two_voices_render sampleMath 0 60 72
    ((Trigger (Interpreter.fresh notePatch 0) 0 60).get rfl)
    ((Trigger ((Trigger (Interpreter.fresh notePatch 0) 0 60).get rfl) 1 72).get rfl)
    [7, 7, 7, 7] [9] 2 (Option.some_get _).symm (Option.some_get _).symm
  have hs := w.2.2 (by decide)
  ⟨⟨(Option.some_get _).symm, (Option.some_get _).symm⟩, by
    have hb := w.1
    rw [hs.2] at hb
    rw [hb]
    simp [List.replicate]⟩

theorem unitState_nat (mc : Machine) (vo : Fin MAX_VOICES) (un : Fin MAX_UNITS) (i : Nat)
    (hi : i < 8) (hvo : mc.voices = vo.val) (hun : mc.units = un.val) :
    unitState i mc = (Except.ok (((mc.synth.voices vo).units un).state ⟨i, hi⟩), mc) := by
  simp [unitState, hvo, hun, unitAt_fin, hi]

theorem setUnitState_nat (mc : Machine) (vo : Fin MAX_VOICES) (un : Fin MAX_UNITS) (i : Nat)
    (hi : i < 8) (q : ℚ) (hvo : mc.voices = vo.val) (hun : mc.units = un.val) :
    setUnitState i q mc = (Except.ok (), { mc with synth := { mc.synth with
      voices := Function.update mc.synth.voices vo
        { mc.synth.voices vo with
          units := Function.update (mc.synth.voices vo).units un
            { (mc.synth.voices vo).units un with
              state := Function.update ((mc.synth.voices vo).units un).state ⟨i, hi⟩ q } } } }) := by
  simp [setUnitState, hvo, hun, unitAt_fin, setUnitAt_fin, hi]

/-- The envelope in mono while the voice is not released, with attack 0, decay 0
and sustain 1: from the start of the attack or from the sustained level the
level becomes 1 and `1 * gain` is pushed. -/
theorem execEnvelope_held (m : MathLib) (hm : m.Exp2 0 = 1) (mc : Machine)
    (vo : Fin MAX_VOICES) (un : Fin MAX_UNITS)
    (hvo : mc.voices = vo.val) (hun : mc.units = un.val)
    (hrel : (mc.synth.voices vo).release = false)
    (ha : mc.params 0 = 0) (hd : mc.params 1 = 0) (hs : mc.params 2 = 1)
    (hst : (((mc.synth.voices vo).units un).state 0 = 0 ∧
        ((mc.synth.voices vo).units un).state 1 = 0) ∨
      (((mc.synth.voices vo).units un).state 0 = 1 ∧
        ((mc.synth.voices vo).units un).state 1 = 1)) :
    execEnvelope m false mc = (Except.ok (), { mc with
      stack := mc.stack ++ [1 * mc.params 4]
      synth := { mc.synth with
        voices := Function.update mc.synth.voices vo
          { mc.synth.voices vo with
            units := Function.update (mc.synth.voices vo).units un
              { (mc.synth.voices vo).units un with
                state := Function.update
                  (Function.update ((mc.synth.voices vo).units un).state 0 1) 1 1 } } } }) := by
  have h0 := unitState_nat mc vo un 0 (by decide) hvo hun
  have h1 := unitState_nat mc vo un 1 (by decide) hvo hun
  have hset0 := fun q => setUnitState_nat mc vo un 0 (by decide) q hvo hun
  simp only [execEnvelope, bind_run, curVoice, getM_run, hvo, voiceAt_fin, hrel,
    Bool.false_eq_true, ↓reduceIte, pure_run, h0, h1, envStateAttack, envStateDecay,
    envStateRelease, nonLinearMap, ha, hd, hs, mul_zero, hm, param_run, stackPush_run]
  rcases hst with ⟨e0, e1⟩ | ⟨e0, e1⟩
  · have e0 : ((mc.synth.voices vo).units un).state ⟨0, by decide⟩ = 0 := e0
    have e1 : ((mc.synth.voices vo).units un).state ⟨1, by decide⟩ = 0 := e1
    simp only [e0, e1, ↓reduceIte, zero_add, ge_iff_le, le_refl, hset0]
    rw [setUnitState_nat _ vo un 1 (by decide) 1 ?_ ?_]
    · simp [hrel, hvo]
    · exact hvo
    · exact hun
  · have e0 : ((mc.synth.voices vo).units un).state ⟨0, by decide⟩ = 1 := e0
    have e1 : ((mc.synth.voices vo).units un).state ⟨1, by decide⟩ = 1 := e1
    simp only [e0, e1, one_ne_zero, ↓reduceIte, sub_self, zero_le_one, hset0]
    rw [setUnitState_nat _ vo un 1 (by decide) 1 ?_ ?_]
    · simp [hrel, hvo]
    · exact hvo
    · exact hun

/-- The envelope in mono once the voice is released, with release 0: the state
becomes release, a level of at most 1 drops to 0 and `0 * gain` is pushed. -/
theorem execEnvelope_released (m : MathLib) (hm : m.Exp2 0 = 1) (mc : Machine)
    (vo : Fin MAX_VOICES) (un : Fin MAX_UNITS)
    (hvo : mc.voices = vo.val) (hun : mc.units = un.val)
    (hrel : (mc.synth.voices vo).release = true)
    (hr : mc.params 3 = 0)
    (hlev : ((mc.synth.voices vo).units un).state 1 ≤ 1) :
    execEnvelope m false mc = (Except.ok (), { mc with
      stack := mc.stack ++ [0 * mc.params 4]
      synth := { mc.synth with
        voices := Function.update mc.synth.voices vo
          { mc.synth.voices vo with
            units := Function.update (mc.synth.voices vo).units un
              { (mc.synth.voices vo).units un with
                state := Function.update
                  (Function.update ((mc.synth.voices vo).units un).state 0 3) 1 0 } } } }) := by
  have hlev' : ((mc.synth.voices vo).units un).state ⟨1, by decide⟩ - 1 ≤ 0 := by
    have : ((mc.synth.voices vo).units un).state ⟨1, by decide⟩ ≤ 1 := hlev
    linarith
  have hne : (⟨1, by decide⟩ : Fin 8) ≠ ⟨0, by decide⟩ := by decide
  simp only [execEnvelope, bind_run, curVoice, getM_run, hvo, voiceAt_fin, hrel,
    ↓reduceIte, pure_run, envStateAttack, envStateDecay, envStateRelease, nonLinearMap,
    param_run, stackPush_run, Bool.false_eq_true,
    (fun mc' h1 h2 => unitState_nat mc' vo un 0 (by decide) h1 h2),
    (fun mc' h1 h2 => unitState_nat mc' vo un 1 (by decide) h1 h2),
    (fun mc' q h1 h2 => setUnitState_nat mc' vo un 0 (by decide) q h1 h2),
    (fun mc' q h1 h2 => setUnitState_nat mc' vo un 1 (by decide) q h1 h2),
    hun, Function.update_same, Function.update_idem, Function.update_noteq hne, hr, mul_zero, hm,
    hlev']
  simp [hvo, hrel]

/-- The parameters of the envelope of scenario 3 after the parameter loop, with
no modulation in its ports. -/
theorem envelope_params (mc : Machine) (vo : Fin MAX_VOICES) (un : Fin MAX_UNITS)
    (hvals : mc.values = [0, 0, 128, 0, 128, 128])
    (hports : ∀ i : Fin 8, i.val < 5 → ((mc.synth.voices vo).units un).ports i = 0) :
    (afterTransform mc vo un 5).params 0 = 0 ∧ (afterTransform mc vo un 5).params 1 = 0 ∧
    (afterTransform mc vo un 5).params 2 = 1 ∧ (afterTransform mc vo un 5).params 3 = 0 ∧
    (afterTransform mc vo un 5).params 4 = 1 := by
  have p0 := hports 0 (by decide)
  have p1 := hports 1 (by decide)
  have p2 := hports 2 (by decide)
  have p3 := hports 3 (by decide)
  have p4 := hports 4 (by decide)
  have v3 : ((3 : Fin 8) : Nat) = 3 := rfl
  have v4 : ((4 : Fin 8) : Nat) = 4 := rfl
  refine ⟨?_, ?_, ?_, ?_, ?_⟩ <;> simp [afterTransform, hvals, p0, p1, p2, p3, p4, v3, v4]

/-- The unit `envelope` of scenario 3 while the voice is held. -/
theorem env_unit_held (m : MathLib) (hm : m.Exp2 0 = 1) (mc : Machine)
    (hv : mc.voices = 0) (hu : mc.units = 0) (hvals : mc.values = [0, 0, 128, 0, 128, 128])
    (hrel : (mc.synth.voices 0).release = false)
    (hports : ∀ i : Fin 8, i.val < 5 → ((mc.synth.voices 0).units 0).ports i = 0)
    (hst : (((mc.synth.voices 0).units 0).state 0 = 0 ∧
        ((mc.synth.voices 0).units 0).state 1 = 0) ∨
      (((mc.synth.voices 0).units 0).state 0 = 1 ∧
        ((mc.synth.voices 0).units 0).state 1 = 1)) :
    ∃ mc', execUnit m envelopePatch (opEnvelope * 2) mc = (Except.ok (), mc') ∧
      mc'.stack = mc.stack ++ [1] ∧ mc'.values = [128] ∧ mc'.voices = 0 ∧ mc'.units = 1 ∧
      mc'.synth.outputs = mc.synth.outputs ∧
      mc'.time = mc.time ∧ mc'.synth.globalTime = mc.synth.globalTime ∧
      mc'.syncBuf = mc.syncBuf ∧ mc'.syncDone = mc.syncDone ∧
      (mc'.synth.voices 0).release = false ∧
      (∀ i : Fin 8, i.val < 5 → ((mc'.synth.voices 0).units 0).ports i = 0) ∧
      ((mc'.synth.voices 0).units 1).ports = ((mc.synth.voices 0).units 1).ports ∧
      ((mc'.synth.voices 0).units 0).state 0 = 1 ∧
      ((mc'.synth.voices 0).units 0).state 1 = 1 := by
  obtain ⟨q0, q1, q2, q3, q4⟩ := envelope_params mc 0 0 hvals hports
  have hd := execEnvelope_held m hm (afterTransform mc 0 0 5) 0 0 hv hu
    (by simp [afterTransform, hrel]) q0 q1 q2
    (by simpa [afterTransform] using hst)
  have h01 : (1 : Fin MAX_UNITS) ≠ 0 := by decide
  have he := execUnit_ok m envelopePatch (opEnvelope * 2) 5 mc _ 0 0 hv hu (by decide) (by decide)
    (by rw [hvals]; decide)
    (by rw [show (opEnvelope * 2 &&& 0xFE) >>> 1 = opEnvelope by decide, dispatch_envelope,
      show decide ((opEnvelope * 2 &&& 1) + 1 = 2) = false by decide]; exact hd)
  refine ⟨_, he, ?_, ?_, hv, ?_, rfl, rfl, rfl, rfl, rfl, ?_, ?_, ?_, ?_, ?_⟩
  · show mc.stack ++ [1 * (afterTransform mc 0 0 5).params 4] = mc.stack ++ [1]
    rw [q4, mul_one]
  · show mc.values.drop 5 = [128]
    rw [hvals]; rfl
  · show mc.units + 1 = 1
    rw [hu]
  · simp [afterTransform, hrel]
  · intro i hi
    simp [afterTransform, hi]
  · simp [afterTransform, Function.update_noteq h01]
  · simp [afterTransform]
  · simp [afterTransform]

/-- The unit `envelope` of scenario 3 once the voice is released. -/
theorem env_unit_released (m : MathLib) (hm : m.Exp2 0 = 1) (mc : Machine)
    (hv : mc.voices = 0) (hu : mc.units = 0) (hvals : mc.values = [0, 0, 128, 0, 128, 128])
    (hrel : (mc.synth.voices 0).release = true)
    (hports : ∀ i : Fin 8, i.val < 5 → ((mc.synth.voices 0).units 0).ports i = 0)
    (hlev : ((mc.synth.voices 0).units 0).state 1 ≤ 1) :
    ∃ mc', execUnit m envelopePatch (opEnvelope * 2) mc = (Except.ok (), mc') ∧
      mc'.stack = mc.stack ++ [0] ∧ mc'.values = [128] ∧ mc'.voices = 0 ∧ mc'.units = 1 ∧
      mc'.synth.outputs = mc.synth.outputs ∧
      mc'.time = mc.time ∧ mc'.synth.globalTime = mc.synth.globalTime ∧
      mc'.syncBuf = mc.syncBuf ∧ mc'.syncDone = mc.syncDone ∧
      (mc'.synth.voices 0).release = true ∧
      (∀ i : Fin 8, i.val < 5 → ((mc'.synth.voices 0).units 0).ports i = 0) ∧
      ((mc'.synth.voices 0).units 1).ports = ((mc.synth.voices 0).units 1).ports ∧
      ((mc'.synth.voices 0).units 0).state 1 ≤ 1 := by
  obtain ⟨q0, q1, q2, q3, q4⟩ := envelope_params mc 0 0 hvals hports
  have hd := execEnvelope_released m hm (afterTransform mc 0 0 5) 0 0 hv hu
    (by simp [afterTransform, hrel]) q3
    (by simpa [afterTransform] using hlev)
  have h01 : (1 : Fin MAX_UNITS) ≠ 0 := by decide
  have he := execUnit_ok m envelopePatch (opEnvelope * 2) 5 mc _ 0 0 hv hu (by decide) (by decide)
    (by rw [hvals]; decide)
    (by rw [show (opEnvelope * 2 &&& 0xFE) >>> 1 = opEnvelope by decide, dispatch_envelope,
      show decide ((opEnvelope * 2 &&& 1) + 1 = 2) = false by decide]; exact hd)
  refine ⟨_, he, ?_, ?_, hv, ?_, rfl, rfl, rfl, rfl, rfl, ?_, ?_, ?_, ?_⟩
  · show mc.stack ++ [0 * (afterTransform mc 0 0 5).params 4] = mc.stack ++ [0]
    rw [zero_mul]
  · show mc.values.drop 5 = [128]
    rw [hvals]; rfl
  · show mc.units + 1 = 1
    rw [hu]
  · simp [afterTransform, hrel]
  · intro i hi
    simp [afterTransform, hi]
  · simp [afterTransform, Function.update_noteq h01]
  · simp [afterTransform]

/-- The unit `out` in mono with gain byte 128 and no modulation, as the second
unit of voice 0, on a stack with top `x`: `x` is added to channel 0 and popped;
unit 0 of the voice is untouched. -/
theorem out_unit_one (m : MathLib) (bp : BytePatch) (mc : Machine) (xs : List ℚ) (x : ℚ)
    (hv : mc.voices = 0) (hu : mc.units = 1) (hvals : mc.values = [128])
    (hstack : mc.stack = xs ++ [x])
    (hp : ((mc.synth.voices 0).units 1).ports 0 = 0) :
    ∃ mc', execUnit m bp (opOut * 2) mc = (Except.ok (), mc') ∧
      mc'.stack = xs ∧ mc'.voices = 0 ∧
      mc'.synth.outputs 0 = mc.synth.outputs 0 + x ∧
      mc'.synth.outputs 1 = mc.synth.outputs 1 ∧
      mc'.time = mc.time ∧ mc'.synth.globalTime = mc.synth.globalTime ∧
      mc'.syncBuf = mc.syncBuf ∧ mc'.syncDone = mc.syncDone ∧
      (mc'.synth.voices 0).release = (mc.synth.voices 0).release ∧
      (mc'.synth.voices 0).units 0 = (mc.synth.voices 0).units 0 ∧
      ((mc'.synth.voices 0).units 1).ports 0 = 0 := by
  have he := execUnit_out m bp mc 0 1 128 [] xs x hv hu hvals hstack
  have h01 : (0 : Fin MAX_UNITS) ≠ 1 := by decide
  refine ⟨_, he, rfl, hv, ?_, ?_, rfl, rfl, rfl, rfl, ?_, ?_, ?_⟩
  · simp [hp]
  · simp
  · simp [afterTransform]
  · simp [afterTransform, Function.update_noteq h01]
  · simp [afterTransform]

/-- One sample of the envelope patch while the voice is held. -/
theorem env_voiceLoop_held (m : MathLib) (hm : m.Exp2 0 = 1) (mc : Machine)
    (hv : mc.voices = 0) (hu : mc.units = 0) (hvals : mc.values = [0, 0, 128, 0, 128, 128])
    (hrel : (mc.synth.voices 0).release = false)
    (hports : ∀ i : Fin 8, i.val < 5 → ((mc.synth.voices 0).units 0).ports i = 0)
    (hp1 : ((mc.synth.voices 0).units 1).ports 0 = 0)
    (hst : (((mc.synth.voices 0).units 0).state 0 = 0 ∧
        ((mc.synth.voices 0).units 0).state 1 = 0) ∨
      (((mc.synth.voices 0).units 0).state 0 = 1 ∧
        ((mc.synth.voices 0).units 0).state 1 = 1)) :
    ∃ mc', voiceLoop m envelopePatch 1 [opEnvelope * 2, opOut * 2, 0]
        [opEnvelope * 2, opOut * 2, 0] [0, 0, 128, 0, 128, 128] mc = (Except.ok (), mc') ∧
      mc'.stack = mc.stack ∧
      mc'.synth.outputs 0 = mc.synth.outputs 0 + 1 ∧
      mc'.synth.outputs 1 = mc.synth.outputs 1 ∧
      mc'.time = mc.time ∧ mc'.synth.globalTime = mc.synth.globalTime ∧
      mc'.syncBuf = mc.syncBuf ∧ mc'.syncDone = mc.syncDone ∧
      (mc'.synth.voices 0).release = false ∧
      (∀ i : Fin 8, i.val < 5 → ((mc'.synth.voices 0).units 0).ports i = 0) ∧
      ((mc'.synth.voices 0).units 1).ports 0 = 0 ∧
      ((mc'.synth.voices 0).units 0).state 0 = 1 ∧
      ((mc'.synth.voices 0).units 0).state 1 = 1 := by
  obtain ⟨mcA, hA, a1, a2, a3, a4, a5, a6, a7, a8, a9, a10, a11, a12, a13, a14⟩ :=
    env_unit_held m hm mc hv hu hvals hrel hports hst
  obtain ⟨mcB, hB, b1, b2, b3, b4, b5, b6, b7, b8, b9, b10, b11⟩ :=
    out_unit_one m envelopePatch mcA mc.stack 1 a3 a4 a2 a1 (by rw [a12]; exact hp1)
  have hul := unitLoop_unit m envelopePatch (opEnvelope * 2) [opOut * 2, 0] mc _ (by decide) hA
  rw [unitLoop_unit m envelopePatch (opOut * 2) [0] _ _ (by decide) hB,
    unitLoop_advance m envelopePatch 0 [] _ (by decide)] at hul
  have hvl := voiceLoop_succ m envelopePatch 0 [opEnvelope * 2, opOut * 2, 0]
    [opEnvelope * 2, opOut * 2, 0] [0, 0, 128, 0, 128, 128] [] mc _ hul
    (show mcB.voices + 1 < MAX_VOICES by rw [b2]; decide)
  rw [if_neg (show ¬ (envelopePatch.PolyphonyBitmask &&& ((1 <<< 0) % 2 ^ 32)
      = (1 <<< 0) % 2 ^ 32) by decide), voiceLoop_zero] at hvl
  refine ⟨_, hvl, b1, ?_, ?_, ?_, ?_, ?_, ?_, ?_, ?_, b11, ?_, ?_⟩
  · show mcB.synth.outputs 0 = _
    rw [b3, a5]
  · show mcB.synth.outputs 1 = _
    rw [b4, a5]
  · show mcB.time = _
    rw [b5, a6]
  · show mcB.synth.globalTime = _
    rw [b6, a7]
  · show mcB.syncBuf = _
    rw [b7, a8]
  · show mcB.syncDone = _
    rw [b8, a9]
  · show (mcB.synth.voices 0).release = false
    rw [b9, a10]
  · intro i hi
    show ((mcB.synth.voices 0).units 0).ports i = 0
    rw [b10]; exact a11 i hi
  · show ((mcB.synth.voices 0).units 0).state 0 = 1
    rw [b10]; exact a13
  · show ((mcB.synth.voices 0).units 0).state 1 = 1
    rw [b10]; exact a14

/-- One sample of the envelope patch once the voice is released. -/
theorem env_voiceLoop_released (m : MathLib) (hm : m.Exp2 0 = 1) (mc : Machine)
    (hv : mc.voices = 0) (hu : mc.units = 0) (hvals : mc.values = [0, 0, 128, 0, 128, 128])
    (hrel : (mc.synth.voices 0).release = true)
    (hports : ∀ i : Fin 8, i.val < 5 → ((mc.synth.voices 0).units 0).ports i = 0)
    (hp1 : ((mc.synth.voices 0).units 1).ports 0 = 0)
    (hlev : ((mc.synth.voices 0).units 0).state 1 ≤ 1) :
    ∃ mc', voiceLoop m envelopePatch 1 [opEnvelope * 2, opOut * 2, 0]
        [opEnvelope * 2, opOut * 2, 0] [0, 0, 128, 0, 128, 128] mc = (Except.ok (), mc') ∧
      mc'.stack = mc.stack ∧
      mc'.synth.outputs 0 = mc.synth.outputs 0 + 0 ∧
      mc'.synth.outputs 1 = mc.synth.outputs 1 ∧
      mc'.time = mc.time ∧ mc'.synth.globalTime = mc.synth.globalTime ∧
      mc'.syncBuf = mc.syncBuf ∧ mc'.syncDone = mc.syncDone ∧
      (mc'.synth.voices 0).release = true ∧
      (∀ i : Fin 8, i.val < 5 → ((mc'.synth.voices 0).units 0).ports i = 0) ∧
      ((mc'.synth.voices 0).units 1).ports 0 = 0 ∧
      ((mc'.synth.voices 0).units 0).state 1 ≤ 1 := by
  obtain ⟨mcA, hA, a1, a2, a3, a4, a5, a6, a7, a8, a9, a10, a11, a12, a13⟩ :=
    env_unit_released m hm mc hv hu hvals hrel hports hlev
  obtain ⟨mcB, hB, b1, b2, b3, b4, b5, b6, b7, b8, b9, b10, b11⟩ :=
    out_unit_one m envelopePatch mcA mc.stack 0 a3 a4 a2 a1 (by rw [a12]; exact hp1)
  have hul := unitLoop_unit m envelopePatch (opEnvelope * 2) [opOut * 2, 0] mc _ (by decide) hA
  rw [unitLoop_unit m envelopePatch (opOut * 2) [0] _ _ (by decide) hB,
    unitLoop_advance m envelopePatch 0 [] _ (by decide)] at hul
  have hvl := voiceLoop_succ m envelopePatch 0 [opEnvelope * 2, opOut * 2, 0]
    [opEnvelope * 2, opOut * 2, 0] [0, 0, 128, 0, 128, 128] [] mc _ hul
    (show mcB.voices + 1 < MAX_VOICES by rw [b2]; decide)
  rw [if_neg (show ¬ (envelopePatch.PolyphonyBitmask &&& ((1 <<< 0) % 2 ^ 32)
      = (1 <<< 0) % 2 ^ 32) by decide), voiceLoop_zero] at hvl
  refine ⟨_, hvl, b1, ?_, ?_, ?_, ?_, ?_, ?_, ?_, ?_, b11, ?_⟩
  · show mcB.synth.outputs 0 = _
    rw [b3, a5]
  · show mcB.synth.outputs 1 = _
    rw [b4, a5]
  · show mcB.time = _
    rw [b5, a6]
  · show mcB.synth.globalTime = _
    rw [b6, a7]
  · show mcB.syncBuf = _
    rw [b7, a8]
  · show mcB.syncDone = _
    rw [b8, a9]
  · show (mcB.synth.voices 0).release = true
    rw [b9, a10]
  · intro i hi
    show ((mcB.synth.voices 0).units 0).ports i = 0
    rw [b10]; exact a11 i hi
  · show ((mcB.synth.voices 0).units 0).state 1 ≤ 1
    rw [b10]; exact a13

theorem Render_stack_nil (m : MathLib) (s : Interpreter) (buffer syncBuf : List ℚ)
    (maxtime : Int) (h : s.stack = []) : (Render m s buffer syncBuf maxtime).s.stack = [] := by
  show (match (renderLoop m s.bytePatch maxtime buffer (renderInit s buffer syncBuf)).1 with
    | Except.ok _ => (renderLoop m s.bytePatch maxtime buffer
        (renderInit s buffer syncBuf)).2.machine.stack.take 0
    | Except.error _ => s.stack) = []
  cases (renderLoop m s.bytePatch maxtime buffer (renderInit s buffer syncBuf)).1 with
  | ok _ => rfl
  | error _ => exact h

/-- `Render` on the envelope patch while voice 0 is held. -/
theorem Render_envelope_held (m : MathLib) (hm : m.Exp2 0 = 1) (s : Interpreter)
    (buffer syncBuf : List ℚ) (maxtime : Int)
    (hpatch : s.bytePatch = envelopePatch) (hstack : s.stack = [])
    (hinv : EnvelopeHeld s.synth) :
    (Render m s buffer syncBuf maxtime).buffer
      = (List.replicate (Render m s buffer syncBuf maxtime).samples [1, 0]).flatten
        ++ buffer.drop (2 * (Render m s buffer syncBuf maxtime).samples) ∧
    (Render m s buffer syncBuf maxtime).s.bytePatch = envelopePatch ∧
    (Render m s buffer syncBuf maxtime).s.stack = [] ∧
    EnvelopeHeld (Render m s buffer syncBuf maxtime).s.synth ∧
    (syncCount s.synth.globalTime (min maxtime.toNat (buffer.length / 2)) ≤ syncBuf.length →
      (Render m s buffer syncBuf maxtime).renderError = none ∧
      (Render m s buffer syncBuf maxtime).samples = min maxtime.toNat (buffer.length / 2)) := by
  obtain ⟨hbuf, _, ⟨mcf, hPf, hsf, _⟩, hsync⟩ := Render_steady m s buffer syncBuf maxtime
    (fun mc => mc.stack.length = 4 ∧ EnvelopeHeld mc.synth) 1 0
    (fun mc sd sb h => h)
    (fun mc hP hvals _ hv hu => by
      rw [hpatch] at hvals ⊢
      obtain ⟨hl, o0, o1, hrel, hports, hp1, hst⟩ := hP
      obtain ⟨mc', g1, g2, g3, g4, g5, g6, g7, g8, g9, g10, g11, g12, g13⟩ :=
        env_voiceLoop_held m hm mc hv hu hvals hrel hports hp1 hst
      refine ⟨mc', g1, by rw [g2]; exact hl, by rw [g3, o0, zero_add], by rw [g4, o1], g5, g6, g7,
        g8, by rw [g2]; exact hl, ?_, ?_, g9, g10, g11, Or.inr ⟨g12, g13⟩⟩
      · simp
      · simp)
    ⟨by simp [renderInit, hstack], hinv⟩
  refine ⟨hbuf, hpatch, Render_stack_nil m s buffer syncBuf maxtime hstack, ?_,
    fun h => ⟨(hsync h).1, (hsync h).2.1⟩⟩
  rw [hsf]
  exact hPf.2

/-- `Render` on the envelope patch once voice 0 is released. -/
theorem Render_envelope_released (m : MathLib) (hm : m.Exp2 0 = 1) (s : Interpreter)
    (buffer syncBuf : List ℚ) (maxtime : Int)
    (hpatch : s.bytePatch = envelopePatch) (hstack : s.stack = [])
    (hinv : EnvelopeReleased s.synth) :
    (Render m s buffer syncBuf maxtime).buffer
      = (List.replicate (Render m s buffer syncBuf maxtime).samples [0, 0]).flatten
        ++ buffer.drop (2 * (Render m s buffer syncBuf maxtime).samples) ∧
    (Render m s buffer syncBuf maxtime).s.bytePatch = envelopePatch ∧
    (Render m s buffer syncBuf maxtime).s.stack = [] ∧
    EnvelopeReleased (Render m s buffer syncBuf maxtime).s.synth ∧
    (syncCount s.synth.globalTime (min maxtime.toNat (buffer.length / 2)) ≤ syncBuf.length →
      (Render m s buffer syncBuf maxtime).renderError = none ∧
      (Render m s buffer syncBuf maxtime).samples = min maxtime.toNat (buffer.length / 2)) := by
  obtain ⟨hbuf, _, ⟨mcf, hPf, hsf, _⟩, hsync⟩ := Render_steady m s buffer syncBuf maxtime
    (fun mc => mc.stack.length = 4 ∧ EnvelopeReleased mc.synth) 0 0
    (fun mc sd sb h => h)
    (fun mc hP hvals _ hv hu => by
      rw [hpatch] at hvals ⊢
      obtain ⟨hl, o0, o1, hrel, hports, hp1, hlev⟩ := hP
      obtain ⟨mc', g1, g2, g3, g4, g5, g6, g7, g8, g9, g10, g11, g12⟩ :=
        env_voiceLoop_released m hm mc hv hu hvals hrel hports hp1 hlev
      refine ⟨mc', g1, by rw [g2]; exact hl, by rw [g3, o0, zero_add], by rw [g4, o1], g5, g6, g7,
        g8, by rw [g2]; exact hl, ?_, ?_, g9, g10, g11, g12⟩
      · simp
      · simp)
    ⟨by simp [renderInit, hstack], hinv⟩
  refine ⟨hbuf, hpatch, Render_stack_nil m s buffer syncBuf maxtime hstack, ?_,
    fun h => ⟨(hsync h).1, (hsync h).2.1⟩⟩
  rw [hsf]
  exact hPf.2

/-- The frames of a result of `Render`, read off the buffer it hands back. -/
theorem frames_of_buffer (r : RenderResult) (buffer : List ℚ) (x y : ℚ)
    (h : r.buffer = (List.replicate r.samples [x, y]).flatten ++ buffer.drop (2 * r.samples)) :
    ∀ i, i < r.samples → r.buffer[2 * i]? = some x ∧ r.buffer[2 * i + 1]? = some y := by
  intro i hi
  obtain ⟨ha, hb⟩ := frames_getElem? x y _ i hi
  have hlen := frames_length x y r.samples
  rw [h, List.getElem?_append_left (by omega), List.getElem?_append_left (by omega)]
  exact ⟨ha, hb⟩

theorem renderCalls_envelope_held (m : MathLib) (hm : m.Exp2 0 = 1) :
    ∀ (calls : List RenderCall) (s : Interpreter),
      s.bytePatch = envelopePatch → s.stack = [] → EnvelopeHeld s.synth →
      (∀ r ∈ renderCalls m s calls, ∀ i, i < r.samples →
        r.buffer[2 * i]? = some 1 ∧ r.buffer[2 * i + 1]? = some 0) ∧
      (afterCalls m s calls).bytePatch = envelopePatch ∧ (afterCalls m s calls).stack = [] ∧
      EnvelopeHeld (afterCalls m s calls).synth := by
  intro calls
  induction calls with
  | nil => intro s h1 h2 h3; exact ⟨by simp [renderCalls], h1, h2, h3⟩
  | cons c cs ih =>
    intro s h1 h2 h3
    obtain ⟨hb, g1, g2, g3, _⟩ := Render_envelope_held m hm s c.buffer c.syncBuf c.maxtime h1 h2 h3
    obtain ⟨i1, i2, i3, i4⟩ := ih _ g1 g2 g3
    refine ⟨?_, i2, i3, i4⟩
    intro r hr
    simp only [renderCalls, List.mem_cons] at hr
    rcases hr with hr | hr
    · subst hr
      exact frames_of_buffer _ c.buffer 1 0 hb
    · exact i1 r hr

theorem renderCalls_envelope_released (m : MathLib) (hm : m.Exp2 0 = 1) :
    ∀ (calls : List RenderCall) (s : Interpreter),
      s.bytePatch = envelopePatch → s.stack = [] → EnvelopeReleased s.synth →
      (∀ r ∈ renderCalls m s calls, ∀ i, i < r.samples →
        r.buffer[2 * i]? = some 0 ∧ r.buffer[2 * i + 1]? = some 0) := by
  intro calls
  induction calls with
  | nil => intro s h1 h2 h3; simp [renderCalls]
  | cons c cs ih =>
    intro s h1 h2 h3
    obtain ⟨hb, g1, g2, g3, _⟩ :=
      Render_envelope_released m hm s c.buffer c.syncBuf c.maxtime h1 h2 h3
    intro r hr
    simp only [renderCalls, List.mem_cons] at hr
    rcases hr with hr | hr
    · subst hr
      exact frames_of_buffer _ c.buffer 0 0 hb
    · exact ih _ g1 g2 g3 r hr

/-- C6: for the one-voice patch `envelope(0, 0, 128, 0, 128); out(128); advance`
on a fresh interpreter, with the library's `Exp2 0 = 1`: after `Trigger(0, note)`
every frame that any sequence of `Render` calls writes is (1, 0); after a
`Release(0)` that follows them every frame that any further sequence of `Render`
calls writes, the first included, is (0, 0).  With a sync buffer long enough a
call in either phase returns no error and `samples = min(maxtime, len(buffer)/2)`. -/
theorem envelope_render (m : MathLib) (hm : m.Exp2 0 = 1) (numDelayLines note : Nat)
    (s1 s3 : Interpreter) (calls1 calls2 : List RenderCall)
    (h1 : Trigger (Interpreter.fresh envelopePatch numDelayLines) 0 note = some s1)
    (h3 : Release (afterCalls m s1 calls1) 0 = some s3) :
    (∀ r ∈ renderCalls m s1 calls1, ∀ i, i < r.samples →
      r.buffer[2 * i]? = some 1 ∧ r.buffer[2 * i + 1]? = some 0) ∧
    (∀ r ∈ renderCalls m s3 calls2, ∀ i, i < r.samples →
      r.buffer[2 * i]? = some 0 ∧ r.buffer[2 * i + 1]? = some 0) ∧
    (∀ (buffer syncBuf : List ℚ) (maxtime : Int),
      syncCount s1.synth.globalTime (min maxtime.toNat (buffer.length / 2)) ≤ syncBuf.length →
      (Render m s1 buffer syncBuf maxtime).renderError = none ∧
      (Render m s1 buffer syncBuf maxtime).samples = min maxtime.toNat (buffer.length / 2)) ∧
    (∀ (buffer syncBuf : List ℚ) (maxtime : Int),
      syncCount s3.synth.globalTime (min maxtime.toNat (buffer.length / 2)) ≤ syncBuf.length →
      (Render m s3 buffer syncBuf maxtime).renderError = none ∧
      (Render m s3 buffer syncBuf maxtime).samples = min maxtime.toNat (buffer.length / 2)) := by
  have e1 : s1 = { Interpreter.fresh envelopePatch numDelayLines with
      synth := { (Interpreter.fresh envelopePatch numDelayLines).synth with
        voices := Function.update (Interpreter.fresh envelopePatch numDelayLines).synth.voices 0
          { voice.zero with note := note } } } := by
    have := h1
    simp only [Trigger] at this
    rw [dif_pos (by decide)] at this
    exact (Option.some.inj this).symm
  have hpatch1 : s1.bytePatch = envelopePatch := by rw [e1]; rfl
  have hstack1 : s1.stack = [] := by rw [e1]; rfl
  have hinv1 : EnvelopeHeld s1.synth := by
    rw [e1]
    refine ⟨rfl, rfl, ?_, ?_, ?_, Or.inl ⟨?_, ?_⟩⟩ <;> simp [voice.zero, unit.zero]
  obtain ⟨hA, hpatch2, hstack2, hinv2⟩ :=
    renderCalls_envelope_held m hm calls1 s1 hpatch1 hstack1 hinv1
  have e3 : s3 = { afterCalls m s1 calls1 with synth := { (afterCalls m s1 calls1).synth with
      voices := Function.update (afterCalls m s1 calls1).synth.voices 0
        { (afterCalls m s1 calls1).synth.voices 0 with release := true } } } := by
    have := h3
    simp only [Release] at this
    rw [dif_pos (by decide)] at this
    exact (Option.some.inj this).symm
  have hpatch3 : s3.bytePatch = envelopePatch := by rw [e3]; exact hpatch2
  have hstack3 : s3.stack = [] := by rw [e3]; exact hstack2
  have hinv3 : EnvelopeReleased s3.synth := by
    obtain ⟨o0, o1, _, hports, hp1, hst⟩ := hinv2
    rw [e3]
    refine ⟨o0, o1, ?_, ?_, ?_, ?_⟩
    · simp
    · intro i hi
      have := hports i hi
      simpa using this
    · simpa using hp1
    · have : ((((afterCalls m s1 calls1).synth.voices 0).units 0).state 1) ≤ 1 := by
        rcases hst with h | h
        · rw [h.2]; norm_num
        · rw [h.2]
      simpa using this
  refine ⟨hA, renderCalls_envelope_released m hm calls2 s3 hpatch3 hstack3 hinv3, ?_, ?_⟩
  · intro buffer syncBuf maxtime h
    exact (Render_envelope_held m hm s1 buffer syncBuf maxtime hpatch1 hstack1 hinv1).2.2.2.2 h
  · intro buffer syncBuf maxtime h
    exact (Render_envelope_released m hm s3 buffer syncBuf maxtime hpatch3 hstack3 hinv3).2.2.2.2 h

theorem envelope_render_witness :
    (sampleMath.Exp2 0 = 1 ∧
      Trigger (Interpreter.fresh envelopePatch 0) 0 64
        = some ((Trigger (Interpreter.fresh envelopePatch 0) 0 64).get rfl) ∧
      Release (afterCalls sampleMath ((Trigger (Interpreter.fresh envelopePatch 0) 0 64).get rfl)
          [⟨[7, 7, 7, 7], [9], 2⟩]) 0
        = some ((Release (afterCalls sampleMath
            ((Trigger (Interpreter.fresh envelopePatch 0) 0 64).get rfl)
            [⟨[7, 7, 7, 7], [9], 2⟩]) 0).get rfl)) ∧
    (∀ r ∈ renderCalls sampleMath ((Trigger (Interpreter.fresh envelopePatch 0) 0 64).get rfl)
        [⟨[7, 7, 7, 7], [9], 2⟩], ∀ i, i < r.samples →
      r.buffer[2 * i]? = some 1 ∧ r.buffer[2 * i + 1]? = some 0) ∧
    (∀ r ∈ renderCalls sampleMath ((Release (afterCalls sampleMath
          ((Trigger (Interpreter.fresh envelopePatch 0) 0 64).get rfl)
          [⟨[7, 7, 7, 7], [9], 2⟩]) 0).get rfl) [⟨[7, 7, 7, 7], [9], 2⟩], ∀ i, i < r.samples →
      r.buffer[2 * i]? = some 0 ∧ r.buffer[2 * i + 1]? = some 0) ∧
    (Render sampleMath ((Trigger (Interpreter.fresh envelopePatch 0) 0 64).get rfl)
      [7, 7, 7, 7] [9] 2).samples = 2 :=
  have w := envelope_render sampleMath rfl 0 64
    ((Trigger (Interpreter.fresh envelopePatch 0) 0 64).get rfl)
    ((Release (afterCalls sampleMath ((Trigger (Interpreter.fresh envelopePatch 0) 0 64).get rfl)
      [⟨[7, 7, 7, 7], [9], 2⟩]) 0).get rfl)
    [⟨[7, 7, 7, 7], [9], 2⟩] [⟨[7, 7, 7, 7], [9], 2⟩]
    (Option.some_get _).symm (Option.some_get _).symm
  ⟨⟨rfl, (Option.some_get _).symm, (Option.some_get _).symm⟩, w.1, w.2.1,
    (w.2.2.1 [7, 7, 7, 7] [9] 2 (by decide)).2⟩

/-- One turn of the loop of `Render` that ends without an error leaves channels
0 and 1 of the output bus at zero. -/
theorem sample_body_clears (m : MathLib) (bp : BytePatch) (rest : List ℚ)
    (st st' : RenderState)
    (h : (do beginSample bp
             onMachine (voiceLoop m bp bp.NumVoices bp.Commands bp.Commands bp.Values)
             endSample rest : Exec RenderState Unit) st = (Except.ok (), st')) :
    st'.machine.synth.outputs 0 = 0 ∧ st'.machine.synth.outputs 1 = 0 := by
  simp only [bind_run] at h
  rcases hb : beginSample bp st with ⟨_ | _, st1⟩
  · rw [hb] at h; simp at h
  rw [hb] at h
  simp only at h
  rcases hv : onMachine (voiceLoop m bp bp.NumVoices bp.Commands bp.Commands bp.Values) st1
    with ⟨_ | _, st2⟩
  · rw [hv] at h; simp at h
  rw [hv] at h
  simp only at h
  rcases endSample_cases rest st2 with ⟨_, he⟩ | ⟨_, he⟩ | ⟨_, he⟩
  · rw [he] at h; simp at h
  · rw [he] at h; simp at h
  · rw [he] at h
    have := (Prod.mk.inj h).2
    rw [← this]
    simp

theorem sampleStarts_cons (m : MathLib) (bp : BytePatch) (maxtime : Int) (b0 b1 : ℚ)
    (rest : List ℚ) (st : RenderState) :
    sampleStarts m bp maxtime (b0 :: b1 :: rest) st =
      if st.machine.time < maxtime then
        st :: (match (do
            beginSample bp
            onMachine (voiceLoop m bp bp.NumVoices bp.Commands bp.Commands bp.Values)
            endSample rest : Exec RenderState Unit) st with
          | (Except.ok _, st') => sampleStarts m bp maxtime rest st'
          | (Except.error _, _) => [])
      else [] := by
  rw [sampleStarts]

theorem sampleStarts_short (m : MathLib) (bp : BytePatch) (maxtime : Int) (buf : List ℚ)
    (h : ∀ (b0 b1 : ℚ) (rest : List ℚ), buf = b0 :: b1 :: rest → False) (st : RenderState) :
    sampleStarts m bp maxtime buf st = [] := by
  match buf, h with
  | [], _ => rfl
  | [_], _ => rfl
  | b0 :: b1 :: rest, h => exact absurd rfl (fun e => h b0 b1 rest e)

theorem sampleStarts_step (m : MathLib) (bp : BytePatch) (maxtime : Int) (b0 b1 : ℚ)
    (rest : List ℚ) (st st' : RenderState) (ht : st.machine.time < maxtime)
    (h : (do beginSample bp
             onMachine (voiceLoop m bp bp.NumVoices bp.Commands bp.Commands bp.Values)
             endSample rest : Exec RenderState Unit) st = (Except.ok (), st')) :
    sampleStarts m bp maxtime (b0 :: b1 :: rest) st
      = st :: sampleStarts m bp maxtime rest st' := by
  rw [sampleStarts_cons, if_pos ht, h]

/-- Channels 0 and 1 are zero at the start of every sample of one call whose
first sample starts with them at zero. -/
theorem sampleStarts_clear (m : MathLib) (bp : BytePatch) (maxtime : Int) :
    ∀ (buf : List ℚ) (st : RenderState),
      st.machine.synth.outputs 0 = 0 ∧ st.machine.synth.outputs 1 = 0 →
      ∀ st' ∈ sampleStarts m bp maxtime buf st,
        st'.machine.synth.outputs 0 = 0 ∧ st'.machine.synth.outputs 1 = 0 := by
  intro buf
  induction buf using buffer_induction with
  | hshort buf h =>
    intro st _ st' hmem
    rw [sampleStarts_short m bp maxtime buf h] at hmem
    simp at hmem
  | hcons b0 b1 rest ih =>
    intro st hst st' hmem
    rw [sampleStarts_cons] at hmem
    by_cases ht : st.machine.time < maxtime
    · rw [if_pos ht] at hmem
      rcases hb : (do beginSample bp
                      onMachine (voiceLoop m bp bp.NumVoices bp.Commands bp.Commands bp.Values)
                      endSample rest : Exec RenderState Unit) st with ⟨_ | _, st1⟩
      · rw [hb] at hmem
        simp only [List.mem_singleton] at hmem
        rw [hmem]; exact hst
      · rw [hb] at hmem
        simp only [List.mem_cons] at hmem
        rcases hmem with hmem | hmem
        · rw [hmem]; exact hst
        · exact ih st1 (sample_body_clears m bp rest st st1 hb) st' hmem
    · rw [if_neg ht] at hmem
      simp at hmem

/-- The loop of `Render`, when it ends without an error, leaves channels 0 and 1
at zero if it started with them at zero. -/
theorem renderLoop_clear (m : MathLib) (bp : BytePatch) (maxtime : Int) :
    ∀ (buf : List ℚ) (st st' : RenderState),
      st.machine.synth.outputs 0 = 0 ∧ st.machine.synth.outputs 1 = 0 →
      renderLoop m bp maxtime buf st = (Except.ok (), st') →
      st'.machine.synth.outputs 0 = 0 ∧ st'.machine.synth.outputs 1 = 0 := by
  intro buf
  induction buf using buffer_induction with
  | hshort buf h =>
    intro st st' hst hr
    rw [renderLoop_short m bp maxtime buf h] at hr
    rw [← (Prod.mk.inj hr).2]; exact hst
  | hcons b0 b1 rest ih =>
    intro st st' hst hr
    rw [renderLoop_cons] at hr
    by_cases ht : st.machine.time < maxtime
    · rw [if_pos ht] at hr
      rcases hb : (do beginSample bp
                      onMachine (voiceLoop m bp bp.NumVoices bp.Commands bp.Commands bp.Values)
                      endSample rest : Exec RenderState Unit) st with ⟨_ | _, st1⟩
      · exfalso
        simp only [bind_run] at hr hb
        revert hr hb
        rcases beginSample bp st with ⟨_ | _, s1⟩
        · simp
        simp only
        rcases onMachine (voiceLoop m bp bp.NumVoices bp.Commands bp.Commands bp.Values) s1
          with ⟨_ | _, s2⟩
        · simp
        simp only
        rcases endSample rest s2 with ⟨_ | _, s3⟩
        · simp
        · simp
      · have hcl := sample_body_clears m bp rest st st1 hb
        refine ih st1 st' hcl ?_
        simp only [bind_run] at hr hb
        revert hr hb
        rcases beginSample bp st with ⟨_ | _, s1⟩
        · simp
        simp only
        rcases onMachine (voiceLoop m bp bp.NumVoices bp.Commands bp.Commands bp.Values) s1
          with ⟨_ | _, s2⟩
        · simp
        simp only
        rcases endSample rest s2 with ⟨_ | _, s3⟩
        · simp
        · simp only
          intro hr hb
          rw [← (Prod.mk.inj hb).2]
          exact hr
    · rw [if_neg ht] at hr
      rw [← (Prod.mk.inj hr).2]; exact hst

/-- A call of `Render` that returns no error hands the interpreter back with
channels 0 and 1 at zero if it got it so. -/
theorem Render_clear (m : MathLib) (s : Interpreter) (buffer syncBuf : List ℚ) (maxtime : Int)
    (hs : s.synth.outputs 0 = 0 ∧ s.synth.outputs 1 = 0)
    (he : (Render m s buffer syncBuf maxtime).renderError = none) :
    (Render m s buffer syncBuf maxtime).s.synth.outputs 0 = 0 ∧
    (Render m s buffer syncBuf maxtime).s.synth.outputs 1 = 0 := by
  rcases hr : renderLoop m s.bytePatch maxtime buffer (renderInit s buffer syncBuf)
    with ⟨_ | _, st'⟩
  · exfalso
    have : (Render m s buffer syncBuf maxtime).renderError
        = (match (renderLoop m s.bytePatch maxtime buffer (renderInit s buffer syncBuf)).1 with
          | Except.ok _ => none
          | Except.error e => some e) := rfl
    rw [this, hr] at he
    simp at he
  · have : (Render m s buffer syncBuf maxtime).s.synth
        = (renderLoop m s.bytePatch maxtime buffer (renderInit s buffer syncBuf)).2.machine.synth :=
      rfl
    rw [this, hr]
    exact renderLoop_clear m s.bytePatch maxtime buffer _ st' hs hr

theorem execOutaux_mono_run (mc : Machine) (xs : List ℚ) (x : ℚ) (h : mc.stack = xs ++ [x]) :
    execOutaux false (mc.stack.length : Int) mc = (Except.ok (), { mc with
      synth := { mc.synth with
        outputs := Function.update
          (Function.update mc.synth.outputs 0 (mc.synth.outputs 0 + mc.params 0 * x)) 2
          (mc.synth.outputs 2 + mc.params 1 * x) }
      stack := xs }) := by
  have hl : (mc.stack.length : Int) - 1 = (xs.length : Int) := by simp [h]
  simp only [execOutaux, bind_run, pure_run, param_run, Bool.false_eq_true, ↓reduceIte, output,
    getM_run, dif_pos (show (0 : Nat) < 8 by decide), dif_pos (show (2 : Nat) < 8 by decide)]
  rw [stackGet_eq mc _ xs.length x hl (by simp [h])]
  simp only [setOutput, dif_pos (show (0 : Nat) < 8 by decide),
    dif_pos (show (2 : Nat) < 8 by decide), modifyM_run]
  rw [stackGet_eq _ _ xs.length x hl (by simp [h])]
  simp only []
  rw [stackTake_eq _ _ xs.length hl (by simp [h])]
  simp [h]

/-- The unit `outaux` in mono, with its two parameter bytes at the head of the
value stream, on a stack with top `x`. -/
theorem execUnit_outaux (m : MathLib) (bp : BytePatch) (mc : Machine)
    (vo : Fin MAX_VOICES) (un : Fin MAX_UNITS) (v0 v1 : Nat) (rest : List Nat) (xs : List ℚ)
    (x : ℚ) (hvo : mc.voices = vo.val) (hun : mc.units = un.val)
    (hvals : mc.values = v0 :: v1 :: rest) (hstack : mc.stack = xs ++ [x]) :
    execUnit m bp (opOutaux * 2) mc = (Except.ok (),
      { afterTransform mc vo un 2 with
        synth := { (afterTransform mc vo un 2).synth with
          outputs := Function.update (Function.update mc.synth.outputs 0 (mc.synth.outputs 0 +
            ((v0 : ℚ) / 128 + ((mc.synth.voices vo).units un).ports 0) * x)) 2
            (mc.synth.outputs 2 + ((v1 : ℚ) / 128 + ((mc.synth.voices vo).units un).ports 1) * x) }
        stack := xs
        units := mc.units + 1 }) := by
  rw [execUnit_ok m bp (opOutaux * 2) 2 mc _ vo un hvo hun (by decide) (by decide)
    (by rw [hvals]; simp)
    (by rw [show (opOutaux * 2 &&& 0xFE) >>> 1 = opOutaux by decide, dispatch_outaux,
      show decide ((opOutaux * 2 &&& 1) + 1 = 2) = false by decide,
      execOutaux_mono_run (afterTransform mc vo un 2) xs x hstack])]
  simp [afterTransform, hvals]

/-- One sample of `loadval(128); outaux(128, 128); advance`. -/
theorem outaux_voiceLoop (m : MathLib) (mc : Machine)
    (hv : mc.voices = 0) (hu : mc.units = 0) (hvals : mc.values = [128, 128, 128])
    (hp0 : ((mc.synth.voices 0).units 0).ports 0 = 0)
    (hp1 : ((mc.synth.voices 0).units 1).ports 0 = 0)
    (hp2 : ((mc.synth.voices 0).units 1).ports 1 = 0) :
    ∃ mc', voiceLoop m outauxPatch 1 [opLoadval * 2, opOutaux * 2, 0]
        [opLoadval * 2, opOutaux * 2, 0] [128, 128, 128] mc = (Except.ok (), mc') ∧
      mc'.stack = mc.stack ∧
      mc'.synth.outputs 2 = mc.synth.outputs 2 + 1 ∧
      mc'.time = mc.time ∧ mc'.synth.globalTime = mc.synth.globalTime ∧
      mc'.syncBuf = mc.syncBuf ∧ mc'.syncDone = mc.syncDone ∧
      mc'.synth.outputs 0 = mc.synth.outputs 0 + 1 ∧
      mc'.synth.outputs 1 = mc.synth.outputs 1 ∧
      ((mc'.synth.voices 0).units 0).ports 0 = 0 ∧
      ((mc'.synth.voices 0).units 1).ports 0 = 0 ∧
      ((mc'.synth.voices 0).units 1).ports 1 = 0 := by
  have s1 := execUnit_loadval m outauxPatch mc 0 0 128 [128, 128] hv hu hvals
  have s2 := execUnit_outaux m outauxPatch _ 0 1 128 128 [] mc.stack
    ((((128 : Nat) : ℚ) / 128 + ((mc.synth.voices 0).units 0).ports 0) * 2 - 1)
    (show ({ afterTransform mc 0 0 1 with
        stack := mc.stack ++ [(((128 : Nat) : ℚ) / 128 + ((mc.synth.voices 0).units 0).ports 0) * 2 - 1]
        units := mc.units + 1 } : Machine).voices = (0 : Fin MAX_VOICES).val from hv)
    (show mc.units + 1 = (1 : Fin MAX_UNITS).val by rw [hu]; rfl)
    (show mc.values.drop 1 = [128, 128] by rw [hvals]; rfl) rfl
  have hul := unitLoop_unit m outauxPatch (opLoadval * 2) [opOutaux * 2, 0] mc _ (by decide) s1
  rw [unitLoop_unit m outauxPatch (opOutaux * 2) [0] _ _ (by decide) s2,
    unitLoop_advance m outauxPatch 0 [] _ (by decide)] at hul
  have hvl := voiceLoop_succ m outauxPatch 0 [opLoadval * 2, opOutaux * 2, 0]
    [opLoadval * 2, opOutaux * 2, 0] [128, 128, 128] [] mc _ hul
    (show mc.voices + 1 < MAX_VOICES by rw [hv]; decide)
  rw [if_neg (show ¬ (outauxPatch.PolyphonyBitmask &&& ((1 <<< 0) % 2 ^ 32)
      = (1 <<< 0) % 2 ^ 32) by decide),
    voiceLoop_zero] at hvl
  refine ⟨_, hvl, rfl, ?_, rfl, rfl, rfl, rfl, ?_, ?_, ?_, ?_, ?_⟩
  · simp [afterTransform, hp0, hp1, hp2]
    norm_num
  · simp [afterTransform, hp0, hp1, hp2]
    norm_num
  · simp [afterTransform]
  · simp [afterTransform]
  · simp [afterTransform, hp1]
  · simp [afterTransform, hp2]

theorem syncCount_one (g : Nat) : syncCount g 1 ≤ 1 := by
  show (if g % 256 = 0 then 1 else 0) + 0 ≤ 1
  split <;> simp

/-- `Render` on the patch `loadval(128); outaux(128, 128); advance`: with a sync
buffer long enough the call returns no error, and it keeps what the next call
needs. -/
theorem Render_outaux (m : MathLib) (s : Interpreter) (buffer syncBuf : List ℚ) (maxtime : Int)
    (hpatch : s.bytePatch = outauxPatch) (hstack : s.stack = [])
    (hinv : s.synth.outputs 0 = 0 ∧ s.synth.outputs 1 = 0 ∧
      ((s.synth.voices 0).units 0).ports 0 = 0 ∧ ((s.synth.voices 0).units 1).ports 0 = 0 ∧
      ((s.synth.voices 0).units 1).ports 1 = 0) :
    (Render m s buffer syncBuf maxtime).s.bytePatch = outauxPatch ∧
    (Render m s buffer syncBuf maxtime).s.stack = [] ∧
    ((Render m s buffer syncBuf maxtime).s.synth.outputs 0 = 0 ∧
      (Render m s buffer syncBuf maxtime).s.synth.outputs 1 = 0 ∧
      (((Render m s buffer syncBuf maxtime).s.synth.voices 0).units 0).ports 0 = 0 ∧
      (((Render m s buffer syncBuf maxtime).s.synth.voices 0).units 1).ports 0 = 0 ∧
      (((Render m s buffer syncBuf maxtime).s.synth.voices 0).units 1).ports 1 = 0) ∧
    (syncCount s.synth.globalTime (min maxtime.toNat (buffer.length / 2)) ≤ syncBuf.length →
      (Render m s buffer syncBuf maxtime).renderError = none) := by
  obtain ⟨_, _, ⟨mcf, hPf, hsf, _⟩, hsync⟩ := Render_steady m s buffer syncBuf maxtime
    (fun mc => mc.stack.length = 4 ∧ mc.synth.outputs 0 = 0 ∧ mc.synth.outputs 1 = 0 ∧
      ((mc.synth.voices 0).units 0).ports 0 = 0 ∧ ((mc.synth.voices 0).units 1).ports 0 = 0 ∧
      ((mc.synth.voices 0).units 1).ports 1 = 0) 1 0
    (fun mc sd sb h => h)
    (fun mc hP hvals _ hv hu => by
      rw [hpatch] at hvals ⊢
      obtain ⟨hl, o0, o1, p0, p1, p2⟩ := hP
      obtain ⟨mc', g1, g2, _, g4, g5, g6, g7, g8, g9, g10, g11, g12⟩ :=
        outaux_voiceLoop m mc hv hu hvals p0 p1 p2
      refine ⟨mc', g1, by rw [g2]; exact hl, by rw [g8, o0, zero_add], by rw [g9, o1], g4, g5, g6,
        g7, by rw [g2]; exact hl, ?_, ?_, g10, g11, g12⟩
      · simp
      · simp)
    ⟨by simp [renderInit, hstack], hinv⟩
  refine ⟨hpatch, Render_stack_nil m s buffer syncBuf maxtime hstack, ?_, fun h => (hsync h).1⟩
  rw [hsf]
  exact hPf.2

/-- Channels 0 and 1 are zero at the start of every sample of consecutive calls
of `Render` none of which returns an error, from an interpreter that has them
at zero. -/
theorem callStarts_clear (m : MathLib) :
    ∀ (calls : List RenderCall) (s : Interpreter),
      s.synth.outputs 0 = 0 ∧ s.synth.outputs 1 = 0 →
      (∀ r ∈ renderCalls m s calls, r.renderError = none) →
      ∀ st ∈ callStarts m s calls,
        st.machine.synth.outputs 0 = 0 ∧ st.machine.synth.outputs 1 = 0 := by
  intro calls
  induction calls with
  | nil => intro s _ _ st hmem; simp [callStarts] at hmem
  | cons c cs ih =>
    intro s hs herr st hmem
    simp only [callStarts, List.mem_append] at hmem
    rcases hmem with hmem | hmem
    · exact sampleStarts_clear m s.bytePatch c.maxtime c.buffer _ hs st hmem
    · have he : (Render m s c.buffer c.syncBuf c.maxtime).renderError = none :=
        herr _ (by simp [renderCalls])
      refine ih _ (Render_clear m s c.buffer c.syncBuf c.maxtime hs he) ?_ st hmem
      intro r hr
      exact herr r (by simp only [renderCalls, List.mem_cons]; exact Or.inr hr)

/-- C7, the claim as stated fails: on a fresh interpreter with the patch
`loadval(128); outaux(128, 128); advance`, one call of `Render` for two samples
returns no error, and at the start of its second sample channel 2 of the output
bus still holds the 1 that `outaux` wrote during the first sample. -/
theorem outaux_stays_on_bus :
    (Render sampleMath (Interpreter.fresh outauxPatch 0) [0, 0, 0, 0] [0] 2).renderError = none ∧
    ((callStarts sampleMath (Interpreter.fresh outauxPatch 0) [⟨[0, 0, 0, 0], [0], 2⟩]).get? 1).map
      (fun st => st.machine.synth.outputs 2) = some 1 := by
  refine ⟨(Render_outaux sampleMath (Interpreter.fresh outauxPatch 0) [0, 0, 0, 0] [0] 2 rfl rfl
    ⟨rfl, rfl, rfl, rfl, rfl⟩).2.2.2 (by decide), ?_⟩
  have hb := beginSample_sync outauxPatch
    (renderInit (Interpreter.fresh outauxPatch 0) [0, 0, 0, 0] [0]) 0 [] rfl rfl
  obtain ⟨mc', hv, hstack, hout, htime, _⟩ := outaux_voiceLoop sampleMath
    { (renderInit (Interpreter.fresh outauxPatch 0) [0, 0, 0, 0] [0]).machine with
      values := outauxPatch.Values, delaylines := 0, voices := 0, units := 0
      syncDone := (renderInit (Interpreter.fresh outauxPatch 0) [0, 0, 0, 0] [0]).machine.syncDone
        ++ [((renderInit (Interpreter.fresh outauxPatch 0) [0, 0, 0, 0] [0]).machine.time : ℚ)]
      syncBuf := [] } rfl rfl rfl rfl rfl rfl
  obtain ⟨st3, he, hmach, _⟩ := endSample_ok [0, 0]
    { (renderInit (Interpreter.fresh outauxPatch 0) [0, 0, 0, 0] [0]) with
      machine := mc'
      syncs := (renderInit (Interpreter.fresh outauxPatch 0) [0, 0, 0, 0] [0]).syncs + 1 }
    (by rw [hstack]; rfl)
  have hbody : (do beginSample outauxPatch
                   onMachine (voiceLoop sampleMath outauxPatch outauxPatch.NumVoices outauxPatch.Commands
                     outauxPatch.Commands outauxPatch.Values)
                   endSample [0, 0] : Exec RenderState Unit)
      (renderInit (Interpreter.fresh outauxPatch 0) [0, 0, 0, 0] [0]) = (Except.ok (), st3) := by
    simp only [bind_run, hb, onMachine_run]
    rw [show outauxPatch.NumVoices = 1 from rfl,
      show outauxPatch.Commands = [opLoadval * 2, opOutaux * 2, 0] from rfl,
      show outauxPatch.Values = [128, 128, 128] from rfl] at *
    rw [hv]
    exact he
  have ht3 : st3.machine.time < 2 := by
    rw [hmach]
    show mc'.time + 1 < 2
    rw [htime]
    decide
  have hlist : callStarts sampleMath (Interpreter.fresh outauxPatch 0) [⟨[0, 0, 0, 0], [0], 2⟩]
      = renderInit (Interpreter.fresh outauxPatch 0) [0, 0, 0, 0] [0]
        :: sampleStarts sampleMath outauxPatch 2 [0, 0] st3 := by
    show sampleStarts sampleMath outauxPatch 2 [0, 0, 0, 0]
        (renderInit (Interpreter.fresh outauxPatch 0) [0, 0, 0, 0] [0]) ++ [] = _
    rw [List.append_nil]
    exact sampleStarts_step sampleMath outauxPatch 2 0 0 [0, 0] _ st3 (by decide) hbody
  rw [hlist, sampleStarts_cons, if_pos ht3]
  simp only [List.get?_cons_succ, List.get?_cons_zero, Option.map_some']
  rw [hmach]
  show some (Function.update (Function.update mc'.synth.outputs 0 0) 1 0 2) = some 1
  rw [Function.update_noteq (by decide), Function.update_noteq (by decide), hout]
  show some ((0 : ℚ) + 1) = some 1
  rw [zero_add]

/-- Channels 0 and 1 are zero at the start of every sample of consecutive calls
of `Render`, the last of which may return an error, from an interpreter that has
them at zero. -/
theorem callStarts_clear_last (m : MathLib) :
    ∀ (calls : List RenderCall) (s : Interpreter),
      s.synth.outputs 0 = 0 ∧ s.synth.outputs 1 = 0 →
      (∀ r ∈ (renderCalls m s calls).dropLast, r.renderError = none) →
      ∀ st ∈ callStarts m s calls,
        st.machine.synth.outputs 0 = 0 ∧ st.machine.synth.outputs 1 = 0 := by
  intro calls
  induction calls with
  | nil => intro s _ _ st hmem; simp [callStarts] at hmem
  | cons c cs ih =>
    intro s hs herr st hmem
    simp only [callStarts, List.mem_append] at hmem
    rcases hmem with hmem | hmem
    · exact sampleStarts_clear m s.bytePatch c.maxtime c.buffer _ hs st hmem
    · cases cs with
      | nil => simp [callStarts] at hmem
      | cons c' cs' =>
        have hd : (renderCalls m s (c :: c' :: cs')).dropLast
            = Render m s c.buffer c.syncBuf c.maxtime
              :: (renderCalls m (Render m s c.buffer c.syncBuf c.maxtime).s (c' :: cs')).dropLast :=
          rfl
        rw [hd] at herr
        have he : (Render m s c.buffer c.syncBuf c.maxtime).renderError = none :=
          herr _ (List.mem_cons_self _ _)
        exact ih _ (Render_clear m s c.buffer c.syncBuf c.maxtime hs he)
          (fun r hr => herr r (List.mem_cons_of_mem _ hr)) st hmem

/-- Between the units of one sample and the units of the next, channels 2 to 7
of the output bus are left alone. -/
theorem between_samples_aux_channels (bp : BytePatch) (rest : List ℚ)
    (st st3 st4 : RenderState) (he : endSample rest st = (Except.ok (), st3))
    (hb : beginSample bp st3 = (Except.ok (), st4)) (i : Fin 8) (hi : 2 ≤ i.val) :
    st4.machine.synth.outputs i = st.machine.synth.outputs i := by
  have h4 : st4.machine.synth = st3.machine.synth := by
    by_cases hg : st3.machine.synth.globalTime % 256 = 0
    · cases hsb : st3.machine.syncBuf with
      | nil =>
        rw [beginSample_fault bp st3 hg hsb] at hb
        exact absurd (Prod.mk.inj hb).1 (by simp)
      | cons v r =>
        rw [beginSample_sync bp st3 v r hg hsb] at hb
        rw [← (Prod.mk.inj hb).2]
    · rw [beginSample_nosync bp st3 hg] at hb
      rw [← (Prod.mk.inj hb).2]
  rw [h4]
  rcases endSample_cases rest st with ⟨_, h⟩ | ⟨_, h⟩ | ⟨_, h⟩
  · rw [h] at he
    exact absurd (Prod.mk.inj he).1 (by simp)
  · rw [h] at he
    exact absurd (Prod.mk.inj he).1 (by simp)
  · rw [h] at he
    rw [← (Prod.mk.inj he).2]
    show Function.update (Function.update st.machine.synth.outputs 0 0) 1 0 i = _
    rw [Function.update_noteq (by intro e; rw [e] at hi; exact absurd hi (by decide)),
      Function.update_noteq (by intro e; rw [e] at hi; exact absurd hi (by decide))]

/-- C7, amended: for every patch and every sequence of `Render` calls on a fresh
interpreter in which every call before the last returned no error, channels 0
and 1 of the output bus are zero at the start of every sample, whether the last
call returns an error or not; channels 2 to 7 are not cleared between samples:
what the units of one sample left on them is what the units of the next sample
find. -/
theorem front_channels_zero_at_sample_start (m : MathLib) (bytePatch : BytePatch)
    (numDelayLines : Nat) (calls : List RenderCall)
    (h : ∀ r ∈ (renderCalls m (Interpreter.fresh bytePatch numDelayLines) calls).dropLast,
      r.renderError = none) :
    (∀ st ∈ callStarts m (Interpreter.fresh bytePatch numDelayLines) calls,
      st.machine.synth.outputs 0 = 0 ∧ st.machine.synth.outputs 1 = 0) ∧
    ∀ (rest : List ℚ) (st st3 st4 : RenderState),
      endSample rest st = (Except.ok (), st3) →
      beginSample bytePatch st3 = (Except.ok (), st4) →
      ∀ i : Fin 8, 2 ≤ i.val → st4.machine.synth.outputs i = st.machine.synth.outputs i :=
  ⟨callStarts_clear_last m calls (Interpreter.fresh bytePatch numDelayLines) ⟨rfl, rfl⟩ h,
    fun rest st st3 st4 he hb i hi => between_samples_aux_channels bytePatch rest st st3 st4 he hb i hi⟩

theorem front_channels_zero_at_sample_start_witness :
    (∀ r ∈ renderCalls sampleMath (Interpreter.fresh outauxPatch 0)
        [⟨[0, 0, 0, 0], [0], 2⟩, ⟨[0, 0], [0], 1⟩], r.renderError = none) ∧
    renderInit (Interpreter.fresh outauxPatch 0) [0, 0, 0, 0] [0]
      ∈ callStarts sampleMath (Interpreter.fresh outauxPatch 0)
        [⟨[0, 0, 0, 0], [0], 2⟩, ⟨[0, 0], [0], 1⟩] ∧
    (∀ st ∈ callStarts sampleMath (Interpreter.fresh outauxPatch 0)
        [⟨[0, 0, 0, 0], [0], 2⟩, ⟨[0, 0], [0], 1⟩],
      st.machine.synth.outputs 0 = 0 ∧ st.machine.synth.outputs 1 = 0) ∧
    (renderCalls sampleMath (Interpreter.fresh popPatch 0)
        [⟨[7, 7], [9], 0⟩, ⟨[7, 7], [9], 1⟩]).map (fun r => r.renderError)
      = [none, some RenderError.stackUnderflow] ∧
    (callStarts sampleMath (Interpreter.fresh popPatch 0)
        [⟨[7, 7], [9], 0⟩, ⟨[7, 7], [9], 1⟩]).length = 1 ∧
    (∀ st ∈ callStarts sampleMath (Interpreter.fresh popPatch 0)
        [⟨[7, 7], [9], 0⟩, ⟨[7, 7], [9], 1⟩],
      st.machine.synth.outputs 0 = 0 ∧ st.machine.synth.outputs 1 = 0) :=
  have r1 := Render_outaux sampleMath (Interpreter.fresh outauxPatch 0) [0, 0, 0, 0] [0] 2
    rfl rfl ⟨rfl, rfl, rfl, rfl, rfl⟩
  have r2 := Render_outaux sampleMath
    (Render sampleMath (Interpreter.fresh outauxPatch 0) [0, 0, 0, 0] [0] 2).s [0, 0] [0] 1
    r1.1 r1.2.1 r1.2.2.1
  have herr : ∀ r ∈ renderCalls sampleMath (Interpreter.fresh outauxPatch 0)
      [⟨[0, 0, 0, 0], [0], 2⟩, ⟨[0, 0], [0], 1⟩], r.renderError = none := by
    intro r hr
    simp only [renderCalls, List.mem_cons, List.mem_singleton, List.not_mem_nil, or_false] at hr
    rcases hr with hr | hr
    · rw [hr]; exact r1.2.2.2 (by decide)
    · rw [hr]; exact r2.2.2.2 (syncCount_one _)
  ⟨herr, by
      show _ ∈ sampleStarts sampleMath outauxPatch 2 [0, 0, 0, 0]
        (renderInit (Interpreter.fresh outauxPatch 0) [0, 0, 0, 0] [0]) ++ _
      rw [sampleStarts_cons, if_pos (by decide)]
      exact List.mem_append_left _ (List.mem_cons_self _ _),
    (front_channels_zero_at_sample_start sampleMath outauxPatch 0
      [⟨[0, 0, 0, 0], [0], 2⟩, ⟨[0, 0], [0], 1⟩]
      (fun r hr => herr r (List.dropLast_subset _ hr))).1,
    rfl, rfl,
    (front_channels_zero_at_sample_start sampleMath popPatch 0
      [⟨[7, 7], [9], 0⟩, ⟨[7, 7], [9], 1⟩]
      (fun r hr => by
        have hd : (renderCalls sampleMath (Interpreter.fresh popPatch 0)
            [⟨[7, 7], [9], 0⟩, ⟨[7, 7], [9], 1⟩]).dropLast
            = [Render sampleMath (Interpreter.fresh popPatch 0) [7, 7] [9] 0] := rfl
        rw [hd, List.mem_singleton] at hr
        rw [hr]
        rfl)).1⟩

theorem dispatch_pop (m : MathLib) (dt : List Nat) (stereo : Bool) (channels : Nat)
    (vat : List Nat) (l : Int) :
    dispatch m dt opPop stereo channels vat l = execPop stereo l := rfl

/-- The unit `pop` in mono on a stack with top `x`. -/
theorem execUnit_pop (m : MathLib) (bp : BytePatch) (mc : Machine)
    (vo : Fin MAX_VOICES) (un : Fin MAX_UNITS) (xs : List ℚ) (x : ℚ)
    (hvo : mc.voices = vo.val) (hun : mc.units = un.val) (hstack : mc.stack = xs ++ [x]) :
    execUnit m bp (opPop * 2) mc = (Except.ok (),
      { mc with stack := xs, units := mc.units + 1 }) := by
  have hl : ((afterTransform mc vo un 0).stack.length : Int) - 1 = (xs.length : Int) := by
    rw [afterTransform_zero]; simp [hstack]
  rw [execUnit_ok m bp (opPop * 2) 0 mc _ vo un hvo hun (by decide) (by decide)
    (Nat.zero_le _)
    (by rw [show (opPop * 2 &&& 0xFE) >>> 1 = opPop by decide, dispatch_pop,
      show decide ((opPop * 2 &&& 1) + 1 = 2) = false by decide]
        show stackTake _ _ = _
        rw [stackTake_eq _ _ xs.length hl (by rw [afterTransform_zero]; simp [hstack])])]
  simp [afterTransform_zero, hstack]

/-- One sample of `loadval(128); out(128); pop; advance` from the stack
`[0, 0, 0, 0]`: the voice loop ends with 1 added to channel 0 and three values
on the stack. -/
theorem underflow_voiceLoop (m : MathLib) (mc : Machine)
    (hv : mc.voices = 0) (hu : mc.units = 0) (hvals : mc.values = [128, 128])
    (hstack : mc.stack = [0, 0, 0, 0])
    (hp0 : ((mc.synth.voices 0).units 0).ports 0 = 0)
    (hp1 : ((mc.synth.voices 0).units 1).ports 0 = 0) :
    ∃ mc', voiceLoop m underflowPatch 1 [opLoadval * 2, opOut * 2, opPop * 2, 0]
        [opLoadval * 2, opOut * 2, opPop * 2, 0] [128, 128] mc = (Except.ok (), mc') ∧
      mc'.stack.length = 3 ∧
      mc'.synth.outputs 0 = mc.synth.outputs 0 + 1 := by
  have s1 := execUnit_loadval m underflowPatch mc 0 0 128 [128] hv hu hvals
  have s2 := execUnit_out m underflowPatch _ 0 1 128 [] mc.stack
    ((((128 : Nat) : ℚ) / 128 + ((mc.synth.voices 0).units 0).ports 0) * 2 - 1)
    (show ({ afterTransform mc 0 0 1 with
        stack := mc.stack ++ [(((128 : Nat) : ℚ) / 128 + ((mc.synth.voices 0).units 0).ports 0) * 2 - 1]
        units := mc.units + 1 } : Machine).voices = (0 : Fin MAX_VOICES).val from hv)
    (show mc.units + 1 = (1 : Fin MAX_UNITS).val by rw [hu]; rfl)
    (show mc.values.drop 1 = [128] by rw [hvals]; rfl) rfl
  have s3 := execUnit_pop m underflowPatch _ 0 2 [0, 0, 0] 0
    (show ({ afterTransform ({ afterTransform mc 0 0 1 with
        stack := mc.stack ++ [(((128 : Nat) : ℚ) / 128 + ((mc.synth.voices 0).units 0).ports 0) * 2 - 1]
        units := mc.units + 1 } : Machine) 0 1 1 with
        synth := { (afterTransform ({ afterTransform mc 0 0 1 with
            stack := mc.stack ++ [(((128 : Nat) : ℚ) / 128 + ((mc.synth.voices 0).units 0).ports 0) * 2 - 1]
            units := mc.units + 1 } : Machine) 0 1 1).synth with
          outputs := Function.update ({ afterTransform mc 0 0 1 with
              stack := mc.stack ++ [(((128 : Nat) : ℚ) / 128 + ((mc.synth.voices 0).units 0).ports 0) * 2 - 1]
              units := mc.units + 1 } : Machine).synth.outputs 0
            (({ afterTransform mc 0 0 1 with
              stack := mc.stack ++ [(((128 : Nat) : ℚ) / 128 + ((mc.synth.voices 0).units 0).ports 0) * 2 - 1]
              units := mc.units + 1 } : Machine).synth.outputs 0 +
              (((128 : Nat) : ℚ) / 128 + ((({ afterTransform mc 0 0 1 with
                stack := mc.stack ++ [(((128 : Nat) : ℚ) / 128 + ((mc.synth.voices 0).units 0).ports 0) * 2 - 1]
                units := mc.units + 1 } : Machine).synth.voices 0).units 1).ports 0) *
              ((((128 : Nat) : ℚ) / 128 + ((mc.synth.voices 0).units 0).ports 0) * 2 - 1)) }
        stack := mc.stack
        units := mc.units + 1 + 1 } : Machine).voices = (0 : Fin MAX_VOICES).val from hv)
    (show mc.units + 1 + 1 = (2 : Fin MAX_UNITS).val by rw [hu]; rfl)
    (show mc.stack = [0, 0, 0] ++ [0] from hstack)
  have hul := unitLoop_unit m underflowPatch (opLoadval * 2) [opOut * 2, opPop * 2, 0] mc _
    (by decide) s1
  rw [unitLoop_unit m underflowPatch (opOut * 2) [opPop * 2, 0] _ _ (by decide) s2,
    unitLoop_unit m underflowPatch (opPop * 2) [0] _ _ (by decide) s3,
    unitLoop_advance m underflowPatch 0 [] _ (by decide)] at hul
  have hvl := voiceLoop_succ m underflowPatch 0 [opLoadval * 2, opOut * 2, opPop * 2, 0]
    [opLoadval * 2, opOut * 2, opPop * 2, 0] [128, 128] [] mc _ hul
    (show mc.voices + 1 < MAX_VOICES by rw [hv]; decide)
  rw [if_neg (show ¬ (underflowPatch.PolyphonyBitmask &&& ((1 <<< 0) % 2 ^ 32)
      = (1 <<< 0) % 2 ^ 32) by decide),
    voiceLoop_zero] at hvl
  refine ⟨_, hvl, rfl, ?_⟩
  simp [afterTransform, hp0, hp1]
  norm_num

theorem Render_renderError (m : MathLib) (s : Interpreter) (buffer syncBuf : List ℚ)
    (maxtime : Int) :
    (Render m s buffer syncBuf maxtime).renderError
      = (match (renderLoop m s.bytePatch maxtime buffer (renderInit s buffer syncBuf)).1 with
        | Except.ok _ => none
        | Except.error e => some e) := rfl

theorem Render_synth (m : MathLib) (s : Interpreter) (buffer syncBuf : List ℚ) (maxtime : Int) :
    (Render m s buffer syncBuf maxtime).s.synth
      = (renderLoop m s.bytePatch maxtime buffer (renderInit s buffer syncBuf)).2.machine.synth :=
  rfl

theorem Render_bytePatch (m : MathLib) (s : Interpreter) (buffer syncBuf : List ℚ)
    (maxtime : Int) : (Render m s buffer syncBuf maxtime).s.bytePatch = s.bytePatch := rfl

theorem callStarts_cons (m : MathLib) (s : Interpreter) (c : RenderCall) (cs : List RenderCall) :
    callStarts m s (c :: cs)
      = sampleStarts m s.bytePatch c.maxtime c.buffer (renderInit s c.buffer c.syncBuf)
        ++ callStarts m (Render m s c.buffer c.syncBuf c.maxtime).s cs := rfl

theorem renderInit_synth (s : Interpreter) (buffer syncBuf : List ℚ) :
    (renderInit s buffer syncBuf).machine.synth = s.synth := rfl

theorem renderInit_time (s : Interpreter) (buffer syncBuf : List ℚ) :
    (renderInit s buffer syncBuf).machine.time = 0 := rfl

/-- Why the statement on channels 0 and 1 asks that the calls before the last
returned no error:
on a fresh interpreter with `loadval(128); out(128); pop; advance`, `Render`
ends its first sample with `stack underflow` after `out` has added 1 to channel
0, and the next call starts its first sample with that 1 on the channel. -/
theorem error_leaves_frame_on_bus :
    (Render sampleMath (Interpreter.fresh underflowPatch 0) [0, 0] [0] 1).renderError
      = some RenderError.stackUnderflow ∧
    (Render sampleMath (Interpreter.fresh underflowPatch 0) [0, 0] [0] 1).s.synth.outputs 0 = 1 ∧
    ((callStarts sampleMath (Interpreter.fresh underflowPatch 0)
        [⟨[0, 0], [0], 1⟩, ⟨[0, 0], [0], 1⟩]).get? 1).map
      (fun st => st.machine.synth.outputs 0) = some 1 := by
  have hb := beginSample_sync underflowPatch
    (renderInit (Interpreter.fresh underflowPatch 0) [0, 0] [0]) 0 [] rfl rfl
  obtain ⟨mc', hv, hlen, hout⟩ := underflow_voiceLoop sampleMath
    { (renderInit (Interpreter.fresh underflowPatch 0) [0, 0] [0]).machine with
      values := underflowPatch.Values, delaylines := 0, voices := 0, units := 0
      syncDone := (renderInit (Interpreter.fresh underflowPatch 0) [0, 0] [0]).machine.syncDone
        ++ [((renderInit (Interpreter.fresh underflowPatch 0) [0, 0] [0]).machine.time : ℚ)]
      syncBuf := [] } rfl rfl rfl rfl rfl rfl
  have hout1 : mc'.synth.outputs 0 = 1 := by
    rw [hout]
    show (0 : ℚ) + 1 = 1
    rw [zero_add]
  have he : endSample []
      { (renderInit (Interpreter.fresh underflowPatch 0) [0, 0] [0]) with
        machine := mc'
        syncs := (renderInit (Interpreter.fresh underflowPatch 0) [0, 0] [0]).syncs + 1 }
      = (Except.error RenderError.stackUnderflow,
        { (renderInit (Interpreter.fresh underflowPatch 0) [0, 0] [0]) with
          machine := mc'
          syncs := (renderInit (Interpreter.fresh underflowPatch 0) [0, 0] [0]).syncs + 1 }) := by
    rcases endSample_cases []
      { (renderInit (Interpreter.fresh underflowPatch 0) [0, 0] [0]) with
        machine := mc'
        syncs := (renderInit (Interpreter.fresh underflowPatch 0) [0, 0] [0]).syncs + 1 }
      with ⟨_, h⟩ | ⟨h', _⟩ | ⟨h', _⟩
    · exact h
    · exact absurd h' (by simp only; omega)
    · exact absurd h' (by simp only; omega)
  have hbody : (do beginSample underflowPatch
                   onMachine (voiceLoop sampleMath underflowPatch underflowPatch.NumVoices
                     underflowPatch.Commands underflowPatch.Commands underflowPatch.Values)
                   endSample [] : Exec RenderState Unit)
      (renderInit (Interpreter.fresh underflowPatch 0) [0, 0] [0])
      = (Except.error RenderError.stackUnderflow,
        { (renderInit (Interpreter.fresh underflowPatch 0) [0, 0] [0]) with
          machine := mc'
          syncs := (renderInit (Interpreter.fresh underflowPatch 0) [0, 0] [0]).syncs + 1 }) := by
    simp only [bind_run, hb, onMachine_run]
    rw [show underflowPatch.NumVoices = 1 from rfl,
      show underflowPatch.Commands = [opLoadval * 2, opOut * 2, opPop * 2, 0] from rfl,
      show underflowPatch.Values = [128, 128] from rfl] at *
    rw [hv]
    simp only [he]
  have hloop : renderLoop sampleMath underflowPatch 1 [0, 0]
      (renderInit (Interpreter.fresh underflowPatch 0) [0, 0] [0])
      = (Except.error RenderError.stackUnderflow,
        { (renderInit (Interpreter.fresh underflowPatch 0) [0, 0] [0]) with
          machine := mc'
          syncs := (renderInit (Interpreter.fresh underflowPatch 0) [0, 0] [0]).syncs + 1 }) := by
    rw [renderLoop_cons, if_pos (by decide)]
    simp only [bind_run] at hbody ⊢
    revert hbody
    rcases beginSample underflowPatch (renderInit (Interpreter.fresh underflowPatch 0) [0, 0] [0])
      with ⟨_ | _, s1⟩
    · exact id
    simp only
    rcases onMachine (voiceLoop sampleMath underflowPatch underflowPatch.NumVoices
        underflowPatch.Commands underflowPatch.Commands underflowPatch.Values) s1 with ⟨_ | _, s2⟩
    · exact id
    simp only
    rcases endSample [] s2 with ⟨_ | _, s3⟩
    · exact id
    · intro h
      exact absurd (Prod.mk.inj h).1 (by simp)
  have hfresh : (Interpreter.fresh underflowPatch 0).bytePatch = underflowPatch := rfl
  have herr : (Render sampleMath (Interpreter.fresh underflowPatch 0) [0, 0] [0] 1).renderError
      = some RenderError.stackUnderflow := by
    rw [Render_renderError, hfresh, hloop]
  have hsyn : (Render sampleMath (Interpreter.fresh underflowPatch 0) [0, 0] [0] 1).s.synth.outputs 0
      = 1 := by
    rw [Render_synth, hfresh, hloop]
    exact hout1
  refine ⟨herr, hsyn, ?_⟩
  have hfirst : sampleStarts sampleMath underflowPatch 1 [0, 0]
      (renderInit (Interpreter.fresh underflowPatch 0) [0, 0] [0])
      = [renderInit (Interpreter.fresh underflowPatch 0) [0, 0] [0]] := by
    rw [sampleStarts_cons, if_pos (by decide), hbody]
  rw [callStarts_cons, callStarts_cons]
  simp only [hfresh, Render_bytePatch]
  rw [hfirst, sampleStarts_cons, renderInit_time, if_pos (by decide)]
  simp only [List.singleton_append, List.cons_append, List.nil_append, List.get?_cons_succ,
    List.get?_cons_zero, Option.map_some', renderInit_synth]
  exact congrArg some hsyn

/-- The map `filterExtensionsLoop` builds, key by key: the value of `input` for
a key that is a dot followed by one of the extensions and that `input` holds,
the value of `ret` for every other key. -/
theorem filterExtensionsLoop_apply (input : String → Option String) :
    ∀ (extensions : List String) (ret : String → Option String) (k : String),
      filterExtensionsLoop input extensions ret k
        = if (∃ ext ∈ extensions, k = "." ++ ext) ∧ (input k).isSome then input k else ret k := by
  intro extensions
  induction extensions with
  | nil => intro ret k; simp [filterExtensionsLoop]
  | cons ext exts ih =>
    intro ret k
    rw [filterExtensionsLoop]
    cases hin : input ("." ++ ext) with
    | none =>
      simp only
      rw [ih]
      by_cases hk : k = "." ++ ext
      · subst hk
        simp [hin]
      · simp [hk]
    | some v =>
      simp only
      rw [ih]
      by_cases hk : k = "." ++ ext
      · subst hk
        simp [hin]
      · simp [hk, Function.update_noteq hk]

theorem filterExtensions_apply (input : String → Option String) (extensions : List String)
    (k : String) :
    filterExtensions input extensions k
      = if (∃ ext ∈ extensions, k = "." ++ ext) then input k else none := by
  rw [filterExtensions, filterExtensionsLoop_apply]
  by_cases h : ∃ ext ∈ extensions, k = "." ++ ext
  · cases hin : input k <;> simp [h, hin]
  · simp [h]

/-- C24: `filterExtensions(input, extensions)` maps a key `k` to `v` exactly when
`input` maps `k` to `v` and `k` is a dot followed by an element of `extensions`;
so the result is a sub-map of `input`, and filtering it again with the same
extensions gives the same map. -/
theorem filterExtensions_spec (input : String → Option String) (extensions : List String) :
    (∀ k v, filterExtensions input extensions k = some v ↔
      input k = some v ∧ ∃ ext ∈ extensions, k = "." ++ ext) ∧
    (∀ k v, filterExtensions input extensions k = some v → input k = some v) ∧
    filterExtensions (filterExtensions input extensions) extensions
      = filterExtensions input extensions := by
  have h1 : ∀ k v, filterExtensions input extensions k = some v ↔
      input k = some v ∧ ∃ ext ∈ extensions, k = "." ++ ext := by
    intro k v
    rw [filterExtensions_apply]
    by_cases h : ∃ ext ∈ extensions, k = "." ++ ext
    · simp [h]
    · simp [h]
  refine ⟨h1, fun k v h => ((h1 k v).1 h).1, ?_⟩
  funext k
  rw [filterExtensions_apply, filterExtensions_apply]
  by_cases h : ∃ ext ∈ extensions, k = "." ++ ext
  · simp [h]
  · simp [h]

/-- C22, on the code: a buffer of three floats is not rejected.  The bridge's
`Render` passes it to the native renderer with `samples = 1` and returns what
the renderer reports, without an error. -/
theorem bridgeRender_odd_buffer_accepted :
    (bridgeRender silentNative [7, 7, 7] 1).map
        (fun r => (r.samples, r.time, r.err, r.nativeCalls))
      = some (1, 1, none, [(1, 1)]) ∧
    ∀ (su_render : List ℚ → Int → Int → NativeRender) (buffer : List ℚ) (maxtime : Int)
      (r : BridgeRender), bridgeRender su_render buffer maxtime = some r →
      r.err ≠ some BridgeError.oddBuffer ∧ r.nativeCalls.length = 1 := by
  refine ⟨by decide, ?_⟩
  intro su_render buffer maxtime r h
  rw [bridgeRender, if_neg (by omega)] at h
  cases buffer with
  | nil => simp at h
  | cons b bs =>
    simp only at h
    split at h
    · have := Option.some.inj h
      subst this
      exact ⟨by simp, rfl⟩
    · have := Option.some.inj h
      subst this
      exact ⟨by simp, rfl⟩

theorem synthParameters_ok (u : go4k.Unit) (insid unitid : Nat) :
    ∀ (ps : List String) (values : List Nat), (∀ p ∈ ps, u.Parameters p ≠ none) →
      ∃ vs, synthParameters u insid unitid ps values = Except.ok (values ++ vs) ∧
        vs.length = ps.length := by
  intro ps
  induction ps with
  | nil => intro values _; exact ⟨[], by simp [synthParameters], rfl⟩
  | cons p ps ih =>
    intro values h
    rw [synthParameters]
    cases hp : u.Parameters p with
    | none => exact absurd hp (h p (List.mem_cons_self _ _))
    | some pval =>
      obtain ⟨vs, h1, h2⟩ := ih (values ++ [toByte pval])
        (fun q hq => h q (List.mem_cons_of_mem _ hq))
      refine ⟨toByte pval :: vs, ?_, by simp [h2]⟩
      simp only
      rw [h1, List.append_assoc, List.singleton_append]

theorem synthParameters_error (u : go4k.Unit) (insid unitid : Nat) :
    ∀ (ps : List String) (values : List Nat), (∃ p ∈ ps, u.Parameters p = none) →
      ∃ e, synthParameters u insid unitid ps values = Except.error e := by
  intro ps
  induction ps with
  | nil => intro values h; obtain ⟨p, hp, _⟩ := h; simp at hp
  | cons p ps ih =>
    intro values h
    rw [synthParameters]
    cases hp : u.Parameters p with
    | none => exact ⟨_, rfl⟩
    | some pval =>
      obtain ⟨q, hq, hqn⟩ := h
      rcases List.mem_cons.1 hq with hq | hq
      · subst hq; rw [hp] at hqn; simp at hqn
      · exact ih _ ⟨q, hq, hqn⟩

theorem unitCommand_of_table (u : go4k.Unit) (val : opTableEntry)
    (h : opcodeTable u.Type' = some val) :
    unitCommand u = if u.Stereo then toByte (val.opcode + 1) else toByte val.opcode := by
  rw [unitCommand, h]

theorem unitValueCount_of_table (u : go4k.Unit) (val : opTableEntry)
    (h : opcodeTable u.Type' = some val) : unitValueCount u = val.parameterList.length := by
  rw [unitValueCount, h]

theorem synthUnits_ok (insid : Nat) :
    ∀ (units : List go4k.Unit) (unitid : Nat) (commands values : List Nat),
      (∀ u ∈ units, unitCompiles u) →
      ∃ vs, synthUnits insid units unitid commands values
          = Except.ok (commands ++ units.map unitCommand, values ++ vs) ∧
        vs.length = (units.map unitValueCount).sum := by
  intro units
  induction units with
  | nil => intro unitid commands values _; exact ⟨[], by simp [synthUnits], rfl⟩
  | cons u rest ih =>
    intro unitid commands values h
    obtain ⟨val, hval, hps⟩ := h u (List.mem_cons_self _ _)
    obtain ⟨vs1, h1, hl1⟩ := synthParameters_ok u insid unitid val.parameterList values hps
    rw [synthUnits, hval]
    simp only
    rw [h1]
    simp only
    obtain ⟨vs2, h2, hl2⟩ := ih (unitid + 1)
      (if u.Stereo then commands ++ [toByte (val.opcode + 1)] else commands ++ [toByte val.opcode])
      (values ++ vs1) (fun w hw => h w (List.mem_cons_of_mem _ hw))
    refine ⟨vs1 ++ vs2, ?_, ?_⟩
    · rw [h2, List.map_cons, unitCommand_of_table u val hval]
      by_cases hs : u.Stereo = true
      · simp [hs]
      · simp [hs]
    · rw [List.map_cons, List.sum_cons, unitValueCount_of_table u val hval, List.length_append,
        hl1, hl2]

theorem synthUnits_error (insid : Nat) :
    ∀ (units : List go4k.Unit) (unitid : Nat) (commands values : List Nat),
      (∃ u ∈ units, ¬ unitCompiles u) →
      ∃ e, synthUnits insid units unitid commands values = Except.error e := by
  intro units
  induction units with
  | nil => intro unitid commands values h; obtain ⟨u, hu, _⟩ := h; simp at hu
  | cons u rest ih =>
    intro unitid commands values h
    rw [synthUnits]
    cases hval : opcodeTable u.Type' with
    | none => exact ⟨_, rfl⟩
    | some val =>
      simp only
      by_cases hps : ∀ p ∈ val.parameterList, u.Parameters p ≠ none
      · obtain ⟨vs1, h1, _⟩ := synthParameters_ok u insid unitid val.parameterList values hps
        rw [h1]
        simp only
        obtain ⟨w, hw, hwn⟩ := h
        rcases List.mem_cons.1 hw with hw | hw
        · subst hw
          exact absurd ⟨val, hval, hps⟩ hwn
        · exact ih _ _ _ ⟨w, hw, hwn⟩
      · have hex : ∃ p ∈ val.parameterList, u.Parameters p = none := by
          by_contra hc
          exact hps (fun p hp hn => hc ⟨p, hp, hn⟩)
        obtain ⟨e, he⟩ := synthParameters_error u insid unitid val.parameterList values hex
        rw [he]
        exact ⟨_, rfl⟩

theorem synthInstruments_ok :
    ∀ (patch : List go4k.Instrument) (insid : Nat) (st : SynthLoop),
      (∀ instr ∈ patch, instrumentCompiles instr) →
      ∃ st', synthInstruments patch insid st = Except.ok st' ∧
        st'.totalVoices = st.totalVoices + totalVoiceCount patch ∧
        st'.commands = st.commands ++ patchCommands patch ∧
        st'.values.length = st.values.length + patchValueCount patch ∧
        st'.polyphonyBitmask = instrumentsMask patch st.polyphonyBitmask := by
  intro patch
  induction patch with
  | nil =>
    intro insid st _
    exact ⟨st, rfl, by simp [totalVoiceCount], by simp [patchCommands],
      by simp [patchValueCount], rfl⟩
  | cons instr rest ih =>
    intro insid st h
    obtain ⟨h63, hnv, hunits⟩ := h instr (List.mem_cons_self _ _)
    obtain ⟨vs, hu, hl⟩ := synthUnits_ok insid instr.Units 0 st.commands st.values hunits
    rw [synthInstruments, if_neg (by omega), if_neg (by omega), hu]
    simp only
    obtain ⟨st', h1, h2, h3, h4, h5⟩ := ih (insid + 1)
      { totalVoices := st.totalVoices + instr.NumVoices
        commands := st.commands ++ instr.Units.map unitCommand ++ [toByte su_advance_id]
        values := st.values ++ vs
        polyphonyBitmask :=
          (polyphonyLoop (instr.NumVoices - 1).toNat st.polyphonyBitmask) <<< 1 }
      (fun i hi => h i (List.mem_cons_of_mem _ hi))
    refine ⟨st', h1, ?_, ?_, ?_, ?_⟩
    · rw [h2]
      simp only [totalVoiceCount, List.map_cons, List.sum_cons]
      ring
    · rw [h3]
      simp only [patchCommands, List.flatMap_cons, List.append_assoc]
      rfl
    · rw [h4]
      simp only [patchValueCount, List.map_cons, List.sum_cons, List.length_append, hl]
      ring
    · rw [h5]
      rfl

theorem synthInstruments_error :
    ∀ (patch : List go4k.Instrument) (insid : Nat) (st : SynthLoop),
      (∃ instr ∈ patch, ¬ instrumentCompiles instr) →
      ∃ e, synthInstruments patch insid st = Except.error e := by
  intro patch
  induction patch with
  | nil => intro insid st h; obtain ⟨i, hi, _⟩ := h; simp at hi
  | cons instr rest ih =>
    intro insid st h
    rw [synthInstruments]
    by_cases h63 : instr.Units.length > 63
    · rw [if_pos h63]; exact ⟨_, rfl⟩
    rw [if_neg h63]
    by_cases hnv : instr.NumVoices < 1
    · rw [if_pos hnv]; exact ⟨_, rfl⟩
    rw [if_neg hnv]
    by_cases hunits : ∀ u ∈ instr.Units, unitCompiles u
    · obtain ⟨vs, hu, _⟩ := synthUnits_ok insid instr.Units 0 st.commands st.values hunits
      rw [hu]
      simp only
      obtain ⟨i, hi, hin⟩ := h
      rcases List.mem_cons.1 hi with hi | hi
      · subst hi
        exact absurd ⟨by omega, by omega, hunits⟩ hin
      · exact ih _ _ ⟨i, hi, hin⟩
    · have hex : ∃ u ∈ instr.Units, ¬ unitCompiles u := by
        by_contra hc
        exact hunits (fun u hu => by
          by_contra hn
          exact hc ⟨u, hu, hn⟩)
      obtain ⟨e, he⟩ := synthUnits_error insid instr.Units 0 st.commands st.values hex
      rw [he]
      exact ⟨_, rfl⟩

/-- An instrument that does not compile has too many units, no voice, a unit of
an unknown type or a unit that lacks a parameter. -/
theorem not_instrumentCompiles (instr : go4k.Instrument) (h : ¬ instrumentCompiles instr) :
    63 < instr.Units.length ∨ instr.NumVoices < 1 ∨
    (∃ u ∈ instr.Units, opcodeTable u.Type' = none) ∨
    (∃ u ∈ instr.Units, ∃ val, opcodeTable u.Type' = some val ∧
      ∃ p ∈ val.parameterList, u.Parameters p = none) := by
  by_cases h63 : 63 < instr.Units.length
  · exact Or.inl h63
  by_cases hnv : instr.NumVoices < 1
  · exact Or.inr (Or.inl hnv)
  have hex : ∃ u ∈ instr.Units, ¬ unitCompiles u := by
    by_contra hc
    exact h ⟨by omega, by omega, fun u hu => by
      by_contra hn
      exact hc ⟨u, hu, hn⟩⟩
  obtain ⟨u, hu, hun⟩ := hex
  cases hval : opcodeTable u.Type' with
  | none => exact Or.inr (Or.inr (Or.inl ⟨u, hu, hval⟩))
  | some val =>
    refine Or.inr (Or.inr (Or.inr ⟨u, hu, val, hval, ?_⟩))
    by_contra hc
    exact hun ⟨val, hval, fun p hp hn => hc ⟨p, hp, hn⟩⟩

theorem totalVoiceCount_nonneg :
    ∀ patch : List go4k.Instrument, (∀ instr ∈ patch, instrumentCompiles instr) →
      0 ≤ totalVoiceCount patch := by
  intro patch
  induction patch with
  | nil => intro _; simp [totalVoiceCount]
  | cons instr rest ih =>
    intro h
    have h1 := (h instr (List.mem_cons_self _ _)).2.1
    have h2 := ih (fun i hi => h i (List.mem_cons_of_mem _ hi))
    simp only [totalVoiceCount, List.map_cons, List.sum_cons] at h2 ⊢
    omega

theorem toCUint_of_small (x : Int) (h0 : 0 ≤ x) (h1 : x < 2 ^ 32) : (toCUint x : Int) = x := by
  rw [toCUint, Int.emod_eq_of_lt h0 h1, Int.toNat_of_nonneg h0]

/-- What `Synth` returns for a patch whose instruments all compile. -/
theorem Synth_of_compiling (patch : go4k.Patch)
    (h : ∀ instr ∈ patch, instrumentCompiles instr) :
    ∃ st, synthInstruments patch 0 ⟨0, [], [], 0⟩ = Except.ok st ∧
      st.totalVoices = totalVoiceCount patch ∧ st.commands = patchCommands patch ∧
      st.values.length = patchValueCount patch ∧
      st.polyphonyBitmask = instrumentsMask patch 0 ∧
      bridge.Synth patch =
        if st.totalVoices > 32 then Except.error SynthError.tooManyVoices
        else if st.commands.length > 2048 then Except.error SynthError.tooManyCommands
        else if st.values.length > 16384 then Except.error SynthError.tooManyValues
        else
          Except.ok
            { Commands := st.commands
              Values := st.values
              NumVoices := toCUint st.totalVoices
              Polyphony := toCUint st.polyphonyBitmask
              RandSeed := 1 } := by
  obtain ⟨st, h1, h2, h3, h4, h5⟩ := synthInstruments_ok patch 0 ⟨0, [], [], 0⟩ h
  refine ⟨st, h1, by simpa using h2, by simpa using h3, by simpa using h4, h5, ?_⟩
  rw [bridge.Synth, h1]

/-- C21: `bridge.Synth(patch)` returns an error exactly when some instrument has
more than 63 units, some instrument has fewer than one voice, some unit has a
type that is not a key of the opcode table, some unit lacks a parameter of the
parameter list of its type, the total voice count is above 32, the command
stream is longer than 2048 bytes or the value stream is longer than 16384
bytes; and a synth it returns has `NumVoices` equal to the total voice count and
`RandSeed = 1`. -/
theorem Synth_error_iff (patch : go4k.Patch) :
    ((∃ e, bridge.Synth patch = Except.error e) ↔
      ((∃ instr ∈ patch, 63 < instr.Units.length) ∨
        (∃ instr ∈ patch, instr.NumVoices < 1) ∨
        (∃ instr ∈ patch, ∃ u ∈ instr.Units, opcodeTable u.Type' = none) ∨
        (∃ instr ∈ patch, ∃ u ∈ instr.Units, ∃ val, opcodeTable u.Type' = some val ∧
          ∃ p ∈ val.parameterList, u.Parameters p = none) ∨
        32 < totalVoiceCount patch ∨
        2048 < (patchCommands patch).length ∨
        16384 < patchValueCount patch)) ∧
    (∀ s, bridge.Synth patch = Except.ok s →
      (s.NumVoices : Int) = totalVoiceCount patch ∧ s.RandSeed = 1) := by
  by_cases hall : ∀ instr ∈ patch, instrumentCompiles instr
  · obtain ⟨st, _, h2, h3, h4, _, hS⟩ := Synth_of_compiling patch hall
    have hnn := totalVoiceCount_nonneg patch hall
    rw [h2, h3, h4] at hS
    have hnone : ¬ ((∃ instr ∈ patch, 63 < instr.Units.length) ∨
        (∃ instr ∈ patch, instr.NumVoices < 1) ∨
        (∃ instr ∈ patch, ∃ u ∈ instr.Units, opcodeTable u.Type' = none) ∨
        (∃ instr ∈ patch, ∃ u ∈ instr.Units, ∃ val, opcodeTable u.Type' = some val ∧
          ∃ p ∈ val.parameterList, u.Parameters p = none)) := by
      rintro (⟨i, hi, h⟩ | ⟨i, hi, h⟩ | ⟨i, hi, u, hu, h⟩ | ⟨i, hi, u, hu, val, hval, p, hp, h⟩)
      · have := (hall i hi).1; omega
      · have := (hall i hi).2.1; omega
      · obtain ⟨val, hval, _⟩ := (hall i hi).2.2 u hu
        rw [h] at hval; simp at hval
      · obtain ⟨val', hval', hps⟩ := (hall i hi).2.2 u hu
        rw [hval] at hval'
        have := Option.some.inj hval'
        subst this
        exact hps p hp h
    by_cases hv : 32 < totalVoiceCount patch
    · rw [if_pos hv] at hS
      exact ⟨⟨fun _ => Or.inr (Or.inr (Or.inr (Or.inr (Or.inl hv)))), fun _ => ⟨_, hS⟩⟩, fun s hs => by rw [hS] at hs; simp at hs⟩
    rw [if_neg hv] at hS
    by_cases hc : 2048 < (patchCommands patch).length
    · rw [if_pos hc] at hS
      exact ⟨⟨fun _ => Or.inr (Or.inr (Or.inr (Or.inr (Or.inr (Or.inl hc))))), fun _ => ⟨_, hS⟩⟩, fun s hs => by rw [hS] at hs; simp at hs⟩
    rw [if_neg hc] at hS
    by_cases hval : 16384 < patchValueCount patch
    · rw [if_pos hval] at hS
      exact ⟨⟨fun _ => Or.inr (Or.inr (Or.inr (Or.inr (Or.inr (Or.inr hval))))), fun _ => ⟨_, hS⟩⟩, fun s hs => by rw [hS] at hs; simp at hs⟩
    rw [if_neg hval] at hS
    refine ⟨⟨fun ⟨e, he⟩ => by rw [hS] at he; simp at he, fun hd => absurd hd (by
      rintro (h | h | h | h | h | h | h)
      · exact hnone (Or.inl h)
      · exact hnone (Or.inr (Or.inl h))
      · exact hnone (Or.inr (Or.inr (Or.inl h)))
      · exact hnone (Or.inr (Or.inr (Or.inr h)))
      · exact hv h
      · exact hc h
      · exact hval h)⟩, ?_⟩
    intro s hs
    rw [hS] at hs
    have := Except.ok.inj hs
    subst this
    exact ⟨toCUint_of_small _ hnn (by omega), rfl⟩
  · have hex : ∃ instr ∈ patch, ¬ instrumentCompiles instr := by
      by_contra hc
      exact hall (fun i hi => by
        by_contra hn
        exact hc ⟨i, hi, hn⟩)
    obtain ⟨e, he⟩ := synthInstruments_error patch 0 ⟨0, [], [], 0⟩ hex
    have hS : bridge.Synth patch = Except.error e := by rw [bridge.Synth, he]
    refine ⟨⟨fun _ => ?_, fun _ => ⟨e, hS⟩⟩, fun s hs => by rw [hS] at hs; simp at hs⟩
    obtain ⟨i, hi, hin⟩ := hex
    rcases not_instrumentCompiles i hin with h | h | ⟨u, hu, h⟩ | ⟨u, hu, h⟩
    · exact Or.inl ⟨i, hi, h⟩
    · exact Or.inr (Or.inl ⟨i, hi, h⟩)
    · exact Or.inr (Or.inr (Or.inl ⟨i, hi, u, hu, h⟩))
    · exact Or.inr (Or.inr (Or.inr (Or.inl ⟨i, hi, u, hu, h⟩)))

theorem polyphonyLoop_succ_eq : ∀ (k a : Nat), polyphonyLoop k a + 1 = 2 ^ k * (a + 1) := by
  intro k
  induction k with
  | zero => intro a; simp [polyphonyLoop]
  | succ k ih =>
    intro a
    rw [polyphonyLoop, ih, Nat.shiftLeft_eq, Nat.pow_succ]
    ring

theorem polyphonyLoop_eq (k a : Nat) : polyphonyLoop k a = 2 ^ k * a + (2 ^ k - 1) := by
  have h := polyphonyLoop_succ_eq k a
  have hp := Nat.two_pow_pos k
  rw [Nat.mul_add, Nat.mul_one] at h
  omega

theorem polyphonyLoop_testBit (k a j : Nat) :
    (polyphonyLoop k a).testBit j = if j < k then true else a.testBit (j - k) := by
  rw [polyphonyLoop_eq, Nat.testBit_mul_pow_two_add a
    (show 2 ^ k - 1 < 2 ^ k from Nat.sub_lt (Nat.two_pow_pos k) Nat.one_pos) j,
    Nat.testBit_two_pow_sub_one]
  by_cases h : j < k <;> simp [h]

/-- The bits of the bitmask after the voices of one instrument: bit 0 is clear,
the `k - 1` bits above it are set, and the bits of the bitmask before follow. -/
theorem instrument_testBit (k a j : Nat) (hk : 1 ≤ k) :
    ((polyphonyLoop (k - 1) a) <<< 1).testBit j
      = if j < k then decide (1 ≤ j) else a.testBit (j - k) := by
  rw [Nat.testBit_shiftLeft, polyphonyLoop_testBit]
  by_cases h1 : 1 ≤ j
  · by_cases h2 : j < k
    · have h3 : j - 1 < k - 1 := by omega
      simp [h1, h2, h3]
    · have h3 : ¬ j - 1 < k - 1 := by omega
      have h4 : j - 1 - (k - 1) = j - k := by omega
      simp [h1, h2, h3, h4]
  · have h0 : j = 0 := by omega
    subst h0
    have h2 : 0 < k := by omega
    simp [h2]

theorem voiceInstrument_cons_lt (k : Nat) (ks : List Nat) (v : Nat) (h : v < k) :
    voiceInstrument (k :: ks) v = some 0 := by
  rw [voiceInstrument, if_pos h]

theorem voiceInstrument_cons_ge (k : Nat) (ks : List Nat) (v : Nat) (h : ¬ v < k) :
    voiceInstrument (k :: ks) v = (voiceInstrument ks (v - k)).map (fun i => i + 1) := by
  rw [voiceInstrument, if_neg h]

/-- The bits of the polyphony bitmask the loop over the instruments builds on
top of the bitmask `a`: with `N` voices in all, bit `N - 1 - v` is set exactly
when voice `v + 1` is of the instrument of voice `v`, and the bits from `N` on
are those of `a`. -/
theorem instrumentsMask_testBit :
    ∀ (patch : List go4k.Instrument), (∀ instr ∈ patch, 1 ≤ instr.NumVoices) → ∀ a : Nat,
      (∀ v, v < (voiceCounts patch).sum →
        (instrumentsMask patch a).testBit ((voiceCounts patch).sum - 1 - v)
          = decide (voiceInstrument (voiceCounts patch) (v + 1)
              = voiceInstrument (voiceCounts patch) v)) ∧
      (∀ j, (voiceCounts patch).sum ≤ j →
        (instrumentsMask patch a).testBit j = a.testBit (j - (voiceCounts patch).sum)) := by
  intro patch
  induction patch with
  | nil =>
    intro _ a
    refine ⟨fun v hv => ?_, fun j _ => ?_⟩
    · simp [voiceCounts] at hv
    · simp [voiceCounts, instrumentsMask]
  | cons instr rest ih =>
    intro h a
    have hk : 1 ≤ instr.NumVoices.toNat := by
      have := h instr (List.mem_cons_self _ _)
      omega
    have hk1 : (instr.NumVoices - 1).toNat = instr.NumVoices.toNat - 1 := by omega
    obtain ⟨ih1, ih2⟩ := ih (fun i hi => h i (List.mem_cons_of_mem _ hi))
      ((polyphonyLoop (instr.NumVoices - 1).toNat a) <<< 1)
    have hsum : (voiceCounts (instr :: rest)).sum
        = instr.NumVoices.toNat + (voiceCounts rest).sum := by
      simp [voiceCounts]
    have hcons : voiceCounts (instr :: rest) = instr.NumVoices.toNat :: voiceCounts rest := rfl
    rw [hsum, hcons]
    show (∀ v, v < instr.NumVoices.toNat + (voiceCounts rest).sum →
        (instrumentsMask rest ((polyphonyLoop (instr.NumVoices - 1).toNat a) <<< 1)).testBit
            (instr.NumVoices.toNat + (voiceCounts rest).sum - 1 - v) = _) ∧
      (∀ j, instr.NumVoices.toNat + (voiceCounts rest).sum ≤ j →
        (instrumentsMask rest ((polyphonyLoop (instr.NumVoices - 1).toNat a) <<< 1)).testBit j = _)
    refine ⟨fun v hv => ?_, fun j hj => ?_⟩
    · by_cases hvk : v < instr.NumVoices.toNat
      · rw [ih2 _ (by omega), hk1, instrument_testBit _ _ _ hk, if_pos (by omega),
          voiceInstrument_cons_lt _ _ v hvk]
        by_cases hv1 : v + 1 < instr.NumVoices.toNat
        · rw [voiceInstrument_cons_lt _ _ _ hv1]
          simp
          omega
        · rw [voiceInstrument_cons_ge _ _ _ hv1]
          have hne : ¬ (1 ≤ instr.NumVoices.toNat + (voiceCounts rest).sum - 1 - v
              - (voiceCounts rest).sum) := by omega
          rw [decide_eq_false hne]
          symm
          rw [decide_eq_false_iff_not]
          cases voiceInstrument (voiceCounts rest) (v + 1 - instr.NumVoices.toNat) <;> simp
      · have hidx : instr.NumVoices.toNat + (voiceCounts rest).sum - 1 - v
            = (voiceCounts rest).sum - 1 - (v - instr.NumVoices.toNat) := by omega
        rw [hidx, ih1 _ (by omega), voiceInstrument_cons_ge _ _ v hvk,
          voiceInstrument_cons_ge _ _ (v + 1) (by omega)]
        have hv1 : v + 1 - instr.NumVoices.toNat = v - instr.NumVoices.toNat + 1 := by omega
        rw [hv1]
        by_cases heq : voiceInstrument (voiceCounts rest) (v - instr.NumVoices.toNat + 1)
            = voiceInstrument (voiceCounts rest) (v - instr.NumVoices.toNat)
        · rw [heq]; simp
        · rw [decide_eq_false heq]
          symm
          rw [decide_eq_false_iff_not]
          intro hc
          exact heq (Option.map_injective (fun x y hxy => by omega) hc)
    · rw [ih2 _ (by omega), hk1, instrument_testBit _ _ _ hk, if_neg (by omega)]
      congr 1
      omega

theorem and_two_pow_eq_iff (x j : Nat) : x &&& 2 ^ j = 2 ^ j ↔ x.testBit j = true := by
  rw [Nat.and_two_pow]
  have hp := Nat.two_pow_pos j
  cases h : x.testBit j
  · simp
    omega
  · simp

theorem patchCommands_length (patch : go4k.Patch) :
    (patchCommands patch).length = (patch.map (fun instr => instr.Units.length + 1)).sum := by
  induction patch with
  | nil => rfl
  | cons instr rest ih =>
    simp only [patchCommands, List.flatMap_cons, List.length_append, List.length_map,
      List.length_singleton, List.map_cons, List.sum_cons] at ih ⊢
    rw [ih]

theorem voiceCounts_sum :
    ∀ patch : List go4k.Instrument, (∀ instr ∈ patch, 1 ≤ instr.NumVoices) →
      (((voiceCounts patch).sum : Nat) : Int) = totalVoiceCount patch := by
  intro patch
  induction patch with
  | nil => intro _; rfl
  | cons instr rest ih =>
    intro h
    have h1 := h instr (List.mem_cons_self _ _)
    have h2 := ih (fun i hi => h i (List.mem_cons_of_mem _ hi))
    simp only [voiceCounts, totalVoiceCount, List.map_cons, List.sum_cons, Nat.cast_add] at h2 ⊢
    rw [h2, Int.toNat_of_nonneg (by omega)]

/-- What `Synth` writes, for a patch that it compiles, with `n` voices in all: the
command stream is, instrument by instrument, one byte per unit (the id of the
opcode table, plus 1 for a stereo unit) and then one advance byte, so its length
is the sum of the numbers of units plus one; `NumVoices` is `n`; and for every
voice `v < n` the test the interpreter makes when voice `v` reaches its advance,
`Polyphony & (1 << (n-1-v))`, succeeds exactly when voice `v + 1` is a voice of
the instrument of voice `v`. -/
theorem Synth_compiler_half (patch : go4k.Patch) (s : CSynth)
    (h : bridge.Synth patch = Except.ok s) :
    s.Commands = patchCommands patch ∧
    s.Commands.length = (patch.map (fun instr => instr.Units.length + 1)).sum ∧
    s.NumVoices = (voiceCounts patch).sum ∧
    (∀ instr ∈ patch, 1 ≤ instr.NumVoices) ∧
    ∀ v, v < s.NumVoices →
      (s.Polyphony &&& ((1 <<< (s.NumVoices - 1 - v)) % 2 ^ 32)
          = (1 <<< (s.NumVoices - 1 - v)) % 2 ^ 32 ↔
        voiceInstrument (voiceCounts patch) (v + 1) = voiceInstrument (voiceCounts patch) v) := by
  have hall : ∀ instr ∈ patch, instrumentCompiles instr := by
    by_contra hc
    have hex : ∃ instr ∈ patch, ¬ instrumentCompiles instr := by
      by_contra hc2
      exact hc (fun i hi => by
        by_contra hn
        exact hc2 ⟨i, hi, hn⟩)
    obtain ⟨e, he⟩ := synthInstruments_error patch 0 ⟨0, [], [], 0⟩ hex
    rw [bridge.Synth, he] at h
    simp at h
  have hvoices : ∀ instr ∈ patch, 1 ≤ instr.NumVoices := fun i hi => (hall i hi).2.1
  obtain ⟨st, _, h2, h3, _, h5, hS⟩ := Synth_of_compiling patch hall
  rw [hS] at h
  have hsum := voiceCounts_sum patch hvoices
  by_cases hv : st.totalVoices > 32
  · rw [if_pos hv] at h; simp at h
  rw [if_neg hv] at h
  by_cases hc : st.commands.length > 2048
  · rw [if_pos hc] at h; simp at h
  rw [if_neg hc] at h
  by_cases hval : st.values.length > 16384
  · rw [if_pos hval] at h; simp at h
  rw [if_neg hval] at h
  have hs := Except.ok.inj h
  subst hs
  have hn32 : (voiceCounts patch).sum ≤ 32 := by
    rw [h2, ← hsum] at hv
    omega
  have hnv : toCUint st.totalVoices = (voiceCounts patch).sum := by
    have e := toCUint_of_small st.totalVoices (by rw [h2, ← hsum]; omega) (by omega)
    exact Int.ofNat_inj.1 (e.trans (h2.trans hsum.symm))
  obtain ⟨hb1, hb2⟩ := instrumentsMask_testBit patch hvoices 0
  have hmask : instrumentsMask patch 0 < 2 ^ 32 := by
    apply Nat.lt_pow_two_of_testBit
    intro j hj
    rw [hb2 j (by omega)]
    exact Nat.zero_testBit _
  have hpoly : toCUint (st.polyphonyBitmask : Int) = instrumentsMask patch 0 := by
    have e := toCUint_of_small (st.polyphonyBitmask : Int) (by omega)
      (by rw [h5]; exact_mod_cast hmask)
    rw [Int.ofNat_inj.1 e, h5]
  refine ⟨h3, by rw [h3]; exact patchCommands_length patch, hnv, hvoices, ?_⟩
  intro v hvn
  show toCUint (st.polyphonyBitmask : Int) &&& ((1 <<< (toCUint st.totalVoices - 1 - v)) % 2 ^ 32)
      = (1 <<< (toCUint st.totalVoices - 1 - v)) % 2 ^ 32 ↔ _
  have hvn' : v < (voiceCounts patch).sum := by
    have : v < toCUint st.totalVoices := hvn
    rw [hnv] at this
    exact this
  rw [hpoly, hnv, Nat.one_shiftLeft,
    Nat.mod_eq_of_lt (Nat.pow_lt_pow_right (by decide) (by omega)),
    and_two_pow_eq_iff, hb1 v hvn']
  simp

/-- The record beside it does not change what the loop returns. -/
theorem voiceLoopTrace_fst (m : MathLib) (bp : BytePatch) :
    ∀ (voicesRemaining : Nat) (commands commandInstr valuesInstr : List Nat) (mc : Machine),
      (voiceLoopTrace m bp voicesRemaining commands commandInstr valuesInstr mc).1
        = voiceLoop m bp voicesRemaining commands commandInstr valuesInstr mc := by
  intro vr
  induction vr with
  | zero => intro _ _ _ _; rfl
  | succ n ih =>
    intro commands commandInstr valuesInstr mc
    rw [voiceLoopTrace, voiceLoop]
    simp only [bind_run]
    rcases hu : unitLoop m bp commands mc with ⟨e | rest, mc1⟩
    · rfl
    · simp only [getM_run]
      by_cases hv : mc1.voices + 1 < MAX_VOICES
      · simp only [if_pos hv, bind_run, modifyM_run]
        by_cases hb : bp.PolyphonyBitmask &&& ((1 <<< n) % 2 ^ 32) = (1 <<< n) % 2 ^ 32
        · simp only [if_pos hb, bind_run, modifyM_run, ih]
        · simp only [if_neg hb, bind_run, getM_run, ih]
      · simp only [if_neg hv]
        rfl

/-- A loop that ends without an error has started every voice. -/
theorem voiceLoopTrace_length (m : MathLib) (bp : BytePatch) :
    ∀ (voicesRemaining : Nat) (commands commandInstr valuesInstr : List Nat) (mc : Machine),
      (voiceLoopTrace m bp voicesRemaining commands commandInstr valuesInstr mc).1.1
        = Except.ok () →
      (voiceLoopTrace m bp voicesRemaining commands commandInstr valuesInstr mc).2.length
        = voicesRemaining := by
  intro vr
  induction vr with
  | zero => intro _ _ _ _ _; rfl
  | succ n ih =>
    intro commands commandInstr valuesInstr mc
    rw [voiceLoopTrace]
    rcases hu : unitLoop m bp commands mc with ⟨e | rest, mc1⟩
    · intro h
      exact absurd h (by simp)
    · simp only
      by_cases hv : mc1.voices + 1 < MAX_VOICES
      · simp only [if_pos hv]
        by_cases hb : bp.PolyphonyBitmask &&& ((1 <<< n) % 2 ^ 32) = (1 <<< n) % 2 ^ 32
        · simp only [if_pos hb, List.length_cons]
          intro h
          rw [ih _ _ _ _ h]
        · simp only [if_neg hb, List.length_cons]
          intro h
          rw [ih _ _ _ _ h]
      · simp only [if_neg hv]
        intro h
        exact absurd h (by simp)

/-- The command byte of a unit of the opcode table is not an advance byte. -/
theorem opcodeTable_command (name : String) (val : opTableEntry)
    (h : opcodeTable name = some val) (b : Bool) :
    ((if b then toByte (val.opcode + 1) else toByte val.opcode) &&& 0xFE) >>> 1 ≠ 0 := by
  unfold opcodeTable at h
  split at h
  all_goals first
    | (cases h; cases b <;> decide)
    | (simp at h)

theorem unitCommand_not_advance (u : go4k.Unit) (h : unitCompiles u) :
    (unitCommand u &&& 0xFE) >>> 1 ≠ 0 := by
  obtain ⟨val, hval, _⟩ := h
  rw [unitCommand_of_table u val hval]
  exact opcodeTable_command u.Type' val hval u.Stereo

/-- The units of one instrument and its advance byte: when the unit loop ends
without an error it hands back the commands after the advance byte. -/
theorem unitLoop_program (m : MathLib) (bp : BytePatch) (tail : List Nat) :
    ∀ (units : List go4k.Unit) (mc mc' : Machine) (rest : List Nat),
      (∀ u ∈ units, unitCompiles u) →
      unitLoop m bp (units.map unitCommand ++ 0 :: tail) mc = (Except.ok rest, mc') →
      rest = tail := by
  intro units
  induction units with
  | nil =>
    intro mc mc' rest _ h
    rw [List.map_nil, List.nil_append, unitLoop_advance m bp 0 tail mc (by decide)] at h
    exact (Except.ok.inj (Prod.mk.inj h).1).symm
  | cons u us ih =>
    intro mc mc' rest hu h
    rw [List.map_cons, List.cons_append, unitLoop,
      if_neg (unitCommand_not_advance u (hu u (List.mem_cons_self _ _))), bind_run] at h
    rcases he : execUnit m bp (unitCommand u) mc with ⟨_ | _, s1⟩
    · rw [he] at h
      exact absurd (Prod.mk.inj h).1 (by simp)
    · rw [he] at h
      exact ih s1 mc' rest (fun w hw => hu w (List.mem_cons_of_mem _ hw)) h

theorem voiceInstrument_some :
    ∀ (counts : List Nat) (v i : Nat), voiceInstrument counts v = some i →
      i < counts.length ∧ v < counts.sum := by
  intro counts
  induction counts with
  | nil => intro v i h; simp [voiceInstrument] at h
  | cons k ks ih =>
    intro v i h
    by_cases hv : v < k
    · rw [voiceInstrument_cons_lt k ks v hv] at h
      have := Option.some.inj h
      subst this
      simp only [List.length_cons, List.sum_cons]
      omega
    · rw [voiceInstrument_cons_ge k ks v hv] at h
      cases h0 : voiceInstrument ks (v - k) with
      | none => rw [h0] at h; simp at h
      | some i0 =>
        rw [h0] at h
        have := Option.some.inj h
        subst this
        have := ih (v - k) i0 h0
        simp only [List.length_cons, List.sum_cons]
        omega

theorem voiceInstrument_of_lt :
    ∀ (counts : List Nat) (v : Nat), v < counts.sum → ∃ i, voiceInstrument counts v = some i := by
  intro counts
  induction counts with
  | nil => intro v h; simp at h
  | cons k ks ih =>
    intro v h
    by_cases hv : v < k
    · exact ⟨0, voiceInstrument_cons_lt k ks v hv⟩
    · obtain ⟨i, hi⟩ := ih (v - k) (by simp only [List.sum_cons] at h; omega)
      exact ⟨i + 1, by rw [voiceInstrument_cons_ge k ks v hv, hi]; rfl⟩

/-- The next voice is of the same instrument or of the next one. -/
theorem voiceInstrument_succ :
    ∀ (counts : List Nat), (∀ k ∈ counts, 1 ≤ k) → ∀ (v i i' : Nat),
      voiceInstrument counts v = some i → voiceInstrument counts (v + 1) = some i' →
      i' = i ∨ i' = i + 1 := by
  intro counts
  induction counts with
  | nil => intro _ v i i' h; simp [voiceInstrument] at h
  | cons k ks ih =>
    intro hk v i i' h h'
    by_cases hv : v < k
    · rw [voiceInstrument_cons_lt k ks v hv] at h
      have := Option.some.inj h
      subst this
      by_cases hv1 : v + 1 < k
      · rw [voiceInstrument_cons_lt k ks (v + 1) hv1] at h'
        exact Or.inl (Option.some.inj h').symm
      · rw [voiceInstrument_cons_ge k ks (v + 1) hv1] at h'
        have e : v + 1 - k = 0 := by omega
        rw [e] at h'
        cases ks with
        | nil => simp [voiceInstrument] at h'
        | cons k' ks' =>
          have hk' : 1 ≤ k' := hk k' (by simp)
          rw [voiceInstrument_cons_lt k' ks' 0 (by omega)] at h'
          exact Or.inr (Option.some.inj h').symm
    · rw [voiceInstrument_cons_ge k ks v hv] at h
      rw [voiceInstrument_cons_ge k ks (v + 1) (by omega)] at h'
      have e : v + 1 - k = (v - k) + 1 := by omega
      rw [e] at h'
      cases h0 : voiceInstrument ks (v - k) with
      | none => rw [h0] at h; simp at h
      | some i0 =>
        cases h1 : voiceInstrument ks (v - k + 1) with
        | none => rw [h1] at h'; simp at h'
        | some i1 =>
          rw [h0] at h
          rw [h1] at h'
          have a : i0 + 1 = i := Option.some.inj h
          have b : i1 + 1 = i' := Option.some.inj h'
          rcases ih (fun x hx => hk x (List.mem_cons_of_mem _ hx)) (v - k) i0 i1 h0 h1 with r | r
          · exact Or.inl (by omega)
          · exact Or.inr (by omega)

/-- The command stream from instrument `i` on: its units, its advance byte, and
the stream from the next instrument on. -/
theorem patchCommands_drop (patch : go4k.Patch) (i : Nat) (hi : i < patch.length) :
    patchCommands (patch.drop i)
      = patch[i].Units.map unitCommand ++ 0 :: patchCommands (patch.drop (i + 1)) := by
  rw [List.drop_eq_getElem_cons hi]
  simp only [patchCommands, List.flatMap_cons, List.append_assoc, List.singleton_append]

/-- The voice loop on the command stream of a patch, with a bitmask whose bit
`n - 1 - v` says whether voice `v + 1` is of the instrument of voice `v`: every
voice starts its units at the program of its instrument. -/
theorem voiceLoopTrace_programs (m : MathLib) (bp : BytePatch) (patch : go4k.Patch) (n : Nat)
    (hunits : ∀ instr ∈ patch, ∀ u ∈ instr.Units, unitCompiles u)
    (hcounts : ∀ k ∈ voiceCounts patch, 1 ≤ k)
    (hn : n = (voiceCounts patch).sum)
    (hbits : ∀ v, v < n →
      (bp.PolyphonyBitmask &&& ((1 <<< (n - 1 - v)) % 2 ^ 32) = (1 <<< (n - 1 - v)) % 2 ^ 32 ↔
        voiceInstrument (voiceCounts patch) (v + 1) = voiceInstrument (voiceCounts patch) v)) :
    ∀ (voicesRemaining v : Nat) (commands valuesInstr : List Nat) (mc : Machine),
      v + voicesRemaining = n →
      (∀ i, voiceInstrument (voiceCounts patch) v = some i →
        commands = patchCommands (patch.drop i)) →
      ∀ j prog,
        (voiceLoopTrace m bp voicesRemaining commands commands valuesInstr mc).2.get? j
          = some prog →
        ∃ i, voiceInstrument (voiceCounts patch) (v + j) = some i ∧
          prog = patchCommands (patch.drop i) := by
  intro vr
  induction vr with
  | zero =>
    intro v commands valuesInstr mc _ _ j prog h
    simp [voiceLoopTrace] at h
  | succ vr ih =>
    intro v commands valuesInstr mc hvn hcmd j prog h
    obtain ⟨i, hi⟩ := voiceInstrument_of_lt (voiceCounts patch) v (by omega)
    have hci := hcmd i hi
    have hil := (voiceInstrument_some _ v i hi).1
    have hil' : i < patch.length := by
      simpa [voiceCounts] using hil
    have hb' := hbits v (by omega)
    rw [show n - 1 - v = vr by omega] at hb'
    rw [voiceLoopTrace] at h
    rcases hu : unitLoop m bp commands mc with ⟨e | rest, mc1⟩
    · rw [hu] at h
      simp only at h
      cases j with
      | zero =>
        simp only [List.get?_cons_zero] at h
        exact ⟨i, hi, (Option.some.inj h).symm.trans hci⟩
      | succ j => simp at h
    · rw [hu] at h
      simp only at h
      have hrest : rest = patchCommands (patch.drop (i + 1)) := by
        rw [hci, patchCommands_drop patch i hil'] at hu
        exact unitLoop_program m bp _ _ mc mc1 rest
          (hunits _ (List.getElem_mem hil')) hu
      by_cases hv : mc1.voices + 1 < MAX_VOICES
      · rw [if_pos hv] at h
        by_cases hb : bp.PolyphonyBitmask &&& ((1 <<< vr) % 2 ^ 32) = (1 <<< vr) % 2 ^ 32
        · rw [if_pos hb] at h
          cases j with
          | zero =>
            simp only [List.get?_cons_zero] at h
            exact ⟨i, hi, (Option.some.inj h).symm.trans hci⟩
          | succ j =>
            simp only [List.get?_cons_succ] at h
            have := ih (v + 1) commands valuesInstr _ (by omega)
              (fun i' hi' => by
                rw [hb'.1 hb, hi] at hi'
                rw [← Option.some.inj hi']
                exact hci) j prog h
            rw [show v + (j + 1) = v + 1 + j by omega]
            exact this
        · rw [if_neg hb] at h
          cases j with
          | zero =>
            simp only [List.get?_cons_zero] at h
            exact ⟨i, hi, (Option.some.inj h).symm.trans hci⟩
          | succ j =>
            simp only [List.get?_cons_succ] at h
            have := ih (v + 1) rest mc1.values _ (by omega)
              (fun i' hi' => by
                rcases voiceInstrument_succ _ hcounts v i i' hi hi' with r | r
                · exact absurd (hb'.2 (by rw [hi', hi, r])) hb
                · rw [r]
                  exact hrest) j prog h
            rw [show v + (j + 1) = v + 1 + j by omega]
            exact this
      · rw [if_neg hv] at h
        cases j with
        | zero =>
          simp only [List.get?_cons_zero] at h
          exact ⟨i, hi, (Option.some.inj h).symm.trans hci⟩
        | succ j => simp at h

theorem Synth_ok_compiles (patch : go4k.Patch) (s : CSynth)
    (h : bridge.Synth patch = Except.ok s) : ∀ instr ∈ patch, instrumentCompiles instr := by
  by_contra hc
  have hex : ∃ instr ∈ patch, ¬ instrumentCompiles instr := by
    by_contra hc2
    exact hc (fun i hi => by
      by_contra hn
      exact hc2 ⟨i, hi, hn⟩)
  obtain ⟨e, he⟩ := synthInstruments_error patch 0 ⟨0, [], [], 0⟩ hex
  rw [bridge.Synth, he] at h
  simp at h

/-- C23: for a patch that `bridge.Synth` compiles, with `n` voices in all: the
command stream is, instrument by instrument, one byte per unit (the id of the
opcode table, plus 1 for a stereo unit) and then one advance byte, so its length
is the sum of the numbers of units plus one; `NumVoices` is `n`; for every
voice `v < n` the test the interpreter makes when voice `v` reaches its advance,
`Polyphony & (1 << (n-1-v))`, succeeds exactly when voice `v + 1` is a voice of
the instrument of voice `v`; and the voice loop of the interpreter, run on the
compiled streams from any machine, starts the units of every voice `v` it gets
to at the program of the instrument of voice `v` (the command stream from that
instrument on), and gets to all `n` voices when it ends without an error. -/
theorem Synth_commands_and_bitmask (patch : go4k.Patch) (s : CSynth)
    (h : bridge.Synth patch = Except.ok s) :
    s.Commands = patchCommands patch ∧
    s.Commands.length = (patch.map (fun instr => instr.Units.length + 1)).sum ∧
    s.NumVoices = (voiceCounts patch).sum ∧
    (∀ instr ∈ patch, 1 ≤ instr.NumVoices) ∧
    (∀ v, v < s.NumVoices →
      (s.Polyphony &&& ((1 <<< (s.NumVoices - 1 - v)) % 2 ^ 32)
          = (1 <<< (s.NumVoices - 1 - v)) % 2 ^ 32 ↔
        voiceInstrument (voiceCounts patch) (v + 1) = voiceInstrument (voiceCounts patch) v)) ∧
    ∀ (m : MathLib) (delayTimes : List Nat) (mc : Machine),
      (voiceLoopTrace m (CSynth.bytePatch s delayTimes) (CSynth.bytePatch s delayTimes).NumVoices
          (CSynth.bytePatch s delayTimes).Commands (CSynth.bytePatch s delayTimes).Commands
          (CSynth.bytePatch s delayTimes).Values mc).1
        = voiceLoop m (CSynth.bytePatch s delayTimes) (CSynth.bytePatch s delayTimes).NumVoices
          (CSynth.bytePatch s delayTimes).Commands (CSynth.bytePatch s delayTimes).Commands
          (CSynth.bytePatch s delayTimes).Values mc ∧
      (∀ v prog,
        (voiceLoopTrace m (CSynth.bytePatch s delayTimes) (CSynth.bytePatch s delayTimes).NumVoices
          (CSynth.bytePatch s delayTimes).Commands (CSynth.bytePatch s delayTimes).Commands
          (CSynth.bytePatch s delayTimes).Values mc).2.get? v = some prog →
        ∃ i, voiceInstrument (voiceCounts patch) v = some i ∧
          prog = patchCommands (patch.drop i)) ∧
      ((voiceLoop m (CSynth.bytePatch s delayTimes) (CSynth.bytePatch s delayTimes).NumVoices
          (CSynth.bytePatch s delayTimes).Commands (CSynth.bytePatch s delayTimes).Commands
          (CSynth.bytePatch s delayTimes).Values mc).1 = Except.ok () →
        (voiceLoopTrace m (CSynth.bytePatch s delayTimes) (CSynth.bytePatch s delayTimes).NumVoices
          (CSynth.bytePatch s delayTimes).Commands (CSynth.bytePatch s delayTimes).Commands
          (CSynth.bytePatch s delayTimes).Values mc).2.length = s.NumVoices) := by
  obtain ⟨h1, h2, h3, h4, h5⟩ := Synth_compiler_half patch s h
  refine ⟨h1, h2, h3, h4, h5, fun m delayTimes mc => ⟨voiceLoopTrace_fst m _ _ _ _ _ mc, ?_, ?_⟩⟩
  · intro v prog hv
    have hall := Synth_ok_compiles patch s h
    have := voiceLoopTrace_programs m (CSynth.bytePatch s delayTimes) patch s.NumVoices
      (fun instr hi => (hall instr hi).2.2)
      (fun k hk => by
        simp only [voiceCounts, List.mem_map] at hk
        obtain ⟨instr, hi, rfl⟩ := hk
        have := h4 instr hi
        omega)
      h3 h5 s.NumVoices 0 s.Commands s.Values mc (by omega)
      (fun i hi => by
        have h0 : i = 0 := by
          cases hc : voiceCounts patch with
          | nil => rw [hc] at hi; simp [voiceInstrument] at hi
          | cons k ks =>
            rw [hc] at hi
            have hk : 1 ≤ k := by
              have hm : k ∈ voiceCounts patch := by rw [hc]; exact List.mem_cons_self _ _
              simp only [voiceCounts, List.mem_map] at hm
              obtain ⟨instr, hi2, rfl⟩ := hm
              have := h4 instr hi2
              omega
            rw [voiceInstrument_cons_lt k ks 0 (by omega)] at hi
            exact (Option.some.inj hi).symm
        rw [h0, List.drop_zero]
        exact h1) v prog hv
    rw [Nat.zero_add] at this
    exact this
  · intro hok
    apply voiceLoopTrace_length
    rw [voiceLoopTrace_fst]
    exact hok

theorem Synth_commands_and_bitmask_witness :
    bridge.Synth samplePatch
      = Except.ok ⟨[54, 41, 0, 54, 41, 0], [96, 128, 32, 128], 3, 4, 1⟩ ∧
    (⟨[54, 41, 0, 54, 41, 0], [96, 128, 32, 128], 3, 4, 1⟩ : CSynth).Commands
      = patchCommands samplePatch ∧
    (∀ v, v < 3 →
      ((4 : Nat) &&& ((1 <<< (3 - 1 - v)) % 2 ^ 32) = (1 <<< (3 - 1 - v)) % 2 ^ 32 ↔
        voiceInstrument (voiceCounts samplePatch) (v + 1)
          = voiceInstrument (voiceCounts samplePatch) v)) ∧
    bridge.Synth stackPatch = Except.ok ⟨[14, 6, 0, 16, 0], [], 3, 4, 1⟩ ∧
    (voiceLoop sampleMath ⟨[14, 6, 0, 16, 0], [], [], 3, 4⟩ 3 [14, 6, 0, 16, 0] [14, 6, 0, 16, 0] []
      (sampleMachine [0, 0, 0, 0] 0 [])).1 = Except.ok () ∧
    (voiceLoopTrace sampleMath ⟨[14, 6, 0, 16, 0], [], [], 3, 4⟩ 3 [14, 6, 0, 16, 0]
      [14, 6, 0, 16, 0] [] (sampleMachine [0, 0, 0, 0] 0 [])).2
      = [[14, 6, 0, 16, 0], [14, 6, 0, 16, 0], [16, 0]] ∧
    ∀ v prog,
      (voiceLoopTrace sampleMath ⟨[14, 6, 0, 16, 0], [], [], 3, 4⟩ 3 [14, 6, 0, 16, 0]
        [14, 6, 0, 16, 0] [] (sampleMachine [0, 0, 0, 0] 0 [])).2.get? v = some prog →
      ∃ i, voiceInstrument (voiceCounts stackPatch) v = some i ∧
        prog = patchCommands (stackPatch.drop i) :=
  have w := Synth_commands_and_bitmask samplePatch
    ⟨[54, 41, 0, 54, 41, 0], [96, 128, 32, 128], 3, 4, 1⟩ rfl
  have w2 := Synth_commands_and_bitmask stackPatch ⟨[14, 6, 0, 16, 0], [], 3, 4, 1⟩ rfl
  ⟨rfl, w.1, w.2.2.2.2.1, rfl, rfl, rfl,
    (w2.2.2.2.2.2 sampleMath [] (sampleMachine [0, 0, 0, 0] 0 [])).2.1⟩

theorem keeps_pure {α β : Type} (q : Machine → β) (a : α) : Keeps q (pure a : Exec Machine α) :=
  ⟨fun _ => rfl⟩

theorem keeps_fail {α β : Type} (q : Machine → β) (e : RenderError) :
    Keeps q (fail e : Exec Machine α) := ⟨fun _ => rfl⟩

theorem keeps_fault {α β : Type} (q : Machine → β) : Keeps q (fault : Exec Machine α) :=
  ⟨fun _ => rfl⟩

theorem keeps_getM {β : Type} (q : Machine → β) : Keeps q (getM : Exec Machine Machine) :=
  ⟨fun _ => rfl⟩

theorem keeps_modifyM {β : Type} (q : Machine → β) (f : Machine → Machine)
    (h : ∀ s, q (f s) = q s) : Keeps q (modifyM f) := ⟨fun mc => h mc⟩

theorem keeps_bind {α γ β : Type} (q : Machine → β) (x : Exec Machine α)
    (f : α → Exec Machine γ) (hx : Keeps q x) (hf : ∀ a, Keeps q (f a)) : Keeps q (x >>= f) := by
  refine ⟨fun mc => ?_⟩
  have h1 := hx.keeps mc
  rw [bind_run]
  rcases hxm : x mc with ⟨_ | a, s'⟩
  · rw [hxm] at h1
    exact h1
  · rw [hxm] at h1
    simp only
    rw [(hf a).keeps s']
    exact h1

theorem keeps_ite {α β : Type} (q : Machine → β) (c : Prop) [Decidable c]
    (x y : Exec Machine α) (hx : Keeps q x) (hy : Keeps q y) : Keeps q (if c then x else y) := by
  split
  · exact hx
  · exact hy

theorem keeps_dite {α β : Type} (q : Machine → β) (c : Prop) [Decidable c]
    (x : c → Exec Machine α) (y : ¬ c → Exec Machine α) (hx : ∀ h, Keeps q (x h))
    (hy : ∀ h, Keeps q (y h)) : Keeps q (dite c x y) := by
  split
  · exact hx _
  · exact hy _

theorem keeps_loopFrom {β : Type} (q : Machine → β) (body : Nat → Exec Machine Unit)
    (h : ∀ i, Keeps q (body i)) : ∀ (k i : Nat), Keeps q (loopFrom body i k) := by
  intro k
  induction k with
  | zero => intro i; exact keeps_pure q ()
  | succ k ih =>
    intro i
    rw [loopFrom]
    exact keeps_bind q _ _ (h i) (fun _ => ih (i + 1))

theorem keeps_of_comp {α β γ : Type} (q : Machine → β) (g : β → γ) (x : Exec Machine α)
    (h : Keeps q x) : Keeps (fun mc => g (q mc)) x :=
  ⟨fun mc => congrArg g (h.keeps mc)⟩

set_option linter.unusedTactic false
set_option linter.unreachableTactic false

theorem keeps_oscPartials (m : MathLib) (flags : Nat) (valuesAtTransform : List Nat)
    (unison i : Nat) :
    ∀ (k j : Nat) (detune out : ℚ),
      Keeps clock (oscPartials m flags valuesAtTransform unison i j k detune out) := by
  intro k
  induction k with
  | zero => intro j detune out; exact keeps_pure _ _
  | succ k ih =>
    intro j detune out
    rw [oscPartials]
    repeat' first
      | with_reducible exact keeps_pure _ _ | with_reducible exact keeps_fail _ _
      | with_reducible exact keeps_fault _ | with_reducible exact keeps_getM _
      | with_reducible apply keeps_bind | with_reducible apply keeps_ite
      | with_reducible apply keeps_dite | with_reducible apply keeps_loopFrom
      | ((with_reducible apply keeps_modifyM); intro s; rfl)
      | with_reducible apply ih
      | intro _
      | dsimp only
      | unfold stackGet | unfold stackSet | unfold stackTake | unfold stackPush | unfold stackLen
      | unfold nextValue | unfold nextValue2 | unfold param | unfold setParam | unfold output
      | unfold setOutput | unfold voiceAt | unfold unitAt | unfold setUnitAt | unfold portAt
      | unfold setPortAt | unfold curVoice | unfold unitState | unfold setUnitState | unfold unitPort
      | unfold setUnitPort | unfold rand | unfold setDelayline
      | split

theorem keeps_oscChannels (m : MathLib) (flags : Nat) (valuesAtTransform : List Nat)
    (unison : Nat) :
    ∀ (k i : Nat) (detuneStereo : ℚ),
      Keeps clock (oscChannels m flags valuesAtTransform unison i k detuneStereo) := by
  intro k
  induction k with
  | zero => intro i detuneStereo; exact keeps_pure _ _
  | succ k ih =>
    intro i detuneStereo
    rw [oscChannels]
    repeat' first
      | with_reducible exact keeps_pure _ _ | with_reducible exact keeps_fail _ _
      | with_reducible exact keeps_fault _ | with_reducible exact keeps_getM _
      | with_reducible apply keeps_bind | with_reducible apply keeps_ite
      | with_reducible apply keeps_dite | with_reducible apply keeps_loopFrom
      | ((with_reducible apply keeps_modifyM); intro s; rfl)
      | with_reducible apply ih
      | with_reducible apply keeps_oscPartials
      | intro _
      | dsimp only
      | unfold stackGet | unfold stackSet | unfold stackTake | unfold stackPush | unfold stackLen
      | unfold nextValue | unfold nextValue2 | unfold param | unfold setParam | unfold output
      | unfold setOutput | unfold voiceAt | unfold unitAt | unfold setUnitAt | unfold portAt
      | unfold setPortAt | unfold curVoice | unfold unitState | unfold setUnitState | unfold unitPort
      | unfold setUnitPort | unfold rand | unfold setDelayline
      | split

theorem keeps_delayTaps (m : MathLib) (delayTimes : List Nat) (count t : Nat)
    (signal pregain2 damp feedback : ℚ) :
    ∀ (left j index : Nat) (d : Option Nat) (out : ℚ),
      Keeps clock
        (delayTaps m delayTimes count t signal pregain2 damp feedback left j index d out) := by
  intro left
  induction left with
  | zero =>
    intro j index d out
    rw [delayTaps]
    repeat' first
      | with_reducible exact keeps_pure _ _ | with_reducible exact keeps_fail _ _
      | with_reducible exact keeps_fault _ | with_reducible exact keeps_getM _
      | with_reducible apply keeps_bind | with_reducible apply keeps_ite
      | with_reducible apply keeps_dite | with_reducible apply keeps_loopFrom
      | ((with_reducible apply keeps_modifyM); intro s; rfl)
      | intro _
      | dsimp only
      | unfold stackGet | unfold stackSet | unfold stackTake | unfold stackPush | unfold stackLen
      | unfold nextValue | unfold nextValue2 | unfold param | unfold setParam | unfold output
      | unfold setOutput | unfold voiceAt | unfold unitAt | unfold setUnitAt | unfold portAt
      | unfold setPortAt | unfold curVoice | unfold unitState | unfold setUnitState | unfold unitPort
      | unfold setUnitPort | unfold rand | unfold setDelayline
      | split
  | succ left ih =>
    intro j index d out
    rw [delayTaps]
    repeat' first
      | with_reducible exact keeps_pure _ _ | with_reducible exact keeps_fail _ _
      | with_reducible exact keeps_fault _ | with_reducible exact keeps_getM _
      | with_reducible apply keeps_bind | with_reducible apply keeps_ite
      | with_reducible apply keeps_dite | with_reducible apply keeps_loopFrom
      | ((with_reducible apply keeps_modifyM); intro s; rfl)
      | with_reducible apply ih
      | intro _
      | dsimp only
      | unfold stackGet | unfold stackSet | unfold stackTake | unfold stackPush | unfold stackLen
      | unfold nextValue | unfold nextValue2 | unfold param | unfold setParam | unfold output
      | unfold setOutput | unfold voiceAt | unfold unitAt | unfold setUnitAt | unfold portAt
      | unfold setPortAt | unfold curVoice | unfold unitState | unfold setUnitState | unfold unitPort
      | unfold setUnitPort | unfold rand | unfold setDelayline
      | split

theorem keeps_delayChannels (m : MathLib) (delayTimes : List Nat) (count t : Nat)
    (pregain2 damp feedback : ℚ) (l : Int) :
    ∀ (k i index : Nat),
      Keeps clock (delayChannels m delayTimes count t pregain2 damp feedback l i k index) := by
  intro k
  induction k with
  | zero => intro i index; exact keeps_pure _ _
  | succ k ih =>
    intro i index
    rw [delayChannels]
    repeat' first
      | with_reducible exact keeps_pure _ _ | with_reducible exact keeps_fail _ _
      | with_reducible exact keeps_fault _ | with_reducible exact keeps_getM _
      | with_reducible apply keeps_bind | with_reducible apply keeps_ite
      | with_reducible apply keeps_dite | with_reducible apply keeps_loopFrom
      | ((with_reducible apply keeps_modifyM); intro s; rfl)
      | with_reducible apply ih
      | with_reducible apply keeps_delayTaps
      | intro _
      | dsimp only
      | unfold stackGet | unfold stackSet | unfold stackTake | unfold stackPush | unfold stackLen
      | unfold nextValue | unfold nextValue2 | unfold param | unfold setParam | unfold output
      | unfold setOutput | unfold voiceAt | unfold unitAt | unfold setUnitAt | unfold portAt
      | unfold setPortAt | unfold curVoice | unfold unitState | unfold setUnitState | unfold unitPort
      | unfold setUnitPort | unfold rand | unfold setDelayline
      | split

theorem keeps_execAdd (stereo : Bool) (l : Int) :
    Keeps clock (execAdd stereo l) := by
  unfold execAdd
  repeat' first
    | with_reducible exact keeps_pure _ _ | with_reducible exact keeps_fail _ _
    | with_reducible exact keeps_fault _ | with_reducible exact keeps_getM _
    | with_reducible apply keeps_bind | with_reducible apply keeps_ite
    | with_reducible apply keeps_dite | with_reducible apply keeps_loopFrom
    | ((with_reducible apply keeps_modifyM); intro s; rfl)
    | with_reducible apply keeps_oscChannels
    | with_reducible apply keeps_delayChannels
    | intro _
    | dsimp only
    | unfold stackGet | unfold stackSet | unfold stackTake | unfold stackPush | unfold stackLen
    | unfold nextValue | unfold nextValue2 | unfold param | unfold setParam | unfold output
    | unfold setOutput | unfold voiceAt | unfold unitAt | unfold setUnitAt | unfold portAt
    | unfold setPortAt | unfold curVoice | unfold unitState | unfold setUnitState | unfold unitPort
    | unfold setUnitPort | unfold rand | unfold setDelayline
    | split

theorem keeps_execAddp (stereo : Bool) (l : Int) :
    Keeps clock (execAddp stereo l) := by
  unfold execAddp
  repeat' first
    | with_reducible exact keeps_pure _ _ | with_reducible exact keeps_fail _ _
    | with_reducible exact keeps_fault _ | with_reducible exact keeps_getM _
    | with_reducible apply keeps_bind | with_reducible apply keeps_ite
    | with_reducible apply keeps_dite | with_reducible apply keeps_loopFrom
    | ((with_reducible apply keeps_modifyM); intro s; rfl)
    | with_reducible apply keeps_oscChannels
    | with_reducible apply keeps_delayChannels
    | intro _
    | dsimp only
    | unfold stackGet | unfold stackSet | unfold stackTake | unfold stackPush | unfold stackLen
    | unfold nextValue | unfold nextValue2 | unfold param | unfold setParam | unfold output
    | unfold setOutput | unfold voiceAt | unfold unitAt | unfold setUnitAt | unfold portAt
    | unfold setPortAt | unfold curVoice | unfold unitState | unfold setUnitState | unfold unitPort
    | unfold setUnitPort | unfold rand | unfold setDelayline
    | split

theorem keeps_execMul (stereo : Bool) (l : Int) :
    Keeps clock (execMul stereo l) := by
  unfold execMul
  repeat' first
    | with_reducible exact keeps_pure _ _ | with_reducible exact keeps_fail _ _
    | with_reducible exact keeps_fault _ | with_reducible exact keeps_getM _
    | with_reducible apply keeps_bind | with_reducible apply keeps_ite
    | with_reducible apply keeps_dite | with_reducible apply keeps_loopFrom
    | ((with_reducible apply keeps_modifyM); intro s; rfl)
    | with_reducible apply keeps_oscChannels
    | with_reducible apply keeps_delayChannels
    | intro _
    | dsimp only
    | unfold stackGet | unfold stackSet | unfold stackTake | unfold stackPush | unfold stackLen
    | unfold nextValue | unfold nextValue2 | unfold param | unfold setParam | unfold output
    | unfold setOutput | unfold voiceAt | unfold unitAt | unfold setUnitAt | unfold portAt
    | unfold setPortAt | unfold curVoice | unfold unitState | unfold setUnitState | unfold unitPort
    | unfold setUnitPort | unfold rand | unfold setDelayline
    | split

theorem keeps_execMulp (stereo : Bool) (l : Int) :
    Keeps clock (execMulp stereo l) := by
  unfold execMulp
  repeat' first
    | with_reducible exact keeps_pure _ _ | with_reducible exact keeps_fail _ _
    | with_reducible exact keeps_fault _ | with_reducible exact keeps_getM _
    | with_reducible apply keeps_bind | with_reducible apply keeps_ite
    | with_reducible apply keeps_dite | with_reducible apply keeps_loopFrom
    | ((with_reducible apply keeps_modifyM); intro s; rfl)
    | with_reducible apply keeps_oscChannels
    | with_reducible apply keeps_delayChannels
    | intro _
    | dsimp only
    | unfold stackGet | unfold stackSet | unfold stackTake | unfold stackPush | unfold stackLen
    | unfold nextValue | unfold nextValue2 | unfold param | unfold setParam | unfold output
    | unfold setOutput | unfold voiceAt | unfold unitAt | unfold setUnitAt | unfold portAt
    | unfold setPortAt | unfold curVoice | unfold unitState | unfold setUnitState | unfold unitPort
    | unfold setUnitPort | unfold rand | unfold setDelayline
    | split

theorem keeps_execXch (stereo : Bool) (l : Int) :
    Keeps clock (execXch stereo l) := by
  unfold execXch
  repeat' first
    | with_reducible exact keeps_pure _ _ | with_reducible exact keeps_fail _ _
    | with_reducible exact keeps_fault _ | with_reducible exact keeps_getM _
    | with_reducible apply keeps_bind | with_reducible apply keeps_ite
    | with_reducible apply keeps_dite | with_reducible apply keeps_loopFrom
    | ((with_reducible apply keeps_modifyM); intro s; rfl)
    | with_reducible apply keeps_oscChannels
    | with_reducible apply keeps_delayChannels
    | intro _
    | dsimp only
    | unfold stackGet | unfold stackSet | unfold stackTake | unfold stackPush | unfold stackLen
    | unfold nextValue | unfold nextValue2 | unfold param | unfold setParam | unfold output
    | unfold setOutput | unfold voiceAt | unfold unitAt | unfold setUnitAt | unfold portAt
    | unfold setPortAt | unfold curVoice | unfold unitState | unfold setUnitState | unfold unitPort
    | unfold setUnitPort | unfold rand | unfold setDelayline
    | split

theorem keeps_execPush (stereo : Bool) (l : Int) :
    Keeps clock (execPush stereo l) := by
  unfold execPush
  repeat' first
    | with_reducible exact keeps_pure _ _ | with_reducible exact keeps_fail _ _
    | with_reducible exact keeps_fault _ | with_reducible exact keeps_getM _
    | with_reducible apply keeps_bind | with_reducible apply keeps_ite
    | with_reducible apply keeps_dite | with_reducible apply keeps_loopFrom
    | ((with_reducible apply keeps_modifyM); intro s; rfl)
    | with_reducible apply keeps_oscChannels
    | with_reducible apply keeps_delayChannels
    | intro _
    | dsimp only
    | unfold stackGet | unfold stackSet | unfold stackTake | unfold stackPush | unfold stackLen
    | unfold nextValue | unfold nextValue2 | unfold param | unfold setParam | unfold output
    | unfold setOutput | unfold voiceAt | unfold unitAt | unfold setUnitAt | unfold portAt
    | unfold setPortAt | unfold curVoice | unfold unitState | unfold setUnitState | unfold unitPort
    | unfold setUnitPort | unfold rand | unfold setDelayline
    | split

theorem keeps_execPop (stereo : Bool) (l : Int) :
    Keeps clock (execPop stereo l) := by
  unfold execPop
  repeat' first
    | with_reducible exact keeps_pure _ _ | with_reducible exact keeps_fail _ _
    | with_reducible exact keeps_fault _ | with_reducible exact keeps_getM _
    | with_reducible apply keeps_bind | with_reducible apply keeps_ite
    | with_reducible apply keeps_dite | with_reducible apply keeps_loopFrom
    | ((with_reducible apply keeps_modifyM); intro s; rfl)
    | with_reducible apply keeps_oscChannels
    | with_reducible apply keeps_delayChannels
    | intro _
    | dsimp only
    | unfold stackGet | unfold stackSet | unfold stackTake | unfold stackPush | unfold stackLen
    | unfold nextValue | unfold nextValue2 | unfold param | unfold setParam | unfold output
    | unfold setOutput | unfold voiceAt | unfold unitAt | unfold setUnitAt | unfold portAt
    | unfold setPortAt | unfold curVoice | unfold unitState | unfold setUnitState | unfold unitPort
    | unfold setUnitPort | unfold rand | unfold setDelayline
    | split

theorem keeps_execDistort (stereo : Bool) (l : Int) :
    Keeps clock (execDistort stereo l) := by
  unfold execDistort
  repeat' first
    | with_reducible exact keeps_pure _ _ | with_reducible exact keeps_fail _ _
    | with_reducible exact keeps_fault _ | with_reducible exact keeps_getM _
    | with_reducible apply keeps_bind | with_reducible apply keeps_ite
    | with_reducible apply keeps_dite | with_reducible apply keeps_loopFrom
    | ((with_reducible apply keeps_modifyM); intro s; rfl)
    | with_reducible apply keeps_oscChannels
    | with_reducible apply keeps_delayChannels
    | intro _
    | dsimp only
    | unfold stackGet | unfold stackSet | unfold stackTake | unfold stackPush | unfold stackLen
    | unfold nextValue | unfold nextValue2 | unfold param | unfold setParam | unfold output
    | unfold setOutput | unfold voiceAt | unfold unitAt | unfold setUnitAt | unfold portAt
    | unfold setPortAt | unfold curVoice | unfold unitState | unfold setUnitState | unfold unitPort
    | unfold setUnitPort | unfold rand | unfold setDelayline
    | split

theorem keeps_execLoadval (stereo : Bool) :
    Keeps clock (execLoadval stereo) := by
  unfold execLoadval
  repeat' first
    | with_reducible exact keeps_pure _ _ | with_reducible exact keeps_fail _ _
    | with_reducible exact keeps_fault _ | with_reducible exact keeps_getM _
    | with_reducible apply keeps_bind | with_reducible apply keeps_ite
    | with_reducible apply keeps_dite | with_reducible apply keeps_loopFrom
    | ((with_reducible apply keeps_modifyM); intro s; rfl)
    | with_reducible apply keeps_oscChannels
    | with_reducible apply keeps_delayChannels
    | intro _
    | dsimp only
    | unfold stackGet | unfold stackSet | unfold stackTake | unfold stackPush | unfold stackLen
    | unfold nextValue | unfold nextValue2 | unfold param | unfold setParam | unfold output
    | unfold setOutput | unfold voiceAt | unfold unitAt | unfold setUnitAt | unfold portAt
    | unfold setPortAt | unfold curVoice | unfold unitState | unfold setUnitState | unfold unitPort
    | unfold setUnitPort | unfold rand | unfold setDelayline
    | split

theorem keeps_execOut (stereo : Bool) (l : Int) :
    Keeps clock (execOut stereo l) := by
  unfold execOut
  repeat' first
    | with_reducible exact keeps_pure _ _ | with_reducible exact keeps_fail _ _
    | with_reducible exact keeps_fault _ | with_reducible exact keeps_getM _
    | with_reducible apply keeps_bind | with_reducible apply keeps_ite
    | with_reducible apply keeps_dite | with_reducible apply keeps_loopFrom
    | ((with_reducible apply keeps_modifyM); intro s; rfl)
    | with_reducible apply keeps_oscChannels
    | with_reducible apply keeps_delayChannels
    | intro _
    | dsimp only
    | unfold stackGet | unfold stackSet | unfold stackTake | unfold stackPush | unfold stackLen
    | unfold nextValue | unfold nextValue2 | unfold param | unfold setParam | unfold output
    | unfold setOutput | unfold voiceAt | unfold unitAt | unfold setUnitAt | unfold portAt
    | unfold setPortAt | unfold curVoice | unfold unitState | unfold setUnitState | unfold unitPort
    | unfold setUnitPort | unfold rand | unfold setDelayline
    | split

theorem keeps_execOutaux (stereo : Bool) (l : Int) :
    Keeps clock (execOutaux stereo l) := by
  unfold execOutaux
  repeat' first
    | with_reducible exact keeps_pure _ _ | with_reducible exact keeps_fail _ _
    | with_reducible exact keeps_fault _ | with_reducible exact keeps_getM _
    | with_reducible apply keeps_bind | with_reducible apply keeps_ite
    | with_reducible apply keeps_dite | with_reducible apply keeps_loopFrom
    | ((with_reducible apply keeps_modifyM); intro s; rfl)
    | with_reducible apply keeps_oscChannels
    | with_reducible apply keeps_delayChannels
    | intro _
    | dsimp only
    | unfold stackGet | unfold stackSet | unfold stackTake | unfold stackPush | unfold stackLen
    | unfold nextValue | unfold nextValue2 | unfold param | unfold setParam | unfold output
    | unfold setOutput | unfold voiceAt | unfold unitAt | unfold setUnitAt | unfold portAt
    | unfold setPortAt | unfold curVoice | unfold unitState | unfold setUnitState | unfold unitPort
    | unfold setUnitPort | unfold rand | unfold setDelayline
    | split

theorem keeps_execAux (stereo : Bool) (channels : Int) (l : Int) :
    Keeps clock (execAux stereo channels l) := by
  unfold execAux
  repeat' first
    | with_reducible exact keeps_pure _ _ | with_reducible exact keeps_fail _ _
    | with_reducible exact keeps_fault _ | with_reducible exact keeps_getM _
    | with_reducible apply keeps_bind | with_reducible apply keeps_ite
    | with_reducible apply keeps_dite | with_reducible apply keeps_loopFrom
    | ((with_reducible apply keeps_modifyM); intro s; rfl)
    | with_reducible apply keeps_oscChannels
    | with_reducible apply keeps_delayChannels
    | intro _
    | dsimp only
    | unfold stackGet | unfold stackSet | unfold stackTake | unfold stackPush | unfold stackLen
    | unfold nextValue | unfold nextValue2 | unfold param | unfold setParam | unfold output
    | unfold setOutput | unfold voiceAt | unfold unitAt | unfold setUnitAt | unfold portAt
    | unfold setPortAt | unfold curVoice | unfold unitState | unfold setUnitState | unfold unitPort
    | unfold setUnitPort | unfold rand | unfold setDelayline
    | split

theorem keeps_execIn (stereo : Bool) :
    Keeps clock (execIn stereo) := by
  unfold execIn
  repeat' first
    | with_reducible exact keeps_pure _ _ | with_reducible exact keeps_fail _ _
    | with_reducible exact keeps_fault _ | with_reducible exact keeps_getM _
    | with_reducible apply keeps_bind | with_reducible apply keeps_ite
    | with_reducible apply keeps_dite | with_reducible apply keeps_loopFrom
    | ((with_reducible apply keeps_modifyM); intro s; rfl)
    | with_reducible apply keeps_oscChannels
    | with_reducible apply keeps_delayChannels
    | intro _
    | dsimp only
    | unfold stackGet | unfold stackSet | unfold stackTake | unfold stackPush | unfold stackLen
    | unfold nextValue | unfold nextValue2 | unfold param | unfold setParam | unfold output
    | unfold setOutput | unfold voiceAt | unfold unitAt | unfold setUnitAt | unfold portAt
    | unfold setPortAt | unfold curVoice | unfold unitState | unfold setUnitState | unfold unitPort
    | unfold setUnitPort | unfold rand | unfold setDelayline
    | split

theorem keeps_execEnvelope (m : MathLib) (stereo : Bool) :
    Keeps clock (execEnvelope m stereo) := by
  unfold execEnvelope
  repeat' first
    | with_reducible exact keeps_pure _ _ | with_reducible exact keeps_fail _ _
    | with_reducible exact keeps_fault _ | with_reducible exact keeps_getM _
    | with_reducible apply keeps_bind | with_reducible apply keeps_ite
    | with_reducible apply keeps_dite | with_reducible apply keeps_loopFrom
    | ((with_reducible apply keeps_modifyM); intro s; rfl)
    | with_reducible apply keeps_oscChannels
    | with_reducible apply keeps_delayChannels
    | intro _
    | dsimp only
    | unfold stackGet | unfold stackSet | unfold stackTake | unfold stackPush | unfold stackLen
    | unfold nextValue | unfold nextValue2 | unfold param | unfold setParam | unfold output
    | unfold setOutput | unfold voiceAt | unfold unitAt | unfold setUnitAt | unfold portAt
    | unfold setPortAt | unfold curVoice | unfold unitState | unfold setUnitState | unfold unitPort
    | unfold setUnitPort | unfold rand | unfold setDelayline
    | split

theorem keeps_execNoise (stereo : Bool) :
    Keeps clock (execNoise stereo) := by
  unfold execNoise
  repeat' first
    | with_reducible exact keeps_pure _ _ | with_reducible exact keeps_fail _ _
    | with_reducible exact keeps_fault _ | with_reducible exact keeps_getM _
    | with_reducible apply keeps_bind | with_reducible apply keeps_ite
    | with_reducible apply keeps_dite | with_reducible apply keeps_loopFrom
    | ((with_reducible apply keeps_modifyM); intro s; rfl)
    | with_reducible apply keeps_oscChannels
    | with_reducible apply keeps_delayChannels
    | intro _
    | dsimp only
    | unfold stackGet | unfold stackSet | unfold stackTake | unfold stackPush | unfold stackLen
    | unfold nextValue | unfold nextValue2 | unfold param | unfold setParam | unfold output
    | unfold setOutput | unfold voiceAt | unfold unitAt | unfold setUnitAt | unfold portAt
    | unfold setPortAt | unfold curVoice | unfold unitState | unfold setUnitState | unfold unitPort
    | unfold setUnitPort | unfold rand | unfold setDelayline
    | split

theorem keeps_execGain (stereo : Bool) (l : Int) :
    Keeps clock (execGain stereo l) := by
  unfold execGain
  repeat' first
    | with_reducible exact keeps_pure _ _ | with_reducible exact keeps_fail _ _
    | with_reducible exact keeps_fault _ | with_reducible exact keeps_getM _
    | with_reducible apply keeps_bind | with_reducible apply keeps_ite
    | with_reducible apply keeps_dite | with_reducible apply keeps_loopFrom
    | ((with_reducible apply keeps_modifyM); intro s; rfl)
    | with_reducible apply keeps_oscChannels
    | with_reducible apply keeps_delayChannels
    | intro _
    | dsimp only
    | unfold stackGet | unfold stackSet | unfold stackTake | unfold stackPush | unfold stackLen
    | unfold nextValue | unfold nextValue2 | unfold param | unfold setParam | unfold output
    | unfold setOutput | unfold voiceAt | unfold unitAt | unfold setUnitAt | unfold portAt
    | unfold setPortAt | unfold curVoice | unfold unitState | unfold setUnitState | unfold unitPort
    | unfold setUnitPort | unfold rand | unfold setDelayline
    | split

theorem keeps_execInvgain (stereo : Bool) (l : Int) :
    Keeps clock (execInvgain stereo l) := by
  unfold execInvgain
  repeat' first
    | with_reducible exact keeps_pure _ _ | with_reducible exact keeps_fail _ _
    | with_reducible exact keeps_fault _ | with_reducible exact keeps_getM _
    | with_reducible apply keeps_bind | with_reducible apply keeps_ite
    | with_reducible apply keeps_dite | with_reducible apply keeps_loopFrom
    | ((with_reducible apply keeps_modifyM); intro s; rfl)
    | with_reducible apply keeps_oscChannels
    | with_reducible apply keeps_delayChannels
    | intro _
    | dsimp only
    | unfold stackGet | unfold stackSet | unfold stackTake | unfold stackPush | unfold stackLen
    | unfold nextValue | unfold nextValue2 | unfold param | unfold setParam | unfold output
    | unfold setOutput | unfold voiceAt | unfold unitAt | unfold setUnitAt | unfold portAt
    | unfold setPortAt | unfold curVoice | unfold unitState | unfold setUnitState | unfold unitPort
    | unfold setUnitPort | unfold rand | unfold setDelayline
    | split

theorem keeps_execClip (stereo : Bool) (l : Int) :
    Keeps clock (execClip stereo l) := by
  unfold execClip
  repeat' first
    | with_reducible exact keeps_pure _ _ | with_reducible exact keeps_fail _ _
    | with_reducible exact keeps_fault _ | with_reducible exact keeps_getM _
    | with_reducible apply keeps_bind | with_reducible apply keeps_ite
    | with_reducible apply keeps_dite | with_reducible apply keeps_loopFrom
    | ((with_reducible apply keeps_modifyM); intro s; rfl)
    | with_reducible apply keeps_oscChannels
    | with_reducible apply keeps_delayChannels
    | intro _
    | dsimp only
    | unfold stackGet | unfold stackSet | unfold stackTake | unfold stackPush | unfold stackLen
    | unfold nextValue | unfold nextValue2 | unfold param | unfold setParam | unfold output
    | unfold setOutput | unfold voiceAt | unfold unitAt | unfold setUnitAt | unfold portAt
    | unfold setPortAt | unfold curVoice | unfold unitState | unfold setUnitState | unfold unitPort
    | unfold setUnitPort | unfold rand | unfold setDelayline
    | split

theorem keeps_execCrush (stereo : Bool) (l : Int) :
    Keeps clock (execCrush stereo l) := by
  unfold execCrush
  repeat' first
    | with_reducible exact keeps_pure _ _ | with_reducible exact keeps_fail _ _
    | with_reducible exact keeps_fault _ | with_reducible exact keeps_getM _
    | with_reducible apply keeps_bind | with_reducible apply keeps_ite
    | with_reducible apply keeps_dite | with_reducible apply keeps_loopFrom
    | ((with_reducible apply keeps_modifyM); intro s; rfl)
    | with_reducible apply keeps_oscChannels
    | with_reducible apply keeps_delayChannels
    | intro _
    | dsimp only
    | unfold stackGet | unfold stackSet | unfold stackTake | unfold stackPush | unfold stackLen
    | unfold nextValue | unfold nextValue2 | unfold param | unfold setParam | unfold output
    | unfold setOutput | unfold voiceAt | unfold unitAt | unfold setUnitAt | unfold portAt
    | unfold setPortAt | unfold curVoice | unfold unitState | unfold setUnitState | unfold unitPort
    | unfold setUnitPort | unfold rand | unfold setDelayline
    | split

theorem keeps_execHold (channels : Nat) (l : Int) :
    Keeps clock (execHold channels l) := by
  unfold execHold
  repeat' first
    | with_reducible exact keeps_pure _ _ | with_reducible exact keeps_fail _ _
    | with_reducible exact keeps_fault _ | with_reducible exact keeps_getM _
    | with_reducible apply keeps_bind | with_reducible apply keeps_ite
    | with_reducible apply keeps_dite | with_reducible apply keeps_loopFrom
    | ((with_reducible apply keeps_modifyM); intro s; rfl)
    | with_reducible apply keeps_oscChannels
    | with_reducible apply keeps_delayChannels
    | intro _
    | dsimp only
    | unfold stackGet | unfold stackSet | unfold stackTake | unfold stackPush | unfold stackLen
    | unfold nextValue | unfold nextValue2 | unfold param | unfold setParam | unfold output
    | unfold setOutput | unfold voiceAt | unfold unitAt | unfold setUnitAt | unfold portAt
    | unfold setPortAt | unfold curVoice | unfold unitState | unfold setUnitState | unfold unitPort
    | unfold setUnitPort | unfold rand | unfold setDelayline
    | split

theorem keeps_execSend (channels : Nat) (l : Int) :
    Keeps clock (execSend channels l) := by
  unfold execSend
  repeat' first
    | with_reducible exact keeps_pure _ _ | with_reducible exact keeps_fail _ _
    | with_reducible exact keeps_fault _ | with_reducible exact keeps_getM _
    | with_reducible apply keeps_bind | with_reducible apply keeps_ite
    | with_reducible apply keeps_dite | with_reducible apply keeps_loopFrom
    | ((with_reducible apply keeps_modifyM); intro s; rfl)
    | with_reducible apply keeps_oscChannels
    | with_reducible apply keeps_delayChannels
    | intro _
    | dsimp only
    | unfold stackGet | unfold stackSet | unfold stackTake | unfold stackPush | unfold stackLen
    | unfold nextValue | unfold nextValue2 | unfold param | unfold setParam | unfold output
    | unfold setOutput | unfold voiceAt | unfold unitAt | unfold setUnitAt | unfold portAt
    | unfold setPortAt | unfold curVoice | unfold unitState | unfold setUnitState | unfold unitPort
    | unfold setUnitPort | unfold rand | unfold setDelayline
    | split

theorem keeps_execReceive (stereo : Bool) :
    Keeps clock (execReceive stereo) := by
  unfold execReceive
  repeat' first
    | with_reducible exact keeps_pure _ _ | with_reducible exact keeps_fail _ _
    | with_reducible exact keeps_fault _ | with_reducible exact keeps_getM _
    | with_reducible apply keeps_bind | with_reducible apply keeps_ite
    | with_reducible apply keeps_dite | with_reducible apply keeps_loopFrom
    | ((with_reducible apply keeps_modifyM); intro s; rfl)
    | with_reducible apply keeps_oscChannels
    | with_reducible apply keeps_delayChannels
    | intro _
    | dsimp only
    | unfold stackGet | unfold stackSet | unfold stackTake | unfold stackPush | unfold stackLen
    | unfold nextValue | unfold nextValue2 | unfold param | unfold setParam | unfold output
    | unfold setOutput | unfold voiceAt | unfold unitAt | unfold setUnitAt | unfold portAt
    | unfold setPortAt | unfold curVoice | unfold unitState | unfold setUnitState | unfold unitPort
    | unfold setUnitPort | unfold rand | unfold setDelayline
    | split

theorem keeps_execLoadnote (stereo : Bool) :
    Keeps clock (execLoadnote stereo) := by
  unfold execLoadnote
  repeat' first
    | with_reducible exact keeps_pure _ _ | with_reducible exact keeps_fail _ _
    | with_reducible exact keeps_fault _ | with_reducible exact keeps_getM _
    | with_reducible apply keeps_bind | with_reducible apply keeps_ite
    | with_reducible apply keeps_dite | with_reducible apply keeps_loopFrom
    | ((with_reducible apply keeps_modifyM); intro s; rfl)
    | with_reducible apply keeps_oscChannels
    | with_reducible apply keeps_delayChannels
    | intro _
    | dsimp only
    | unfold stackGet | unfold stackSet | unfold stackTake | unfold stackPush | unfold stackLen
    | unfold nextValue | unfold nextValue2 | unfold param | unfold setParam | unfold output
    | unfold setOutput | unfold voiceAt | unfold unitAt | unfold setUnitAt | unfold portAt
    | unfold setPortAt | unfold curVoice | unfold unitState | unfold setUnitState | unfold unitPort
    | unfold setUnitPort | unfold rand | unfold setDelayline
    | split

theorem keeps_execPan (stereo : Bool) (l : Int) :
    Keeps clock (execPan stereo l) := by
  unfold execPan
  repeat' first
    | with_reducible exact keeps_pure _ _ | with_reducible exact keeps_fail _ _
    | with_reducible exact keeps_fault _ | with_reducible exact keeps_getM _
    | with_reducible apply keeps_bind | with_reducible apply keeps_ite
    | with_reducible apply keeps_dite | with_reducible apply keeps_loopFrom
    | ((with_reducible apply keeps_modifyM); intro s; rfl)
    | with_reducible apply keeps_oscChannels
    | with_reducible apply keeps_delayChannels
    | intro _
    | dsimp only
    | unfold stackGet | unfold stackSet | unfold stackTake | unfold stackPush | unfold stackLen
    | unfold nextValue | unfold nextValue2 | unfold param | unfold setParam | unfold output
    | unfold setOutput | unfold voiceAt | unfold unitAt | unfold setUnitAt | unfold portAt
    | unfold setPortAt | unfold curVoice | unfold unitState | unfold setUnitState | unfold unitPort
    | unfold setUnitPort | unfold rand | unfold setDelayline
    | split

theorem keeps_execFilter (channels : Nat) (l : Int) :
    Keeps clock (execFilter channels l) := by
  unfold execFilter
  repeat' first
    | with_reducible exact keeps_pure _ _ | with_reducible exact keeps_fail _ _
    | with_reducible exact keeps_fault _ | with_reducible exact keeps_getM _
    | with_reducible apply keeps_bind | with_reducible apply keeps_ite
    | with_reducible apply keeps_dite | with_reducible apply keeps_loopFrom
    | ((with_reducible apply keeps_modifyM); intro s; rfl)
    | with_reducible apply keeps_oscChannels
    | with_reducible apply keeps_delayChannels
    | intro _
    | dsimp only
    | unfold stackGet | unfold stackSet | unfold stackTake | unfold stackPush | unfold stackLen
    | unfold nextValue | unfold nextValue2 | unfold param | unfold setParam | unfold output
    | unfold setOutput | unfold voiceAt | unfold unitAt | unfold setUnitAt | unfold portAt
    | unfold setPortAt | unfold curVoice | unfold unitState | unfold setUnitState | unfold unitPort
    | unfold setUnitPort | unfold rand | unfold setDelayline
    | split

theorem keeps_execOscillator (m : MathLib) (channels : Nat) (valuesAtTransform : List Nat) :
    Keeps clock (execOscillator m channels valuesAtTransform) := by
  unfold execOscillator
  repeat' first
    | with_reducible exact keeps_pure _ _ | with_reducible exact keeps_fail _ _
    | with_reducible exact keeps_fault _ | with_reducible exact keeps_getM _
    | with_reducible apply keeps_bind | with_reducible apply keeps_ite
    | with_reducible apply keeps_dite | with_reducible apply keeps_loopFrom
    | ((with_reducible apply keeps_modifyM); intro s; rfl)
    | with_reducible apply keeps_oscChannels
    | with_reducible apply keeps_delayChannels
    | intro _
    | dsimp only
    | unfold stackGet | unfold stackSet | unfold stackTake | unfold stackPush | unfold stackLen
    | unfold nextValue | unfold nextValue2 | unfold param | unfold setParam | unfold output
    | unfold setOutput | unfold voiceAt | unfold unitAt | unfold setUnitAt | unfold portAt
    | unfold setPortAt | unfold curVoice | unfold unitState | unfold setUnitState | unfold unitPort
    | unfold setUnitPort | unfold rand | unfold setDelayline
    | split

theorem keeps_execDelay (m : MathLib) (delayTimes : List Nat) (channels : Nat) (l : Int) :
    Keeps clock (execDelay m delayTimes channels l) := by
  unfold execDelay
  repeat' first
    | with_reducible exact keeps_pure _ _ | with_reducible exact keeps_fail _ _
    | with_reducible exact keeps_fault _ | with_reducible exact keeps_getM _
    | with_reducible apply keeps_bind | with_reducible apply keeps_ite
    | with_reducible apply keeps_dite | with_reducible apply keeps_loopFrom
    | ((with_reducible apply keeps_modifyM); intro s; rfl)
    | with_reducible apply keeps_oscChannels
    | with_reducible apply keeps_delayChannels
    | intro _
    | dsimp only
    | unfold stackGet | unfold stackSet | unfold stackTake | unfold stackPush | unfold stackLen
    | unfold nextValue | unfold nextValue2 | unfold param | unfold setParam | unfold output
    | unfold setOutput | unfold voiceAt | unfold unitAt | unfold setUnitAt | unfold portAt
    | unfold setPortAt | unfold curVoice | unfold unitState | unfold setUnitState | unfold unitPort
    | unfold setUnitPort | unfold rand | unfold setDelayline
    | split

theorem keeps_execCompressor (m : MathLib) (stereo : Bool) (l : Int) :
    Keeps clock (execCompressor m stereo l) := by
  unfold execCompressor
  repeat' first
    | with_reducible exact keeps_pure _ _ | with_reducible exact keeps_fail _ _
    | with_reducible exact keeps_fault _ | with_reducible exact keeps_getM _
    | with_reducible apply keeps_bind | with_reducible apply keeps_ite
    | with_reducible apply keeps_dite | with_reducible apply keeps_loopFrom
    | ((with_reducible apply keeps_modifyM); intro s; rfl)
    | with_reducible apply keeps_oscChannels
    | with_reducible apply keeps_delayChannels
    | intro _
    | dsimp only
    | unfold stackGet | unfold stackSet | unfold stackTake | unfold stackPush | unfold stackLen
    | unfold nextValue | unfold nextValue2 | unfold param | unfold setParam | unfold output
    | unfold setOutput | unfold voiceAt | unfold unitAt | unfold setUnitAt | unfold portAt
    | unfold setPortAt | unfold curVoice | unfold unitState | unfold setUnitState | unfold unitPort
    | unfold setUnitPort | unfold rand | unfold setDelayline
    | split

theorem keeps_execSync (l : Int) :
    Keeps clock (execSync l) := by
  unfold execSync
  repeat' first
    | with_reducible exact keeps_pure _ _ | with_reducible exact keeps_fail _ _
    | with_reducible exact keeps_fault _ | with_reducible exact keeps_getM _
    | with_reducible apply keeps_bind | with_reducible apply keeps_ite
    | with_reducible apply keeps_dite | with_reducible apply keeps_loopFrom
    | ((with_reducible apply keeps_modifyM); intro s; rfl)
    | with_reducible apply keeps_oscChannels
    | with_reducible apply keeps_delayChannels
    | intro _
    | dsimp only
    | unfold stackGet | unfold stackSet | unfold stackTake | unfold stackPush | unfold stackLen
    | unfold nextValue | unfold nextValue2 | unfold param | unfold setParam | unfold output
    | unfold setOutput | unfold voiceAt | unfold unitAt | unfold setUnitAt | unfold portAt
    | unfold setPortAt | unfold curVoice | unfold unitState | unfold setUnitState | unfold unitPort
    | unfold setUnitPort | unfold rand | unfold setDelayline
    | split

theorem keeps_execFriction (l : Int) :
    Keeps clock (execFriction l) := by
  unfold execFriction
  repeat' first
    | with_reducible exact keeps_pure _ _ | with_reducible exact keeps_fail _ _
    | with_reducible exact keeps_fault _ | with_reducible exact keeps_getM _
    | with_reducible apply keeps_bind | with_reducible apply keeps_ite
    | with_reducible apply keeps_dite | with_reducible apply keeps_loopFrom
    | ((with_reducible apply keeps_modifyM); intro s; rfl)
    | with_reducible apply keeps_oscChannels
    | with_reducible apply keeps_delayChannels
    | intro _
    | dsimp only
    | unfold stackGet | unfold stackSet | unfold stackTake | unfold stackPush | unfold stackLen
    | unfold nextValue | unfold nextValue2 | unfold param | unfold setParam | unfold output
    | unfold setOutput | unfold voiceAt | unfold unitAt | unfold setUnitAt | unfold portAt
    | unfold setPortAt | unfold curVoice | unfold unitState | unfold setUnitState | unfold unitPort
    | unfold setUnitPort | unfold rand | unfold setDelayline
    | split

/-- Every unit but `speed` keeps the two clocks. -/
theorem keeps_dispatch_clock (m : MathLib) (delayTimes : List Nat) (opNoStereo : Nat)
    (stereo : Bool) (channels : Nat) (valuesAtTransform : List Nat) (l : Int)
    (hop : opNoStereo ≠ opSpeed) :
    Keeps clock (dispatch m delayTimes opNoStereo stereo channels valuesAtTransform l) := by
  unfold dispatch
  rw [if_neg hop]
  repeat' first
    | with_reducible exact keeps_fail _ _
    | with_reducible apply keeps_execAdd
    | with_reducible apply keeps_execAddp
    | with_reducible apply keeps_execMul
    | with_reducible apply keeps_execMulp
    | with_reducible apply keeps_execXch
    | with_reducible apply keeps_execPush
    | with_reducible apply keeps_execPop
    | with_reducible apply keeps_execDistort
    | with_reducible apply keeps_execLoadval
    | with_reducible apply keeps_execOut
    | with_reducible apply keeps_execOutaux
    | with_reducible apply keeps_execAux
    | with_reducible apply keeps_execIn
    | with_reducible apply keeps_execEnvelope
    | with_reducible apply keeps_execNoise
    | with_reducible apply keeps_execGain
    | with_reducible apply keeps_execInvgain
    | with_reducible apply keeps_execClip
    | with_reducible apply keeps_execCrush
    | with_reducible apply keeps_execHold
    | with_reducible apply keeps_execSend
    | with_reducible apply keeps_execReceive
    | with_reducible apply keeps_execLoadnote
    | with_reducible apply keeps_execPan
    | with_reducible apply keeps_execFilter
    | with_reducible apply keeps_execOscillator
    | with_reducible apply keeps_execDelay
    | with_reducible apply keeps_execCompressor
    | with_reducible apply keeps_execSync
    | with_reducible apply keeps_execFriction
    | with_reducible apply keeps_ite

/-- The unit `speed` moves `time` but keeps the global sample clock. -/
theorem keeps_execSpeed_globalTime (m : MathLib) (l : Int) :
    Keeps (fun mc => mc.synth.globalTime) (execSpeed m l) := by
  unfold execSpeed
  repeat' first
    | with_reducible exact keeps_pure _ _ | with_reducible exact keeps_fail _ _
    | with_reducible exact keeps_fault _ | with_reducible exact keeps_getM _
    | with_reducible apply keeps_bind | with_reducible apply keeps_ite
    | with_reducible apply keeps_dite | with_reducible apply keeps_loopFrom
    | ((with_reducible apply keeps_modifyM); intro s; rfl)
    | intro _
    | dsimp only
    | unfold stackGet | unfold stackSet | unfold stackTake | unfold stackPush | unfold stackLen
    | unfold nextValue | unfold nextValue2 | unfold param | unfold setParam | unfold output
    | unfold setOutput | unfold voiceAt | unfold unitAt | unfold setUnitAt | unfold portAt
    | unfold setPortAt | unfold curVoice | unfold unitState | unfold setUnitState | unfold unitPort
    | unfold setUnitPort | unfold rand | unfold setDelayline
    | split

/-- Every unit keeps an observation of the two clocks that `speed` keeps. -/
theorem keeps_dispatch {γ : Type} (g : Nat × Int → γ) (m : MathLib) (delayTimes : List Nat)
    (opNoStereo : Nat) (stereo : Bool) (channels : Nat) (valuesAtTransform : List Nat) (l : Int)
    (hs : opNoStereo = opSpeed → Keeps (fun mc => g (clock mc)) (execSpeed m l)) :
    Keeps (fun mc => g (clock mc))
      (dispatch m delayTimes opNoStereo stereo channels valuesAtTransform l) := by
  by_cases hop : opNoStereo = opSpeed
  · have hd : dispatch m delayTimes opNoStereo stereo channels valuesAtTransform l
        = execSpeed m l := by
      subst hop
      rfl
    rw [hd]
    exact hs hop
  · exact keeps_of_comp clock g _
      (keeps_dispatch_clock m delayTimes opNoStereo stereo channels valuesAtTransform l hop)

theorem keeps_transform (tcount : Nat) : Keeps clock (transform tcount) := by
  unfold transform
  apply keeps_loopFrom
  intro i
  unfold transformStep
  repeat' first
    | with_reducible exact keeps_pure _ _ | with_reducible exact keeps_fail _ _
    | with_reducible exact keeps_fault _ | with_reducible exact keeps_getM _
    | with_reducible apply keeps_bind | with_reducible apply keeps_ite
    | with_reducible apply keeps_dite | with_reducible apply keeps_loopFrom
    | ((with_reducible apply keeps_modifyM); intro s; rfl)
    | intro _
    | dsimp only
    | unfold stackGet | unfold stackSet | unfold stackTake | unfold stackPush | unfold stackLen
    | unfold nextValue | unfold nextValue2 | unfold param | unfold setParam | unfold output
    | unfold setOutput | unfold voiceAt | unfold unitAt | unfold setUnitAt | unfold portAt
    | unfold setPortAt | unfold curVoice | unfold unitState | unfold setUnitState | unfold unitPort
    | unfold setUnitPort | unfold rand | unfold setDelayline
    | split

theorem keeps_execUnit {γ : Type} (g : Nat × Int → γ) (m : MathLib) (bytePatch : BytePatch)
    (op : Nat)
    (hs : (op &&& 0xFE) >>> 1 = opSpeed → ∀ l, Keeps (fun mc => g (clock mc)) (execSpeed m l)) :
    Keeps (fun mc => g (clock mc)) (execUnit m bytePatch op) := by
  unfold execUnit
  repeat' first
    | with_reducible exact keeps_pure _ _ | with_reducible exact keeps_fail _ _
    | with_reducible exact keeps_fault _ | with_reducible exact keeps_getM _
    | with_reducible apply keeps_bind | with_reducible apply keeps_ite
    | with_reducible apply keeps_dite | with_reducible apply keeps_loopFrom
    | ((with_reducible apply keeps_modifyM); intro s; rfl)
    | with_reducible exact keeps_dispatch g _ _ _ _ _ _ _ (fun h => hs h _)
    | with_reducible exact keeps_of_comp clock g _ (keeps_transform _)
    | intro _
    | dsimp only
    | unfold stackGet | unfold stackSet | unfold stackTake | unfold stackPush | unfold stackLen
    | unfold nextValue | unfold nextValue2 | unfold param | unfold setParam | unfold output
    | unfold setOutput | unfold voiceAt | unfold unitAt | unfold setUnitAt | unfold portAt
    | unfold setPortAt | unfold curVoice | unfold unitState | unfold setUnitState | unfold unitPort
    | unfold setUnitPort | unfold rand | unfold setDelayline
    | split

theorem keeps_unitLoop {γ : Type} (g : Nat × Int → γ) (m : MathLib) (bytePatch : BytePatch) :
    ∀ commands : List Nat,
      (∀ op ∈ commands, (op &&& 0xFE) >>> 1 = opSpeed →
        ∀ l, Keeps (fun mc => g (clock mc)) (execSpeed m l)) →
      Keeps (fun mc => g (clock mc)) (unitLoop m bytePatch commands) := by
  intro commands
  induction commands with
  | nil => intro _; exact keeps_fault _
  | cons op commands ih =>
    intro hs
    rw [unitLoop]
    apply keeps_ite
    · exact keeps_pure _ _
    · exact keeps_bind _ _ _ (keeps_execUnit g m bytePatch op (hs op (List.mem_cons_self _ _)))
        (fun _ => ih (fun o ho => hs o (List.mem_cons_of_mem _ ho)))

/-- The commands `unitLoop` hands back are commands of the list it was given. -/
theorem unitLoop_rest (m : MathLib) (bytePatch : BytePatch) :
    ∀ (commands rest : List Nat) (mc mc' : Machine),
      unitLoop m bytePatch commands mc = (Except.ok rest, mc') → ∀ op ∈ rest, op ∈ commands := by
  intro commands
  induction commands with
  | nil =>
    intro rest mc mc' h
    rw [unitLoop] at h
    exact absurd (Prod.mk.inj h).1 (by simp [fault, fail])
  | cons op commands ih =>
    intro rest mc mc' h o ho
    rw [unitLoop] at h
    by_cases hadv : (op &&& 0xFE) >>> 1 = 0
    · rw [if_pos hadv] at h
      have := (Except.ok.inj (Prod.mk.inj h).1)
      subst this
      exact List.mem_cons_of_mem _ ho
    · rw [if_neg hadv, bind_run] at h
      rcases hu : execUnit m bytePatch op mc with ⟨_ | _, s1⟩
      · rw [hu] at h
        exact absurd (Prod.mk.inj h).1 (by simp)
      · rw [hu] at h
        exact List.mem_cons_of_mem _ (ih rest s1 mc' h o ho)

theorem keeps_bind_of {α γ β : Type} (q : Machine → β) (x : Exec Machine α)
    (f : α → Exec Machine γ) (hx : Keeps q x)
    (hf : ∀ a mc s', x mc = (Except.ok a, s') → Keeps q (f a)) : Keeps q (x >>= f) := by
  refine ⟨fun mc => ?_⟩
  have h1 := hx.keeps mc
  rw [bind_run]
  rcases hxm : x mc with ⟨_ | a, s'⟩
  · rw [hxm] at h1
    exact h1
  · rw [hxm] at h1
    simp only
    rw [(hf a mc s' hxm).keeps s']
    exact h1

theorem keeps_voiceLoop {γ : Type} (g : Nat × Int → γ) (m : MathLib) (bytePatch : BytePatch) :
    ∀ (voicesRemaining : Nat) (commands commandInstr valuesInstr : List Nat),
      (∀ op ∈ commands, (op &&& 0xFE) >>> 1 = opSpeed →
        ∀ l, Keeps (fun mc => g (clock mc)) (execSpeed m l)) →
      (∀ op ∈ commandInstr, (op &&& 0xFE) >>> 1 = opSpeed →
        ∀ l, Keeps (fun mc => g (clock mc)) (execSpeed m l)) →
      Keeps (fun mc => g (clock mc))
        (voiceLoop m bytePatch voicesRemaining commands commandInstr valuesInstr) := by
  intro voicesRemaining
  induction voicesRemaining with
  | zero => intro _ _ _ _ _; exact keeps_pure _ _
  | succ n ih =>
    intro commands commandInstr valuesInstr hc hi
    rw [voiceLoop]
    refine keeps_bind_of _ _ _ (keeps_unitLoop g m bytePatch commands hc)
      (fun rest mc s' hrun => ?_)
    have hrest : ∀ op ∈ rest, (op &&& 0xFE) >>> 1 = opSpeed →
        ∀ l, Keeps (fun mc => g (clock mc)) (execSpeed m l) :=
      fun o ho => hc o (unitLoop_rest m bytePatch commands rest mc s' hrun o ho)
    repeat' first
      | with_reducible exact keeps_pure _ _ | with_reducible exact keeps_fail _ _
      | with_reducible exact keeps_fault _ | with_reducible exact keeps_getM _
      | with_reducible apply keeps_bind | with_reducible apply keeps_ite
      | with_reducible apply keeps_dite | with_reducible apply keeps_loopFrom
      | ((with_reducible apply keeps_modifyM); intro s; rfl)
      | with_reducible exact ih _ _ _ hi hi
      | with_reducible exact ih _ _ _ hrest hrest
      | intro _
      | dsimp only
      | split

theorem beginSample_globalTime (bp : BytePatch) (st : RenderState) :
    (beginSample bp st).2.machine.synth.globalTime = st.machine.synth.globalTime ∧
    (beginSample bp st).2.samples = st.samples := by
  by_cases h : st.machine.synth.globalTime % 256 = 0
  · cases hsb : st.machine.syncBuf with
    | nil => rw [beginSample_fault bp st h hsb]; exact ⟨rfl, rfl⟩
    | cons v rest => rw [beginSample_sync bp st v rest h hsb]; exact ⟨rfl, rfl⟩
  · rw [beginSample_nosync bp st h]; exact ⟨rfl, rfl⟩

/-- One turn of the loop of `Render`: either it ends with an error, the sample
count and the global clock as they were, or it completes the sample and both
have advanced by one. -/
theorem sample_body_globalTime (m : MathLib) (bp : BytePatch) (rest : List ℚ)
    (st : RenderState) :
    (∃ e st', (do beginSample bp
                  onMachine (voiceLoop m bp bp.NumVoices bp.Commands bp.Commands bp.Values)
                  endSample rest : Exec RenderState Unit) st = (Except.error e, st') ∧
      st'.samples = st.samples ∧
      st'.machine.synth.globalTime = st.machine.synth.globalTime) ∨
    (∃ st', (do beginSample bp
                onMachine (voiceLoop m bp bp.NumVoices bp.Commands bp.Commands bp.Values)
                endSample rest : Exec RenderState Unit) st = (Except.ok (), st') ∧
      st'.samples = st.samples + 1 ∧
      st'.machine.synth.globalTime = (st.machine.synth.globalTime + 1) % 2 ^ 32) := by
  obtain ⟨hb1, hb2⟩ := beginSample_globalTime bp st
  have hk := keeps_voiceLoop (fun c => c.1) m bp bp.NumVoices bp.Commands bp.Commands bp.Values
    (fun _ _ _ l => keeps_execSpeed_globalTime m l)
    (fun _ _ _ l => keeps_execSpeed_globalTime m l)
  simp only [bind_run]
  rcases hb : beginSample bp st with ⟨e | _, st1⟩
  · rw [hb] at hb1 hb2
    exact Or.inl ⟨e, st1, rfl, hb2, hb1⟩
  rw [hb] at hb1 hb2
  simp only at hb1 hb2 ⊢
  have hv := hk.keeps st1.machine
  rw [onMachine_run]
  rcases hvl : voiceLoop m bp bp.NumVoices bp.Commands bp.Commands bp.Values st1.machine
    with ⟨e | _, mc2⟩
  · rw [hvl] at hv
    exact Or.inl ⟨e, _, rfl, hb2, by
      show mc2.synth.globalTime = _
      rw [← hb1]
      exact hv⟩
  rw [hvl] at hv
  simp only at hv ⊢
  have hv' : mc2.synth.globalTime = st.machine.synth.globalTime := by
    rw [← hb1]
    exact hv
  rcases endSample_cases rest { st1 with machine := mc2 } with ⟨_, he⟩ | ⟨_, he⟩ | ⟨_, he⟩
  · rw [he]
    exact Or.inl ⟨_, _, rfl, hb2, hv'⟩
  · rw [he]
    exact Or.inl ⟨_, _, rfl, hb2, hv'⟩
  · rw [he]
    refine Or.inr ⟨_, rfl, ?_, ?_⟩
    · show st1.samples + 1 = st.samples + 1
      rw [hb2]
    · show (mc2.synth.globalTime + 1) % 2 ^ 32 = _
      rw [hv']

/-- The loop of `Render` advances the global clock by the number of samples it
completes, whether it ends with an error or not. -/
theorem renderLoop_globalTime (m : MathLib) (bp : BytePatch) (maxtime : Int) :
    ∀ (buf : List ℚ) (st : RenderState), st.machine.synth.globalTime < 2 ^ 32 →
      ∃ k, (renderLoop m bp maxtime buf st).2.samples = st.samples + k ∧
        (renderLoop m bp maxtime buf st).2.machine.synth.globalTime
          = (st.machine.synth.globalTime + k) % 2 ^ 32 := by
  intro buf
  induction buf using buffer_induction with
  | hshort buf h =>
    intro st hg
    rw [renderLoop_short m bp maxtime buf h]
    exact ⟨0, rfl, (Nat.mod_eq_of_lt hg).symm⟩
  | hcons b0 b1 rest ih =>
    intro st hg
    rw [renderLoop_cons]
    by_cases ht : st.machine.time < maxtime
    · rw [if_pos ht]
      have hassoc : (do beginSample bp
                        onMachine (voiceLoop m bp bp.NumVoices bp.Commands bp.Commands bp.Values)
                        endSample rest
                        renderLoop m bp maxtime rest : Exec RenderState Unit) st
          = ((do beginSample bp
                 onMachine (voiceLoop m bp bp.NumVoices bp.Commands bp.Commands bp.Values)
                 endSample rest : Exec RenderState Unit) >>= fun _ =>
              renderLoop m bp maxtime rest) st := by
        simp only [bind_run]
        rcases beginSample bp st with ⟨_ | _, s1⟩
        · rfl
        simp only
        rcases onMachine (voiceLoop m bp bp.NumVoices bp.Commands bp.Commands bp.Values) s1
          with ⟨_ | _, s2⟩
        · rfl
        rfl
      rw [hassoc, bind_run]
      rcases sample_body_globalTime m bp rest st with ⟨e, st', hrun, hs, hgt⟩ | ⟨st', hrun, hs, hgt⟩
      · rw [hrun]
        exact ⟨0, hs, by simp only [hgt, Nat.add_zero]; exact (Nat.mod_eq_of_lt hg).symm⟩
      · rw [hrun]
        simp only
        obtain ⟨k, hk1, hk2⟩ := ih st' (by rw [hgt]; exact Nat.mod_lt _ (by decide))
        refine ⟨k + 1, by rw [hk1, hs]; omega, ?_⟩
        rw [hk2, hgt, Nat.mod_add_mod]
        congr 1
        omega
    · rw [if_neg ht]
      exact ⟨0, rfl, (Nat.mod_eq_of_lt hg).symm⟩

theorem Render_samples (m : MathLib) (s : Interpreter) (buffer syncBuf : List ℚ)
    (maxtime : Int) :
    (Render m s buffer syncBuf maxtime).samples
      = (renderLoop m s.bytePatch maxtime buffer (renderInit s buffer syncBuf)).2.samples := rfl

/-- C26: for every interpreter whose global clock is a 32-bit value, every patch
and every input, after `Render` returns, with an error or without, the global
clock is its value before the call plus the returned `samples`, modulo 2^32,
whatever the `speed` units did to the returned `time`. -/
theorem Render_globalTime (m : MathLib) (s : Interpreter) (buffer syncBuf : List ℚ)
    (maxtime : Int) (hg : s.synth.globalTime < 2 ^ 32) :
    (Render m s buffer syncBuf maxtime).s.synth.globalTime
      = (s.synth.globalTime + (Render m s buffer syncBuf maxtime).samples) % 2 ^ 32 := by
  obtain ⟨k, hk1, hk2⟩ := renderLoop_globalTime m s.bytePatch maxtime buffer
    (renderInit s buffer syncBuf) hg
  rw [Render_synth, Render_samples, hk1, hk2]
  show _ = (s.synth.globalTime + (0 + k)) % 2 ^ 32
  rw [Nat.zero_add]
  rfl

theorem Render_globalTime_witness :
    (Interpreter.fresh popPatch 0).synth.globalTime < 2 ^ 32 ∧
    (Render sampleMath (Interpreter.fresh silencePatch 0) [7, 7, 7, 7] [9] 2).s.synth.globalTime
      = 2 ∧
    (Render sampleMath (Interpreter.fresh popPatch 0) [7, 7, 7, 7] [9] 2).renderError
      = some RenderError.stackUnderflow ∧
    (Render sampleMath (Interpreter.fresh popPatch 0) [7, 7, 7, 7] [9] 2).s.synth.globalTime
      = 0 :=
  have w1 := Render_globalTime sampleMath (Interpreter.fresh silencePatch 0) [7, 7, 7, 7] [9] 2
    (by decide)
  have w2 := Render_globalTime sampleMath (Interpreter.fresh popPatch 0) [7, 7, 7, 7] [9] 2
    (by decide)
  have h1 : (Render sampleMath (Interpreter.fresh silencePatch 0) [7, 7, 7, 7] [9] 2).samples
      = 2 := rfl
  have h2 : (Render sampleMath (Interpreter.fresh popPatch 0) [7, 7, 7, 7] [9] 2).samples
      = 0 := rfl
  ⟨by decide, by rw [w1, h1]; rfl, rfl, by rw [w2, h2]; rfl⟩

/-- The second of two states that agree is the first with other values in the
fields that are free. -/
theorem Agree.ghost {k : Nat} {a b : Machine} (h : Agree k a b) :
    ∃ (p : Fin 8 → ℚ) (sd sb : List ℚ) (t : Int),
      b = { a with params := p, syncDone := sd, syncBuf := sb, time := t } ∧
      ∀ i : Fin 8, i.val < k → a.params i = p i := by
  refine ⟨b.params, b.syncDone, b.syncBuf, b.time, ?_, h.params⟩
  obtain ⟨h1, h2, h3, h4, h5, h6, h7, _⟩ := h
  cases a
  cases b
  simp only at h1 h2 h3 h4 h5 h6 h7
  subst h1 h2 h3 h4 h5 h6 h7
  rfl

theorem Agree.mono {k k' : Nat} {a b : Machine} (h : Agree k a b) (hk : k' ≤ k) :
    Agree k' a b :=
  ⟨h.synth, h.delaylinesAll, h.stack, h.values, h.delaylines, h.voices, h.units,
    fun i hi => h.params i (Nat.lt_of_lt_of_le hi hk)⟩

theorem sim_pure {α : Type} (k : Nat) (r : α) : Sim k (pure r : Exec Machine α) :=
  ⟨fun a b ra rb sa sb hag ha hb => by
    have h1 := Prod.mk.inj ha
    have h2 := Prod.mk.inj hb
    exact ⟨(Except.ok.inj h1.1).symm.trans (Except.ok.inj h2.1), by rw [← h1.2, ← h2.2]; exact hag⟩⟩

theorem sim_fail {α : Type} (k : Nat) (e : RenderError) : Sim k (fail e : Exec Machine α) :=
  ⟨fun a b ra rb sa sb _ ha _ => absurd (Prod.mk.inj ha).1 (by simp)⟩

theorem sim_fault {α : Type} (k : Nat) : Sim k (fault : Exec Machine α) := sim_fail k _

theorem sim_bind {α γ : Type} (k : Nat) (x : Exec Machine α) (f : α → Exec Machine γ)
    (hx : Sim k x) (hf : ∀ r, Sim k (f r)) : Sim k (x >>= f) := by
  refine ⟨fun a b ra rb sa sb hag ha hb => ?_⟩
  rw [bind_run] at ha hb
  rcases hxa : x a with ⟨_ | r1, s1⟩
  · rw [hxa] at ha; exact absurd (Prod.mk.inj ha).1 (by simp)
  rcases hxb : x b with ⟨_ | r2, s2⟩
  · rw [hxb] at hb; exact absurd (Prod.mk.inj hb).1 (by simp)
  rw [hxa] at ha
  rw [hxb] at hb
  simp only at ha hb
  obtain ⟨hr, hs⟩ := hx.sim a b r1 r2 s1 s2 hag hxa hxb
  subst hr
  exact (hf r1).sim s1 s2 ra rb sa sb hs ha hb

theorem sim_ite {α : Type} (k : Nat) (c : Prop) [Decidable c] (x y : Exec Machine α)
    (hx : c → Sim k x) (hy : ¬ c → Sim k y) : Sim k (if c then x else y) := by
  split
  · exact hx ‹_›
  · exact hy ‹_›

theorem sim_dite {α : Type} (k : Nat) (c : Prop) [Decidable c] (x : c → Exec Machine α)
    (y : ¬ c → Exec Machine α) (hx : ∀ h, Sim k (x h)) (hy : ∀ h, Sim k (y h)) :
    Sim k (dite c x y) := by
  split
  · exact hx _
  · exact hy _

theorem sim_loopFrom (k : Nat) (body : Nat → Exec Machine Unit) (h : ∀ i, Sim k (body i)) :
    ∀ (n i : Nat), Sim k (loopFrom body i n) := by
  intro n
  induction n with
  | zero => intro i; exact sim_pure k ()
  | succ n ih =>
    intro i
    rw [loopFrom]
    exact sim_bind k _ _ (h i) (fun _ => ih (i + 1))

theorem sim_modifyM (k : Nat) (f : Machine → Machine)
    (h : ∀ a b, Agree k a b → Agree k (f a) (f b)) : Sim k (modifyM f) :=
  ⟨fun a b ra rb sa sb hag ha hb => by
    have h1 := (Prod.mk.inj ha).2
    have h2 := (Prod.mk.inj hb).2
    exact ⟨rfl, by rw [← h1, ← h2]; exact h a b hag⟩⟩

/-- Reading the state and going on the same way from two states that agree. -/
theorem sim_bind_getM {α : Type} (k : Nat) (f : Machine → Exec Machine α)
    (h1 : ∀ a b, Agree k a b → f b = f a) (h2 : ∀ s, Sim k (f s)) : Sim k (getM >>= f) :=
  ⟨fun a b ra rb sa sb hag ha hb => by
    rw [bind_run, getM_run] at ha hb
    simp only at ha hb
    rw [h1 a b hag] at hb
    exact (h2 a).sim a b ra rb sa sb hag ha hb⟩

theorem sim_param (k : Nat) (i : Fin 8) (hi : i.val < k) : Sim k (param i) :=
  ⟨fun a b ra rb sa sb hag ha hb => by
    have h1 := Prod.mk.inj ha
    have h2 := Prod.mk.inj hb
    refine ⟨?_, by rw [← h1.2, ← h2.2]; exact hag⟩
    rw [← Except.ok.inj h1.1, ← Except.ok.inj h2.1]
    exact hag.params i hi⟩

theorem sim_stackGet (k : Nat) (i : Int) : Sim k (stackGet i) := by
  unfold stackGet
  repeat' first
    | with_reducible exact sim_pure _ _ | with_reducible exact sim_fail _ _
    | with_reducible exact sim_fault _
    | ((with_reducible refine sim_bind_getM _ _ (fun a b hag => ?_) ?_);
        (obtain ⟨p, sd, sbuf, t, rfl, hp⟩ := hag.ghost; rfl))
    | with_reducible apply sim_bind | with_reducible apply sim_ite
    | with_reducible apply sim_dite | with_reducible apply sim_loopFrom
    | ((with_reducible refine sim_modifyM _ _ (fun a b hag => ?_));
        (obtain ⟨p, sd, sbuf, t, rfl, hp⟩ := hag.ghost;
          exact ⟨rfl, rfl, rfl, rfl, rfl, rfl, rfl, hp⟩))
    | intro _
    | dsimp only
    | split

theorem sim_setParam (k : Nat) (i : Fin 8) (v : ℚ) : Sim k (setParam i v) := by
  unfold setParam
  refine sim_modifyM _ _ (fun a b hag => ?_)
  obtain ⟨p, sd, sbuf, t, rfl, hp⟩ := hag.ghost
  refine ⟨rfl, rfl, rfl, rfl, rfl, rfl, rfl, fun j hj => ?_⟩
  show Function.update a.params i v j = Function.update p i v j
  by_cases hji : j = i
  · subst hji; simp
  · rw [Function.update_noteq hji, Function.update_noteq hji]
    exact hp j hj

theorem sim_oscPartials (k : Nat) (hk : 6 ≤ k) (m : MathLib) (flags : Nat)
    (valuesAtTransform : List Nat) (unison i : Nat) :
    ∀ (n j : Nat) (detune out : ℚ),
      Sim k (oscPartials m flags valuesAtTransform unison i j n detune out) := by
  intro n
  induction n with
  | zero => intro j detune out; exact sim_pure _ _
  | succ n ih =>
    intro j detune out
    rw [oscPartials]
    repeat' first
      | with_reducible exact sim_pure _ _ | with_reducible exact sim_fail _ _
      | with_reducible exact sim_fault _ | with_reducible exact sim_setParam _ _ _
      | with_reducible exact sim_param _ _ (Nat.lt_of_lt_of_le (by decide) hk)
      | ((with_reducible refine sim_bind_getM _ _ (fun a b hag => ?_) ?_);
          (obtain ⟨p, sd, sbuf, t, rfl, hp⟩ := hag.ghost; with_reducible rfl))
      | ((with_reducible refine sim_bind_getM _ _ (fun a b hag => ?_) ?_);
          (obtain ⟨p, sd, sbuf, t, rfl, hp⟩ := hag.ghost
           have e0 : p 0 = a.params 0 := (hp 0 (Nat.lt_of_lt_of_le (by decide) hk)).symm
           have e1 : p 1 = a.params 1 := (hp 1 (Nat.lt_of_lt_of_le (by decide) hk)).symm
           have e2 : p 2 = a.params 2 := (hp 2 (Nat.lt_of_lt_of_le (by decide) hk)).symm
           have e3 : p 3 = a.params 3 := (hp 3 (Nat.lt_of_lt_of_le (by decide) hk)).symm
           have e4 : p 4 = a.params 4 := (hp 4 (Nat.lt_of_lt_of_le (by decide) hk)).symm
           have e5 : p 5 = a.params 5 := (hp 5 (Nat.lt_of_lt_of_le (by decide) hk)).symm
           dsimp only
           simp only [e0, e1, e2, e3, e4, e5]))
      | with_reducible apply sim_bind | with_reducible apply sim_ite
      | with_reducible apply sim_dite | with_reducible apply sim_loopFrom
      | ((with_reducible refine sim_modifyM _ _ (fun a b hag => ?_));
          (obtain ⟨p, sd, sbuf, t, rfl, hp⟩ := hag.ghost;
            exact ⟨rfl, rfl, rfl, rfl, rfl, rfl, rfl, hp⟩))
      | with_reducible apply ih
      | intro _
      | dsimp only
      | unfold stackGet | unfold stackSet | unfold stackTake | unfold stackPush | unfold stackLen
      | unfold nextValue | unfold nextValue2 | unfold output | unfold setOutput | unfold voiceAt
      | unfold unitAt | unfold setUnitAt | unfold portAt | unfold setPortAt | unfold curVoice
      | unfold unitState | unfold setUnitState | unfold unitPort | unfold setUnitPort | unfold rand
      | unfold setDelayline
      | split

theorem sim_oscChannels (k : Nat) (hk : 6 ≤ k) (m : MathLib) (flags : Nat)
    (valuesAtTransform : List Nat) (unison : Nat) :
    ∀ (n i : Nat) (detuneStereo : ℚ),
      Sim k (oscChannels m flags valuesAtTransform unison i n detuneStereo) := by
  intro n
  induction n with
  | zero => intro i detuneStereo; exact sim_pure _ _
  | succ n ih =>
    intro i detuneStereo
    rw [oscChannels]
    repeat' first
      | with_reducible exact sim_pure _ _ | with_reducible exact sim_fail _ _
      | with_reducible exact sim_fault _ | with_reducible exact sim_setParam _ _ _
      | with_reducible exact sim_param _ _ (Nat.lt_of_lt_of_le (by decide) hk)
      | ((with_reducible refine sim_bind_getM _ _ (fun a b hag => ?_) ?_);
          (obtain ⟨p, sd, sbuf, t, rfl, hp⟩ := hag.ghost; with_reducible rfl))
      | with_reducible apply sim_bind | with_reducible apply sim_ite
      | with_reducible apply sim_dite | with_reducible apply sim_loopFrom
      | ((with_reducible refine sim_modifyM _ _ (fun a b hag => ?_));
          (obtain ⟨p, sd, sbuf, t, rfl, hp⟩ := hag.ghost;
            exact ⟨rfl, rfl, rfl, rfl, rfl, rfl, rfl, hp⟩))
      | with_reducible apply ih
      | with_reducible exact sim_oscPartials k hk _ _ _ _ _ _ _ _ _
      | intro _
      | dsimp only
      | unfold stackGet | unfold stackSet | unfold stackTake | unfold stackPush | unfold stackLen
      | unfold nextValue | unfold nextValue2 | unfold output | unfold setOutput | unfold voiceAt
      | unfold unitAt | unfold setUnitAt | unfold portAt | unfold setPortAt | unfold curVoice
      | unfold unitState | unfold setUnitState | unfold unitPort | unfold setUnitPort | unfold rand
      | unfold setDelayline
      | split

theorem sim_delayTaps (k : Nat) (m : MathLib) (delayTimes : List Nat) (count t : Nat)
    (signal pregain2 damp feedback : ℚ) :
    ∀ (left j index : Nat) (d : Option Nat) (out : ℚ),
      Sim k (delayTaps m delayTimes count t signal pregain2 damp feedback left j index d out) := by
  intro left
  induction left with
  | zero =>
    intro j index d out
    rw [delayTaps]
    repeat' first
      | with_reducible exact sim_pure _ _ | with_reducible exact sim_fail _ _
      | with_reducible exact sim_fault _ | with_reducible exact sim_setParam _ _ _
      | with_reducible exact sim_param _ _ (Nat.lt_of_lt_of_le (by decide) hk)
      | ((with_reducible refine sim_bind_getM _ _ (fun a b hag => ?_) ?_);
          (obtain ⟨p, sd, sbuf, t, rfl, hp⟩ := hag.ghost; with_reducible rfl))
      | with_reducible apply sim_bind | with_reducible apply sim_ite
      | with_reducible apply sim_dite | with_reducible apply sim_loopFrom
      | ((with_reducible refine sim_modifyM _ _ (fun a b hag => ?_));
          (obtain ⟨p, sd, sbuf, t, rfl, hp⟩ := hag.ghost;
            exact ⟨rfl, rfl, rfl, rfl, rfl, rfl, rfl, hp⟩))
      | intro _
      | dsimp only
      | unfold stackGet | unfold stackSet | unfold stackTake | unfold stackPush | unfold stackLen
      | unfold nextValue | unfold nextValue2 | unfold output | unfold setOutput | unfold voiceAt
      | unfold unitAt | unfold setUnitAt | unfold portAt | unfold setPortAt | unfold curVoice
      | unfold unitState | unfold setUnitState | unfold unitPort | unfold setUnitPort | unfold rand
      | unfold setDelayline
      | split
  | succ left ih =>
    intro j index d out
    rw [delayTaps]
    repeat' first
      | with_reducible exact sim_pure _ _ | with_reducible exact sim_fail _ _
      | with_reducible exact sim_fault _ | with_reducible exact sim_setParam _ _ _
      | with_reducible exact sim_param _ _ (Nat.lt_of_lt_of_le (by decide) hk)
      | ((with_reducible refine sim_bind_getM _ _ (fun a b hag => ?_) ?_);
          (obtain ⟨p, sd, sbuf, t, rfl, hp⟩ := hag.ghost; with_reducible rfl))
      | with_reducible apply sim_bind | with_reducible apply sim_ite
      | with_reducible apply sim_dite | with_reducible apply sim_loopFrom
      | ((with_reducible refine sim_modifyM _ _ (fun a b hag => ?_));
          (obtain ⟨p, sd, sbuf, t, rfl, hp⟩ := hag.ghost;
            exact ⟨rfl, rfl, rfl, rfl, rfl, rfl, rfl, hp⟩))
      | with_reducible apply ih
      | intro _
      | dsimp only
      | unfold stackGet | unfold stackSet | unfold stackTake | unfold stackPush | unfold stackLen
      | unfold nextValue | unfold nextValue2 | unfold output | unfold setOutput | unfold voiceAt
      | unfold unitAt | unfold setUnitAt | unfold portAt | unfold setPortAt | unfold curVoice
      | unfold unitState | unfold setUnitState | unfold unitPort | unfold setUnitPort | unfold rand
      | unfold setDelayline
      | split

theorem sim_delayChannels (k : Nat) (hk : 2 ≤ k) (m : MathLib) (delayTimes : List Nat)
    (count t : Nat) (pregain2 damp feedback : ℚ) (l : Int) :
    ∀ (n i index : Nat),
      Sim k (delayChannels m delayTimes count t pregain2 damp feedback l i n index) := by
  intro n
  induction n with
  | zero => intro i index; exact sim_pure _ _
  | succ n ih =>
    intro i index
    rw [delayChannels]
    repeat' first
      | with_reducible exact sim_pure _ _ | with_reducible exact sim_fail _ _
      | with_reducible exact sim_fault _ | with_reducible exact sim_setParam _ _ _
      | with_reducible exact sim_param _ _ (Nat.lt_of_lt_of_le (by decide) hk)
      | ((with_reducible refine sim_bind_getM _ _ (fun a b hag => ?_) ?_);
          (obtain ⟨p, sd, sbuf, t, rfl, hp⟩ := hag.ghost; with_reducible rfl))
      | with_reducible apply sim_bind | with_reducible apply sim_ite
      | with_reducible apply sim_dite | with_reducible apply sim_loopFrom
      | ((with_reducible refine sim_modifyM _ _ (fun a b hag => ?_));
          (obtain ⟨p, sd, sbuf, t, rfl, hp⟩ := hag.ghost;
            exact ⟨rfl, rfl, rfl, rfl, rfl, rfl, rfl, hp⟩))
      | with_reducible apply ih
      | with_reducible exact sim_delayTaps k _ _ _ _ _ _ _ _ _ _ _ _ _
      | intro _
      | dsimp only
      | unfold stackGet | unfold stackSet | unfold stackTake | unfold stackPush | unfold stackLen
      | unfold nextValue | unfold nextValue2 | unfold output | unfold setOutput | unfold voiceAt
      | unfold unitAt | unfold setUnitAt | unfold portAt | unfold setPortAt | unfold curVoice
      | unfold unitState | unfold setUnitState | unfold unitPort | unfold setUnitPort | unfold rand
      | unfold setDelayline
      | split

theorem sim_execAdd (k : Nat) (stereo : Bool) (l : Int) :
    Sim k (execAdd stereo l) := by
  unfold execAdd
  repeat' first
    | with_reducible exact sim_pure _ _ | with_reducible exact sim_fail _ _
    | with_reducible exact sim_fault _ | with_reducible exact sim_setParam _ _ _
    | with_reducible exact sim_param _ _ (Nat.lt_of_lt_of_le (by decide) hk)
    | ((with_reducible refine sim_bind_getM _ _ (fun a b hag => ?_) ?_);
        (obtain ⟨p, sd, sbuf, t, rfl, hp⟩ := hag.ghost; with_reducible rfl))
    | with_reducible apply sim_bind | with_reducible apply sim_ite
    | with_reducible apply sim_dite | with_reducible apply sim_loopFrom
    | ((with_reducible refine sim_modifyM _ _ (fun a b hag => ?_));
        (obtain ⟨p, sd, sbuf, t, rfl, hp⟩ := hag.ghost;
          exact ⟨rfl, rfl, rfl, rfl, rfl, rfl, rfl, hp⟩))
    | intro _
    | dsimp only
    | unfold stackGet | unfold stackSet | unfold stackTake | unfold stackPush | unfold stackLen
    | unfold nextValue | unfold nextValue2 | unfold output | unfold setOutput | unfold voiceAt
    | unfold unitAt | unfold setUnitAt | unfold portAt | unfold setPortAt | unfold curVoice
    | unfold unitState | unfold setUnitState | unfold unitPort | unfold setUnitPort | unfold rand
    | unfold setDelayline
    | split

theorem sim_execAddp (k : Nat) (stereo : Bool) (l : Int) :
    Sim k (execAddp stereo l) := by
  unfold execAddp
  repeat' first
    | with_reducible exact sim_pure _ _ | with_reducible exact sim_fail _ _
    | with_reducible exact sim_fault _ | with_reducible exact sim_setParam _ _ _
    | with_reducible exact sim_param _ _ (Nat.lt_of_lt_of_le (by decide) hk)
    | ((with_reducible refine sim_bind_getM _ _ (fun a b hag => ?_) ?_);
        (obtain ⟨p, sd, sbuf, t, rfl, hp⟩ := hag.ghost; with_reducible rfl))
    | with_reducible apply sim_bind | with_reducible apply sim_ite
    | with_reducible apply sim_dite | with_reducible apply sim_loopFrom
    | ((with_reducible refine sim_modifyM _ _ (fun a b hag => ?_));
        (obtain ⟨p, sd, sbuf, t, rfl, hp⟩ := hag.ghost;
          exact ⟨rfl, rfl, rfl, rfl, rfl, rfl, rfl, hp⟩))
    | intro _
    | dsimp only
    | unfold stackGet | unfold stackSet | unfold stackTake | unfold stackPush | unfold stackLen
    | unfold nextValue | unfold nextValue2 | unfold output | unfold setOutput | unfold voiceAt
    | unfold unitAt | unfold setUnitAt | unfold portAt | unfold setPortAt | unfold curVoice
    | unfold unitState | unfold setUnitState | unfold unitPort | unfold setUnitPort | unfold rand
    | unfold setDelayline
    | split

theorem sim_execMul (k : Nat) (stereo : Bool) (l : Int) :
    Sim k (execMul stereo l) := by
  unfold execMul
  repeat' first
    | with_reducible exact sim_pure _ _ | with_reducible exact sim_fail _ _
    | with_reducible exact sim_fault _ | with_reducible exact sim_setParam _ _ _
    | with_reducible exact sim_param _ _ (Nat.lt_of_lt_of_le (by decide) hk)
    | ((with_reducible refine sim_bind_getM _ _ (fun a b hag => ?_) ?_);
        (obtain ⟨p, sd, sbuf, t, rfl, hp⟩ := hag.ghost; with_reducible rfl))
    | with_reducible apply sim_bind | with_reducible apply sim_ite
    | with_reducible apply sim_dite | with_reducible apply sim_loopFrom
    | ((with_reducible refine sim_modifyM _ _ (fun a b hag => ?_));
        (obtain ⟨p, sd, sbuf, t, rfl, hp⟩ := hag.ghost;
          exact ⟨rfl, rfl, rfl, rfl, rfl, rfl, rfl, hp⟩))
    | intro _
    | dsimp only
    | unfold stackGet | unfold stackSet | unfold stackTake | unfold stackPush | unfold stackLen
    | unfold nextValue | unfold nextValue2 | unfold output | unfold setOutput | unfold voiceAt
    | unfold unitAt | unfold setUnitAt | unfold portAt | unfold setPortAt | unfold curVoice
    | unfold unitState | unfold setUnitState | unfold unitPort | unfold setUnitPort | unfold rand
    | unfold setDelayline
    | split

theorem sim_execMulp (k : Nat) (stereo : Bool) (l : Int) :
    Sim k (execMulp stereo l) := by
  unfold execMulp
  repeat' first
    | with_reducible exact sim_pure _ _ | with_reducible exact sim_fail _ _
    | with_reducible exact sim_fault _ | with_reducible exact sim_setParam _ _ _
    | with_reducible exact sim_param _ _ (Nat.lt_of_lt_of_le (by decide) hk)
    | ((with_reducible refine sim_bind_getM _ _ (fun a b hag => ?_) ?_);
        (obtain ⟨p, sd, sbuf, t, rfl, hp⟩ := hag.ghost; with_reducible rfl))
    | with_reducible apply sim_bind | with_reducible apply sim_ite
    | with_reducible apply sim_dite | with_reducible apply sim_loopFrom
    | ((with_reducible refine sim_modifyM _ _ (fun a b hag => ?_));
        (obtain ⟨p, sd, sbuf, t, rfl, hp⟩ := hag.ghost;
          exact ⟨rfl, rfl, rfl, rfl, rfl, rfl, rfl, hp⟩))
    | intro _
    | dsimp only
    | unfold stackGet | unfold stackSet | unfold stackTake | unfold stackPush | unfold stackLen
    | unfold nextValue | unfold nextValue2 | unfold output | unfold setOutput | unfold voiceAt
    | unfold unitAt | unfold setUnitAt | unfold portAt | unfold setPortAt | unfold curVoice
    | unfold unitState | unfold setUnitState | unfold unitPort | unfold setUnitPort | unfold rand
    | unfold setDelayline
    | split

theorem sim_execXch (k : Nat) (stereo : Bool) (l : Int) :
    Sim k (execXch stereo l) := by
  unfold execXch
  repeat' first
    | with_reducible exact sim_pure _ _ | with_reducible exact sim_fail _ _
    | with_reducible exact sim_fault _ | with_reducible exact sim_setParam _ _ _
    | with_reducible exact sim_param _ _ (Nat.lt_of_lt_of_le (by decide) hk)
    | ((with_reducible refine sim_bind_getM _ _ (fun a b hag => ?_) ?_);
        (obtain ⟨p, sd, sbuf, t, rfl, hp⟩ := hag.ghost; with_reducible rfl))
    | with_reducible apply sim_bind | with_reducible apply sim_ite
    | with_reducible apply sim_dite | with_reducible apply sim_loopFrom
    | ((with_reducible refine sim_modifyM _ _ (fun a b hag => ?_));
        (obtain ⟨p, sd, sbuf, t, rfl, hp⟩ := hag.ghost;
          exact ⟨rfl, rfl, rfl, rfl, rfl, rfl, rfl, hp⟩))
    | intro _
    | dsimp only
    | unfold stackGet | unfold stackSet | unfold stackTake | unfold stackPush | unfold stackLen
    | unfold nextValue | unfold nextValue2 | unfold output | unfold setOutput | unfold voiceAt
    | unfold unitAt | unfold setUnitAt | unfold portAt | unfold setPortAt | unfold curVoice
    | unfold unitState | unfold setUnitState | unfold unitPort | unfold setUnitPort | unfold rand
    | unfold setDelayline
    | split

theorem sim_execPush (k : Nat) (stereo : Bool) (l : Int) :
    Sim k (execPush stereo l) := by
  unfold execPush
  repeat' first
    | with_reducible exact sim_pure _ _ | with_reducible exact sim_fail _ _
    | with_reducible exact sim_fault _ | with_reducible exact sim_setParam _ _ _
    | with_reducible exact sim_param _ _ (Nat.lt_of_lt_of_le (by decide) hk)
    | ((with_reducible refine sim_bind_getM _ _ (fun a b hag => ?_) ?_);
        (obtain ⟨p, sd, sbuf, t, rfl, hp⟩ := hag.ghost; with_reducible rfl))
    | with_reducible apply sim_bind | with_reducible apply sim_ite
    | with_reducible apply sim_dite | with_reducible apply sim_loopFrom
    | ((with_reducible refine sim_modifyM _ _ (fun a b hag => ?_));
        (obtain ⟨p, sd, sbuf, t, rfl, hp⟩ := hag.ghost;
          exact ⟨rfl, rfl, rfl, rfl, rfl, rfl, rfl, hp⟩))
    | intro _
    | dsimp only
    | unfold stackGet | unfold stackSet | unfold stackTake | unfold stackPush | unfold stackLen
    | unfold nextValue | unfold nextValue2 | unfold output | unfold setOutput | unfold voiceAt
    | unfold unitAt | unfold setUnitAt | unfold portAt | unfold setPortAt | unfold curVoice
    | unfold unitState | unfold setUnitState | unfold unitPort | unfold setUnitPort | unfold rand
    | unfold setDelayline
    | split

theorem sim_execPop (k : Nat) (stereo : Bool) (l : Int) :
    Sim k (execPop stereo l) := by
  unfold execPop
  repeat' first
    | with_reducible exact sim_pure _ _ | with_reducible exact sim_fail _ _
    | with_reducible exact sim_fault _ | with_reducible exact sim_setParam _ _ _
    | with_reducible exact sim_param _ _ (Nat.lt_of_lt_of_le (by decide) hk)
    | ((with_reducible refine sim_bind_getM _ _ (fun a b hag => ?_) ?_);
        (obtain ⟨p, sd, sbuf, t, rfl, hp⟩ := hag.ghost; with_reducible rfl))
    | with_reducible apply sim_bind | with_reducible apply sim_ite
    | with_reducible apply sim_dite | with_reducible apply sim_loopFrom
    | ((with_reducible refine sim_modifyM _ _ (fun a b hag => ?_));
        (obtain ⟨p, sd, sbuf, t, rfl, hp⟩ := hag.ghost;
          exact ⟨rfl, rfl, rfl, rfl, rfl, rfl, rfl, hp⟩))
    | intro _
    | dsimp only
    | unfold stackGet | unfold stackSet | unfold stackTake | unfold stackPush | unfold stackLen
    | unfold nextValue | unfold nextValue2 | unfold output | unfold setOutput | unfold voiceAt
    | unfold unitAt | unfold setUnitAt | unfold portAt | unfold setPortAt | unfold curVoice
    | unfold unitState | unfold setUnitState | unfold unitPort | unfold setUnitPort | unfold rand
    | unfold setDelayline
    | split

theorem sim_execDistort (k : Nat) (hk : 1 ≤ k) (stereo : Bool) (l : Int) :
    Sim k (execDistort stereo l) := by
  unfold execDistort
  repeat' first
    | with_reducible exact sim_pure _ _ | with_reducible exact sim_fail _ _
    | with_reducible exact sim_fault _ | with_reducible exact sim_setParam _ _ _
    | with_reducible exact sim_param _ _ (Nat.lt_of_lt_of_le (by decide) hk)
    | ((with_reducible refine sim_bind_getM _ _ (fun a b hag => ?_) ?_);
        (obtain ⟨p, sd, sbuf, t, rfl, hp⟩ := hag.ghost; with_reducible rfl))
    | with_reducible apply sim_bind | with_reducible apply sim_ite
    | with_reducible apply sim_dite | with_reducible apply sim_loopFrom
    | ((with_reducible refine sim_modifyM _ _ (fun a b hag => ?_));
        (obtain ⟨p, sd, sbuf, t, rfl, hp⟩ := hag.ghost;
          exact ⟨rfl, rfl, rfl, rfl, rfl, rfl, rfl, hp⟩))
    | intro _
    | dsimp only
    | unfold stackGet | unfold stackSet | unfold stackTake | unfold stackPush | unfold stackLen
    | unfold nextValue | unfold nextValue2 | unfold output | unfold setOutput | unfold voiceAt
    | unfold unitAt | unfold setUnitAt | unfold portAt | unfold setPortAt | unfold curVoice
    | unfold unitState | unfold setUnitState | unfold unitPort | unfold setUnitPort | unfold rand
    | unfold setDelayline
    | split

theorem sim_execLoadval (k : Nat) (hk : 1 ≤ k) (stereo : Bool) :
    Sim k (execLoadval stereo) := by
  unfold execLoadval
  repeat' first
    | with_reducible exact sim_pure _ _ | with_reducible exact sim_fail _ _
    | with_reducible exact sim_fault _ | with_reducible exact sim_setParam _ _ _
    | with_reducible exact sim_param _ _ (Nat.lt_of_lt_of_le (by decide) hk)
    | ((with_reducible refine sim_bind_getM _ _ (fun a b hag => ?_) ?_);
        (obtain ⟨p, sd, sbuf, t, rfl, hp⟩ := hag.ghost; with_reducible rfl))
    | with_reducible apply sim_bind | with_reducible apply sim_ite
    | with_reducible apply sim_dite | with_reducible apply sim_loopFrom
    | ((with_reducible refine sim_modifyM _ _ (fun a b hag => ?_));
        (obtain ⟨p, sd, sbuf, t, rfl, hp⟩ := hag.ghost;
          exact ⟨rfl, rfl, rfl, rfl, rfl, rfl, rfl, hp⟩))
    | intro _
    | dsimp only
    | unfold stackGet | unfold stackSet | unfold stackTake | unfold stackPush | unfold stackLen
    | unfold nextValue | unfold nextValue2 | unfold output | unfold setOutput | unfold voiceAt
    | unfold unitAt | unfold setUnitAt | unfold portAt | unfold setPortAt | unfold curVoice
    | unfold unitState | unfold setUnitState | unfold unitPort | unfold setUnitPort | unfold rand
    | unfold setDelayline
    | split

theorem sim_execOut (k : Nat) (hk : 1 ≤ k) (stereo : Bool) (l : Int) :
    Sim k (execOut stereo l) := by
  unfold execOut
  repeat' first
    | with_reducible exact sim_pure _ _ | with_reducible exact sim_fail _ _
    | with_reducible exact sim_fault _ | with_reducible exact sim_setParam _ _ _
    | with_reducible exact sim_param _ _ (Nat.lt_of_lt_of_le (by decide) hk)
    | ((with_reducible refine sim_bind_getM _ _ (fun a b hag => ?_) ?_);
        (obtain ⟨p, sd, sbuf, t, rfl, hp⟩ := hag.ghost; with_reducible rfl))
    | with_reducible apply sim_bind | with_reducible apply sim_ite
    | with_reducible apply sim_dite | with_reducible apply sim_loopFrom
    | ((with_reducible refine sim_modifyM _ _ (fun a b hag => ?_));
        (obtain ⟨p, sd, sbuf, t, rfl, hp⟩ := hag.ghost;
          exact ⟨rfl, rfl, rfl, rfl, rfl, rfl, rfl, hp⟩))
    | intro _
    | dsimp only
    | unfold stackGet | unfold stackSet | unfold stackTake | unfold stackPush | unfold stackLen
    | unfold nextValue | unfold nextValue2 | unfold output | unfold setOutput | unfold voiceAt
    | unfold unitAt | unfold setUnitAt | unfold portAt | unfold setPortAt | unfold curVoice
    | unfold unitState | unfold setUnitState | unfold unitPort | unfold setUnitPort | unfold rand
    | unfold setDelayline
    | split

theorem sim_execOutaux (k : Nat) (hk : 2 ≤ k) (stereo : Bool) (l : Int) :
    Sim k (execOutaux stereo l) := by
  unfold execOutaux
  repeat' first
    | with_reducible exact sim_pure _ _ | with_reducible exact sim_fail _ _
    | with_reducible exact sim_fault _ | with_reducible exact sim_setParam _ _ _
    | with_reducible exact sim_param _ _ (Nat.lt_of_lt_of_le (by decide) hk)
    | ((with_reducible refine sim_bind_getM _ _ (fun a b hag => ?_) ?_);
        (obtain ⟨p, sd, sbuf, t, rfl, hp⟩ := hag.ghost; with_reducible rfl))
    | with_reducible apply sim_bind | with_reducible apply sim_ite
    | with_reducible apply sim_dite | with_reducible apply sim_loopFrom
    | ((with_reducible refine sim_modifyM _ _ (fun a b hag => ?_));
        (obtain ⟨p, sd, sbuf, t, rfl, hp⟩ := hag.ghost;
          exact ⟨rfl, rfl, rfl, rfl, rfl, rfl, rfl, hp⟩))
    | intro _
    | dsimp only
    | unfold stackGet | unfold stackSet | unfold stackTake | unfold stackPush | unfold stackLen
    | unfold nextValue | unfold nextValue2 | unfold output | unfold setOutput | unfold voiceAt
    | unfold unitAt | unfold setUnitAt | unfold portAt | unfold setPortAt | unfold curVoice
    | unfold unitState | unfold setUnitState | unfold unitPort | unfold setUnitPort | unfold rand
    | unfold setDelayline
    | split

theorem sim_execAux (k : Nat) (hk : 1 ≤ k) (stereo : Bool) (channels : Int) (l : Int) :
    Sim k (execAux stereo channels l) := by
  unfold execAux
  repeat' first
    | with_reducible exact sim_pure _ _ | with_reducible exact sim_fail _ _
    | with_reducible exact sim_fault _ | with_reducible exact sim_setParam _ _ _
    | with_reducible exact sim_param _ _ (Nat.lt_of_lt_of_le (by decide) hk)
    | ((with_reducible refine sim_bind_getM _ _ (fun a b hag => ?_) ?_);
        (obtain ⟨p, sd, sbuf, t, rfl, hp⟩ := hag.ghost; with_reducible rfl))
    | with_reducible apply sim_bind | with_reducible apply sim_ite
    | with_reducible apply sim_dite | with_reducible apply sim_loopFrom
    | ((with_reducible refine sim_modifyM _ _ (fun a b hag => ?_));
        (obtain ⟨p, sd, sbuf, t, rfl, hp⟩ := hag.ghost;
          exact ⟨rfl, rfl, rfl, rfl, rfl, rfl, rfl, hp⟩))
    | intro _
    | dsimp only
    | unfold stackGet | unfold stackSet | unfold stackTake | unfold stackPush | unfold stackLen
    | unfold nextValue | unfold nextValue2 | unfold output | unfold setOutput | unfold voiceAt
    | unfold unitAt | unfold setUnitAt | unfold portAt | unfold setPortAt | unfold curVoice
    | unfold unitState | unfold setUnitState | unfold unitPort | unfold setUnitPort | unfold rand
    | unfold setDelayline
    | split

theorem sim_execSpeed (k : Nat) (m : MathLib) (l : Int) :
    Sim k (execSpeed m l) := by
  unfold execSpeed
  repeat' first
    | with_reducible exact sim_pure _ _ | with_reducible exact sim_fail _ _
    | with_reducible exact sim_fault _ | with_reducible exact sim_setParam _ _ _
    | with_reducible exact sim_param _ _ (Nat.lt_of_lt_of_le (by decide) hk)
    | ((with_reducible refine sim_bind_getM _ _ (fun a b hag => ?_) ?_);
        (obtain ⟨p, sd, sbuf, t, rfl, hp⟩ := hag.ghost; with_reducible rfl))
    | with_reducible apply sim_bind | with_reducible apply sim_ite
    | with_reducible apply sim_dite | with_reducible apply sim_loopFrom
    | ((with_reducible refine sim_modifyM _ _ (fun a b hag => ?_));
        (obtain ⟨p, sd, sbuf, t, rfl, hp⟩ := hag.ghost;
          exact ⟨rfl, rfl, rfl, rfl, rfl, rfl, rfl, hp⟩))
    | intro _
    | dsimp only
    | unfold stackGet | unfold stackSet | unfold stackTake | unfold stackPush | unfold stackLen
    | unfold nextValue | unfold nextValue2 | unfold output | unfold setOutput | unfold voiceAt
    | unfold unitAt | unfold setUnitAt | unfold portAt | unfold setPortAt | unfold curVoice
    | unfold unitState | unfold setUnitState | unfold unitPort | unfold setUnitPort | unfold rand
    | unfold setDelayline
    | split

theorem sim_execIn (k : Nat) (stereo : Bool) :
    Sim k (execIn stereo) := by
  unfold execIn
  repeat' first
    | with_reducible exact sim_pure _ _ | with_reducible exact sim_fail _ _
    | with_reducible exact sim_fault _ | with_reducible exact sim_setParam _ _ _
    | with_reducible exact sim_param _ _ (Nat.lt_of_lt_of_le (by decide) hk)
    | ((with_reducible refine sim_bind_getM _ _ (fun a b hag => ?_) ?_);
        (obtain ⟨p, sd, sbuf, t, rfl, hp⟩ := hag.ghost; with_reducible rfl))
    | with_reducible apply sim_bind | with_reducible apply sim_ite
    | with_reducible apply sim_dite | with_reducible apply sim_loopFrom
    | ((with_reducible refine sim_modifyM _ _ (fun a b hag => ?_));
        (obtain ⟨p, sd, sbuf, t, rfl, hp⟩ := hag.ghost;
          exact ⟨rfl, rfl, rfl, rfl, rfl, rfl, rfl, hp⟩))
    | intro _
    | dsimp only
    | unfold stackGet | unfold stackSet | unfold stackTake | unfold stackPush | unfold stackLen
    | unfold nextValue | unfold nextValue2 | unfold output | unfold setOutput | unfold voiceAt
    | unfold unitAt | unfold setUnitAt | unfold portAt | unfold setPortAt | unfold curVoice
    | unfold unitState | unfold setUnitState | unfold unitPort | unfold setUnitPort | unfold rand
    | unfold setDelayline
    | split

theorem sim_execEnvelope (k : Nat) (hk : 5 ≤ k) (m : MathLib) (stereo : Bool) :
    Sim k (execEnvelope m stereo) := by
  unfold execEnvelope
  repeat' first
    | with_reducible exact sim_pure _ _ | with_reducible exact sim_fail _ _
    | with_reducible exact sim_fault _ | with_reducible exact sim_setParam _ _ _
    | with_reducible exact sim_param _ _ (Nat.lt_of_lt_of_le (by decide) hk)
    | ((with_reducible refine sim_bind_getM _ _ (fun a b hag => ?_) ?_);
        (obtain ⟨p, sd, sbuf, t, rfl, hp⟩ := hag.ghost; with_reducible rfl))
    | ((with_reducible refine sim_bind_getM _ _ (fun a b hag => ?_) ?_);
        (obtain ⟨p, sd, sbuf, t, rfl, hp⟩ := hag.ghost
         have e0 : p 0 = a.params 0 := (hp 0 (Nat.lt_of_lt_of_le (by decide) hk)).symm
         have e1 : p 1 = a.params 1 := (hp 1 (Nat.lt_of_lt_of_le (by decide) hk)).symm
         have e2 : p 2 = a.params 2 := (hp 2 (Nat.lt_of_lt_of_le (by decide) hk)).symm
         have e3 : p 3 = a.params 3 := (hp 3 (Nat.lt_of_lt_of_le (by decide) hk)).symm
         have e4 : p 4 = a.params 4 := (hp 4 (Nat.lt_of_lt_of_le (by decide) hk)).symm
         dsimp only
         simp only [e0, e1, e2, e3, e4]))
    | with_reducible apply sim_bind | with_reducible apply sim_ite
    | with_reducible apply sim_dite | with_reducible apply sim_loopFrom
    | ((with_reducible refine sim_modifyM _ _ (fun a b hag => ?_));
        (obtain ⟨p, sd, sbuf, t, rfl, hp⟩ := hag.ghost;
          exact ⟨rfl, rfl, rfl, rfl, rfl, rfl, rfl, hp⟩))
    | intro _
    | dsimp only
    | unfold stackGet | unfold stackSet | unfold stackTake | unfold stackPush | unfold stackLen
    | unfold nextValue | unfold nextValue2 | unfold output | unfold setOutput | unfold voiceAt
    | unfold unitAt | unfold setUnitAt | unfold portAt | unfold setPortAt | unfold curVoice
    | unfold unitState | unfold setUnitState | unfold unitPort | unfold setUnitPort | unfold rand
    | unfold setDelayline
    | split

theorem sim_execNoise (k : Nat) (hk : 2 ≤ k) (stereo : Bool) :
    Sim k (execNoise stereo) := by
  unfold execNoise
  repeat' first
    | with_reducible exact sim_pure _ _ | with_reducible exact sim_fail _ _
    | with_reducible exact sim_fault _ | with_reducible exact sim_setParam _ _ _
    | with_reducible exact sim_param _ _ (Nat.lt_of_lt_of_le (by decide) hk)
    | ((with_reducible refine sim_bind_getM _ _ (fun a b hag => ?_) ?_);
        (obtain ⟨p, sd, sbuf, t, rfl, hp⟩ := hag.ghost; with_reducible rfl))
    | with_reducible apply sim_bind | with_reducible apply sim_ite
    | with_reducible apply sim_dite | with_reducible apply sim_loopFrom
    | ((with_reducible refine sim_modifyM _ _ (fun a b hag => ?_));
        (obtain ⟨p, sd, sbuf, t, rfl, hp⟩ := hag.ghost;
          exact ⟨rfl, rfl, rfl, rfl, rfl, rfl, rfl, hp⟩))
    | intro _
    | dsimp only
    | unfold stackGet | unfold stackSet | unfold stackTake | unfold stackPush | unfold stackLen
    | unfold nextValue | unfold nextValue2 | unfold output | unfold setOutput | unfold voiceAt
    | unfold unitAt | unfold setUnitAt | unfold portAt | unfold setPortAt | unfold curVoice
    | unfold unitState | unfold setUnitState | unfold unitPort | unfold setUnitPort | unfold rand
    | unfold setDelayline
    | split

theorem sim_execGain (k : Nat) (hk : 1 ≤ k) (stereo : Bool) (l : Int) :
    Sim k (execGain stereo l) := by
  unfold execGain
  repeat' first
    | with_reducible exact sim_pure _ _ | with_reducible exact sim_fail _ _
    | with_reducible exact sim_fault _ | with_reducible exact sim_setParam _ _ _
    | with_reducible exact sim_param _ _ (Nat.lt_of_lt_of_le (by decide) hk)
    | ((with_reducible refine sim_bind_getM _ _ (fun a b hag => ?_) ?_);
        (obtain ⟨p, sd, sbuf, t, rfl, hp⟩ := hag.ghost; with_reducible rfl))
    | with_reducible apply sim_bind | with_reducible apply sim_ite
    | with_reducible apply sim_dite | with_reducible apply sim_loopFrom
    | ((with_reducible refine sim_modifyM _ _ (fun a b hag => ?_));
        (obtain ⟨p, sd, sbuf, t, rfl, hp⟩ := hag.ghost;
          exact ⟨rfl, rfl, rfl, rfl, rfl, rfl, rfl, hp⟩))
    | intro _
    | dsimp only
    | unfold stackGet | unfold stackSet | unfold stackTake | unfold stackPush | unfold stackLen
    | unfold nextValue | unfold nextValue2 | unfold output | unfold setOutput | unfold voiceAt
    | unfold unitAt | unfold setUnitAt | unfold portAt | unfold setPortAt | unfold curVoice
    | unfold unitState | unfold setUnitState | unfold unitPort | unfold setUnitPort | unfold rand
    | unfold setDelayline
    | split

theorem sim_execInvgain (k : Nat) (hk : 1 ≤ k) (stereo : Bool) (l : Int) :
    Sim k (execInvgain stereo l) := by
  unfold execInvgain
  repeat' first
    | with_reducible exact sim_pure _ _ | with_reducible exact sim_fail _ _
    | with_reducible exact sim_fault _ | with_reducible exact sim_setParam _ _ _
    | with_reducible exact sim_param _ _ (Nat.lt_of_lt_of_le (by decide) hk)
    | ((with_reducible refine sim_bind_getM _ _ (fun a b hag => ?_) ?_);
        (obtain ⟨p, sd, sbuf, t, rfl, hp⟩ := hag.ghost; with_reducible rfl))
    | with_reducible apply sim_bind | with_reducible apply sim_ite
    | with_reducible apply sim_dite | with_reducible apply sim_loopFrom
    | ((with_reducible refine sim_modifyM _ _ (fun a b hag => ?_));
        (obtain ⟨p, sd, sbuf, t, rfl, hp⟩ := hag.ghost;
          exact ⟨rfl, rfl, rfl, rfl, rfl, rfl, rfl, hp⟩))
    | intro _
    | dsimp only
    | unfold stackGet | unfold stackSet | unfold stackTake | unfold stackPush | unfold stackLen
    | unfold nextValue | unfold nextValue2 | unfold output | unfold setOutput | unfold voiceAt
    | unfold unitAt | unfold setUnitAt | unfold portAt | unfold setPortAt | unfold curVoice
    | unfold unitState | unfold setUnitState | unfold unitPort | unfold setUnitPort | unfold rand
    | unfold setDelayline
    | split

theorem sim_execClip (k : Nat) (stereo : Bool) (l : Int) :
    Sim k (execClip stereo l) := by
  unfold execClip
  repeat' first
    | with_reducible exact sim_pure _ _ | with_reducible exact sim_fail _ _
    | with_reducible exact sim_fault _ | with_reducible exact sim_setParam _ _ _
    | with_reducible exact sim_param _ _ (Nat.lt_of_lt_of_le (by decide) hk)
    | ((with_reducible refine sim_bind_getM _ _ (fun a b hag => ?_) ?_);
        (obtain ⟨p, sd, sbuf, t, rfl, hp⟩ := hag.ghost; with_reducible rfl))
    | with_reducible apply sim_bind | with_reducible apply sim_ite
    | with_reducible apply sim_dite | with_reducible apply sim_loopFrom
    | ((with_reducible refine sim_modifyM _ _ (fun a b hag => ?_));
        (obtain ⟨p, sd, sbuf, t, rfl, hp⟩ := hag.ghost;
          exact ⟨rfl, rfl, rfl, rfl, rfl, rfl, rfl, hp⟩))
    | intro _
    | dsimp only
    | unfold stackGet | unfold stackSet | unfold stackTake | unfold stackPush | unfold stackLen
    | unfold nextValue | unfold nextValue2 | unfold output | unfold setOutput | unfold voiceAt
    | unfold unitAt | unfold setUnitAt | unfold portAt | unfold setPortAt | unfold curVoice
    | unfold unitState | unfold setUnitState | unfold unitPort | unfold setUnitPort | unfold rand
    | unfold setDelayline
    | split

theorem sim_execCrush (k : Nat) (hk : 1 ≤ k) (stereo : Bool) (l : Int) :
    Sim k (execCrush stereo l) := by
  unfold execCrush
  repeat' first
    | with_reducible exact sim_pure _ _ | with_reducible exact sim_fail _ _
    | with_reducible exact sim_fault _ | with_reducible exact sim_setParam _ _ _
    | with_reducible exact sim_param _ _ (Nat.lt_of_lt_of_le (by decide) hk)
    | ((with_reducible refine sim_bind_getM _ _ (fun a b hag => ?_) ?_);
        (obtain ⟨p, sd, sbuf, t, rfl, hp⟩ := hag.ghost; with_reducible rfl))
    | with_reducible apply sim_bind | with_reducible apply sim_ite
    | with_reducible apply sim_dite | with_reducible apply sim_loopFrom
    | ((with_reducible refine sim_modifyM _ _ (fun a b hag => ?_));
        (obtain ⟨p, sd, sbuf, t, rfl, hp⟩ := hag.ghost;
          exact ⟨rfl, rfl, rfl, rfl, rfl, rfl, rfl, hp⟩))
    | intro _
    | dsimp only
    | unfold stackGet | unfold stackSet | unfold stackTake | unfold stackPush | unfold stackLen
    | unfold nextValue | unfold nextValue2 | unfold output | unfold setOutput | unfold voiceAt
    | unfold unitAt | unfold setUnitAt | unfold portAt | unfold setPortAt | unfold curVoice
    | unfold unitState | unfold setUnitState | unfold unitPort | unfold setUnitPort | unfold rand
    | unfold setDelayline
    | split

theorem sim_execHold (k : Nat) (hk : 1 ≤ k) (channels : Nat) (l : Int) :
    Sim k (execHold channels l) := by
  unfold execHold
  repeat' first
    | with_reducible exact sim_pure _ _ | with_reducible exact sim_fail _ _
    | with_reducible exact sim_fault _ | with_reducible exact sim_setParam _ _ _
    | with_reducible exact sim_param _ _ (Nat.lt_of_lt_of_le (by decide) hk)
    | ((with_reducible refine sim_bind_getM _ _ (fun a b hag => ?_) ?_);
        (obtain ⟨p, sd, sbuf, t, rfl, hp⟩ := hag.ghost; with_reducible rfl))
    | with_reducible apply sim_bind | with_reducible apply sim_ite
    | with_reducible apply sim_dite | with_reducible apply sim_loopFrom
    | ((with_reducible refine sim_modifyM _ _ (fun a b hag => ?_));
        (obtain ⟨p, sd, sbuf, t, rfl, hp⟩ := hag.ghost;
          exact ⟨rfl, rfl, rfl, rfl, rfl, rfl, rfl, hp⟩))
    | intro _
    | dsimp only
    | unfold stackGet | unfold stackSet | unfold stackTake | unfold stackPush | unfold stackLen
    | unfold nextValue | unfold nextValue2 | unfold output | unfold setOutput | unfold voiceAt
    | unfold unitAt | unfold setUnitAt | unfold portAt | unfold setPortAt | unfold curVoice
    | unfold unitState | unfold setUnitState | unfold unitPort | unfold setUnitPort | unfold rand
    | unfold setDelayline
    | split

theorem sim_execSend (k : Nat) (hk : 1 ≤ k) (channels : Nat) (l : Int) :
    Sim k (execSend channels l) := by
  unfold execSend
  repeat' first
    | with_reducible exact sim_pure _ _ | with_reducible exact sim_fail _ _
    | with_reducible exact sim_fault _ | with_reducible exact sim_setParam _ _ _
    | with_reducible exact sim_param _ _ (Nat.lt_of_lt_of_le (by decide) hk)
    | ((with_reducible refine sim_bind_getM _ _ (fun a b hag => ?_) ?_);
        (obtain ⟨p, sd, sbuf, t, rfl, hp⟩ := hag.ghost; with_reducible rfl))
    | with_reducible apply sim_bind | with_reducible apply sim_ite
    | with_reducible apply sim_dite | with_reducible apply sim_loopFrom
    | ((with_reducible refine sim_modifyM _ _ (fun a b hag => ?_));
        (obtain ⟨p, sd, sbuf, t, rfl, hp⟩ := hag.ghost;
          exact ⟨rfl, rfl, rfl, rfl, rfl, rfl, rfl, hp⟩))
    | intro _
    | dsimp only
    | unfold stackGet | unfold stackSet | unfold stackTake | unfold stackPush | unfold stackLen
    | unfold nextValue | unfold nextValue2 | unfold output | unfold setOutput | unfold voiceAt
    | unfold unitAt | unfold setUnitAt | unfold portAt | unfold setPortAt | unfold curVoice
    | unfold unitState | unfold setUnitState | unfold unitPort | unfold setUnitPort | unfold rand
    | unfold setDelayline
    | split

theorem sim_execReceive (k : Nat) (stereo : Bool) :
    Sim k (execReceive stereo) := by
  unfold execReceive
  repeat' first
    | with_reducible exact sim_pure _ _ | with_reducible exact sim_fail _ _
    | with_reducible exact sim_fault _ | with_reducible exact sim_setParam _ _ _
    | with_reducible exact sim_param _ _ (Nat.lt_of_lt_of_le (by decide) hk)
    | ((with_reducible refine sim_bind_getM _ _ (fun a b hag => ?_) ?_);
        (obtain ⟨p, sd, sbuf, t, rfl, hp⟩ := hag.ghost; with_reducible rfl))
    | with_reducible apply sim_bind | with_reducible apply sim_ite
    | with_reducible apply sim_dite | with_reducible apply sim_loopFrom
    | ((with_reducible refine sim_modifyM _ _ (fun a b hag => ?_));
        (obtain ⟨p, sd, sbuf, t, rfl, hp⟩ := hag.ghost;
          exact ⟨rfl, rfl, rfl, rfl, rfl, rfl, rfl, hp⟩))
    | intro _
    | dsimp only
    | unfold stackGet | unfold stackSet | unfold stackTake | unfold stackPush | unfold stackLen
    | unfold nextValue | unfold nextValue2 | unfold output | unfold setOutput | unfold voiceAt
    | unfold unitAt | unfold setUnitAt | unfold portAt | unfold setPortAt | unfold curVoice
    | unfold unitState | unfold setUnitState | unfold unitPort | unfold setUnitPort | unfold rand
    | unfold setDelayline
    | split

theorem sim_execLoadnote (k : Nat) (stereo : Bool) :
    Sim k (execLoadnote stereo) := by
  unfold execLoadnote
  repeat' first
    | with_reducible exact sim_pure _ _ | with_reducible exact sim_fail _ _
    | with_reducible exact sim_fault _ | with_reducible exact sim_setParam _ _ _
    | with_reducible exact sim_param _ _ (Nat.lt_of_lt_of_le (by decide) hk)
    | ((with_reducible refine sim_bind_getM _ _ (fun a b hag => ?_) ?_);
        (obtain ⟨p, sd, sbuf, t, rfl, hp⟩ := hag.ghost; with_reducible rfl))
    | with_reducible apply sim_bind | with_reducible apply sim_ite
    | with_reducible apply sim_dite | with_reducible apply sim_loopFrom
    | ((with_reducible refine sim_modifyM _ _ (fun a b hag => ?_));
        (obtain ⟨p, sd, sbuf, t, rfl, hp⟩ := hag.ghost;
          exact ⟨rfl, rfl, rfl, rfl, rfl, rfl, rfl, hp⟩))
    | intro _
    | dsimp only
    | unfold stackGet | unfold stackSet | unfold stackTake | unfold stackPush | unfold stackLen
    | unfold nextValue | unfold nextValue2 | unfold output | unfold setOutput | unfold voiceAt
    | unfold unitAt | unfold setUnitAt | unfold portAt | unfold setPortAt | unfold curVoice
    | unfold unitState | unfold setUnitState | unfold unitPort | unfold setUnitPort | unfold rand
    | unfold setDelayline
    | split

theorem sim_execPan (k : Nat) (hk : 1 ≤ k) (stereo : Bool) (l : Int) :
    Sim k (execPan stereo l) := by
  unfold execPan
  repeat' first
    | with_reducible exact sim_pure _ _ | with_reducible exact sim_fail _ _
    | with_reducible exact sim_fault _ | with_reducible exact sim_setParam _ _ _
    | with_reducible exact sim_param _ _ (Nat.lt_of_lt_of_le (by decide) hk)
    | ((with_reducible refine sim_bind_getM _ _ (fun a b hag => ?_) ?_);
        (obtain ⟨p, sd, sbuf, t, rfl, hp⟩ := hag.ghost; with_reducible rfl))
    | with_reducible apply sim_bind | with_reducible apply sim_ite
    | with_reducible apply sim_dite | with_reducible apply sim_loopFrom
    | ((with_reducible refine sim_modifyM _ _ (fun a b hag => ?_));
        (obtain ⟨p, sd, sbuf, t, rfl, hp⟩ := hag.ghost;
          exact ⟨rfl, rfl, rfl, rfl, rfl, rfl, rfl, hp⟩))
    | intro _
    | dsimp only
    | unfold stackGet | unfold stackSet | unfold stackTake | unfold stackPush | unfold stackLen
    | unfold nextValue | unfold nextValue2 | unfold output | unfold setOutput | unfold voiceAt
    | unfold unitAt | unfold setUnitAt | unfold portAt | unfold setPortAt | unfold curVoice
    | unfold unitState | unfold setUnitState | unfold unitPort | unfold setUnitPort | unfold rand
    | unfold setDelayline
    | split

theorem sim_execFilter (k : Nat) (hk : 2 ≤ k) (channels : Nat) (l : Int) :
    Sim k (execFilter channels l) := by
  unfold execFilter
  repeat' first
    | with_reducible exact sim_pure _ _ | with_reducible exact sim_fail _ _
    | with_reducible exact sim_fault _ | with_reducible exact sim_setParam _ _ _
    | with_reducible exact sim_param _ _ (Nat.lt_of_lt_of_le (by decide) hk)
    | ((with_reducible refine sim_bind_getM _ _ (fun a b hag => ?_) ?_);
        (obtain ⟨p, sd, sbuf, t, rfl, hp⟩ := hag.ghost; with_reducible rfl))
    | with_reducible apply sim_bind | with_reducible apply sim_ite
    | with_reducible apply sim_dite | with_reducible apply sim_loopFrom
    | ((with_reducible refine sim_modifyM _ _ (fun a b hag => ?_));
        (obtain ⟨p, sd, sbuf, t, rfl, hp⟩ := hag.ghost;
          exact ⟨rfl, rfl, rfl, rfl, rfl, rfl, rfl, hp⟩))
    | intro _
    | dsimp only
    | unfold stackGet | unfold stackSet | unfold stackTake | unfold stackPush | unfold stackLen
    | unfold nextValue | unfold nextValue2 | unfold output | unfold setOutput | unfold voiceAt
    | unfold unitAt | unfold setUnitAt | unfold portAt | unfold setPortAt | unfold curVoice
    | unfold unitState | unfold setUnitState | unfold unitPort | unfold setUnitPort | unfold rand
    | unfold setDelayline
    | split

theorem sim_execOscillator (k : Nat) (hk : 6 ≤ k) (m : MathLib) (channels : Nat) (valuesAtTransform : List Nat) :
    Sim k (execOscillator m channels valuesAtTransform) := by
  unfold execOscillator
  repeat' first
    | with_reducible exact sim_pure _ _ | with_reducible exact sim_fail _ _
    | with_reducible exact sim_fault _ | with_reducible exact sim_setParam _ _ _
    | with_reducible exact sim_param _ _ (Nat.lt_of_lt_of_le (by decide) hk)
    | ((with_reducible refine sim_bind_getM _ _ (fun a b hag => ?_) ?_);
        (obtain ⟨p, sd, sbuf, t, rfl, hp⟩ := hag.ghost; with_reducible rfl))
    | with_reducible apply sim_bind | with_reducible apply sim_ite
    | with_reducible apply sim_dite | with_reducible apply sim_loopFrom
    | ((with_reducible refine sim_modifyM _ _ (fun a b hag => ?_));
        (obtain ⟨p, sd, sbuf, t, rfl, hp⟩ := hag.ghost;
          exact ⟨rfl, rfl, rfl, rfl, rfl, rfl, rfl, hp⟩))
    | with_reducible exact sim_oscChannels k hk _ _ _ _ _ _ _
    | intro _
    | dsimp only
    | unfold stackGet | unfold stackSet | unfold stackTake | unfold stackPush | unfold stackLen
    | unfold nextValue | unfold nextValue2 | unfold output | unfold setOutput | unfold voiceAt
    | unfold unitAt | unfold setUnitAt | unfold portAt | unfold setPortAt | unfold curVoice
    | unfold unitState | unfold setUnitState | unfold unitPort | unfold setUnitPort | unfold rand
    | unfold setDelayline
    | split

theorem sim_execDelay (k : Nat) (hk : 5 ≤ k) (m : MathLib) (delayTimes : List Nat) (channels : Nat) (l : Int) :
    Sim k (execDelay m delayTimes channels l) := by
  unfold execDelay
  repeat' first
    | with_reducible exact sim_pure _ _ | with_reducible exact sim_fail _ _
    | with_reducible exact sim_fault _ | with_reducible exact sim_setParam _ _ _
    | with_reducible exact sim_param _ _ (Nat.lt_of_lt_of_le (by decide) hk)
    | ((with_reducible refine sim_bind_getM _ _ (fun a b hag => ?_) ?_);
        (obtain ⟨p, sd, sbuf, t, rfl, hp⟩ := hag.ghost; with_reducible rfl))
    | with_reducible apply sim_bind | with_reducible apply sim_ite
    | with_reducible apply sim_dite | with_reducible apply sim_loopFrom
    | ((with_reducible refine sim_modifyM _ _ (fun a b hag => ?_));
        (obtain ⟨p, sd, sbuf, t, rfl, hp⟩ := hag.ghost;
          exact ⟨rfl, rfl, rfl, rfl, rfl, rfl, rfl, hp⟩))
    | with_reducible exact sim_delayChannels k (by omega) _ _ _ _ _ _ _ _ _ _ _
    | intro _
    | dsimp only
    | unfold stackGet | unfold stackSet | unfold stackTake | unfold stackPush | unfold stackLen
    | unfold nextValue | unfold nextValue2 | unfold output | unfold setOutput | unfold voiceAt
    | unfold unitAt | unfold setUnitAt | unfold portAt | unfold setPortAt | unfold curVoice
    | unfold unitState | unfold setUnitState | unfold unitPort | unfold setUnitPort | unfold rand
    | unfold setDelayline
    | split

theorem sim_execCompressor (k : Nat) (hk : 5 ≤ k) (m : MathLib) (stereo : Bool) (l : Int) :
    Sim k (execCompressor m stereo l) := by
  unfold execCompressor
  repeat' first
    | with_reducible exact sim_pure _ _ | with_reducible exact sim_fail _ _
    | with_reducible exact sim_fault _ | with_reducible exact sim_setParam _ _ _
    | with_reducible exact sim_param _ _ (Nat.lt_of_lt_of_le (by decide) hk)
    | ((with_reducible refine sim_bind_getM _ _ (fun a b hag => ?_) ?_);
        (obtain ⟨p, sd, sbuf, t, rfl, hp⟩ := hag.ghost; with_reducible rfl))
    | with_reducible apply sim_bind | with_reducible apply sim_ite
    | with_reducible apply sim_dite | with_reducible apply sim_loopFrom
    | ((with_reducible refine sim_modifyM _ _ (fun a b hag => ?_));
        (obtain ⟨p, sd, sbuf, t, rfl, hp⟩ := hag.ghost;
          exact ⟨rfl, rfl, rfl, rfl, rfl, rfl, rfl, hp⟩))
    | intro _
    | dsimp only
    | unfold stackGet | unfold stackSet | unfold stackTake | unfold stackPush | unfold stackLen
    | unfold nextValue | unfold nextValue2 | unfold output | unfold setOutput | unfold voiceAt
    | unfold unitAt | unfold setUnitAt | unfold portAt | unfold setPortAt | unfold curVoice
    | unfold unitState | unfold setUnitState | unfold unitPort | unfold setUnitPort | unfold rand
    | unfold setDelayline
    | split

theorem sim_execFriction (k : Nat) (l : Int) :
    Sim k (execFriction l) := by
  unfold execFriction
  repeat' first
    | with_reducible exact sim_pure _ _ | with_reducible exact sim_fail _ _
    | with_reducible exact sim_fault _ | with_reducible exact sim_setParam _ _ _
    | with_reducible exact sim_param _ _ (Nat.lt_of_lt_of_le (by decide) hk)
    | ((with_reducible refine sim_bind_getM _ _ (fun a b hag => ?_) ?_);
        (obtain ⟨p, sd, sbuf, t, rfl, hp⟩ := hag.ghost; with_reducible rfl))
    | with_reducible apply sim_bind | with_reducible apply sim_ite
    | with_reducible apply sim_dite | with_reducible apply sim_loopFrom
    | ((with_reducible refine sim_modifyM _ _ (fun a b hag => ?_));
        (obtain ⟨p, sd, sbuf, t, rfl, hp⟩ := hag.ghost;
          exact ⟨rfl, rfl, rfl, rfl, rfl, rfl, rfl, hp⟩))
    | intro _
    | dsimp only
    | unfold stackGet | unfold stackSet | unfold stackTake | unfold stackPush | unfold stackLen
    | unfold nextValue | unfold nextValue2 | unfold output | unfold setOutput | unfold voiceAt
    | unfold unitAt | unfold setUnitAt | unfold portAt | unfold setPortAt | unfold curVoice
    | unfold unitState | unfold setUnitState | unfold unitPort | unfold setUnitPort | unfold rand
    | unfold setDelayline
    | split

/-- The unit `sync` reads the sync buffer, which is free: when both runs find
room in their buffers they go on the same way. -/
theorem sim_execSync (k : Nat) (l : Int) : Sim k (execSync l) := by
  refine ⟨fun a b ra rb sa sb hag ha hb => ?_⟩
  have hg : b.synth.globalTime = a.synth.globalTime := by rw [hag.synth]
  unfold execSync at ha hb
  rw [bind_run, getM_run] at ha hb
  simp only [hg] at ha hb
  by_cases h : a.synth.globalTime % 256 = 0
  · simp only [h, if_true, bind_run] at ha hb
    rcases hsa : stackGet (l - 1) a with ⟨_ | v1, s1⟩
    · rw [hsa] at ha; exact absurd (Prod.mk.inj ha).1 (by simp)
    rcases hsb : stackGet (l - 1) b with ⟨_ | v2, s2⟩
    · rw [hsb] at hb; exact absurd (Prod.mk.inj hb).1 (by simp)
    obtain ⟨_, hs⟩ := (sim_stackGet k (l - 1)).sim a b v1 v2 s1 s2 hag hsa hsb
    rw [hsa] at ha
    rw [hsb] at hb
    simp only at ha hb
    cases hab : a.syncBuf with
    | nil => rw [hab] at ha; exact absurd (Prod.mk.inj ha).1 (by simp [fault, fail])
    | cons x1 rest1 =>
      cases hbb : b.syncBuf with
      | nil => rw [hbb] at hb; exact absurd (Prod.mk.inj hb).1 (by simp [fault, fail])
      | cons x2 rest2 =>
        rw [hab] at ha
        rw [hbb] at hb
        simp only [modifyM_run] at ha hb
        have e1 := (Prod.mk.inj ha).2
        have e2 := (Prod.mk.inj hb).2
        rw [← e1, ← e2]
        exact ⟨rfl, ⟨hs.synth, hs.delaylinesAll, hs.stack, hs.values, hs.delaylines, hs.voices,
          hs.units, hs.params⟩⟩
  · simp only [h, if_false, pure_run] at ha hb
    have e1 := (Prod.mk.inj ha).2
    have e2 := (Prod.mk.inj hb).2
    rw [← e1, ← e2]
    exact ⟨rfl, hag⟩

/-- Every unit, run from two states that agree on the parameters its transform
count covers, goes the same way in both. -/
theorem sim_dispatch (k : Nat) (m : MathLib) (delayTimes : List Nat) (opNoStereo : Nat)
    (stereo : Bool) (channels : Nat) (valuesAtTransform : List Nat) (l : Int)
    (hk : ∀ t, transformCounts.get? (opNoStereo - 1) = some t → t ≤ k) :
    Sim k (dispatch m delayTimes opNoStereo stereo channels valuesAtTransform l) := by
  unfold dispatch
  refine sim_ite _ _ _ _ (fun _ => sim_execAdd k stereo l) (fun _ => ?_)
  refine sim_ite _ _ _ _ (fun _ => sim_execAddp k stereo l) (fun _ => ?_)
  refine sim_ite _ _ _ _ (fun _ => sim_execMul k stereo l) (fun _ => ?_)
  refine sim_ite _ _ _ _ (fun _ => sim_execMulp k stereo l) (fun _ => ?_)
  refine sim_ite _ _ _ _ (fun _ => sim_execXch k stereo l) (fun _ => ?_)
  refine sim_ite _ _ _ _ (fun _ => sim_execPush k stereo l) (fun _ => ?_)
  refine sim_ite _ _ _ _ (fun _ => sim_execPop k stereo l) (fun _ => ?_)
  refine sim_ite _ _ _ _ (fun h => sim_execDistort k (hk 1 (by rw [h]; rfl)) stereo l) (fun _ => ?_)
  refine sim_ite _ _ _ _ (fun h => sim_execLoadval k (hk 1 (by rw [h]; rfl)) stereo) (fun _ => ?_)
  refine sim_ite _ _ _ _ (fun h => sim_execOut k (hk 1 (by rw [h]; rfl)) stereo l) (fun _ => ?_)
  refine sim_ite _ _ _ _ (fun h => sim_execOutaux k (hk 2 (by rw [h]; rfl)) stereo l) (fun _ => ?_)
  refine sim_ite _ _ _ _ (fun h => sim_execAux k (hk 1 (by rw [h]; rfl)) stereo channels l) (fun _ => ?_)
  refine sim_ite _ _ _ _ (fun _ => sim_execSpeed k m l) (fun _ => ?_)
  refine sim_ite _ _ _ _ (fun _ => sim_execIn k stereo) (fun _ => ?_)
  refine sim_ite _ _ _ _ (fun h => sim_execEnvelope k (hk 5 (by rw [h]; rfl)) m stereo) (fun _ => ?_)
  refine sim_ite _ _ _ _ (fun h => sim_execNoise k (hk 2 (by rw [h]; rfl)) stereo) (fun _ => ?_)
  refine sim_ite _ _ _ _ (fun h => sim_execGain k (hk 1 (by rw [h]; rfl)) stereo l) (fun _ => ?_)
  refine sim_ite _ _ _ _ (fun h => sim_execInvgain k (hk 1 (by rw [h]; rfl)) stereo l) (fun _ => ?_)
  refine sim_ite _ _ _ _ (fun _ => sim_execClip k stereo l) (fun _ => ?_)
  refine sim_ite _ _ _ _ (fun h => sim_execCrush k (hk 1 (by rw [h]; rfl)) stereo l) (fun _ => ?_)
  refine sim_ite _ _ _ _ (fun h => sim_execHold k (hk 1 (by rw [h]; rfl)) channels l) (fun _ => ?_)
  refine sim_ite _ _ _ _ (fun h => sim_execSend k (hk 1 (by rw [h]; rfl)) channels l) (fun _ => ?_)
  refine sim_ite _ _ _ _ (fun _ => sim_execReceive k stereo) (fun _ => ?_)
  refine sim_ite _ _ _ _ (fun _ => sim_execLoadnote k stereo) (fun _ => ?_)
  refine sim_ite _ _ _ _ (fun h => sim_execPan k (hk 1 (by rw [h]; rfl)) stereo l) (fun _ => ?_)
  refine sim_ite _ _ _ _ (fun h => sim_execFilter k (hk 2 (by rw [h]; rfl)) channels l) (fun _ => ?_)
  refine sim_ite _ _ _ _ (fun h => sim_execOscillator k (hk 6 (by rw [h]; rfl)) m channels valuesAtTransform) (fun _ => ?_)
  refine sim_ite _ _ _ _ (fun h => sim_execDelay k (hk 5 (by rw [h]; rfl)) m delayTimes channels l) (fun _ => ?_)
  refine sim_ite _ _ _ _ (fun h => sim_execCompressor k (hk 5 (by rw [h]; rfl)) m stereo l) (fun _ => ?_)
  refine sim_ite _ _ _ _ (fun _ => sim_execSync k l) (fun _ => ?_)
  refine sim_ite _ _ _ _ (fun _ => sim_execFriction k l) (fun _ => ?_)
  exact sim_fail _ _

theorem sim_unitPort (k : Nat) (i : Nat) : Sim k (unitPort i) := by
  unfold unitPort
  repeat' first
    | with_reducible exact sim_pure _ _ | with_reducible exact sim_fail _ _
    | with_reducible exact sim_fault _ | with_reducible exact sim_setParam _ _ _
    | with_reducible exact sim_param _ _ (Nat.lt_of_lt_of_le (by decide) hk)
    | ((with_reducible refine sim_bind_getM _ _ (fun a b hag => ?_) ?_);
        (obtain ⟨p, sd, sbuf, t, rfl, hp⟩ := hag.ghost; with_reducible rfl))
    | with_reducible apply sim_bind | with_reducible apply sim_ite
    | with_reducible apply sim_dite | with_reducible apply sim_loopFrom
    | ((with_reducible refine sim_modifyM _ _ (fun a b hag => ?_));
        (obtain ⟨p, sd, sbuf, t, rfl, hp⟩ := hag.ghost;
          exact ⟨rfl, rfl, rfl, rfl, rfl, rfl, rfl, hp⟩))
    | intro _
    | dsimp only
    | unfold stackGet | unfold stackSet | unfold stackTake | unfold stackPush | unfold stackLen
    | unfold nextValue | unfold nextValue2 | unfold output | unfold setOutput | unfold voiceAt
    | unfold unitAt | unfold setUnitAt | unfold portAt | unfold setPortAt | unfold curVoice
    | unfold unitState | unfold setUnitState | unfold unitPort | unfold setUnitPort | unfold rand
    | unfold setDelayline
    | split

theorem sim_transformRest (k : Nat) (i : Nat) (rest : List Nat) :
    Sim k (do setUnitPort i 0; modifyM fun s => { s with values := rest }) := by
  repeat' first
    | with_reducible exact sim_pure _ _ | with_reducible exact sim_fail _ _
    | with_reducible exact sim_fault _ | with_reducible exact sim_setParam _ _ _
    | with_reducible exact sim_param _ _ (Nat.lt_of_lt_of_le (by decide) hk)
    | ((with_reducible refine sim_bind_getM _ _ (fun a b hag => ?_) ?_);
        (obtain ⟨p, sd, sbuf, t, rfl, hp⟩ := hag.ghost; with_reducible rfl))
    | with_reducible apply sim_bind | with_reducible apply sim_ite
    | with_reducible apply sim_dite | with_reducible apply sim_loopFrom
    | ((with_reducible refine sim_modifyM _ _ (fun a b hag => ?_));
        (obtain ⟨p, sd, sbuf, t, rfl, hp⟩ := hag.ghost;
          exact ⟨rfl, rfl, rfl, rfl, rfl, rfl, rfl, hp⟩))
    | intro _
    | dsimp only
    | unfold stackGet | unfold stackSet | unfold stackTake | unfold stackPush | unfold stackLen
    | unfold nextValue | unfold nextValue2 | unfold output | unfold setOutput | unfold voiceAt
    | unfold unitAt | unfold setUnitAt | unfold portAt | unfold setPortAt | unfold curVoice
    | unfold unitState | unfold setUnitState | unfold unitPort | unfold setUnitPort | unfold rand
    | unfold setDelayline
    | split

/-- One turn of the parameter loop sets parameter `i` to the same value in two
runs that agree. -/
theorem transformStep_agree (i : Nat) (a b sa sb : Machine) (hag : Agree i a b)
    (ha : transformStep i a = (Except.ok (), sa)) (hb : transformStep i b = (Except.ok (), sb)) :
    Agree (i + 1) sa sb := by
  unfold transformStep at ha hb
  rw [bind_run, getM_run] at ha hb
  simp only at ha hb
  rw [← hag.values] at hb
  cases hv : a.values with
  | nil => rw [hv] at ha; exact absurd (Prod.mk.inj ha).1 (by simp [fault, fail])
  | cons v rest =>
    rw [hv] at ha hb
    simp only at ha hb
    by_cases h8 : i < 8
    · rw [dif_pos h8] at ha hb
      rw [bind_run] at ha hb
      rcases hpa : unitPort i a with ⟨_ | w1, a1⟩
      · rw [hpa] at ha; exact absurd (Prod.mk.inj ha).1 (by simp)
      rcases hpb : unitPort i b with ⟨_ | w2, b1⟩
      · rw [hpb] at hb; exact absurd (Prod.mk.inj hb).1 (by simp)
      obtain ⟨hw, h1⟩ := (sim_unitPort i i).sim a b w1 w2 a1 b1 hag hpa hpb
      subst hw
      rw [hpa] at ha
      rw [hpb] at hb
      simp only [bind_run, setParam, modifyM_run] at ha hb
      have h2 : Agree (i + 1)
          { a1 with params := Function.update a1.params ⟨i, h8⟩ ((v : ℚ) / 128 + w1) }
          { b1 with params := Function.update b1.params ⟨i, h8⟩ ((v : ℚ) / 128 + w1) } := by
        refine ⟨h1.synth, h1.delaylinesAll, h1.stack, h1.values, h1.delaylines, h1.voices,
          h1.units, fun j hj => ?_⟩
        show Function.update a1.params ⟨i, h8⟩ _ j = Function.update b1.params ⟨i, h8⟩ _ j
        by_cases hji : j = ⟨i, h8⟩
        · subst hji; simp
        · rw [Function.update_noteq hji, Function.update_noteq hji]
          exact h1.params j (by
            have : j.val ≠ i := fun hc => hji (Fin.ext hc)
            omega)
      exact ((sim_transformRest (i + 1) i rest).sim _ _ () () sa sb h2
        (by simpa only [bind_run] using ha) (by simpa only [bind_run] using hb)).2
    · rw [dif_neg h8] at ha
      exact absurd (Prod.mk.inj ha).1 (by simp [fault, fail])

theorem transform_agree :
    ∀ (n i : Nat) (a b sa sb : Machine), Agree i a b →
      loopFrom transformStep i n a = (Except.ok (), sa) →
      loopFrom transformStep i n b = (Except.ok (), sb) → Agree (i + n) sa sb := by
  intro n
  induction n with
  | zero =>
    intro i a b sa sb hag ha hb
    rw [loopFrom_zero] at ha hb
    have e1 := (Prod.mk.inj ha).2
    have e2 := (Prod.mk.inj hb).2
    rw [← e1, ← e2]
    exact hag
  | succ n ih =>
    intro i a b sa sb hag ha hb
    rw [loopFrom_succ, bind_run] at ha hb
    rcases hsa : transformStep i a with ⟨_ | _, a1⟩
    · rw [hsa] at ha; exact absurd (Prod.mk.inj ha).1 (by simp)
    rcases hsb : transformStep i b with ⟨_ | _, b1⟩
    · rw [hsb] at hb; exact absurd (Prod.mk.inj hb).1 (by simp)
    rw [hsa] at ha
    rw [hsb] at hb
    have := ih (i + 1) a1 b1 sa sb (transformStep_agree i a b a1 b1 hag hsa hsb) ha hb
    rw [show i + (n + 1) = i + 1 + n by omega]
    exact this

/-- One unit, from its parameter loop to the step to the next unit, run from two
states that agree. -/
theorem sim_execUnit (m : MathLib) (bytePatch : BytePatch) (op : Nat) :
    Sim 0 (execUnit m bytePatch op) := by
  refine ⟨fun a b ra rb sa sb hag ha hb => ?_⟩
  unfold execUnit at ha hb
  simp only at ha hb
  cases htc : transformCounts.get? ((op &&& 0xFE) >>> 1 - 1) with
  | none =>
    rw [htc] at ha
    exact absurd (Prod.mk.inj ha).1 (by simp [fault, fail])
  | some tcount =>
    rw [htc] at ha hb
    simp only [bind_run, getM_run] at ha hb
    rw [← hag.values, ← hag.voices, ← hag.units] at hb
    by_cases hlen : a.values.length < tcount
    · rw [if_pos hlen] at ha
      exact absurd (Prod.mk.inj ha).1 (by simp [fail])
    rw [if_neg hlen] at ha hb
    by_cases hvu : a.voices < MAX_VOICES ∧ a.units < MAX_UNITS
    · rw [if_pos hvu] at ha hb
      rw [bind_run] at ha hb
      rcases hta : transform tcount a with ⟨_ | _, a1⟩
      · rw [hta] at ha; exact absurd (Prod.mk.inj ha).1 (by simp)
      rcases htb : transform tcount b with ⟨_ | _, b1⟩
      · rw [htb] at hb; exact absurd (Prod.mk.inj hb).1 (by simp)
      have h1 : Agree tcount a1 b1 := by
        have := transform_agree tcount 0 a b a1 b1 hag hta htb
        rwa [Nat.zero_add] at this
      rw [hta] at ha
      rw [htb] at hb
      simp only [bind_run, stackLen_run] at ha hb
      rw [← h1.stack] at hb
      rcases hda : dispatch m bytePatch.DelayTimes ((op &&& 0xFE) >>> 1)
          (decide ((op &&& 1) + 1 = 2)) ((op &&& 1) + 1) a.values (a1.stack.length : Int) a1
        with ⟨_ | _, a2⟩
      · rw [hda] at ha; exact absurd (Prod.mk.inj ha).1 (by simp)
      rcases hdb : dispatch m bytePatch.DelayTimes ((op &&& 0xFE) >>> 1)
          (decide ((op &&& 1) + 1 = 2)) ((op &&& 1) + 1) a.values (a1.stack.length : Int) b1
        with ⟨_ | _, b2⟩
      · rw [hdb] at hb; exact absurd (Prod.mk.inj hb).1 (by simp)
      have h2 := ((sim_dispatch tcount m bytePatch.DelayTimes ((op &&& 0xFE) >>> 1)
        (decide ((op &&& 1) + 1 = 2)) ((op &&& 1) + 1) a.values (a1.stack.length : Int)
        (fun t ht => by rw [htc] at ht; exact le_of_eq (Option.some.inj ht).symm)).sim
        a1 b1 () () a2 b2 h1 hda hdb).2
      rw [hda] at ha
      rw [hdb] at hb
      simp only [modifyM_run] at ha hb
      have e1 := (Prod.mk.inj ha).2
      have e2 := (Prod.mk.inj hb).2
      rw [← e1, ← e2]
      refine ⟨rfl, ⟨h2.synth, h2.delaylinesAll, h2.stack, h2.values, h2.delaylines, h2.voices,
        ?_, fun i hi => absurd hi (Nat.not_lt_zero _)⟩⟩
      show a2.units + 1 = b2.units + 1
      rw [h2.units]
    · rw [if_neg hvu] at ha
      exact absurd (Prod.mk.inj ha).1 (by simp [fault, fail])

theorem sim_unitLoop (m : MathLib) (bytePatch : BytePatch) :
    ∀ commands : List Nat, Sim 0 (unitLoop m bytePatch commands) := by
  intro commands
  induction commands with
  | nil => exact sim_fault _
  | cons op commands ih =>
    rw [unitLoop]
    exact sim_ite _ _ _ _ (fun _ => sim_pure _ _)
      (fun _ => sim_bind _ _ _ (sim_execUnit m bytePatch op) (fun _ => ih))

theorem sim_voiceLoop (m : MathLib) (bytePatch : BytePatch) :
    ∀ (voicesRemaining : Nat) (commands commandInstr valuesInstr : List Nat),
      Sim 0 (voiceLoop m bytePatch voicesRemaining commands commandInstr valuesInstr) := by
  intro voicesRemaining
  induction voicesRemaining with
  | zero => intro _ _ _; exact sim_pure _ _
  | succ n ih =>
    intro commands commandInstr valuesInstr
    rw [voiceLoop]
    repeat' first
      | with_reducible exact sim_pure _ _ | with_reducible exact sim_fail _ _
      | with_reducible exact sim_fault _ | with_reducible exact sim_setParam _ _ _
      | with_reducible exact sim_param _ _ (Nat.lt_of_lt_of_le (by decide) hk)
      | ((with_reducible refine sim_bind_getM _ _ (fun a b hag => ?_) ?_);
          (obtain ⟨p, sd, sbuf, t, rfl, hp⟩ := hag.ghost; with_reducible rfl))
      | with_reducible apply sim_bind | with_reducible apply sim_ite
      | with_reducible apply sim_dite | with_reducible apply sim_loopFrom
      | ((with_reducible refine sim_modifyM _ _ (fun a b hag => ?_));
          (obtain ⟨p, sd, sbuf, t, rfl, hp⟩ := hag.ghost;
            exact ⟨rfl, rfl, rfl, rfl, rfl, rfl, rfl, hp⟩))
      | with_reducible exact sim_unitLoop m bytePatch _
      | with_reducible apply ih
      | intro _
      | dsimp only
      | split

/-- What a start of a sample that succeeds leaves: the cursors at the start of
the patch, some sync buffer, everything else as it was. -/
theorem beginSample_ok (bp : BytePatch) (st st1 : RenderState)
    (h : beginSample bp st = (Except.ok (), st1)) :
    (∃ sd sb, st1.machine = { st.machine with
        values := bp.Values, delaylines := 0, voices := 0, units := 0
        syncDone := sd, syncBuf := sb }) ∧
    st1.bufDone = st.bufDone ∧ st1.buffer = st.buffer ∧ st1.samples = st.samples := by
  by_cases hg : st.machine.synth.globalTime % 256 = 0
  · cases hsb : st.machine.syncBuf with
    | nil =>
      rw [beginSample_fault bp st hg hsb] at h
      exact absurd (Prod.mk.inj h).1 (by simp)
    | cons v rest =>
      rw [beginSample_sync bp st v rest hg hsb] at h
      have e := (Prod.mk.inj h).2
      rw [← e]
      exact ⟨⟨_, _, rfl⟩, rfl, rfl, rfl⟩
  · rw [beginSample_nosync bp st hg] at h
    have e := (Prod.mk.inj h).2
    rw [← e]
    exact ⟨⟨st.machine.syncDone, st.machine.syncBuf, rfl⟩, rfl, rfl, rfl⟩

/-- A turn of the loop of `Render` that is followed by a result without an error
has itself ended without an error. -/
theorem renderLoop_cons_ok (m : MathLib) (bp : BytePatch) (maxtime : Int) (b0 b1 : ℚ)
    (rest : List ℚ) (st f : RenderState) (ht : st.machine.time < maxtime)
    (h : renderLoop m bp maxtime (b0 :: b1 :: rest) st = (Except.ok (), f)) :
    ∃ st1 mc2 st3, beginSample bp st = (Except.ok (), st1) ∧
      voiceLoop m bp bp.NumVoices bp.Commands bp.Commands bp.Values st1.machine
        = (Except.ok (), mc2) ∧
      endSample rest { st1 with machine := mc2 } = (Except.ok (), st3) ∧
      renderLoop m bp maxtime rest st3 = (Except.ok (), f) := by
  rw [renderLoop_cons, if_pos ht] at h
  simp only [bind_run] at h
  rcases hb : beginSample bp st with ⟨_ | _, st1⟩
  · rw [hb] at h; exact absurd (Prod.mk.inj h).1 (by simp)
  rw [hb] at h
  simp only [onMachine_run] at h
  rcases hv : voiceLoop m bp bp.NumVoices bp.Commands bp.Commands bp.Values st1.machine
    with ⟨_ | _, mc2⟩
  · rw [hv] at h; exact absurd (Prod.mk.inj h).1 (by simp)
  rw [hv] at h
  simp only at h
  rcases he : endSample rest { st1 with machine := mc2 } with ⟨_ | _, st3⟩
  · rw [he] at h; exact absurd (Prod.mk.inj h).1 (by simp)
  rw [he] at h
  exact ⟨st1, mc2, st3, rfl, hv, he, h⟩

theorem endSample_ok_of (rest : List ℚ) (st st3 : RenderState)
    (h : endSample rest st = (Except.ok (), st3)) :
    st.machine.stack.length = 4 ∧
    st3 = { machine := { st.machine with
              synth := { st.machine.synth with
                outputs := Function.update (Function.update st.machine.synth.outputs 0 0) 1 0
                globalTime := (st.machine.synth.globalTime + 1) % 2 ^ 32 }
              time := st.machine.time + 1 }
            bufDone := st.bufDone ++ [st.machine.synth.outputs 0, st.machine.synth.outputs 1]
            buffer := rest
            samples := st.samples + 1
            syncs := st.syncs } := by
  rcases endSample_cases rest st with ⟨_, he⟩ | ⟨_, he⟩ | ⟨h4, he⟩
  · rw [he] at h; exact absurd (Prod.mk.inj h).1 (by simp)
  · rw [he] at h; exact absurd (Prod.mk.inj h).1 (by simp)
  · rw [he] at h
    exact ⟨h4, ((Prod.mk.inj h).2).symm⟩

/-- One sample rendered from two states of `Render` with the same synth, delay
lines and stack, by a patch without a `speed` unit: the same frame is written,
and the states after it have the same synth, delay lines and stack again. -/
theorem sample_sim (m : MathLib) (bp : BytePatch)
    (hns : ∀ op ∈ bp.Commands, (op &&& 0xFE) >>> 1 ≠ opSpeed)
    (restA restB : List ℚ) (stA stB stA1 stB1 stA3 stB3 : RenderState) (mcA mcB : Machine)
    (hc : AgreeCore stA.machine stB.machine)
    (hbA : beginSample bp stA = (Except.ok (), stA1))
    (hvA : voiceLoop m bp bp.NumVoices bp.Commands bp.Commands bp.Values stA1.machine
      = (Except.ok (), mcA))
    (heA : endSample restA { stA1 with machine := mcA } = (Except.ok (), stA3))
    (hbB : beginSample bp stB = (Except.ok (), stB1))
    (hvB : voiceLoop m bp bp.NumVoices bp.Commands bp.Commands bp.Values stB1.machine
      = (Except.ok (), mcB))
    (heB : endSample restB { stB1 with machine := mcB } = (Except.ok (), stB3)) :
    AgreeCore stA3.machine stB3.machine ∧
    (∃ x y, stA3.bufDone = stA.bufDone ++ [x, y] ∧ stB3.bufDone = stB.bufDone ++ [x, y]) ∧
    stA3.machine.time = stA.machine.time + 1 ∧ stB3.machine.time = stB.machine.time + 1 ∧
    stA3.samples = stA.samples + 1 ∧ stB3.samples = stB.samples + 1 ∧
    stA3.buffer = restA ∧ stB3.buffer = restB := by
  obtain ⟨⟨sdA, sbA, hmA⟩, hdA, _, hsA⟩ := beginSample_ok bp stA stA1 hbA
  obtain ⟨⟨sdB, sbB, hmB⟩, hdB, _, hsB⟩ := beginSample_ok bp stB stB1 hbB
  have hag : Agree 0 stA1.machine stB1.machine := by
    rw [hmA, hmB]
    exact ⟨hc.synth, hc.delaylinesAll, hc.stack, rfl, rfl, rfl, rfl,
      fun i hi => absurd hi (Nat.not_lt_zero _)⟩
  have hag2 := ((sim_voiceLoop m bp bp.NumVoices bp.Commands bp.Commands bp.Values).sim
    stA1.machine stB1.machine () () mcA mcB hag hvA hvB).2
  have hk := keeps_voiceLoop (fun c => c.2) m bp bp.NumVoices bp.Commands bp.Commands bp.Values
    (fun op hop h => absurd h (hns op hop)) (fun op hop h => absurd h (hns op hop))
  have htA : mcA.time = stA.machine.time := by
    have := hk.keeps stA1.machine
    rw [hvA, hmA] at this
    exact this
  have htB : mcB.time = stB.machine.time := by
    have := hk.keeps stB1.machine
    rw [hvB, hmB] at this
    exact this
  obtain ⟨_, e3A⟩ := endSample_ok_of restA _ stA3 heA
  obtain ⟨_, e3B⟩ := endSample_ok_of restB _ stB3 heB
  rw [e3A, e3B]
  refine ⟨⟨?_, hag2.delaylinesAll, hag2.stack⟩, ⟨mcA.synth.outputs 0, mcA.synth.outputs 1, ?_, ?_⟩,
    ?_, ?_, ?_, ?_, rfl, rfl⟩
  · show ({ mcA.synth with
        outputs := Function.update (Function.update mcA.synth.outputs 0 0) 1 0
        globalTime := (mcA.synth.globalTime + 1) % 2 ^ 32 } : synth)
      = { mcB.synth with
        outputs := Function.update (Function.update mcB.synth.outputs 0 0) 1 0
        globalTime := (mcB.synth.globalTime + 1) % 2 ^ 32 }
    rw [hag2.synth]
  · show stA1.bufDone ++ _ = _
    rw [hdA]
  · show stB1.bufDone ++ [mcB.synth.outputs 0, mcB.synth.outputs 1] = _
    rw [hdB, ← hag2.synth]
  · show mcA.time + 1 = _
    rw [htA]
  · show mcB.time + 1 = _
    rw [htB]
  · show stA1.samples + 1 = _
    rw [hsA]
  · show stB1.samples + 1 = _
    rw [hsB]

/-- Two runs of the loop of `Render` on a patch without a `speed` unit, from
states with the same synth, delay lines and stack, the second with no more
time and no more buffer left than the first, both ending without an error: for
as long as the second run goes, the first writes the same frames, and where the
second ends the first goes on from a state with the same synth, delay lines and
stack. -/
theorem renderLoop_sim (m : MathLib) (bp : BytePatch)
    (hns : ∀ op ∈ bp.Commands, (op &&& 0xFE) >>> 1 ≠ opSpeed) (maxA maxB : Int) :
    ∀ (bufB bufA : List ℚ) (stA stB fA fB : RenderState),
      AgreeCore stA.machine stB.machine →
      maxB - stB.machine.time ≤ maxA - stA.machine.time →
      bufB.length ≤ bufA.length →
      stA.buffer = bufA → stB.buffer = bufB →
      renderLoop m bp maxB bufB stB = (Except.ok (), fB) →
      renderLoop m bp maxA bufA stA = (Except.ok (), fA) →
      ∃ (k : Nat) (F : List ℚ) (stA' : RenderState),
        renderLoop m bp maxA (bufA.drop (2 * k)) stA' = (Except.ok (), fA) ∧
        AgreeCore stA'.machine fB.machine ∧
        stA'.machine.time = stA.machine.time + k ∧ fB.machine.time = stB.machine.time + k ∧
        stA'.bufDone = stA.bufDone ++ F ∧ fB.bufDone = stB.bufDone ++ F ∧
        stA'.samples = stA.samples + k ∧ fB.samples = stB.samples + k ∧
        stA'.buffer = bufA.drop (2 * k) ∧ fB.buffer = bufB.drop (2 * k) ∧
        (maxB ≤ fB.machine.time ∨ bufB.length < 2 * k + 2) ∧ 2 * k ≤ bufB.length := by
  intro bufB
  induction bufB using buffer_induction with
  | hshort bufB h =>
    intro bufA stA stB fA fB hc _ _ hbufA hbufB hB hA
    rw [renderLoop_short m bp maxB bufB h] at hB
    have e := (Prod.mk.inj hB).2
    have hlen : bufB.length < 2 := by
      match bufB, h with
      | [], _ => simp
      | [_], _ => simp
      | b0 :: b1 :: rest, h => exact absurd rfl (fun e => h b0 b1 rest e)
    refine ⟨0, [], stA, by simpa using hA, ?_, by simp, by rw [← e]; simp, by simp,
      by rw [← e]; simp, by simp, by rw [← e]; simp, by simpa using hbufA,
      by rw [← e]; simpa using hbufB, Or.inr (by omega), by omega⟩
    rw [← e]
    exact hc
  | hcons b0 b1 restB ih =>
    intro bufA stA stB fA fB hc htime hlen hbufA hbufB hB hA
    by_cases htB : stB.machine.time < maxB
    · obtain ⟨stB1, mcB, stB3, hbB, hvB, heB, hB'⟩ :=
        renderLoop_cons_ok m bp maxB b0 b1 restB stB fB htB hB
      match bufA, hlen, hbufA, hA with
      | [], hlen, _, _ => simp at hlen
      | [_], hlen, _, _ => simp at hlen
      | a0 :: a1 :: restA, hlen, hbufA, hA =>
        have htA : stA.machine.time < maxA := by omega
        obtain ⟨stA1, mcA, stA3, hbA, hvA, heA, hA'⟩ :=
          renderLoop_cons_ok m bp maxA a0 a1 restA stA fA htA hA
        obtain ⟨hc3, ⟨x, y, hdA, hdB⟩, htA3, htB3, hsA3, hsB3, hbufA3, hbufB3⟩ :=
          sample_sim m bp hns restA restB stA stB stA1 stB1 stA3 stB3 mcA mcB hc
            hbA hvA heA hbB hvB heB
        obtain ⟨k, F, stA', h1, h2, h3, h4, h5, h6, h7, h8, h9, h10, h11, h12⟩ :=
          ih restA stA3 stB3 fA fB hc3 (by omega) (by simp at hlen; omega) hbufA3 hbufB3 hB' hA'
        refine ⟨k + 1, [x, y] ++ F, stA', ?_, h2, by rw [h3, htA3]; push_cast; ring,
          by rw [h4, htB3]; push_cast; ring, by rw [h5, hdA, List.append_assoc],
          by rw [h6, hdB, List.append_assoc], by rw [h7, hsA3]; ring, by rw [h8, hsB3]; ring,
          ?_, ?_, ?_, by simp; omega⟩
        · rw [show 2 * (k + 1) = 2 * k + 1 + 1 by ring, List.drop_succ_cons, List.drop_succ_cons]
          exact h1
        · rw [show 2 * (k + 1) = 2 * k + 1 + 1 by ring, List.drop_succ_cons, List.drop_succ_cons]
          exact h9
        · rw [show 2 * (k + 1) = 2 * k + 1 + 1 by ring, List.drop_succ_cons, List.drop_succ_cons]
          exact h10
        · rcases h11 with h11 | h11
          · exact Or.inl h11
          · exact Or.inr (by simp; omega)
    · rw [renderLoop_cons, if_neg htB] at hB
      have e := (Prod.mk.inj hB).2
      refine ⟨0, [], stA, by simpa using hA, ?_, by simp, by rw [← e]; simp, by simp,
        by rw [← e]; simp, by simp, by rw [← e]; simp, by simpa using hbufA,
        by rw [← e]; simpa using hbufB, Or.inl (by rw [← e]; omega), by omega⟩
      rw [← e]
      exact hc

/-- A call of `Render` whose loop ends without an error, field by field. -/
theorem Render_of_ok (m : MathLib) (s : Interpreter) (buffer syncBuf : List ℚ) (maxtime : Int)
    (f : RenderState)
    (h : renderLoop m s.bytePatch maxtime buffer (renderInit s buffer syncBuf)
      = (Except.ok (), f)) :
    Render m s buffer syncBuf maxtime =
      { s := { bytePatch := s.bytePatch, stack := [], synth := f.machine.synth,
               delaylines := f.machine.delaylinesAll }
        buffer := f.bufDone ++ f.buffer
        syncBuf := f.machine.syncDone ++ f.machine.syncBuf
        samples := f.samples
        syncs := f.syncs
        time := f.machine.time
        renderError := none } := by
  unfold Render
  rw [h]
  rfl

/-- A call of `Render` that returns no error: its loop ended without one. -/
theorem renderLoop_of_noerror (m : MathLib) (s : Interpreter) (buffer syncBuf : List ℚ)
    (maxtime : Int) (h : (Render m s buffer syncBuf maxtime).renderError = none) :
    ∃ f, renderLoop m s.bytePatch maxtime buffer (renderInit s buffer syncBuf)
      = (Except.ok (), f) := by
  rw [Render_renderError] at h
  rcases hh : renderLoop m s.bytePatch maxtime buffer (renderInit s buffer syncBuf) with ⟨r, f⟩
  rw [hh] at h
  cases r with
  | error e => exact absurd h (by simp)
  | ok u => exact ⟨f, rfl⟩

/-- C25 (amended): for every interpreter whose patch contains no `speed` unit,
rendering `n + k` samples in one call of `Render` (`maxtime = n + k`, a buffer
of `2 (n + k)` floats) writes the same `n + k` frames and leaves the same
interpreter (synth, voices, delay lines) as rendering `n` samples and then `k`
samples in two consecutive calls, provided none of the three calls returns an
error and the four values `Render` puts at the bottom of the stack on entry are
all zero again when the first of the two calls returns. -/
theorem Render_split (m : MathLib) (s : Interpreter) (n k : Nat)
    (buf buf1 buf2 sb sb1 sb2 : List ℚ)
    (hns : ∀ op ∈ s.bytePatch.Commands, (op &&& 0xFE) >>> 1 ≠ opSpeed)
    (hbuf : buf.length = 2 * (n + k)) (hbuf1 : buf1.length = 2 * n)
    (hbuf2 : buf2.length = 2 * k)
    (he : (Render m s buf sb ((n + k : Nat) : Int)).renderError = none)
    (he1 : (Render m s buf1 sb1 (n : Int)).renderError = none)
    (he2 : (Render m (Render m s buf1 sb1 (n : Int)).s buf2 sb2 (k : Int)).renderError = none)
    (hscratch : (renderLoop m s.bytePatch (n : Int) buf1
      (renderInit s buf1 sb1)).2.machine.stack = [0, 0, 0, 0]) :
    (Render m s buf sb ((n + k : Nat) : Int)).buffer
      = (Render m s buf1 sb1 (n : Int)).buffer
        ++ (Render m (Render m s buf1 sb1 (n : Int)).s buf2 sb2 (k : Int)).buffer ∧
    (Render m s buf sb ((n + k : Nat) : Int)).s
      = (Render m (Render m s buf1 sb1 (n : Int)).s buf2 sb2 (k : Int)).s ∧
    (Render m s buf sb ((n + k : Nat) : Int)).samples = n + k ∧
    (Render m s buf1 sb1 (n : Int)).samples = n ∧
    (Render m (Render m s buf1 sb1 (n : Int)).s buf2 sb2 (k : Int)).samples = k := by
  obtain ⟨fA, hA⟩ := renderLoop_of_noerror m s buf sb _ he
  obtain ⟨fB, hB⟩ := renderLoop_of_noerror m s buf1 sb1 _ he1
  rw [hB] at hscratch
  simp only at hscratch
  rw [Render_of_ok m s buf1 sb1 n fB hB] at he2 ⊢
  simp only at he2 ⊢
  obtain ⟨fC, hC⟩ := renderLoop_of_noerror m _ buf2 sb2 _ he2
  rw [Render_of_ok m _ buf2 sb2 k fC hC, Render_of_ok m s buf sb _ fA hA]
  simp only
  obtain ⟨k1, F1, stA1, h1, hc1, ht1, htB1, hd1, hdB1, hs1, hsB1, hbA1, hbB1, hend1, hle1⟩ :=
    renderLoop_sim m s.bytePatch hns ((n + k : Nat) : Int) (n : Int) buf1 buf
      (renderInit s buf sb) (renderInit s buf1 sb1) fA fB ⟨rfl, rfl, rfl⟩
      (by rw [renderInit_time, renderInit_time]; push_cast; omega) (by omega) rfl rfl hB hA
  rw [renderInit_time] at ht1 htB1
  have hk1 : k1 = n := by
    rcases hend1 with h | h
    · rw [htB1] at h
      omega
    · omega
  subst hk1
  obtain ⟨k2, F2, stA2, h2, hc2, ht2, htB2, hd2, hdB2, hs2, hsB2, hbA2, hbB2, hend2, hle2⟩ :=
    renderLoop_sim m s.bytePatch hns ((k1 + k : Nat) : Int) (k : Int) buf2 (buf.drop (2 * k1))
      stA1 (renderInit ⟨s.bytePatch, [], fB.machine.synth, fB.machine.delaylinesAll⟩ buf2 sb2) fA fC
      ⟨hc1.synth, hc1.delaylinesAll, hc1.stack.trans hscratch⟩
      (by rw [renderInit_time, ht1]; push_cast; omega)
      (by rw [List.length_drop]; omega) hbA1 rfl hC h1
  rw [renderInit_time] at htB2
  have hk2 : k2 = k := by
    rcases hend2 with h | h
    · rw [htB2] at h
      omega
    · omega
  subst hk2
  have hnil : (buf.drop (2 * k1)).drop (2 * k2) = [] := by
    apply List.eq_nil_of_length_eq_zero
    rw [List.length_drop, List.length_drop]
    omega
  rw [hnil] at h2 hbA2
  have hfA : stA2 = fA := (Prod.mk.inj h2).2
  subst hfA
  have hnil1 : buf1.drop (2 * k1) = [] := by
    apply List.eq_nil_of_length_eq_zero
    rw [List.length_drop]
    omega
  have hnil2 : buf2.drop (2 * k2) = [] := by
    apply List.eq_nil_of_length_eq_zero
    rw [List.length_drop]
    omega
  rw [hnil1] at hbB1
  rw [hnil2] at hbB2
  refine ⟨?_, ?_, ?_, ?_, ?_⟩
  · rw [hbA2, hd2, hd1, hbB1, hdB1, hbB2, hdB2]
    show ([] ++ F1 ++ F2) ++ [] = ([] ++ F1 ++ []) ++ ([] ++ F2 ++ [])
    simp
  · rw [hc2.synth, hc2.delaylinesAll]
  · rw [hs2, hs1]
    show 0 + k1 + k2 = k1 + k2
    omega
  · rw [hsB1]
    show 0 + k1 = k1
    omega
  · rw [hsB2]
    show 0 + k2 = k2
    omega

theorem Render_split_witness :
    (Render sampleMath (Interpreter.fresh silencePatch 0) [7, 7, 7, 7, 7, 7] [9] ((2 + 1 : Nat) : Int)).buffer
      = (Render sampleMath (Interpreter.fresh silencePatch 0) [5, 5, 5, 5] [8] ((2 : Nat) : Int)).buffer
        ++ (Render sampleMath
            (Render sampleMath (Interpreter.fresh silencePatch 0) [5, 5, 5, 5] [8] ((2 : Nat) : Int)).s
            [3, 3] [] ((1 : Nat) : Int)).buffer ∧
    (Render sampleMath (Interpreter.fresh silencePatch 0) [7, 7, 7, 7, 7, 7] [9] ((2 + 1 : Nat) : Int)).s
      = (Render sampleMath
            (Render sampleMath (Interpreter.fresh silencePatch 0) [5, 5, 5, 5] [8] ((2 : Nat) : Int)).s
            [3, 3] [] ((1 : Nat) : Int)).s ∧
    (Render sampleMath (Interpreter.fresh silencePatch 0) [7, 7, 7, 7, 7, 7] [9] ((2 + 1 : Nat) : Int)).samples
      = 2 + 1 ∧
    (Render sampleMath (Interpreter.fresh silencePatch 0) [5, 5, 5, 5] [8] ((2 : Nat) : Int)).samples = 2 ∧
    (Render sampleMath
        (Render sampleMath (Interpreter.fresh silencePatch 0) [5, 5, 5, 5] [8] ((2 : Nat) : Int)).s
        [3, 3] [] ((1 : Nat) : Int)).samples = 1 :=
  Render_split sampleMath (Interpreter.fresh silencePatch 0) 2 1
    [7, 7, 7, 7, 7, 7] [5, 5, 5, 5] [3, 3] [9] [8] [] (by decide) rfl rfl rfl rfl rfl rfl rfl

/-- The unit `out(128)` of the scratch patch on the stack `[0, 0, 0, x]`. -/
theorem scratch_out (m : MathLib) (mc : Machine) (x : ℚ)
    (hv : mc.voices = 0) (hu : mc.units = 0) (hvals : mc.values = [128, 128])
    (hstack : mc.stack = [0, 0, 0, x])
    (hp0 : ((mc.synth.voices 0).units 0).ports 0 = 0)
    (hp1 : ((mc.synth.voices 0).units 1).ports 0 = 0) :
    ∃ mc1, execUnit m scratchPatch (opOut * 2) mc = (Except.ok (), mc1) ∧
      mc1.voices = 0 ∧ mc1.units = 1 ∧ mc1.values = [128] ∧ mc1.stack = [0, 0, 0] ∧
      mc1.synth.outputs 0 = mc.synth.outputs 0 + x ∧
      mc1.synth.outputs 1 = mc.synth.outputs 1 ∧
      mc1.time = mc.time ∧ mc1.synth.globalTime = mc.synth.globalTime ∧
      mc1.syncBuf = mc.syncBuf ∧
      ((mc1.synth.voices 0).units 0).ports 0 = 0 ∧
      ((mc1.synth.voices 0).units 1).ports 0 = 0 := by
  refine ⟨_, execUnit_out m scratchPatch mc 0 0 128 [128] [0, 0, 0] x hv hu hvals hstack,
    hv, ?_, ?_, rfl, ?_, ?_, rfl, rfl, rfl, ?_, ?_⟩
  · show mc.units + 1 = 1
    rw [hu]
  · show mc.values.drop 1 = [128]
    rw [hvals]
    rfl
  · simp [afterTransform, hp0]
  · simp [afterTransform]
  · simp [afterTransform]
  · simp [afterTransform, hp1]

/-- The unit `loadval(128)` of the scratch patch after `out`. -/
theorem scratch_loadval (m : MathLib) (mc : Machine)
    (hv : mc.voices = 0) (hu : mc.units = 1) (hvals : mc.values = [128])
    (hstack : mc.stack = [0, 0, 0])
    (hp0 : ((mc.synth.voices 0).units 0).ports 0 = 0)
    (hp1 : ((mc.synth.voices 0).units 1).ports 0 = 0) :
    ∃ mc2, execUnit m scratchPatch (opLoadval * 2) mc = (Except.ok (), mc2) ∧
      mc2.voices = 0 ∧ mc2.stack = [0, 0, 0, 1] ∧
      mc2.synth.outputs 0 = mc.synth.outputs 0 ∧
      mc2.synth.outputs 1 = mc.synth.outputs 1 ∧
      mc2.time = mc.time ∧ mc2.synth.globalTime = mc.synth.globalTime ∧
      mc2.syncBuf = mc.syncBuf ∧
      ((mc2.synth.voices 0).units 0).ports 0 = 0 ∧
      ((mc2.synth.voices 0).units 1).ports 0 = 0 := by
  refine ⟨_, execUnit_loadval m scratchPatch mc 0 1 128 [] hv hu hvals,
    hv, ?_, rfl, rfl, rfl, rfl, rfl, ?_, ?_⟩
  · show mc.stack ++ [(((128 : Nat) : ℚ) / 128 + ((mc.synth.voices 0).units 1).ports 0) * 2 - 1]
      = [0, 0, 0, 1]
    rw [hstack, hp1]
    norm_num
  · simp [afterTransform, hp0]
  · simp [afterTransform]

/-- One sample of `out(128); loadval(128); advance` from the stack
`[0, 0, 0, x]`: `x` is added to channel 0 and the stack is `[0, 0, 0, 1]`. -/
theorem scratch_voiceLoop (m : MathLib) (mc : Machine) (x : ℚ)
    (hv : mc.voices = 0) (hu : mc.units = 0) (hvals : mc.values = [128, 128])
    (hstack : mc.stack = [0, 0, 0, x])
    (hp0 : ((mc.synth.voices 0).units 0).ports 0 = 0)
    (hp1 : ((mc.synth.voices 0).units 1).ports 0 = 0) :
    ∃ mc', voiceLoop m scratchPatch 1 [opOut * 2, opLoadval * 2, 0]
        [opOut * 2, opLoadval * 2, 0] [128, 128] mc = (Except.ok (), mc') ∧
      mc'.stack = [0, 0, 0, 1] ∧
      mc'.synth.outputs 0 = mc.synth.outputs 0 + x ∧
      mc'.synth.outputs 1 = mc.synth.outputs 1 ∧
      mc'.time = mc.time ∧ mc'.synth.globalTime = mc.synth.globalTime ∧
      mc'.syncBuf = mc.syncBuf ∧
      ((mc'.synth.voices 0).units 0).ports 0 = 0 ∧
      ((mc'.synth.voices 0).units 1).ports 0 = 0 := by
  obtain ⟨mc1, s1, a1, a2, a3, a4, a5, a6, a7, a8, a9, a10, a11⟩ :=
    scratch_out m mc x hv hu hvals hstack hp0 hp1
  obtain ⟨mc2, s2, b1, b2, b3, b4, b5, b6, b7, b8, b9⟩ :=
    scratch_loadval m mc1 a1 a2 a3 a4 a10 a11
  have hul := unitLoop_unit m scratchPatch (opOut * 2) [opLoadval * 2, 0] mc _ (by decide) s1
  rw [unitLoop_unit m scratchPatch (opLoadval * 2) [0] _ _ (by decide) s2,
    unitLoop_advance m scratchPatch 0 [] _ (by decide)] at hul
  have hvl := voiceLoop_succ m scratchPatch 0 [opOut * 2, opLoadval * 2, 0]
    [opOut * 2, opLoadval * 2, 0] [128, 128] [] mc _ hul
    (show mc2.voices + 1 < MAX_VOICES by rw [b1]; decide)
  rw [if_neg (show ¬ (scratchPatch.PolyphonyBitmask &&& ((1 <<< 0) % 2 ^ 32)
      = (1 <<< 0) % 2 ^ 32) by decide),
    voiceLoop_zero] at hvl
  exact ⟨_, hvl, b2, b3.trans a5, b4.trans a6, b5.trans a7, b6.trans a8, b7.trans a9, b8, b9⟩

/-- One turn of the loop of `Render` on the scratch patch, from a state between
two samples with `[0, 0, 0, x]` on the stack: the frame is `(x, 0)` and the
stack of the next sample is `[0, 0, 0, 1]`. -/
theorem scratch_sample (m : MathLib) (maxtime : Int) (b0 b1 : ℚ) (rest : List ℚ)
    (st : RenderState) (x : ℚ) (ht : st.machine.time < maxtime)
    (hstack : st.machine.stack = [0, 0, 0, x])
    (hp0 : ((st.machine.synth.voices 0).units 0).ports 0 = 0)
    (hp1 : ((st.machine.synth.voices 0).units 1).ports 0 = 0)
    (ho0 : st.machine.synth.outputs 0 = 0) (ho1 : st.machine.synth.outputs 1 = 0)
    (hsync : ¬ st.machine.synth.globalTime % 256 = 0 ∨
      ∃ v r, st.machine.syncBuf = v :: r) :
    ∃ st', renderLoop m scratchPatch maxtime (b0 :: b1 :: rest) st
        = renderLoop m scratchPatch maxtime rest st' ∧
      st'.machine.stack = [0, 0, 0, 1] ∧
      ((st'.machine.synth.voices 0).units 0).ports 0 = 0 ∧
      ((st'.machine.synth.voices 0).units 1).ports 0 = 0 ∧
      st'.machine.synth.outputs 0 = 0 ∧ st'.machine.synth.outputs 1 = 0 ∧
      st'.machine.time = st.machine.time + 1 ∧
      st'.machine.synth.globalTime = (st.machine.synth.globalTime + 1) % 2 ^ 32 ∧
      st'.bufDone = st.bufDone ++ [x, 0] ∧ st'.buffer = rest := by
  have hbegin : ∃ st1, beginSample scratchPatch st = (Except.ok (), st1) ∧
      st1.machine.voices = 0 ∧ st1.machine.units = 0 ∧ st1.machine.values = [128, 128] ∧
      st1.machine.stack = st.machine.stack ∧ st1.machine.synth = st.machine.synth ∧
      st1.machine.time = st.machine.time ∧ st1.bufDone = st.bufDone := by
    by_cases hg : st.machine.synth.globalTime % 256 = 0
    · rcases hsync with h | ⟨v, r, h⟩
      · exact absurd hg h
      · exact ⟨_, beginSample_sync scratchPatch st v r hg h, rfl, rfl, rfl, rfl, rfl, rfl, rfl⟩
    · exact ⟨_, beginSample_nosync scratchPatch st hg, rfl, rfl, rfl, rfl, rfl, rfl, rfl⟩
  obtain ⟨st1, hb, c1, c2, c3, c4, c5, c6, c7⟩ := hbegin
  obtain ⟨mc', hvl, d1, d2, d3, d4, d5, d6, d7, d8⟩ :=
    scratch_voiceLoop m st1.machine x c1 c2 c3 (c4.trans hstack)
      (by rw [c5]; exact hp0) (by rw [c5]; exact hp1)
  obtain ⟨st3, he, e1, e2, e3, e4, e5⟩ :=
    endSample_ok rest { st1 with machine := mc' } (by show mc'.stack.length = 4; rw [d1]; rfl)
  refine ⟨st3, ?_, ?_, ?_, ?_, ?_, ?_, ?_, ?_, ?_, e3⟩
  · rw [renderLoop_cons, if_pos ht]
    simp only [bind_run, hb, onMachine_run]
    rw [show scratchPatch.NumVoices = 1 from rfl,
      show scratchPatch.Commands = [opOut * 2, opLoadval * 2, 0] from rfl,
      show scratchPatch.Values = [128, 128] from rfl]
    rw [hvl]
    simp only [he]
  · rw [e1]; exact d1
  · rw [e1]; exact d7
  · rw [e1]; exact d8
  · rw [e1]; simp
  · rw [e1]; simp
  · rw [e1]
    show mc'.time + 1 = st.machine.time + 1
    rw [d4, c6]
  · rw [e1]
    show (mc'.synth.globalTime + 1) % 2 ^ 32 = (st.machine.synth.globalTime + 1) % 2 ^ 32
    rw [d5, c5]
  · rw [e2]
    show st1.bufDone ++ [mc'.synth.outputs 0, mc'.synth.outputs 1] = st.bufDone ++ [x, 0]
    rw [d2, d3, c5, c7, ho0, ho1, zero_add]

/-- C25 fails as stated: on a fresh interpreter with the patch
`out(128); loadval(128); advance`, which has no `speed` unit, one call of
`Render` for two samples writes the frames `(0, 0), (1, 0)`, while a call for
one sample followed by another call for one sample writes `(0, 0), (0, 0)`, and
none of the three calls returns an error: the 1 that `loadval` leaves among the
four values at the bottom of the stack reaches the second sample of the single
call, and the second of the two calls starts from four zeros again. -/
theorem Render_split_scratch :
    (∀ op ∈ scratchPatch.Commands, (op &&& 0xFE) >>> 1 ≠ opSpeed) ∧
    (Render sampleMath (Interpreter.fresh scratchPatch 0) [7, 7, 7, 7] [9] 2).renderError = none ∧
    (Render sampleMath (Interpreter.fresh scratchPatch 0) [7, 7] [9] 1).renderError = none ∧
    (Render sampleMath (Render sampleMath (Interpreter.fresh scratchPatch 0) [7, 7] [9] 1).s
      [7, 7] [] 1).renderError = none ∧
    (Render sampleMath (Interpreter.fresh scratchPatch 0) [7, 7, 7, 7] [9] 2).buffer
      = [0, 0, 1, 0] ∧
    (Render sampleMath (Interpreter.fresh scratchPatch 0) [7, 7] [9] 1).buffer
      ++ (Render sampleMath (Render sampleMath (Interpreter.fresh scratchPatch 0) [7, 7] [9] 1).s
        [7, 7] [] 1).buffer = [0, 0, 0, 0] := by
  have hfresh : (Interpreter.fresh scratchPatch 0).bytePatch = scratchPatch := rfl
  -- the single call
  obtain ⟨sA1, hA1, a1, a2, a3, a4, a5, a6, a7, a8, a9⟩ :=
    scratch_sample sampleMath 2 7 7 [7, 7]
      (renderInit (Interpreter.fresh scratchPatch 0) [7, 7, 7, 7] [9]) 0
      (by rw [renderInit_time]; decide) rfl rfl rfl rfl rfl (Or.inr ⟨9, [], rfl⟩)
  rw [renderInit_time] at a6
  rw [renderInit_synth] at a7
  obtain ⟨sA2, hA2, a11, a12, a13, a14, a15, a16, a17, a18, a19⟩ :=
    scratch_sample sampleMath 2 7 7 [] sA1 1 (by rw [a6]; decide) a1 a2 a3 a4 a5
      (Or.inl (by rw [a7]; decide))
  have hA : renderLoop sampleMath (Interpreter.fresh scratchPatch 0).bytePatch 2 [7, 7, 7, 7]
      (renderInit (Interpreter.fresh scratchPatch 0) [7, 7, 7, 7] [9]) = (Except.ok (), sA2) := by
    rw [hfresh, hA1, hA2]
    rfl
  -- the first of the two calls
  obtain ⟨sB, hB1, b1, b2, b3, b4, b5, b6, b7, b8, b9⟩ :=
    scratch_sample sampleMath 1 7 7 []
      (renderInit (Interpreter.fresh scratchPatch 0) [7, 7] [9]) 0
      (by rw [renderInit_time]; decide) rfl rfl rfl rfl rfl (Or.inr ⟨9, [], rfl⟩)
  rw [renderInit_synth] at b7
  have hB : renderLoop sampleMath (Interpreter.fresh scratchPatch 0).bytePatch 1 [7, 7]
      (renderInit (Interpreter.fresh scratchPatch 0) [7, 7] [9]) = (Except.ok (), sB) := by
    rw [hfresh, hB1]
    rfl
  have hrB := Render_of_ok sampleMath (Interpreter.fresh scratchPatch 0) [7, 7] [9] 1 sB hB
  -- the second of the two calls
  obtain ⟨sC, hC1, c1, c2, c3, c4, c5, c6, c7, c8, c9⟩ :=
    scratch_sample sampleMath 1 7 7 []
      (renderInit ⟨scratchPatch, [], sB.machine.synth, sB.machine.delaylinesAll⟩ [7, 7] []) 0
      (by rw [renderInit_time]; decide) rfl b2 b3 b4 b5
      (Or.inl (by rw [renderInit_synth]; show ¬ sB.machine.synth.globalTime % 256 = 0
                  rw [b7]; decide))
  have hC : renderLoop sampleMath
      (⟨scratchPatch, [], sB.machine.synth, sB.machine.delaylinesAll⟩ : Interpreter).bytePatch
      1 [7, 7]
      (renderInit ⟨scratchPatch, [], sB.machine.synth, sB.machine.delaylinesAll⟩ [7, 7] [])
      = (Except.ok (), sC) := by
    show renderLoop sampleMath scratchPatch 1 [7, 7] _ = _
    rw [hC1]
    rfl
  have hrC := Render_of_ok sampleMath
    ⟨scratchPatch, [], sB.machine.synth, sB.machine.delaylinesAll⟩ [7, 7] [] 1 sC hC
  rw [hrB]
  simp only [hfresh]
  rw [hrC, Render_of_ok sampleMath (Interpreter.fresh scratchPatch 0) [7, 7, 7, 7] [9] 2 sA2 hA]
  simp only
  refine ⟨by decide, trivial, trivial, trivial, ?_, ?_⟩
  · rw [a18, a19, a8]
    rfl
  · rw [b8, b9, c8, c9]
    rfl

end Sointu
